import Mathlib

/-!
# tree-sitter-zcbuildout: the generated lexer and parse tables

A shallow embedding of `src/parser.c`.  Transcribed from the C source are the
symbol and field numbering, the cases of the lexer automaton `ts_lex`
(`ts_lex_transition`, `ts_lex_accept`), the lex modes, the parse tables
(`ts_parse_table`, `ts_small_parse_table`, `ts_small_parse_table_map`,
`ts_parse_actions`), the field map and the symbol metadata.

`parser.c` is data and one `switch`; what runs it is not among the sources:
the macros of `tree_sitter/parser.h` and the table interpreter of the
tree-sitter runtime.  Both are written out here as Lean functions (`lexLoop`,
`ts_language_lookup`, `parseStep`, `parseLoop`, the node interface on `Tree`),
each marked in its comment.  Input is a list of characters; positions are kept
as the text before, inside and after a token instead of byte offsets.  Error
recovery is not modelled: a parse ends at the first syntax error.
-/

namespace ZcBuildout

/-! ## Symbols (the anonymous `enum` of `parser.c`) -/

abbrev ts_builtin_sym_end : Nat := 0
abbrev aux_sym_profile_token1 : Nat := 1
abbrev aux_sym_section_token1 : Nat := 2
abbrev anon_sym_LBRACK : Nat := 3
abbrev aux_sym__section_header_token1 : Nat := 4
abbrev anon_sym_RBRACK : Nat := 5
abbrev sym_section_name : Nat := 6
abbrev sym_section_condition : Nat := 7
abbrev anon_sym_EQ : Nat := 8
abbrev aux_sym_option_token1 : Nat := 9
abbrev sym_option_name : Nat := 10
abbrev aux_sym_option_value_token1 : Nat := 11
abbrev aux_sym__option_value_mono_line_token1 : Nat := 12
abbrev aux_sym__option_value_multi_line_token1 : Nat := 13
abbrev sym_option_text : Nat := 14
abbrev anon_sym_DOLLAR_LBRACE : Nat := 15
abbrev anon_sym_COLON : Nat := 16
abbrev anon_sym_RBRACE : Nat := 17
abbrev sym_referenced_section : Nat := 18
abbrev sym_referenced_option : Nat := 19
abbrev sym_comment : Nat := 20
abbrev sym_profile : Nat := 21
abbrev sym_section : Nat := 22
abbrev sym__section_header : Nat := 23
abbrev sym_option : Nat := 24
abbrev sym_option_value : Nat := 25
abbrev sym__option_value_mono_line : Nat := 26
abbrev sym__option_value_multi_line : Nat := 27
abbrev aux_sym__option_text : Nat := 28
abbrev sym_option_with_reference : Nat := 29
abbrev aux_sym_profile_repeat1 : Nat := 30
abbrev aux_sym_profile_repeat2 : Nat := 31
abbrev aux_sym_section_repeat1 : Nat := 32
abbrev aux_sym_option_value_repeat1 : Nat := 33
abbrev aux_sym__option_value_multi_line_repeat1 : Nat := 34

abbrev STATE_COUNT : Nat := 43
abbrev LARGE_STATE_COUNT : Nat := 2
abbrev SYMBOL_COUNT : Nat := 35
abbrev TOKEN_COUNT : Nat := 21
abbrev FIELD_COUNT : Nat := 4
abbrev PRODUCTION_ID_COUNT : Nat := 6

/-! ## Fields -/

abbrev field_referenced_option : Nat := 1
abbrev field_referenced_section : Nat := 2
abbrev field_section_condition : Nat := 3
abbrev field_section_name : Nat := 4

/-! ## The lexer -/

/-- What one pass through a `case` of `ts_lex` does with the lookahead:
`ADVANCE(s)`, `SKIP(s)`, or fall through to `END_STATE()`. -/
inductive LexAction where
  | advance (state : Nat)
  | skip (state : Nat)
  | stop
  deriving DecidableEq, Repr

/-- The `if (...) ADVANCE/SKIP` chain of each `case` of `ts_lex`, in source
order.  The first condition that holds is taken (each macro ends in a
`goto`).  At end of input the runtime presents `lookahead = 0` and
`eof = true`.  A state that is no `case` takes `default: return false`. -/
def ts_lex_transition (state : Nat) (eof : Bool) (lookahead : Char) : LexAction :=
  match state with
  | 0 =>
    if eof = true then .advance 25
    else if lookahead = '$' then .advance 17
    else if lookahead = ':' then .advance 53
    else if lookahead = '=' then .advance 35
    else if lookahead = '[' then .advance 28
    else if lookahead = ']' then .advance 30
    else if lookahead = '}' then .advance 54
    else if lookahead = '\t' ∨ lookahead = ' ' then .skip 21
    else if lookahead = '#' ∨ lookahead = ';' then .advance 1
    else .stop
  | 1 =>
    if lookahead = '\n' then .advance 59
    else if lookahead = '#' ∨ lookahead = ';' then .advance 1
    else if lookahead ≠ '\x00' then .advance 2
    else .stop
  | 2 =>
    if lookahead = '\n' then .advance 59
    else if lookahead ≠ '\x00' then .advance 2
    else .stop
  | 3 =>
    if lookahead = '\n' then .advance 40
    else if lookahead = '$' then .advance 9
    else if lookahead = '\t' ∨ lookahead = ' ' then .advance 46
    else if lookahead ≠ '\x00' then .advance 50
    else .stop
  | 4 =>
    if lookahead = '\n' then .advance 42
    else if lookahead = '$' then .advance 9
    else if lookahead = '\t' ∨ lookahead = ' ' then .advance 47
    else if lookahead ≠ '\x00' then .advance 50
    else .stop
  | 5 =>
    if lookahead = '\n' then .skip 5
    else if lookahead = ':' then .advance 29
    else if lookahead = ']' then .advance 30
    else if lookahead = '\t' ∨ lookahead = ' ' then .skip 5
    else .stop
  | 6 =>
    if lookahead = '\n' then .advance 27
    else if lookahead = '\t' ∨ lookahead = ' ' then .skip 6
    else .stop
  | 7 =>
    if lookahead = '\n' then .skip 7
    else if lookahead = ':' then .advance 53
    else if lookahead = '\t' ∨ lookahead = ' ' then .skip 7
    else .stop
  | 8 =>
    if lookahead = '$' then .advance 9
    else if lookahead = '\t' ∨ lookahead = ' ' then .advance 48
    else if lookahead ≠ '\x00' ∧ lookahead ≠ '\n' then .advance 50
    else .stop
  | 9 =>
    if lookahead = '$' then .advance 11
    else if lookahead = '{' then .advance 52
    else if lookahead ≠ '\x00' ∧ lookahead ≠ '\n' then .advance 13
    else .stop
  | 10 =>
    if lookahead = '$' then .advance 49
    else if lookahead = '{' then .advance 52
    else if lookahead ≠ '\x00' ∧ lookahead ≠ '\n' then .advance 13
    else .stop
  | 11 =>
    if lookahead = '$' then .advance 49
    else if lookahead ≠ '\x00' ∧ lookahead ≠ '\n' then .advance 49
    else .stop
  | 12 =>
    if lookahead = '$' then .advance 49
    else if lookahead ≠ '\x00' ∧ lookahead ≠ '\n' then .advance 13
    else .stop
  | 13 =>
    if lookahead = '$' then .advance 12
    else if lookahead ≠ '\x00' ∧ lookahead ≠ '\n' then .advance 13
    else .stop
  | 14 =>
    if lookahead = ':' then .advance 53
    else if lookahead = '\t' ∨ lookahead = ' ' then .advance 55
    else if lookahead ≠ '\x00' ∧ lookahead ≠ '\n' ∧ lookahead ≠ '}' then .advance 56
    else .stop
  | 15 =>
    if lookahead = ':' then .advance 53
    else if lookahead = '\t' ∨ lookahead = ' ' then .skip 7
    else .stop
  | 16 =>
    if lookahead = ':' then .advance 29
    else if lookahead = ']' then .advance 30
    else if lookahead = '\t' ∨ lookahead = ' ' then .skip 5
    else .stop
  | 17 =>
    if lookahead = '{' then .advance 51
    else .stop
  | 18 =>
    if lookahead = '\t' ∨ lookahead = ' ' then .advance 57
    else if lookahead ≠ '\x00' ∧ lookahead ≠ '\n' ∧ lookahead ≠ '}' then .advance 58
    else .stop
  | 19 =>
    if lookahead = '\t' ∨ lookahead = ' ' then .advance 33
    else if lookahead ≠ '\x00' ∧ lookahead ≠ '\n' ∧ lookahead ≠ '[' ∧ lookahead ≠ ']' then .advance 34
    else .stop
  | 20 =>
    if lookahead = '\t' ∨ lookahead = ' ' then .advance 31
    else if lookahead ≠ '\x00' ∧ lookahead ≠ '\n' ∧ lookahead ≠ ':' ∧ lookahead ≠ '[' ∧ lookahead ≠ ']' then .advance 32
    else .stop
  | 21 =>
    if eof = true then .advance 25
    else if lookahead = '\n' then .skip 21
    else if lookahead = '$' then .advance 17
    else if lookahead = ':' then .advance 53
    else if lookahead = '=' then .advance 35
    else if lookahead = '[' then .advance 28
    else if lookahead = ']' then .advance 30
    else if lookahead = '}' then .advance 54
    else if lookahead = '\t' ∨ lookahead = ' ' then .skip 21
    else if lookahead = '#' ∨ lookahead = ';' then .advance 1
    else .stop
  | 22 =>
    if eof = true then .advance 25
    else if lookahead = '\n' then .skip 22
    else if lookahead = '[' then .advance 28
    else if lookahead = '\t' ∨ lookahead = ' ' then .skip 22
    else if lookahead = '#' ∨ lookahead = ';' then .advance 1
    else if lookahead ≠ '\x00' ∧ lookahead ≠ '\r' ∧ lookahead ≠ '=' then .advance 39
    else .stop
  | 23 =>
    if eof = true then .advance 25
    else if lookahead = '[' then .advance 28
    else if lookahead = '\t' ∨ lookahead = ' ' then .advance 44
    else if lookahead = '\n' ∨ lookahead = '\r' then .advance 45
    else if lookahead = '#' ∨ lookahead = ';' then .advance 1
    else if lookahead ≠ '\x00' ∧ lookahead ≠ '=' then .advance 39
    else .stop
  | 24 =>
    if eof = true then .advance 25
    else if lookahead = '[' then .advance 28
    else if lookahead = '\t' ∨ lookahead = ' ' then .skip 22
    else if lookahead = '#' ∨ lookahead = ';' then .advance 1
    else if lookahead ≠ '\x00' ∧ lookahead ≠ '\n' ∧ lookahead ≠ '\r' ∧ lookahead ≠ '=' then .advance 39
    else .stop
  | 25 => .stop
  | 26 =>
    if lookahead = '\n' then .advance 26
    else .stop
  | 27 =>
    if lookahead = '\n' then .advance 27
    else .stop
  | 28 => .stop
  | 29 => .stop
  | 30 => .stop
  | 31 =>
    if lookahead = '\t' ∨ lookahead = ' ' then .advance 31
    else if lookahead ≠ '\x00' ∧ lookahead ≠ '\n' ∧ lookahead ≠ ':' ∧ lookahead ≠ '[' ∧ lookahead ≠ ']' then .advance 32
    else .stop
  | 32 =>
    if lookahead ≠ '\x00' ∧ lookahead ≠ '\n' ∧ lookahead ≠ ':' ∧ lookahead ≠ '[' ∧ lookahead ≠ ']' then .advance 32
    else .stop
  | 33 =>
    if lookahead = '\t' ∨ lookahead = ' ' then .advance 33
    else if lookahead ≠ '\x00' ∧ lookahead ≠ '\n' ∧ lookahead ≠ '[' ∧ lookahead ≠ ']' then .advance 34
    else .stop
  | 34 =>
    if lookahead ≠ '\x00' ∧ lookahead ≠ '\n' ∧ lookahead ≠ '[' ∧ lookahead ≠ ']' then .advance 34
    else .stop
  | 35 => .stop
  | 36 =>
    if lookahead = '\n' then .advance 36
    else if lookahead = '\r' then .advance 38
    else if lookahead = '\t' ∨ lookahead = ' ' then .advance 36
    else .stop
  | 37 =>
    if lookahead = '\t' ∨ lookahead = ' ' then .advance 36
    else if lookahead = '\n' ∨ lookahead = '\r' then .advance 38
    else .stop
  | 38 =>
    if lookahead = '\t' ∨ lookahead = '\n' ∨ lookahead = '\r' ∨ lookahead = ' ' then .advance 38
    else .stop
  | 39 =>
    if lookahead ≠ '\x00' ∧ lookahead ≠ '\t' ∧ lookahead ≠ '\n' ∧ lookahead ≠ '\r' ∧ lookahead ≠ ' ' ∧ lookahead ≠ '#' ∧ lookahead ≠ ';' ∧ lookahead ≠ '=' ∧ lookahead ≠ '[' then .advance 39
    else .stop
  | 40 => .stop
  | 41 =>
    if lookahead = '\n' then .advance 41
    else if lookahead = '\t' ∨ lookahead = ' ' then .advance 46
    else .stop
  | 42 =>
    if lookahead = '\n' then .advance 42
    else .stop
  | 43 =>
    if lookahead = '\n' then .advance 43
    else if lookahead = '\t' ∨ lookahead = ' ' then .advance 47
    else .stop
  | 44 =>
    if lookahead = '\n' then .advance 44
    else if lookahead = '\r' then .advance 45
    else if lookahead = '\t' ∨ lookahead = ' ' then .advance 44
    else .stop
  | 45 =>
    if lookahead = '\t' ∨ lookahead = '\n' ∨ lookahead = '\r' ∨ lookahead = ' ' then .advance 45
    else .stop
  | 46 =>
    if lookahead = '\n' then .advance 41
    else if lookahead = '$' then .advance 10
    else if lookahead = '\t' ∨ lookahead = ' ' then .advance 46
    else if lookahead ≠ '\x00' then .advance 50
    else .stop
  | 47 =>
    if lookahead = '\n' then .advance 43
    else if lookahead = '$' then .advance 10
    else if lookahead = '\t' ∨ lookahead = ' ' then .advance 47
    else if lookahead ≠ '\x00' then .advance 50
    else .stop
  | 48 =>
    if lookahead = '$' then .advance 10
    else if lookahead = '\t' ∨ lookahead = ' ' then .advance 48
    else if lookahead ≠ '\x00' ∧ lookahead ≠ '\n' then .advance 50
    else .stop
  | 49 =>
    if lookahead = '$' then .advance 49
    else if lookahead ≠ '\x00' ∧ lookahead ≠ '\n' then .advance 49
    else .stop
  | 50 =>
    if lookahead = '$' then .advance 12
    else if lookahead ≠ '\x00' ∧ lookahead ≠ '\n' then .advance 50
    else .stop
  | 51 => .stop
  | 52 =>
    if lookahead = '$' then .advance 12
    else if lookahead ≠ '\x00' ∧ lookahead ≠ '\n' then .advance 13
    else .stop
  | 53 => .stop
  | 54 => .stop
  | 55 =>
    if lookahead = '\t' ∨ lookahead = ' ' then .advance 55
    else if lookahead ≠ '\x00' ∧ lookahead ≠ '\n' ∧ lookahead ≠ ':' ∧ lookahead ≠ '}' then .advance 56
    else .stop
  | 56 =>
    if lookahead ≠ '\x00' ∧ lookahead ≠ '\n' ∧ lookahead ≠ ':' ∧ lookahead ≠ '}' then .advance 56
    else .stop
  | 57 =>
    if lookahead = '\t' ∨ lookahead = ' ' then .advance 57
    else if lookahead ≠ '\x00' ∧ lookahead ≠ '\n' ∧ lookahead ≠ '}' then .advance 58
    else .stop
  | 58 =>
    if lookahead ≠ '\x00' ∧ lookahead ≠ '\n' ∧ lookahead ≠ '}' then .advance 58
    else .stop
  | 59 =>
    if lookahead = '\n' then .advance 59
    else .stop
  | _ => .stop

/-- The `ACCEPT_TOKEN(symbol)` that opens a `case` of `ts_lex`, if it has
one. -/
def ts_lex_accept (state : Nat) : Option Nat :=
  match state with
  | 25 => some ts_builtin_sym_end
  | 26 => some aux_sym_profile_token1
  | 27 => some aux_sym_section_token1
  | 28 => some anon_sym_LBRACK
  | 29 => some aux_sym__section_header_token1
  | 30 => some anon_sym_RBRACK
  | 31 => some sym_section_name
  | 32 => some sym_section_name
  | 33 => some sym_section_condition
  | 34 => some sym_section_condition
  | 35 => some anon_sym_EQ
  | 36 => some aux_sym_option_token1
  | 37 => some aux_sym_option_token1
  | 38 => some aux_sym_option_token1
  | 39 => some sym_option_name
  | 40 => some aux_sym_option_value_token1
  | 41 => some aux_sym_option_value_token1
  | 42 => some aux_sym__option_value_mono_line_token1
  | 43 => some aux_sym__option_value_mono_line_token1
  | 44 => some aux_sym__option_value_multi_line_token1
  | 45 => some aux_sym__option_value_multi_line_token1
  | 46 => some sym_option_text
  | 47 => some sym_option_text
  | 48 => some sym_option_text
  | 49 => some sym_option_text
  | 50 => some sym_option_text
  | 51 => some anon_sym_DOLLAR_LBRACE
  | 52 => some anon_sym_DOLLAR_LBRACE
  | 53 => some anon_sym_COLON
  | 54 => some anon_sym_RBRACE
  | 55 => some sym_referenced_section
  | 56 => some sym_referenced_section
  | 57 => some sym_referenced_option
  | 58 => some sym_referenced_option
  | 59 => some sym_comment
  | _ => none

/-- A token as the runtime's lexer state leaves it after `ts_lex` returned
`true`: the accepted symbol, the characters before the token start (moved
there by `SKIP`), the characters between token start and the marked end, and
the input that follows the marked end. -/
structure Lexed where
  symbol : Nat
  padding : List Char
  text : List Char
  rest : List Char
  deriving DecidableEq, Repr

/-- Modelled from the spec: the lexer object of the runtime is not among the
sources.  A `SKIP` moves the token start to the current position.  A token
end marked earlier then lies before the start, and the runtime moves the
start back to the end: the token is empty and all text before its end is
padding. -/
def Lexed.moveStart (r : Lexed) : Lexed :=
  { r with padding := r.padding ++ r.text, text := [] }

/-- Modelled from the spec: the macro `ACCEPT_TOKEN(sym)` of
`tree_sitter/parser.h`, which is not among the sources.  It sets
`result = true`, records the symbol and marks the token end at the current
position. -/
def markEnd (state : Nat) (skipped consumed rest : List Char)
    (result : Option Lexed) : Option Lexed :=
  match ts_lex_accept state with
  | some sym => some ⟨sym, skipped, consumed, rest⟩
  | none => result

/-- Modelled from the spec: the macros `START_LEXER`, `ADVANCE`, `SKIP` and
`END_STATE` of `tree_sitter/parser.h`, which is not among the sources, at end
of input, where `advance` does not move.  The fuel bounds the number of state
changes made without consuming input; `ts_lex` has 60 states. -/
def lexAtEof : Nat → Nat → List Char → List Char → Option Lexed → Option Lexed
  | 0, _, _, _, _ => none
  | fuel + 1, state, skipped, consumed, result =>
    let marked := markEnd state skipped consumed [] result
    match ts_lex_transition state true '\x00' with
    | .advance s => lexAtEof fuel s skipped consumed marked
    | .skip s => lexAtEof fuel s (skipped ++ consumed) [] (marked.map Lexed.moveStart)
    | .stop => marked

/-- Modelled from the spec: the macros `START_LEXER`, `ADVANCE`, `SKIP` and
`END_STATE` of `tree_sitter/parser.h`, which is not among the sources.  They
make `ts_lex` a loop, one character at a time: in each state first
`ACCEPT_TOKEN` if the state has one, then the first transition whose condition
holds, consuming the lookahead (`SKIP` also moves the token start behind it);
`END_STATE` returns `result`.  The value `none` is `return false`. -/
def lexLoop : List Char → Nat → List Char → List Char → Option Lexed → Option Lexed
  | [], state, skipped, consumed, result => lexAtEof 60 state skipped consumed result
  | c :: cs, state, skipped, consumed, result =>
    let marked := markEnd state skipped consumed (c :: cs) result
    match ts_lex_transition state false c with
    | .advance s => lexLoop cs s skipped (consumed ++ [c]) marked
    | .skip s => lexLoop cs s (skipped ++ consumed ++ [c]) [] (marked.map Lexed.moveStart)
    | .stop => marked

/-- The function `ts_lex(lexer, state)` on the remaining input: `none` when it
returns `false`, else the token it accepted last. -/
def ts_lex (input : List Char) (state : Nat) : Option Lexed :=
  lexLoop input state [] [] none

/-! ## Lex modes and parse tables -/

/-- The `lex_state` of each parse state. -/
def ts_lex_modes : List Nat :=
  [0, 26, 23, 23, 23, 23, 3, 0, 0, 23, 24, 24, 24, 4, 0, 4, 0, 0, 23, 23, 4, 0, 23, 24, 8, 4, 4, 16, 14, 6, 15, 18, 0, 37, 0, 0, 6, 0, 18, 19, 6, 0, 20]

/-- Modelled from the spec: the macro `ACTIONS(id)` of `tree_sitter/parser.h`,
which is not among the sources: an index into `ts_parse_actions`. -/
abbrev ACTIONS (id : Nat) : Nat := id

/-- Modelled from the spec: the macro `STATE(id)` of `tree_sitter/parser.h`,
which is not among the sources: a goto target. -/
abbrev STATE (id : Nat) : Nat := id

/-- The dense table `ts_parse_table` of the large states 0 and 1, one column
per symbol; the cells the source leaves out are 0. -/
def ts_parse_table : List (List Nat) :=
  [ [ACTIONS 1, 0, 0, ACTIONS 1, ACTIONS 1, ACTIONS 1, 0, 0, ACTIONS 1, 0,
     0, 0, 0, 0, 0, ACTIONS 1, ACTIONS 1, ACTIONS 1, 0, 0,
     ACTIONS 1, 0, 0, 0, 0, 0, 0, 0, 0, 0,
     0, 0, 0, 0, 0],
    [0, ACTIONS 3, 0, 0, 0, 0, 0, 0, 0, 0,
     0, 0, 0, 0, 0, 0, 0, 0, 0, 0,
     0, STATE 32, 0, 0, 0, 0, 0, 0, 0, 0,
     0, 0, 0, 0, 0] ]

/-- The array `ts_small_parse_table`, cell by cell: each row is a group
count, then per group a value, a symbol count and the symbols. -/
def ts_small_parse_table : List Nat :=
  [
   4,
     ACTIONS 5, 1,
       ts_builtin_sym_end,
     ACTIONS 9, 1,
       aux_sym__option_value_multi_line_token1,
     ACTIONS 7, 3,
       anon_sym_LBRACK,
       sym_option_name,
       sym_comment,
     STATE 2, 3,
       sym__option_value_multi_line,
       aux_sym_option_value_repeat1,
       aux_sym__option_value_multi_line_repeat1,
   4,
     ACTIONS 12, 1,
       ts_builtin_sym_end,
     ACTIONS 16, 1,
       aux_sym__option_value_multi_line_token1,
     ACTIONS 14, 3,
       anon_sym_LBRACK,
       sym_option_name,
       sym_comment,
     STATE 2, 3,
       sym__option_value_multi_line,
       aux_sym_option_value_repeat1,
       aux_sym__option_value_multi_line_repeat1,
   4,
     ACTIONS 16, 1,
       aux_sym__option_value_multi_line_token1,
     ACTIONS 18, 1,
       ts_builtin_sym_end,
     ACTIONS 20, 3,
       anon_sym_LBRACK,
       sym_option_name,
       sym_comment,
     STATE 5, 3,
       sym__option_value_multi_line,
       aux_sym_option_value_repeat1,
       aux_sym__option_value_multi_line_repeat1,
   4,
     ACTIONS 12, 1,
       ts_builtin_sym_end,
     ACTIONS 16, 1,
       aux_sym__option_value_multi_line_token1,
     ACTIONS 14, 3,
       anon_sym_LBRACK,
       sym_option_name,
       sym_comment,
     STATE 2, 3,
       sym__option_value_multi_line,
       aux_sym_option_value_repeat1,
       aux_sym__option_value_multi_line_repeat1,
   6,
     ACTIONS 22, 1,
       aux_sym_option_value_token1,
     ACTIONS 24, 1,
       sym_option_text,
     ACTIONS 26, 1,
       anon_sym_DOLLAR_LBRACE,
     STATE 4, 1,
       sym__option_value_mono_line,
     STATE 23, 1,
       sym_option_value,
     STATE 20, 2,
       aux_sym__option_text,
       sym_option_with_reference,
   6,
     ACTIONS 28, 1,
       ts_builtin_sym_end,
     ACTIONS 30, 1,
       anon_sym_LBRACK,
     ACTIONS 32, 1,
       sym_comment,
     STATE 8, 1,
       aux_sym_profile_repeat1,
     STATE 40, 1,
       sym__section_header,
     STATE 14, 2,
       sym_section,
       aux_sym_profile_repeat2,
   6,
     ACTIONS 30, 1,
       anon_sym_LBRACK,
     ACTIONS 34, 1,
       ts_builtin_sym_end,
     ACTIONS 36, 1,
       sym_comment,
     STATE 21, 1,
       aux_sym_profile_repeat1,
     STATE 40, 1,
       sym__section_header,
     STATE 17, 2,
       sym_section,
       aux_sym_profile_repeat2,
   4,
     ACTIONS 38, 1,
       ts_builtin_sym_end,
     ACTIONS 42, 1,
       aux_sym__option_value_multi_line_token1,
     STATE 9, 1,
       aux_sym__option_value_multi_line_repeat1,
     ACTIONS 40, 3,
       anon_sym_LBRACK,
       sym_option_name,
       sym_comment,
   4,
     ACTIONS 47, 1,
       sym_option_name,
     ACTIONS 50, 1,
       sym_comment,
     ACTIONS 45, 2,
       ts_builtin_sym_end,
       anon_sym_LBRACK,
     STATE 10, 2,
       sym_option,
       aux_sym_section_repeat1,
   4,
     ACTIONS 55, 1,
       sym_option_name,
     ACTIONS 57, 1,
       sym_comment,
     ACTIONS 53, 2,
       ts_builtin_sym_end,
       anon_sym_LBRACK,
     STATE 12, 2,
       sym_option,
       aux_sym_section_repeat1,
   4,
     ACTIONS 55, 1,
       sym_option_name,
     ACTIONS 61, 1,
       sym_comment,
     ACTIONS 59, 2,
       ts_builtin_sym_end,
       anon_sym_LBRACK,
     STATE 10, 2,
       sym_option,
       aux_sym_section_repeat1,
   4,
     ACTIONS 63, 1,
       aux_sym__option_value_mono_line_token1,
     ACTIONS 65, 1,
       sym_option_text,
     ACTIONS 68, 1,
       anon_sym_DOLLAR_LBRACE,
     STATE 13, 2,
       aux_sym__option_text,
       sym_option_with_reference,
   4,
     ACTIONS 30, 1,
       anon_sym_LBRACK,
     ACTIONS 34, 1,
       ts_builtin_sym_end,
     STATE 40, 1,
       sym__section_header,
     STATE 16, 2,
       sym_section,
       aux_sym_profile_repeat2,
   4,
     ACTIONS 26, 1,
       anon_sym_DOLLAR_LBRACE,
     ACTIONS 71, 1,
       aux_sym__option_value_mono_line_token1,
     ACTIONS 73, 1,
       sym_option_text,
     STATE 13, 2,
       aux_sym__option_text,
       sym_option_with_reference,
   4,
     ACTIONS 75, 1,
       ts_builtin_sym_end,
     ACTIONS 77, 1,
       anon_sym_LBRACK,
     STATE 40, 1,
       sym__section_header,
     STATE 16, 2,
       sym_section,
       aux_sym_profile_repeat2,
   4,
     ACTIONS 30, 1,
       anon_sym_LBRACK,
     ACTIONS 80, 1,
       ts_builtin_sym_end,
     STATE 40, 1,
       sym__section_header,
     STATE 16, 2,
       sym_section,
       aux_sym_profile_repeat2,
   2,
     ACTIONS 82, 2,
       ts_builtin_sym_end,
       aux_sym__option_value_multi_line_token1,
     ACTIONS 84, 3,
       anon_sym_LBRACK,
       sym_option_name,
       sym_comment,
   2,
     ACTIONS 86, 2,
       ts_builtin_sym_end,
       aux_sym__option_value_multi_line_token1,
     ACTIONS 88, 3,
       anon_sym_LBRACK,
       sym_option_name,
       sym_comment,
   4,
     ACTIONS 26, 1,
       anon_sym_DOLLAR_LBRACE,
     ACTIONS 73, 1,
       sym_option_text,
     ACTIONS 90, 1,
       aux_sym__option_value_mono_line_token1,
     STATE 13, 2,
       aux_sym__option_text,
       sym_option_with_reference,
   3,
     ACTIONS 94, 1,
       sym_comment,
     STATE 21, 1,
       aux_sym_profile_repeat1,
     ACTIONS 92, 2,
       ts_builtin_sym_end,
       anon_sym_LBRACK,
   2,
     ACTIONS 16, 1,
       aux_sym__option_value_multi_line_token1,
     STATE 3, 3,
       sym__option_value_multi_line,
       aux_sym_option_value_repeat1,
       aux_sym__option_value_multi_line_repeat1,
   1,
     ACTIONS 97, 4,
       ts_builtin_sym_end,
       anon_sym_LBRACK,
       sym_option_name,
       sym_comment,
   3,
     ACTIONS 26, 1,
       anon_sym_DOLLAR_LBRACE,
     ACTIONS 99, 1,
       sym_option_text,
     STATE 15, 2,
       aux_sym__option_text,
       sym_option_with_reference,
   1,
     ACTIONS 101, 3,
       aux_sym__option_value_mono_line_token1,
       sym_option_text,
       anon_sym_DOLLAR_LBRACE,
   1,
     ACTIONS 103, 3,
       aux_sym__option_value_mono_line_token1,
       sym_option_text,
       anon_sym_DOLLAR_LBRACE,
   2,
     ACTIONS 105, 1,
       aux_sym__section_header_token1,
     ACTIONS 107, 1,
       anon_sym_RBRACK,
   2,
     ACTIONS 109, 1,
       anon_sym_COLON,
     ACTIONS 111, 1,
       sym_referenced_section,
   1,
     ACTIONS 113, 1,
       aux_sym_section_token1,
   1,
     ACTIONS 115, 1,
       anon_sym_COLON,
   1,
     ACTIONS 117, 1,
       sym_referenced_option,
   1,
     ACTIONS 119, 1,
       ts_builtin_sym_end,
   1,
     ACTIONS 121, 1,
       aux_sym_option_token1,
   1,
     ACTIONS 123, 1,
       anon_sym_RBRACK,
   1,
     ACTIONS 125, 1,
       anon_sym_EQ,
   1,
     ACTIONS 127, 1,
       aux_sym_section_token1,
   1,
     ACTIONS 129, 1,
       anon_sym_RBRACE,
   1,
     ACTIONS 131, 1,
       sym_referenced_option,
   1,
     ACTIONS 133, 1,
       sym_section_condition,
   1,
     ACTIONS 135, 1,
       aux_sym_section_token1,
   1,
     ACTIONS 137, 1,
       anon_sym_RBRACE,
   1,
     ACTIONS 139, 1,
       sym_section_name
  ]

/-- The start of the row of each small state, indexed by
`SMALL_STATE(id) = id - LARGE_STATE_COUNT`. -/
def ts_small_parse_table_map : List Nat :=
  [0, 17, 34, 51, 68, 88, 108, 128, 143, 158, 173, 188, 202, 216, 230, 244, 258, 268, 278, 292, 303, 312, 319, 330, 336, 342, 349, 356, 360, 364, 368, 372, 376, 380, 384, 388, 392, 396, 400, 404, 408]

/-- One cell of `ts_parse_actions`: an entry header or a parse action
(`SHIFT`, `SHIFT_REPEAT` as a shift with `repetition`, `REDUCE`,
`ACCEPT_INPUT`, `RECOVER`). -/
inductive ParseActionCell where
  | entry (count : Nat) (reusable : Bool)
  | shift (state : Nat) (repetition : Bool)
  | reduce (symbol childCount productionId : Nat)
  | accept
  | recover
  deriving DecidableEq, Repr

/-- The array `ts_parse_actions`, cell by cell. -/
def ts_parse_actions : List ParseActionCell :=
  [
   ParseActionCell.entry 0 false,
   ParseActionCell.entry 1 false, ParseActionCell.recover,
   ParseActionCell.entry 1 true, ParseActionCell.shift 7 false,
   ParseActionCell.entry 1 true, ParseActionCell.reduce aux_sym_option_value_repeat1 2 0,
   ParseActionCell.entry 1 false, ParseActionCell.reduce aux_sym_option_value_repeat1 2 0,
   ParseActionCell.entry 2 true, ParseActionCell.reduce aux_sym_option_value_repeat1 2 0, ParseActionCell.shift 24 true,
   ParseActionCell.entry 1 true, ParseActionCell.reduce sym_option_value 2 0,
   ParseActionCell.entry 1 false, ParseActionCell.reduce sym_option_value 2 0,
   ParseActionCell.entry 1 true, ParseActionCell.shift 24 false,
   ParseActionCell.entry 1 true, ParseActionCell.reduce sym_option_value 1 0,
   ParseActionCell.entry 1 false, ParseActionCell.reduce sym_option_value 1 0,
   ParseActionCell.entry 1 false, ParseActionCell.shift 22 false,
   ParseActionCell.entry 1 false, ParseActionCell.shift 20 false,
   ParseActionCell.entry 1 false, ParseActionCell.shift 28 false,
   ParseActionCell.entry 1 true, ParseActionCell.reduce sym_profile 1 0,
   ParseActionCell.entry 1 true, ParseActionCell.shift 42 false,
   ParseActionCell.entry 1 true, ParseActionCell.shift 8 false,
   ParseActionCell.entry 1 true, ParseActionCell.reduce sym_profile 2 0,
   ParseActionCell.entry 1 true, ParseActionCell.shift 21 false,
   ParseActionCell.entry 1 true, ParseActionCell.reduce aux_sym__option_value_multi_line_repeat1 2 0,
   ParseActionCell.entry 1 false, ParseActionCell.reduce aux_sym__option_value_multi_line_repeat1 2 0,
   ParseActionCell.entry 2 true, ParseActionCell.reduce aux_sym__option_value_multi_line_repeat1 2 0, ParseActionCell.shift 24 true,
   ParseActionCell.entry 1 true, ParseActionCell.reduce aux_sym_section_repeat1 2 0,
   ParseActionCell.entry 2 true, ParseActionCell.reduce aux_sym_section_repeat1 2 0, ParseActionCell.shift 35 true,
   ParseActionCell.entry 2 true, ParseActionCell.reduce aux_sym_section_repeat1 2 0, ParseActionCell.shift 10 true,
   ParseActionCell.entry 1 true, ParseActionCell.reduce sym_section 2 1,
   ParseActionCell.entry 1 true, ParseActionCell.shift 35 false,
   ParseActionCell.entry 1 true, ParseActionCell.shift 12 false,
   ParseActionCell.entry 1 true, ParseActionCell.reduce sym_section 3 1,
   ParseActionCell.entry 1 true, ParseActionCell.shift 10 false,
   ParseActionCell.entry 1 false, ParseActionCell.reduce aux_sym__option_text 2 0,
   ParseActionCell.entry 2 false, ParseActionCell.reduce aux_sym__option_text 2 0, ParseActionCell.shift 13 true,
   ParseActionCell.entry 2 false, ParseActionCell.reduce aux_sym__option_text 2 0, ParseActionCell.shift 28 true,
   ParseActionCell.entry 1 false, ParseActionCell.shift 19 false,
   ParseActionCell.entry 1 false, ParseActionCell.shift 13 false,
   ParseActionCell.entry 1 true, ParseActionCell.reduce aux_sym_profile_repeat2 2 0,
   ParseActionCell.entry 2 true, ParseActionCell.reduce aux_sym_profile_repeat2 2 0, ParseActionCell.shift 42 true,
   ParseActionCell.entry 1 true, ParseActionCell.reduce sym_profile 3 0,
   ParseActionCell.entry 1 true, ParseActionCell.reduce sym__option_value_mono_line 2 0,
   ParseActionCell.entry 1 false, ParseActionCell.reduce sym__option_value_mono_line 2 0,
   ParseActionCell.entry 1 true, ParseActionCell.reduce aux_sym__option_value_multi_line_repeat1 3 0,
   ParseActionCell.entry 1 false, ParseActionCell.reduce aux_sym__option_value_multi_line_repeat1 3 0,
   ParseActionCell.entry 1 false, ParseActionCell.shift 18 false,
   ParseActionCell.entry 1 true, ParseActionCell.reduce aux_sym_profile_repeat1 2 0,
   ParseActionCell.entry 2 true, ParseActionCell.reduce aux_sym_profile_repeat1 2 0, ParseActionCell.shift 21 true,
   ParseActionCell.entry 1 true, ParseActionCell.reduce sym_option 4 0,
   ParseActionCell.entry 1 true, ParseActionCell.shift 15 false,
   ParseActionCell.entry 1 false, ParseActionCell.reduce sym_option_with_reference 4 4,
   ParseActionCell.entry 1 false, ParseActionCell.reduce sym_option_with_reference 5 5,
   ParseActionCell.entry 1 true, ParseActionCell.shift 39 false,
   ParseActionCell.entry 1 true, ParseActionCell.shift 36 false,
   ParseActionCell.entry 1 false, ParseActionCell.shift 31 false,
   ParseActionCell.entry 1 true, ParseActionCell.shift 30 false,
   ParseActionCell.entry 1 true, ParseActionCell.reduce sym__section_header 5 3,
   ParseActionCell.entry 1 true, ParseActionCell.shift 38 false,
   ParseActionCell.entry 1 true, ParseActionCell.shift 37 false,
   ParseActionCell.entry 1 true, ParseActionCell.accept,
   ParseActionCell.entry 1 true, ParseActionCell.shift 6 false,
   ParseActionCell.entry 1 true, ParseActionCell.shift 29 false,
   ParseActionCell.entry 1 true, ParseActionCell.shift 33 false,
   ParseActionCell.entry 1 true, ParseActionCell.reduce sym__section_header 3 2,
   ParseActionCell.entry 1 true, ParseActionCell.shift 25 false,
   ParseActionCell.entry 1 true, ParseActionCell.shift 41 false,
   ParseActionCell.entry 1 true, ParseActionCell.shift 34 false,
   ParseActionCell.entry 1 true, ParseActionCell.shift 11 false,
   ParseActionCell.entry 1 true, ParseActionCell.shift 26 false,
   ParseActionCell.entry 1 true, ParseActionCell.shift 27 false
  ]

/-! ## Field map -/

/-- A `TSFieldMapEntry`. -/
structure FieldMapEntry where
  field_id : Nat
  child_index : Nat
  inherited : Bool
  deriving DecidableEq, Repr

/-- The `(index, length)` slice of `ts_field_map_entries` for each
production id. -/
def ts_field_map_slices : List (Nat × Nat) :=
  [(0, 0), (0, 2), (2, 1), (3, 2), (5, 1), (6, 2)]

/-- The array `ts_field_map_entries`. -/
def ts_field_map_entries : List FieldMapEntry :=
  [ ⟨field_section_condition, 0, true⟩,
    ⟨field_section_name, 0, true⟩,
    ⟨field_section_name, 1, false⟩,
    ⟨field_section_condition, 3, false⟩,
    ⟨field_section_name, 1, false⟩,
    ⟨field_referenced_option, 2, false⟩,
    ⟨field_referenced_option, 3, false⟩,
    ⟨field_referenced_section, 1, false⟩ ]

/-- The `.visible` flag of `ts_symbol_metadata`. -/
def ts_symbol_visible (symbol : Nat) : Bool :=
  match symbol with
  | 0 => false  -- ts_builtin_sym_end
  | 1 => false  -- aux_sym_profile_token1
  | 2 => false  -- aux_sym_section_token1
  | 3 => true  -- anon_sym_LBRACK
  | 4 => false  -- aux_sym__section_header_token1
  | 5 => true  -- anon_sym_RBRACK
  | 6 => true  -- sym_section_name
  | 7 => true  -- sym_section_condition
  | 8 => true  -- anon_sym_EQ
  | 9 => false  -- aux_sym_option_token1
  | 10 => true  -- sym_option_name
  | 11 => false  -- aux_sym_option_value_token1
  | 12 => false  -- aux_sym__option_value_mono_line_token1
  | 13 => false  -- aux_sym__option_value_multi_line_token1
  | 14 => true  -- sym_option_text
  | 15 => true  -- anon_sym_DOLLAR_LBRACE
  | 16 => true  -- anon_sym_COLON
  | 17 => true  -- anon_sym_RBRACE
  | 18 => true  -- sym_referenced_section
  | 19 => true  -- sym_referenced_option
  | 20 => true  -- sym_comment
  | 21 => true  -- sym_profile
  | 22 => true  -- sym_section
  | 23 => false  -- sym__section_header
  | 24 => true  -- sym_option
  | 25 => true  -- sym_option_value
  | 26 => false  -- sym__option_value_mono_line
  | 27 => false  -- sym__option_value_multi_line
  | 28 => false  -- aux_sym__option_text
  | 29 => true  -- sym_option_with_reference
  | 30 => false  -- aux_sym_profile_repeat1
  | 31 => false  -- aux_sym_profile_repeat2
  | 32 => false  -- aux_sym_section_repeat1
  | 33 => false  -- aux_sym_option_value_repeat1
  | 34 => false  -- aux_sym__option_value_multi_line_repeat1
  | _ => false

/-! ## The table-driven parser -/

/-- Modelled from the spec: the runtime is not among the sources.  Table
lookup in one row of the small parse table: `groups` groups follow, each a
value, a symbol count and that many symbols. -/
def lookupGroups : Nat → List Nat → Nat → Nat
  | 0, _, _ => 0
  | groups + 1, value :: count :: data, symbol =>
    if (data.take count).contains symbol then value
    else lookupGroups groups (data.drop count) symbol
  | _ + 1, _, _ => 0

/-- Modelled from the spec: the runtime's `ts_language_lookup`, which is not
among the sources: the table cell of a state and a symbol, an action index
for a token and a goto state for a non-terminal. -/
def ts_language_lookup (state symbol : Nat) : Nat :=
  if state ≥ LARGE_STATE_COUNT then
    let index := ts_small_parse_table_map.getD (state - LARGE_STATE_COUNT) 0
    match ts_small_parse_table.drop index with
    | groups :: data => lookupGroups groups data symbol
    | [] => 0
  else
    (ts_parse_table.getD state []).getD symbol 0

/-- Modelled from the spec: the runtime is not among the sources.  The actions
of the entry that starts at `index` of `ts_parse_actions`. -/
def actionsAt (index : Nat) : List ParseActionCell :=
  match ts_parse_actions.drop index with
  | .entry count _ :: cells => cells.take count
  | _ => []

/-- Modelled from the spec: the runtime's `ts_language_actions`, which is not
among the sources. -/
def ts_language_actions (state symbol : Nat) : List ParseActionCell :=
  actionsAt (ts_language_lookup state symbol)

/-- A syntax tree: a token with the padding skipped before it and its text,
or a node built by a reduction, with its production id. -/
inductive Tree where
  | leaf (symbol : Nat) (padding text : List Char)
  | node (symbol : Nat) (productionId : Nat) (children : List Tree)
  deriving Repr

/-- The parse stack, top first: the state entered with each subtree.  Below
the bottom entry lies the start state 1. -/
abbrev Stack := List (Nat × Tree)

/-- The parse state on top of the stack; the empty stack is in the start
state 1. -/
def stackState : Stack → Nat
  | [] => 1
  | (state, _) :: _ => state

/-- How a parse ends.  `syntaxError` is the point where the runtime finds no
action for the lookahead and enters error recovery, which is not modelled. -/
inductive ParseOutcome where
  | accepted (tree : Tree)
  | syntaxError (state : Nat) (rest : List Char)
  | outOfFuel
  deriving Repr

/-- Modelled from the spec: the runtime's `ts_parser__lex`, which is not among
the sources.  The parser chooses the lexical mode before each token: it lexes
in the mode of the parse state and, when that fails, again from the same
position in the mode of the error state 0.  The value is `none` when both
fail (the runtime then skips characters into an error token). -/
def ts_parser_lex (parseState : Nat) (input : List Char) : Option Lexed :=
  match ts_lex input (ts_lex_modes.getD parseState 0) with
  | some tok => some tok
  | none => ts_lex input (ts_lex_modes.getD 0 0)

/-- Modelled from the spec: the runtime's `ts_parser__advance`, which is not
among the sources.  The action it takes for an entry without conflicts:
`SHIFT_REPEAT` actions are passed over, and what remains must be a single
action. -/
def effectiveAction (actions : List ParseActionCell) : Option ParseActionCell :=
  match actions.filter (fun a => match a with | .shift _ true => false | _ => true) with
  | [a] => some a
  | _ => none

/-- One round of the loop of `ts_parser__advance`: either the parse goes on
with a new stack and lookahead, or it ends. -/
inductive StepResult where
  | next (stack : Stack) (tok : Lexed)
  | done (outcome : ParseOutcome)

/-- Modelled from the spec: the runtime's `ts_parser__advance`, which is not
among the sources.  One action on the lookahead `tok`: a shift pushes the
lookahead and lexes the next token in the mode of the new state; a reduction
pops its children, pushes the new node in the goto state and keeps the
lookahead; accept returns the root with the end token as its last child.
Anything else is a syntax error. -/
def parseStep (stack : Stack) (tok : Lexed) : StepResult :=
  match effectiveAction (ts_language_actions (stackState stack) tok.symbol) with
  | some (.shift state _) =>
    match ts_parser_lex state tok.rest with
    | some next => .next ((state, .leaf tok.symbol tok.padding tok.text) :: stack) next
    | none => .done (.syntaxError state tok.rest)
  | some (.reduce symbol childCount productionId) =>
    if childCount ≤ stack.length then
      .next
        ((ts_language_lookup (stackState (stack.drop childCount)) symbol,
          .node symbol productionId ((stack.take childCount).map Prod.snd).reverse)
          :: stack.drop childCount) tok
    else .done (.syntaxError (stackState stack) tok.rest)
  | some .accept =>
    match stack with
    | (_, .node symbol productionId children) :: _ =>
      .done (.accepted (.node symbol productionId
        (children ++ [.leaf tok.symbol tok.padding tok.text])))
    | _ => .done (.syntaxError (stackState stack) tok.rest)
  | _ => .done (.syntaxError (stackState stack) (tok.padding ++ tok.text ++ tok.rest))

/-- Modelled from the spec: the runtime's parse loop, which is not among the
sources: `parseStep` until the parse ends.  Each round shifts or reduces, and
the fuel bounds the number of rounds. -/
def parseLoop : Nat → Stack → Lexed → ParseOutcome
  | 0, _, _ => .outOfFuel
  | fuel + 1, stack, tok =>
    match parseStep stack tok with
    | .next stack' tok' => parseLoop fuel stack' tok'
    | .done outcome => outcome

/-- Modelled from the spec: the runtime's `ts_parser_parse`, which is not
among the sources.  Parse a whole document, starting in parse state 1. -/
def ts_parser_parse (input : List Char) : ParseOutcome :=
  match ts_parser_lex 1 input with
  | some tok => parseLoop (8 * input.length + 64) [] tok
  | none => .syntaxError 1 input

/-! ## The syntax tree as the node interface presents it -/

/-- The symbol of a subtree. -/
def Tree.symbol : Tree → Nat
  | .leaf symbol _ _ => symbol
  | .node symbol _ _ => symbol

mutual
/-- The source text a subtree covers, padding included. -/
def Tree.source : Tree → List Char
  | .leaf _ padding text => padding ++ text
  | .node _ _ children => sourceOfList children
def sourceOfList : List Tree → List Char
  | [] => []
  | t :: ts => t.source ++ sourceOfList ts
end

mutual
/-- The padding of a subtree is the padding of its first token. -/
def Tree.padding : Tree → List Char
  | .leaf _ padding _ => padding
  | .node _ _ children => paddingOfList children
def paddingOfList : List Tree → List Char
  | [] => []
  | t :: _ => t.padding
end

/-- The text of a node's span: the text of a token, and for an inner node its
source without the leading padding. -/
def Tree.text : Tree → List Char
  | .leaf _ _ text => text
  | .node _ _ children => (sourceOfList children).drop (paddingOfList children).length

mutual
/-- Modelled from the spec: the node interface of the runtime is not among
the sources.  The visible nodes a subtree contributes to its parent's child
list: itself when its symbol is visible, else the visible nodes of its
children (none for a hidden token). -/
def Tree.visibleNodes : Tree → List Tree
  | .leaf symbol padding text =>
    if ts_symbol_visible symbol then [.leaf symbol padding text] else []
  | .node symbol productionId children =>
    if ts_symbol_visible symbol then [.node symbol productionId children]
    else visibleNodesOfList children
def visibleNodesOfList : List Tree → List Tree
  | [] => []
  | t :: ts => t.visibleNodes ++ visibleNodesOfList ts
end

/-- Modelled from the spec: the runtime's `ts_node_child`, which is not among
the sources.  The children of a node as it enumerates them: hidden nodes are
replaced by their own visible children. -/
def Tree.visibleChildren : Tree → List Tree
  | .leaf _ _ _ => []
  | .node _ _ children => visibleNodesOfList children

/-- The slice of `ts_field_map_entries` of a production id. -/
def fieldEntries (productionId : Nat) : List FieldMapEntry :=
  match ts_field_map_slices.get? productionId with
  | some (index, length) => (ts_field_map_entries.drop index).take length
  | none => []

mutual
/-- Modelled from the spec: the runtime's `ts_node_child_by_field_id`, which
is not among the sources.  The child a field names: the child at the entry's
index, or, for an inherited entry, the child the field names inside the
hidden node at that index. -/
def Tree.childByField : Tree → Nat → Option Tree
  | .leaf _ _ _, _ => none
  | .node _ productionId children, field =>
    fieldInChildren children 0
      ((fieldEntries productionId).filter (fun e => e.field_id = field)) field
def fieldInChildren : List Tree → Nat → List FieldMapEntry → Nat → Option Tree
  | [], _, _, _ => none
  | t :: ts, index, entries, field =>
    match entries.find? (fun e => e.child_index = index) with
    | some e =>
      if e.inherited then
        match t.childByField field with
        | some found => some found
        | none => fieldInChildren ts (index + 1) entries field
      else some t
    | none => fieldInChildren ts (index + 1) entries field
end

/-- The text of the child a field names. -/
def Tree.fieldText (t : Tree) (field : Nat) : Option (List Char) :=
  (t.childByField field).map Tree.text

/-- The visible children of a node that carry a given symbol. -/
def Tree.childrenOf (t : Tree) (symbol : Nat) : List Tree :=
  t.visibleChildren.filter (fun c => c.symbol = symbol)

/-- The `section` nodes of a document. -/
def Tree.sections (root : Tree) : List Tree := root.childrenOf sym_section

/-- The `option` nodes of a section. -/
def Tree.options (sec : Tree) : List Tree := sec.childrenOf sym_option

/-- The `comment` nodes among the children of a node. -/
def Tree.comments (t : Tree) : List Tree := t.childrenOf sym_comment

/-- The texts of the `option_name` children of an option. -/
def Tree.optionNames (opt : Tree) : List (List Char) :=
  (opt.childrenOf sym_option_name).map Tree.text

/-- The `option_value` children of an option. -/
def Tree.optionValues (opt : Tree) : List Tree := opt.childrenOf sym_option_value

/-- A value segment: literal text or a reference with its optional section
and its option. -/
inductive Segment where
  | text (chars : List Char)
  | reference (sec : Option (List Char)) (opt : Option (List Char))
  deriving DecidableEq, Repr

/-- The segments of an `option_value` node, in order: its `option_text` and
`option_with_reference` children. -/
def Tree.segments (value : Tree) : List Segment :=
  value.visibleChildren.filterMap fun c =>
    if c.symbol = sym_option_text then some (.text c.text)
    else if c.symbol = sym_option_with_reference then
      some (.reference (c.fieldText field_referenced_section)
        (c.fieldText field_referenced_option))
    else none

/-- The result of a parse that ended without a syntax error. -/
def ParseOutcome.tree? : ParseOutcome → Option Tree
  | .accepted tree => some tree
  | _ => none


/-! ## Character classes read off the guards of `ts_lex` -/

/-- The lexer in state `s` takes no transition on the head of `rest`. -/
def stopsAt (s : Nat) (rest : List Char) : Prop :=
  match rest with
  | [] => ts_lex_transition s true '\x00' = .stop
  | d :: _ => ts_lex_transition s false d = .stop

/-- The guard of lex state 32: a character that continues a section name. -/
abbrev sectionNameChar (ch : Char) : Prop :=
  ch ≠ '\x00' ∧ ch ≠ '\n' ∧ ch ≠ ':' ∧ ch ≠ '[' ∧ ch ≠ ']'

/-- The guard of lex state 34: a character that continues a section
condition. -/
abbrev sectionConditionChar (ch : Char) : Prop :=
  ch ≠ '\x00' ∧ ch ≠ '\n' ∧ ch ≠ '[' ∧ ch ≠ ']'

/-- The guard of lex state 39: a character that continues an option name. -/
abbrev optionNameChar (ch : Char) : Prop :=
  ch ≠ '\x00' ∧ ch ≠ '\t' ∧ ch ≠ '\n' ∧ ch ≠ '\r' ∧ ch ≠ ' ' ∧ ch ≠ '#' ∧ ch ≠ ';' ∧
    ch ≠ '=' ∧ ch ≠ '['

/-- A character that lex state 50 consumes without leaving it: anything but
NUL, newline and `$`. -/
abbrev plainTextChar (ch : Char) : Prop :=
  ch ≠ '\x00' ∧ ch ≠ '\n' ∧ ch ≠ '$'

/-- A character that lex states 36 to 38 consume into `option_token1`. -/
abbrev spaceChar (ch : Char) : Prop :=
  ch = '\t' ∨ ch = '\n' ∨ ch = '\r' ∨ ch = ' '

/-- A space or a tab. -/
abbrev blankChar (ch : Char) : Prop :=
  ch = '\t' ∨ ch = ' '

/-- A character of a referenced section name that contains no `$`: the guard
of lex state 56, and not `$`. -/
abbrev referencedSectionChar (ch : Char) : Prop :=
  ch ≠ '\x00' ∧ ch ≠ '\n' ∧ ch ≠ ':' ∧ ch ≠ '}' ∧ ch ≠ '$'

/-- A character of a referenced option name that contains no `$`: the guard
of lex state 58, and not `$`. -/
abbrev referencedOptionChar (ch : Char) : Prop :=
  ch ≠ '\x00' ∧ ch ≠ '\n' ∧ ch ≠ '}' ∧ ch ≠ '$'

/-- The input ends its line here: end of input, a newline or a NUL. -/
def lineEnds (rest : List Char) : Prop :=
  match rest with
  | [] => True
  | d :: _ => d = '\n' ∨ d = '\x00'

/-- No `$` is directly followed by another `$`. -/
def noDoubleDollar : List Char → Bool
  | [] => true
  | c :: cs =>
    (match cs with
      | d :: _ => !(c = '$' && d = '$')
      | [] => true) && noDoubleDollar cs

/-! ## The document a syntax tree denotes -/

mutual
/-- The tokens of a subtree, in source order. -/
def Tree.tokens : Tree → List Tree
  | .leaf symbol padding text => [.leaf symbol padding text]
  | .node _ _ children => tokensOfList children
def tokensOfList : List Tree → List Tree
  | [] => []
  | t :: ts => t.tokens ++ tokensOfList ts
end

/-- A value holds continuation lines when one of its tokens is the
indentation `_option_value_multi_line_token1` that opens such a line. -/
def Tree.isMultiLine (value : Tree) : Bool :=
  value.tokens.any (fun t => t.symbol = aux_sym__option_value_multi_line_token1)

/-- An option of the document model: the texts of its `option_name` children
and the segments of each of its `option_value` children. -/
structure OptionView where
  names : List (List Char)
  values : List (List Segment)
  deriving DecidableEq, Repr

/-- A section of the document model: its name and condition fields and its
options, in order. -/
structure SectionView where
  name : Option (List Char)
  condition : Option (List Char)
  options : List OptionView
  deriving DecidableEq, Repr

/-- The option an `option` node denotes. -/
def Tree.optionView (opt : Tree) : OptionView :=
  ⟨opt.optionNames, opt.optionValues.map Tree.segments⟩

/-- The section a `section` node denotes. -/
def Tree.sectionView (sec : Tree) : SectionView :=
  ⟨sec.fieldText field_section_name, sec.fieldText field_section_condition,
    sec.options.map Tree.optionView⟩

/-- The sections of a document with their options, in order. -/
def Tree.document (root : Tree) : List SectionView :=
  root.sections.map Tree.sectionView

/-! ## Token shapes, option lines and recovery -/

/-- A token that is a non-empty longest run of option-name characters: `whole`
is the scanned input, made of the skipped padding, the token and the rest. -/
abbrev optionNameToken (whole : List Char) (tok : Lexed) : Prop :=
  tok.text ≠ [] ∧ whole = tok.padding ++ tok.text ++ tok.rest ∧
    (∀ ch ∈ tok.text, optionNameChar ch) ∧
    (∀ d, tok.rest.head? = some d → ¬ optionNameChar d)

/-- The lex states reached on the way to a comment, a bracket, white space or
the end of input. -/
abbrev notOptionNameState (s : Nat) : Prop :=
  s = 1 ∨ s = 2 ∨ s = 59 ∨ s = 28 ∨ s = 44 ∨ s = 45 ∨ s = 25

/-- The text of a list of option lines: each pair `(k, v)` is written
`k = v` and ended by a newline. -/
def renderOptions : List (List Char × List Char) → List Char
  | [] => []
  | kv :: rest => kv.1 ++ ' ' :: '=' :: ' ' :: (kv.2 ++ '\n' :: renderOptions rest)

/-- An option line `k = v` of ordinary characters: a non-empty name of
option-name characters and a non-empty value without NUL, newline or `$` that
does not start with white space. -/
def ordinaryLine (kv : List Char × List Char) : Prop :=
  kv.1 ≠ [] ∧ (∀ ch ∈ kv.1, optionNameChar ch) ∧
    kv.2 ≠ [] ∧ (∀ d, kv.2.head? = some d → ¬ spaceChar d) ∧
    (∀ ch ∈ kv.2, plainTextChar ch)

/-- The `option` node of a line `k = v` that follows a line break. -/
def optionNode (kv : List Char × List Char) : Tree :=
  .node sym_option 0
    [ .leaf sym_option_name [] kv.1,
      .leaf anon_sym_EQ [' '] ['='],
      .leaf aux_sym_option_token1 [] [' '],
      .node sym_option_value 0
        [ .node sym__option_value_mono_line 0
            [ .leaf sym_option_text [] kv.2,
              .leaf aux_sym__option_value_mono_line_token1 [] ['\n'] ] ] ]

/-- The token the parser looks at when the option lines `lines` remain: the
name of the first line, or the end of input. -/
def nextOptionToken : List (List Char × List Char) → Lexed
  | [] => ⟨ts_builtin_sym_end, [], [], []⟩
  | kv :: rest =>
    ⟨sym_option_name, [], kv.1, ' ' :: '=' :: ' ' :: (kv.2 ++ '\n' :: renderOptions rest)⟩

/-- The node that holds the options of a section after the lines `more` have
been added to `acc`: each further option is joined by a `section_repeat1`
node with two children. -/
def joinOptions (acc : Tree) (more : List (List Char × List Char)) : Tree :=
  more.foldl (fun t kv => .node aux_sym_section_repeat1 0 [t, optionNode kv]) acc

/-- The states of `ts_lex` whose case holds a `SKIP`: the start states that
pass over white space, and the states they loop in. -/
def skipState (s : Nat) : Bool :=
  s == 0 || s == 5 || s == 6 || s == 7 || s == 15 || s == 16 || s == 21 || s == 22 || s == 24

/-- A check of the target of a lexer action: `advanceOk` for an `ADVANCE`,
`skipOk` for a `SKIP`; the end of the switch passes. -/
def LexAction.targetsOk (advanceOk skipOk : Nat → Bool) : LexAction → Bool
  | .advance s => advanceOk s
  | .skip s => skipOk s
  | .stop => true

/-- A token of the lexer started in `start` that may be empty: the end of
input, or the symbol that `start` itself accepts. -/
def emptyAllowed (start : Nat) (tok : Lexed) : Prop :=
  tok.text ≠ [] ∨ tok.symbol = ts_builtin_sym_end ∨ ts_lex_accept start = some tok.symbol

/-- A token that is not empty, or is one of the three that may be: the end
of input, `profile_token1` and `option_token1`. -/
def Tree.nonemptyToken (t : Tree) : Prop :=
  t.text ≠ [] ∨ t.symbol = ts_builtin_sym_end ∨ t.symbol = aux_sym_profile_token1 ∨
    t.symbol = aux_sym_option_token1

/-- Modelled from the spec: error recovery is in the runtime, which is not
among the sources.  The stack of the parser at the moment its loop ends: at
the failure point of a syntax error it holds what was built before it. -/
def parseLoopStack : Nat → Stack → Lexed → Stack
  | 0, stack, _ => stack
  | fuel + 1, stack, tok =>
    match parseStep stack tok with
    | .next stack' tok' => parseLoopStack fuel stack' tok'
    | .done _ => stack

/-- Modelled from the spec: the sections that were complete when the parse
of `input` ended: the `section` nodes among the visible nodes of the stack,
in source order. -/
def completedSections (input : List Char) : List SectionView :=
  match ts_parser_lex 1 input with
  | some tok =>
    ((visibleNodesOfList
        ((parseLoopStack (8 * input.length + 64) [] tok).reverse.map Prod.snd)).filter
      (fun t => t.symbol = sym_section)).map Tree.sectionView
  | none => []

/-- Modelled from the spec: step (2) of its error recovery, the input that is
left when everything up to and including the next newline that is directly
followed by `[` or by the end of input is discarded. -/
def resynchronise : List Char → List Char
  | [] => []
  | c :: rest =>
    if c = '\n' ∧ (rest = [] ∨ rest.head? = some '[') then rest else resynchronise rest

/-- A structural diagnostic: the parse state in which no action was left and
the input that remained at the failure point. -/
structure Diagnostic where
  state : Nat
  rest : List Char
  deriving DecidableEq, Repr

/-- The result of a parse with recovery: the sections that were kept and the
diagnostics, both in source order. -/
structure Recovered where
  sections : List SectionView
  diagnostics : List Diagnostic
  deriving DecidableEq, Repr

/-- Modelled from the spec: its error recovery, which is in the runtime and
not among the sources.  On a syntax error the parser (1) records a structural
diagnostic for the failure point, (2) discards the input up to the next
section header or the end of input, (3) parses the rest as a document again;
the sections completed before the failure are kept, the one that failed is
dropped.  The value is `none` when the fuel runs out. -/
def parseWithRecovery : Nat → List Char → Option Recovered
  | 0, _ => none
  | fuel + 1, input =>
    match ts_parser_parse input with
    | .accepted tree => some ⟨tree.document, []⟩
    | .outOfFuel => none
    | .syntaxError state rest =>
      (parseWithRecovery fuel (resynchronise rest)).map fun r =>
        ⟨completedSections input ++ r.sections, ⟨state, rest⟩ :: r.diagnostics⟩

/-- Modelled from the spec: `parse(text)`, the parse with recovery; every
round after a syntax error starts on a shorter input. -/
def parseDocument (input : List Char) : Option Recovered :=
  parseWithRecovery (input.length + 2) input

/-! ## Reading the tables cell by cell -/

/-- The rows of `ts_small_parse_table` read off cell by cell: the groups
`(value, symbols)` of one row, given its group count. -/
def readGroups : Nat → List Nat → List (Nat × List Nat) × List Nat
  | 0, data => ([], data)
  | groups + 1, value :: count :: data =>
    let rest := readGroups groups (data.drop count)
    ((value, data.take count) :: rest.1, rest.2)
  | _ + 1, data => ([], data)

/-- The rows of `ts_small_parse_table`: for each row the offset at which it
starts and its groups; `fuel` bounds the number of rows. -/
def readRows : Nat → Nat → List Nat → List (Nat × List (Nat × List Nat))
  | 0, _, _ => []
  | _ + 1, _, [] => []
  | fuel + 1, offset, groups :: data =>
    let row := readGroups groups data
    (offset, row.1) :: readRows fuel (offset + (1 + data.length - row.2.length)) row.2

/-- The index `index` starts an entry of `ts_parse_actions`: an entry header
followed by as many actions as it counts. -/
def isEntryStart (index : Nat) : Bool :=
  match ts_parse_actions.drop index with
  | .entry count _ :: cells =>
    decide (count ≤ cells.length) &&
      (cells.take count).all (fun cell => match cell with | .entry _ _ => false | _ => true)
  | _ => false

/-- A table value is in range for the symbols it is stored with: an index of
`ts_parse_actions` for tokens, a parse state for non-terminals. -/
def valueInRange (value : Nat) (symbols : List Nat) : Bool :=
  symbols.all (fun symbol => decide (symbol < SYMBOL_COUNT)) &&
    ((symbols.all (fun symbol => decide (symbol < TOKEN_COUNT)) && isEntryStart value) ||
      (symbols.all (fun symbol => decide (TOKEN_COUNT ≤ symbol)) &&
        decide (value < STATE_COUNT)))

/-! ## The transitions of `ts_lex` as edges, and the shapes of its tokens -/

/-- The guard of one `if` of `ts_lex`: the lookahead is one of the listed
characters, or none of them. -/
inductive CharGuard where
  | oneOf (chars : List Char)
  | noneOf (chars : List Char)

/-- The guard holds for the lookahead `c`. -/
def CharGuard.holds : CharGuard → Char → Prop
  | .oneOf chars, c => c ∈ chars
  | .noneOf chars, c => c ∉ chars

/-- The `if (...) ADVANCE/SKIP` lines of each case of `ts_lex` that test the
lookahead, in source order, each with its guard; the lines `if (eof)` are left
out. -/
def lexEdges (state : Nat) : List (CharGuard × LexAction) :=
  match state with
  | 0 =>
    [ (CharGuard.oneOf ['$'], .advance 17),
      (CharGuard.oneOf [':'], .advance 53),
      (CharGuard.oneOf ['='], .advance 35),
      (CharGuard.oneOf ['['], .advance 28),
      (CharGuard.oneOf [']'], .advance 30),
      (CharGuard.oneOf ['}'], .advance 54),
      (CharGuard.oneOf ['\t', ' '], .skip 21),
      (CharGuard.oneOf ['#', ';'], .advance 1) ]
  | 1 =>
    [ (CharGuard.oneOf ['\n'], .advance 59),
      (CharGuard.oneOf ['#', ';'], .advance 1),
      (CharGuard.noneOf ['\x00'], .advance 2) ]
  | 2 =>
    [ (CharGuard.oneOf ['\n'], .advance 59),
      (CharGuard.noneOf ['\x00'], .advance 2) ]
  | 3 =>
    [ (CharGuard.oneOf ['\n'], .advance 40),
      (CharGuard.oneOf ['$'], .advance 9),
      (CharGuard.oneOf ['\t', ' '], .advance 46),
      (CharGuard.noneOf ['\x00'], .advance 50) ]
  | 4 =>
    [ (CharGuard.oneOf ['\n'], .advance 42),
      (CharGuard.oneOf ['$'], .advance 9),
      (CharGuard.oneOf ['\t', ' '], .advance 47),
      (CharGuard.noneOf ['\x00'], .advance 50) ]
  | 5 =>
    [ (CharGuard.oneOf ['\n'], .skip 5),
      (CharGuard.oneOf [':'], .advance 29),
      (CharGuard.oneOf [']'], .advance 30),
      (CharGuard.oneOf ['\t', ' '], .skip 5) ]
  | 6 =>
    [ (CharGuard.oneOf ['\n'], .advance 27),
      (CharGuard.oneOf ['\t', ' '], .skip 6) ]
  | 7 =>
    [ (CharGuard.oneOf ['\n'], .skip 7),
      (CharGuard.oneOf [':'], .advance 53),
      (CharGuard.oneOf ['\t', ' '], .skip 7) ]
  | 8 =>
    [ (CharGuard.oneOf ['$'], .advance 9),
      (CharGuard.oneOf ['\t', ' '], .advance 48),
      (CharGuard.noneOf ['\x00', '\n'], .advance 50) ]
  | 9 =>
    [ (CharGuard.oneOf ['$'], .advance 11),
      (CharGuard.oneOf ['{'], .advance 52),
      (CharGuard.noneOf ['\x00', '\n'], .advance 13) ]
  | 10 =>
    [ (CharGuard.oneOf ['$'], .advance 49),
      (CharGuard.oneOf ['{'], .advance 52),
      (CharGuard.noneOf ['\x00', '\n'], .advance 13) ]
  | 11 =>
    [ (CharGuard.oneOf ['$'], .advance 49),
      (CharGuard.noneOf ['\x00', '\n'], .advance 49) ]
  | 12 =>
    [ (CharGuard.oneOf ['$'], .advance 49),
      (CharGuard.noneOf ['\x00', '\n'], .advance 13) ]
  | 13 =>
    [ (CharGuard.oneOf ['$'], .advance 12),
      (CharGuard.noneOf ['\x00', '\n'], .advance 13) ]
  | 14 =>
    [ (CharGuard.oneOf [':'], .advance 53),
      (CharGuard.oneOf ['\t', ' '], .advance 55),
      (CharGuard.noneOf ['\x00', '\n', '}'], .advance 56) ]
  | 15 =>
    [ (CharGuard.oneOf [':'], .advance 53),
      (CharGuard.oneOf ['\t', ' '], .skip 7) ]
  | 16 =>
    [ (CharGuard.oneOf [':'], .advance 29),
      (CharGuard.oneOf [']'], .advance 30),
      (CharGuard.oneOf ['\t', ' '], .skip 5) ]
  | 17 =>
    [ (CharGuard.oneOf ['{'], .advance 51) ]
  | 18 =>
    [ (CharGuard.oneOf ['\t', ' '], .advance 57),
      (CharGuard.noneOf ['\x00', '\n', '}'], .advance 58) ]
  | 19 =>
    [ (CharGuard.oneOf ['\t', ' '], .advance 33),
      (CharGuard.noneOf ['\x00', '\n', '[', ']'], .advance 34) ]
  | 20 =>
    [ (CharGuard.oneOf ['\t', ' '], .advance 31),
      (CharGuard.noneOf ['\x00', '\n', ':', '[', ']'], .advance 32) ]
  | 21 =>
    [ (CharGuard.oneOf ['\n'], .skip 21),
      (CharGuard.oneOf ['$'], .advance 17),
      (CharGuard.oneOf [':'], .advance 53),
      (CharGuard.oneOf ['='], .advance 35),
      (CharGuard.oneOf ['['], .advance 28),
      (CharGuard.oneOf [']'], .advance 30),
      (CharGuard.oneOf ['}'], .advance 54),
      (CharGuard.oneOf ['\t', ' '], .skip 21),
      (CharGuard.oneOf ['#', ';'], .advance 1) ]
  | 22 =>
    [ (CharGuard.oneOf ['\n'], .skip 22),
      (CharGuard.oneOf ['['], .advance 28),
      (CharGuard.oneOf ['\t', ' '], .skip 22),
      (CharGuard.oneOf ['#', ';'], .advance 1),
      (CharGuard.noneOf ['\x00', '\r', '='], .advance 39) ]
  | 23 =>
    [ (CharGuard.oneOf ['['], .advance 28),
      (CharGuard.oneOf ['\t', ' '], .advance 44),
      (CharGuard.oneOf ['\n', '\r'], .advance 45),
      (CharGuard.oneOf ['#', ';'], .advance 1),
      (CharGuard.noneOf ['\x00', '='], .advance 39) ]
  | 24 =>
    [ (CharGuard.oneOf ['['], .advance 28),
      (CharGuard.oneOf ['\t', ' '], .skip 22),
      (CharGuard.oneOf ['#', ';'], .advance 1),
      (CharGuard.noneOf ['\x00', '\n', '\r', '='], .advance 39) ]
  | 25 => []
  | 26 =>
    [ (CharGuard.oneOf ['\n'], .advance 26) ]
  | 27 =>
    [ (CharGuard.oneOf ['\n'], .advance 27) ]
  | 28 => []
  | 29 => []
  | 30 => []
  | 31 =>
    [ (CharGuard.oneOf ['\t', ' '], .advance 31),
      (CharGuard.noneOf ['\x00', '\n', ':', '[', ']'], .advance 32) ]
  | 32 =>
    [ (CharGuard.noneOf ['\x00', '\n', ':', '[', ']'], .advance 32) ]
  | 33 =>
    [ (CharGuard.oneOf ['\t', ' '], .advance 33),
      (CharGuard.noneOf ['\x00', '\n', '[', ']'], .advance 34) ]
  | 34 =>
    [ (CharGuard.noneOf ['\x00', '\n', '[', ']'], .advance 34) ]
  | 35 => []
  | 36 =>
    [ (CharGuard.oneOf ['\n'], .advance 36),
      (CharGuard.oneOf ['\r'], .advance 38),
      (CharGuard.oneOf ['\t', ' '], .advance 36) ]
  | 37 =>
    [ (CharGuard.oneOf ['\t', ' '], .advance 36),
      (CharGuard.oneOf ['\n', '\r'], .advance 38) ]
  | 38 =>
    [ (CharGuard.oneOf ['\t', '\n', '\r', ' '], .advance 38) ]
  | 39 =>
    [ (CharGuard.noneOf ['\x00', '\t', '\n', '\r', ' ', '#', ';', '=', '['], .advance 39) ]
  | 40 => []
  | 41 =>
    [ (CharGuard.oneOf ['\n'], .advance 41),
      (CharGuard.oneOf ['\t', ' '], .advance 46) ]
  | 42 =>
    [ (CharGuard.oneOf ['\n'], .advance 42) ]
  | 43 =>
    [ (CharGuard.oneOf ['\n'], .advance 43),
      (CharGuard.oneOf ['\t', ' '], .advance 47) ]
  | 44 =>
    [ (CharGuard.oneOf ['\n'], .advance 44),
      (CharGuard.oneOf ['\r'], .advance 45),
      (CharGuard.oneOf ['\t', ' '], .advance 44) ]
  | 45 =>
    [ (CharGuard.oneOf ['\t', '\n', '\r', ' '], .advance 45) ]
  | 46 =>
    [ (CharGuard.oneOf ['\n'], .advance 41),
      (CharGuard.oneOf ['$'], .advance 10),
      (CharGuard.oneOf ['\t', ' '], .advance 46),
      (CharGuard.noneOf ['\x00'], .advance 50) ]
  | 47 =>
    [ (CharGuard.oneOf ['\n'], .advance 43),
      (CharGuard.oneOf ['$'], .advance 10),
      (CharGuard.oneOf ['\t', ' '], .advance 47),
      (CharGuard.noneOf ['\x00'], .advance 50) ]
  | 48 =>
    [ (CharGuard.oneOf ['$'], .advance 10),
      (CharGuard.oneOf ['\t', ' '], .advance 48),
      (CharGuard.noneOf ['\x00', '\n'], .advance 50) ]
  | 49 =>
    [ (CharGuard.oneOf ['$'], .advance 49),
      (CharGuard.noneOf ['\x00', '\n'], .advance 49) ]
  | 50 =>
    [ (CharGuard.oneOf ['$'], .advance 12),
      (CharGuard.noneOf ['\x00', '\n'], .advance 50) ]
  | 51 => []
  | 52 =>
    [ (CharGuard.oneOf ['$'], .advance 12),
      (CharGuard.noneOf ['\x00', '\n'], .advance 13) ]
  | 53 => []
  | 54 => []
  | 55 =>
    [ (CharGuard.oneOf ['\t', ' '], .advance 55),
      (CharGuard.noneOf ['\x00', '\n', ':', '}'], .advance 56) ]
  | 56 =>
    [ (CharGuard.noneOf ['\x00', '\n', ':', '}'], .advance 56) ]
  | 57 =>
    [ (CharGuard.oneOf ['\t', ' '], .advance 57),
      (CharGuard.noneOf ['\x00', '\n', '}'], .advance 58) ]
  | 58 =>
    [ (CharGuard.noneOf ['\x00', '\n', '}'], .advance 58) ]
  | 59 =>
    [ (CharGuard.oneOf ['\n'], .advance 59) ]
  | _ => []

/-- The action `a` is what one of the edges allows for the lookahead `c`:
the end of the case, or the action of an edge whose guard holds. -/
def fires (edges : List (CharGuard × LexAction)) (c : Char) (a : LexAction) : Prop :=
  a = .stop ∨ ∃ e ∈ edges, e.2 = a ∧ e.1.holds c

/-- A character that a `SKIP` of `ts_lex` passes over: a tab, a space or a
newline. -/
abbrev skippedChar (c : Char) : Prop := c = '\t' ∨ c = ' ' ∨ c = '\n'

/-- What holds of a token `r` that `ts_lex` returns on `input`, given an
invariant `Inv state consumed rest` of the run: the token was marked in an
accepting state `s` in which the invariant held, the input is the skipped
padding, the token and the rest, and the padding was skipped. -/
def markedToken (Inv : Nat → List Char → List Char → Prop) (input : List Char)
    (r : Lexed) : Prop :=
  ∃ s, s < 60 ∧ ts_lex_accept s = some r.symbol ∧ Inv s r.text r.rest ∧
    input = r.padding ++ r.text ++ r.rest ∧ ∀ c ∈ r.padding, skippedChar c

/-- The states of `ts_lex` that open a comment on `#` or `;`. -/
def commentStart (s : Nat) : Bool :=
  s == 0 || s == 21 || s == 22 || s == 23 || s == 24

/-- The characters a guard allows are among `chars`. -/
def CharGuard.within (chars : List Char) : CharGuard → Bool
  | .oneOf allowed => allowed.all (fun c => chars.contains c)
  | .noneOf _ => false

/-- A comment line that is not ended yet: `#` or `;` and characters other
than newline. -/
def commentOpen (text : List Char) : Prop :=
  ∃ c0 body, text = c0 :: body ∧ (c0 = '#' ∨ c0 = ';') ∧ ∀ ch ∈ body, ch ≠ '\n'

/-- The shape of a comment token: `#` or `;`, characters other than newline,
the newline that ends the line, and newlines only after it. -/
def commentShape (text : List Char) : Prop :=
  ∃ c0 body nls, text = c0 :: (body ++ '\n' :: nls) ∧ (c0 = '#' ∨ c0 = ';') ∧
    (∀ ch ∈ body, ch ≠ '\n') ∧ ∀ ch ∈ nls, ch = '\n'

/-- The invariant of a run of `ts_lex` that may end in a comment: nothing is
consumed in the states that open a comment, an open comment line in states 1
and 2, a comment token in state 59. -/
def commentInv (s : Nat) (consumed : List Char) : Prop :=
  (commentStart s = true → consumed = []) ∧
  ((s = 1 ∨ s = 2) → commentOpen consumed) ∧
  (s = 59 → commentShape consumed)

/-- The states of `ts_lex` on a path to an accepting state of `option_text`. -/
def textState (s : Nat) : Bool :=
  [3, 4, 8, 9, 10, 11, 12, 13, 41, 43, 46, 47, 48, 49, 50, 52].contains s

/-- The states of `ts_lex` on a path to `option_text` in which only spaces,
tabs and newlines have been read. -/
def textBlankState (s : Nat) : Bool :=
  [3, 4, 8, 41, 43, 46, 47, 48].contains s

/-- The states of `ts_lex` on a path to `referenced_section`. -/
def referencedSectionState (s : Nat) : Bool := [14, 55, 56].contains s

/-- The states of `ts_lex` on a path to `referenced_option`. -/
def referencedOptionState (s : Nat) : Bool := [18, 57, 58].contains s

/-- What a token of `option_text` looks like: spaces, tabs and newlines, then
characters that are no newline. -/
def textShape (text : List Char) : Prop :=
  ∃ blanks body, text = blanks ++ body ∧ (∀ ch ∈ blanks, skippedChar ch) ∧ '\n' ∉ body

/-- The invariant of a run of `ts_lex` that may end in `option_text`. -/
def textInv (s : Nat) (consumed : List Char) : Prop :=
  (textBlankState s = true → ∀ ch ∈ consumed, skippedChar ch) ∧
  (textState s = true → textShape consumed)

/-! ## The parse automaton and the trees it builds -/

/-- The transitions of the parse automaton that the tables hold: from a
state, on a symbol, into a state.  For a token it is the state of the `SHIFT`
in the cell of `ts_parse_table` or `ts_small_parse_table`, for a non-terminal
the goto state stored there.  The theorems `shift_in_transitions` and
`reduce_in_productions` show that the parser enters states in no other
way. -/
def transitions : List (Nat × Nat × Nat) :=
  [   (STATE 1, aux_sym_profile_token1, STATE 7),
   (STATE 1, sym_profile, STATE 32),
   (STATE 2, sym__option_value_multi_line, STATE 2),
   (STATE 2, aux_sym_option_value_repeat1, STATE 2),
   (STATE 2, aux_sym__option_value_multi_line_repeat1, STATE 2),
   (STATE 3, aux_sym__option_value_multi_line_token1, STATE 24),
   (STATE 3, sym__option_value_multi_line, STATE 2),
   (STATE 3, aux_sym_option_value_repeat1, STATE 2),
   (STATE 3, aux_sym__option_value_multi_line_repeat1, STATE 2),
   (STATE 4, aux_sym__option_value_multi_line_token1, STATE 24),
   (STATE 4, sym__option_value_multi_line, STATE 5),
   (STATE 4, aux_sym_option_value_repeat1, STATE 5),
   (STATE 4, aux_sym__option_value_multi_line_repeat1, STATE 5),
   (STATE 5, aux_sym__option_value_multi_line_token1, STATE 24),
   (STATE 5, sym__option_value_multi_line, STATE 2),
   (STATE 5, aux_sym_option_value_repeat1, STATE 2),
   (STATE 5, aux_sym__option_value_multi_line_repeat1, STATE 2),
   (STATE 6, aux_sym_option_value_token1, STATE 22),
   (STATE 6, sym_option_text, STATE 20),
   (STATE 6, anon_sym_DOLLAR_LBRACE, STATE 28),
   (STATE 6, sym_option_value, STATE 23),
   (STATE 6, sym__option_value_mono_line, STATE 4),
   (STATE 6, aux_sym__option_text, STATE 20),
   (STATE 6, sym_option_with_reference, STATE 20),
   (STATE 7, anon_sym_LBRACK, STATE 42),
   (STATE 7, sym_comment, STATE 8),
   (STATE 7, sym_section, STATE 14),
   (STATE 7, sym__section_header, STATE 40),
   (STATE 7, aux_sym_profile_repeat1, STATE 8),
   (STATE 7, aux_sym_profile_repeat2, STATE 14),
   (STATE 8, anon_sym_LBRACK, STATE 42),
   (STATE 8, sym_comment, STATE 21),
   (STATE 8, sym_section, STATE 17),
   (STATE 8, sym__section_header, STATE 40),
   (STATE 8, aux_sym_profile_repeat1, STATE 21),
   (STATE 8, aux_sym_profile_repeat2, STATE 17),
   (STATE 9, aux_sym__option_value_multi_line_repeat1, STATE 9),
   (STATE 10, sym_option, STATE 10),
   (STATE 10, aux_sym_section_repeat1, STATE 10),
   (STATE 11, sym_option_name, STATE 35),
   (STATE 11, sym_comment, STATE 12),
   (STATE 11, sym_option, STATE 12),
   (STATE 11, aux_sym_section_repeat1, STATE 12),
   (STATE 12, sym_option_name, STATE 35),
   (STATE 12, sym_comment, STATE 10),
   (STATE 12, sym_option, STATE 10),
   (STATE 12, aux_sym_section_repeat1, STATE 10),
   (STATE 13, aux_sym__option_text, STATE 13),
   (STATE 13, sym_option_with_reference, STATE 13),
   (STATE 14, anon_sym_LBRACK, STATE 42),
   (STATE 14, sym_section, STATE 16),
   (STATE 14, sym__section_header, STATE 40),
   (STATE 14, aux_sym_profile_repeat2, STATE 16),
   (STATE 15, aux_sym__option_value_mono_line_token1, STATE 19),
   (STATE 15, sym_option_text, STATE 13),
   (STATE 15, anon_sym_DOLLAR_LBRACE, STATE 28),
   (STATE 15, aux_sym__option_text, STATE 13),
   (STATE 15, sym_option_with_reference, STATE 13),
   (STATE 16, sym_section, STATE 16),
   (STATE 16, sym__section_header, STATE 40),
   (STATE 16, aux_sym_profile_repeat2, STATE 16),
   (STATE 17, anon_sym_LBRACK, STATE 42),
   (STATE 17, sym_section, STATE 16),
   (STATE 17, sym__section_header, STATE 40),
   (STATE 17, aux_sym_profile_repeat2, STATE 16),
   (STATE 20, aux_sym__option_value_mono_line_token1, STATE 18),
   (STATE 20, sym_option_text, STATE 13),
   (STATE 20, anon_sym_DOLLAR_LBRACE, STATE 28),
   (STATE 20, aux_sym__option_text, STATE 13),
   (STATE 20, sym_option_with_reference, STATE 13),
   (STATE 21, aux_sym_profile_repeat1, STATE 21),
   (STATE 22, aux_sym__option_value_multi_line_token1, STATE 24),
   (STATE 22, sym__option_value_multi_line, STATE 3),
   (STATE 22, aux_sym_option_value_repeat1, STATE 3),
   (STATE 22, aux_sym__option_value_multi_line_repeat1, STATE 3),
   (STATE 24, sym_option_text, STATE 15),
   (STATE 24, anon_sym_DOLLAR_LBRACE, STATE 28),
   (STATE 24, aux_sym__option_text, STATE 15),
   (STATE 24, sym_option_with_reference, STATE 15),
   (STATE 27, aux_sym__section_header_token1, STATE 39),
   (STATE 27, anon_sym_RBRACK, STATE 36),
   (STATE 28, anon_sym_COLON, STATE 31),
   (STATE 28, sym_referenced_section, STATE 30),
   (STATE 30, anon_sym_COLON, STATE 38),
   (STATE 31, sym_referenced_option, STATE 37),
   (STATE 33, aux_sym_option_token1, STATE 6),
   (STATE 34, anon_sym_RBRACK, STATE 29),
   (STATE 35, anon_sym_EQ, STATE 33),
   (STATE 37, anon_sym_RBRACE, STATE 25),
   (STATE 38, sym_referenced_option, STATE 41),
   (STATE 39, sym_section_condition, STATE 34),
   (STATE 40, aux_sym_section_token1, STATE 11),
   (STATE 41, anon_sym_RBRACE, STATE 26),
   (STATE 42, sym_section_name, STATE 27) ]

/-- The productions of the grammar that the tables hold: the symbol of a
node, its production id and the symbols of its children, read off the tables
by following the transitions backwards from every `REDUCE`, as many steps as
the reduction has children.  A repetition appears with the auxiliary symbols
of the tables, and a state shared by several symbols contributes each of
them. -/
def productions : List (Nat × Nat × List Nat) :=
  [   (sym_profile, 0, [aux_sym_profile_token1]),
   (sym_profile, 0, [aux_sym_profile_token1, sym_comment]),
   (sym_profile, 0, [aux_sym_profile_token1, sym_comment, sym_section]),
   (sym_profile, 0, [aux_sym_profile_token1, sym_comment, aux_sym_profile_repeat2]),
   (sym_profile, 0, [aux_sym_profile_token1, sym_section]),
   (sym_profile, 0, [aux_sym_profile_token1, aux_sym_profile_repeat1]),
   (sym_profile, 0, [aux_sym_profile_token1, aux_sym_profile_repeat1, sym_section]),
   (sym_profile, 0, [aux_sym_profile_token1, aux_sym_profile_repeat1, aux_sym_profile_repeat2]),
   (sym_profile, 0, [aux_sym_profile_token1, aux_sym_profile_repeat2]),
   (sym_section, 1, [sym__section_header, aux_sym_section_token1]),
   (sym_section, 1, [sym__section_header, aux_sym_section_token1, sym_comment]),
   (sym_section, 1, [sym__section_header, aux_sym_section_token1, sym_option]),
   (sym_section, 1, [sym__section_header, aux_sym_section_token1, aux_sym_section_repeat1]),
   (sym__section_header, 2, [anon_sym_LBRACK, sym_section_name, anon_sym_RBRACK]),
   (sym__section_header, 3, [anon_sym_LBRACK, sym_section_name, aux_sym__section_header_token1, sym_section_condition, anon_sym_RBRACK]),
   (sym_option, 0, [sym_option_name, anon_sym_EQ, aux_sym_option_token1, sym_option_value]),
   (sym_option_value, 0, [aux_sym_option_value_token1, sym__option_value_multi_line]),
   (sym_option_value, 0, [aux_sym_option_value_token1, aux_sym_option_value_repeat1]),
   (sym_option_value, 0, [aux_sym_option_value_token1, aux_sym__option_value_multi_line_repeat1]),
   (sym_option_value, 0, [sym__option_value_mono_line]),
   (sym_option_value, 0, [sym__option_value_mono_line, sym__option_value_multi_line]),
   (sym_option_value, 0, [sym__option_value_mono_line, aux_sym_option_value_repeat1]),
   (sym_option_value, 0, [sym__option_value_mono_line, aux_sym__option_value_multi_line_repeat1]),
   (sym__option_value_mono_line, 0, [sym_option_text, aux_sym__option_value_mono_line_token1]),
   (sym__option_value_mono_line, 0, [aux_sym__option_text, aux_sym__option_value_mono_line_token1]),
   (sym__option_value_mono_line, 0, [sym_option_with_reference, aux_sym__option_value_mono_line_token1]),
   (aux_sym__option_text, 0, [sym_option_text, sym_option_text]),
   (aux_sym__option_text, 0, [sym_option_text, aux_sym__option_text]),
   (aux_sym__option_text, 0, [sym_option_text, sym_option_with_reference]),
   (aux_sym__option_text, 0, [aux_sym__option_text, sym_option_text]),
   (aux_sym__option_text, 0, [aux_sym__option_text, aux_sym__option_text]),
   (aux_sym__option_text, 0, [aux_sym__option_text, sym_option_with_reference]),
   (aux_sym__option_text, 0, [sym_option_with_reference, sym_option_text]),
   (aux_sym__option_text, 0, [sym_option_with_reference, aux_sym__option_text]),
   (aux_sym__option_text, 0, [sym_option_with_reference, sym_option_with_reference]),
   (sym_option_with_reference, 4, [anon_sym_DOLLAR_LBRACE, anon_sym_COLON, sym_referenced_option, anon_sym_RBRACE]),
   (sym_option_with_reference, 5, [anon_sym_DOLLAR_LBRACE, sym_referenced_section, anon_sym_COLON, sym_referenced_option, anon_sym_RBRACE]),
   (aux_sym_profile_repeat1, 0, [sym_comment, sym_comment]),
   (aux_sym_profile_repeat1, 0, [sym_comment, aux_sym_profile_repeat1]),
   (aux_sym_profile_repeat1, 0, [aux_sym_profile_repeat1, sym_comment]),
   (aux_sym_profile_repeat1, 0, [aux_sym_profile_repeat1, aux_sym_profile_repeat1]),
   (aux_sym_profile_repeat2, 0, [sym_section, sym_section]),
   (aux_sym_profile_repeat2, 0, [sym_section, aux_sym_profile_repeat2]),
   (aux_sym_profile_repeat2, 0, [aux_sym_profile_repeat2, sym_section]),
   (aux_sym_profile_repeat2, 0, [aux_sym_profile_repeat2, aux_sym_profile_repeat2]),
   (aux_sym_section_repeat1, 0, [sym_comment, sym_comment]),
   (aux_sym_section_repeat1, 0, [sym_comment, sym_option]),
   (aux_sym_section_repeat1, 0, [sym_comment, aux_sym_section_repeat1]),
   (aux_sym_section_repeat1, 0, [sym_option, sym_comment]),
   (aux_sym_section_repeat1, 0, [sym_option, sym_option]),
   (aux_sym_section_repeat1, 0, [sym_option, aux_sym_section_repeat1]),
   (aux_sym_section_repeat1, 0, [aux_sym_section_repeat1, sym_comment]),
   (aux_sym_section_repeat1, 0, [aux_sym_section_repeat1, sym_option]),
   (aux_sym_section_repeat1, 0, [aux_sym_section_repeat1, aux_sym_section_repeat1]),
   (aux_sym_option_value_repeat1, 0, [sym__option_value_multi_line, sym__option_value_multi_line]),
   (aux_sym_option_value_repeat1, 0, [sym__option_value_multi_line, aux_sym_option_value_repeat1]),
   (aux_sym_option_value_repeat1, 0, [sym__option_value_multi_line, aux_sym__option_value_multi_line_repeat1]),
   (aux_sym_option_value_repeat1, 0, [aux_sym_option_value_repeat1, sym__option_value_multi_line]),
   (aux_sym_option_value_repeat1, 0, [aux_sym_option_value_repeat1, aux_sym_option_value_repeat1]),
   (aux_sym_option_value_repeat1, 0, [aux_sym_option_value_repeat1, aux_sym__option_value_multi_line_repeat1]),
   (aux_sym_option_value_repeat1, 0, [aux_sym__option_value_multi_line_repeat1, sym__option_value_multi_line]),
   (aux_sym_option_value_repeat1, 0, [aux_sym__option_value_multi_line_repeat1, aux_sym_option_value_repeat1]),
   (aux_sym_option_value_repeat1, 0, [aux_sym__option_value_multi_line_repeat1, aux_sym__option_value_multi_line_repeat1]),
   (aux_sym__option_value_multi_line_repeat1, 0, [aux_sym__option_value_multi_line_token1, sym_option_text, aux_sym__option_value_mono_line_token1]),
   (aux_sym__option_value_multi_line_repeat1, 0, [aux_sym__option_value_multi_line_token1, aux_sym__option_text, aux_sym__option_value_mono_line_token1]),
   (aux_sym__option_value_multi_line_repeat1, 0, [aux_sym__option_value_multi_line_token1, sym_option_with_reference, aux_sym__option_value_mono_line_token1]),
   (aux_sym__option_value_multi_line_repeat1, 0, [aux_sym__option_value_multi_line_repeat1, aux_sym__option_value_multi_line_repeat1]) ]

/-- The ways back from a state over `count` transitions: the symbols passed,
oldest first, and the state reached. -/
def backPaths : Nat → Nat → List (List Nat × Nat)
  | 0, state => [([], state)]
  | count + 1, state =>
    (transitions.filter (fun e => e.2.2 == state)).flatMap fun e =>
      (backPaths count e.1).map fun r => (r.1 ++ [e.2.1], r.2)

mutual
/-- All subtrees of a tree, the tree itself first. -/
def Tree.subtrees : Tree → List Tree
  | .leaf symbol padding text => [.leaf symbol padding text]
  | .node symbol productionId children =>
    .node symbol productionId children :: subtreesOfList children
def subtreesOfList : List Tree → List Tree
  | [] => []
  | t :: ts => t.subtrees ++ subtreesOfList ts
end

mutual
/-- A tree the tables can build: every token in it is one of the token
symbols and every node is an instance of one of `productions`. -/
def Tree.wellFormed : Tree → Prop
  | .leaf symbol _ _ => symbol < TOKEN_COUNT
  | .node symbol productionId children =>
    (symbol, productionId, children.map Tree.symbol) ∈ productions ∧ wellFormedList children
def wellFormedList : List Tree → Prop
  | [] => True
  | t :: ts => t.wellFormed ∧ wellFormedList ts
end

/-- A stack whose states follow the transitions: each entry was entered from
the state below it on the symbol of its tree. -/
def linked : Stack → Prop
  | [] => True
  | (state, tree) :: below =>
    (stackState below, tree.symbol, state) ∈ transitions ∧ linked below

/-- The spans of the children of a node laid end to end with the trivia
between them: the text of the first child, then for each later child the
padding skipped before it and its text. -/
def joinSpans : List Tree → List Char
  | [] => []
  | t :: ts => t.text ++ ts.flatMap fun u => u.padding ++ u.text

/-- The invariant of the parse loop on `input`: the stack follows the
transitions and holds trees the tables can build; the lookahead is a token
symbol and, when it is the end of input, nothing follows it; the trees on the
stack, oldest first, then the lookahead and the rest spell the input; and
nothing was skipped before the first token. -/
def parseInv (input : List Char) (stack : Stack) (tok : Lexed) : Prop :=
  linked stack ∧ (∀ e ∈ stack, e.2.wellFormed) ∧
  tok.symbol < TOKEN_COUNT ∧ (tok.symbol = ts_builtin_sym_end → tok.rest = []) ∧
  sourceOfList (stack.reverse.map Prod.snd) ++ (tok.padding ++ tok.text ++ tok.rest) = input ∧
  paddingOfList (stack.reverse.map Prod.snd ++ [.leaf tok.symbol tok.padding tok.text]) = []

/-- What the parse invariant gives for an accepted tree: it is a `profile`
built by one of `productions` with the end of input appended, its children
are trees the tables can build, its source is the input and nothing was
skipped before its first token. -/
def acceptedRoot (input : List Char) (tree : Tree) : Prop :=
  ∃ productionId children padding text,
    tree = .node sym_profile productionId
      (children ++ [.leaf ts_builtin_sym_end padding text]) ∧
    (sym_profile, productionId, children.map Tree.symbol) ∈ productions ∧
    (∀ c ∈ children, c.wellFormed) ∧ tree.source = input ∧ tree.padding = []

/-- The tree of the document `[a]\nk = v\n`. -/
def sampleTree : Tree :=
  .node sym_profile 0
    [ .leaf aux_sym_profile_token1 [] [],
      .node sym_section 1
        [ .node sym__section_header 2
            [ .leaf anon_sym_LBRACK [] ['['],
              .leaf sym_section_name [] ['a'],
              .leaf anon_sym_RBRACK [] [']'] ],
          .leaf aux_sym_section_token1 [] ['\n'],
          .node sym_option 0
            [ .leaf sym_option_name [] ['k'],
              .leaf anon_sym_EQ [' '] ['='],
              .leaf aux_sym_option_token1 [] [' '],
              .node sym_option_value 0
                [ .node sym__option_value_mono_line 0
                    [ .leaf sym_option_text [] ['v'],
                      .leaf aux_sym__option_value_mono_line_token1 [] ['\n'] ] ] ] ],
      .leaf ts_builtin_sym_end [] [] ]

/-- The tree of the document `[a]\nk = ${b:c}\n`. -/
def referenceTree : Tree :=
  .node sym_profile 0
    [ .leaf aux_sym_profile_token1 [] [],
      .node sym_section 1
        [ .node sym__section_header 2
            [ .leaf anon_sym_LBRACK [] ['['],
              .leaf sym_section_name [] ['a'],
              .leaf anon_sym_RBRACK [] [']'] ],
          .leaf aux_sym_section_token1 [] ['\n'],
          .node sym_option 0
            [ .leaf sym_option_name [] ['k'],
              .leaf anon_sym_EQ [' '] ['='],
              .leaf aux_sym_option_token1 [] [' '],
              .node sym_option_value 0
                [ .node sym__option_value_mono_line 0
                    [ .node sym_option_with_reference 5
                        [ .leaf anon_sym_DOLLAR_LBRACE [] ['$', '{'],
                          .leaf sym_referenced_section [] ['b'],
                          .leaf anon_sym_COLON [] [':'],
                          .leaf sym_referenced_option [] ['c'],
                          .leaf anon_sym_RBRACE [] ['}'] ],
                      .leaf aux_sym__option_value_mono_line_token1 [] ['\n'] ] ] ] ],
      .leaf ts_builtin_sym_end [] [] ]

/-! ## The cases of `ts_lex`, one equation per lex state -/

theorem ts_lex_transition_0 (eof : Bool) (lookahead : Char) :
    ts_lex_transition 0 eof lookahead =
      (if eof = true then .advance 25
      else if lookahead = '$' then .advance 17
      else if lookahead = ':' then .advance 53
      else if lookahead = '=' then .advance 35
      else if lookahead = '[' then .advance 28
      else if lookahead = ']' then .advance 30
      else if lookahead = '}' then .advance 54
      else if lookahead = '\t' ∨ lookahead = ' ' then .skip 21
      else if lookahead = '#' ∨ lookahead = ';' then .advance 1
      else .stop) := rfl

theorem ts_lex_transition_1 (eof : Bool) (lookahead : Char) :
    ts_lex_transition 1 eof lookahead =
      (if lookahead = '\n' then .advance 59
      else if lookahead = '#' ∨ lookahead = ';' then .advance 1
      else if lookahead ≠ '\x00' then .advance 2
      else .stop) := rfl

theorem ts_lex_transition_2 (eof : Bool) (lookahead : Char) :
    ts_lex_transition 2 eof lookahead =
      (if lookahead = '\n' then .advance 59
      else if lookahead ≠ '\x00' then .advance 2
      else .stop) := rfl

theorem ts_lex_transition_3 (eof : Bool) (lookahead : Char) :
    ts_lex_transition 3 eof lookahead =
      (if lookahead = '\n' then .advance 40
      else if lookahead = '$' then .advance 9
      else if lookahead = '\t' ∨ lookahead = ' ' then .advance 46
      else if lookahead ≠ '\x00' then .advance 50
      else .stop) := rfl

theorem ts_lex_transition_4 (eof : Bool) (lookahead : Char) :
    ts_lex_transition 4 eof lookahead =
      (if lookahead = '\n' then .advance 42
      else if lookahead = '$' then .advance 9
      else if lookahead = '\t' ∨ lookahead = ' ' then .advance 47
      else if lookahead ≠ '\x00' then .advance 50
      else .stop) := rfl

theorem ts_lex_transition_5 (eof : Bool) (lookahead : Char) :
    ts_lex_transition 5 eof lookahead =
      (if lookahead = '\n' then .skip 5
      else if lookahead = ':' then .advance 29
      else if lookahead = ']' then .advance 30
      else if lookahead = '\t' ∨ lookahead = ' ' then .skip 5
      else .stop) := rfl

theorem ts_lex_transition_6 (eof : Bool) (lookahead : Char) :
    ts_lex_transition 6 eof lookahead =
      (if lookahead = '\n' then .advance 27
      else if lookahead = '\t' ∨ lookahead = ' ' then .skip 6
      else .stop) := rfl

theorem ts_lex_transition_7 (eof : Bool) (lookahead : Char) :
    ts_lex_transition 7 eof lookahead =
      (if lookahead = '\n' then .skip 7
      else if lookahead = ':' then .advance 53
      else if lookahead = '\t' ∨ lookahead = ' ' then .skip 7
      else .stop) := rfl

theorem ts_lex_transition_8 (eof : Bool) (lookahead : Char) :
    ts_lex_transition 8 eof lookahead =
      (if lookahead = '$' then .advance 9
      else if lookahead = '\t' ∨ lookahead = ' ' then .advance 48
      else if lookahead ≠ '\x00' ∧ lookahead ≠ '\n' then .advance 50
      else .stop) := rfl

theorem ts_lex_transition_9 (eof : Bool) (lookahead : Char) :
    ts_lex_transition 9 eof lookahead =
      (if lookahead = '$' then .advance 11
      else if lookahead = '{' then .advance 52
      else if lookahead ≠ '\x00' ∧ lookahead ≠ '\n' then .advance 13
      else .stop) := rfl

theorem ts_lex_transition_10 (eof : Bool) (lookahead : Char) :
    ts_lex_transition 10 eof lookahead =
      (if lookahead = '$' then .advance 49
      else if lookahead = '{' then .advance 52
      else if lookahead ≠ '\x00' ∧ lookahead ≠ '\n' then .advance 13
      else .stop) := rfl

theorem ts_lex_transition_11 (eof : Bool) (lookahead : Char) :
    ts_lex_transition 11 eof lookahead =
      (if lookahead = '$' then .advance 49
      else if lookahead ≠ '\x00' ∧ lookahead ≠ '\n' then .advance 49
      else .stop) := rfl

theorem ts_lex_transition_12 (eof : Bool) (lookahead : Char) :
    ts_lex_transition 12 eof lookahead =
      (if lookahead = '$' then .advance 49
      else if lookahead ≠ '\x00' ∧ lookahead ≠ '\n' then .advance 13
      else .stop) := rfl

theorem ts_lex_transition_13 (eof : Bool) (lookahead : Char) :
    ts_lex_transition 13 eof lookahead =
      (if lookahead = '$' then .advance 12
      else if lookahead ≠ '\x00' ∧ lookahead ≠ '\n' then .advance 13
      else .stop) := rfl

theorem ts_lex_transition_14 (eof : Bool) (lookahead : Char) :
    ts_lex_transition 14 eof lookahead =
      (if lookahead = ':' then .advance 53
      else if lookahead = '\t' ∨ lookahead = ' ' then .advance 55
      else if lookahead ≠ '\x00' ∧ lookahead ≠ '\n' ∧ lookahead ≠ '}' then .advance 56
      else .stop) := rfl

theorem ts_lex_transition_15 (eof : Bool) (lookahead : Char) :
    ts_lex_transition 15 eof lookahead =
      (if lookahead = ':' then .advance 53
      else if lookahead = '\t' ∨ lookahead = ' ' then .skip 7
      else .stop) := rfl

theorem ts_lex_transition_16 (eof : Bool) (lookahead : Char) :
    ts_lex_transition 16 eof lookahead =
      (if lookahead = ':' then .advance 29
      else if lookahead = ']' then .advance 30
      else if lookahead = '\t' ∨ lookahead = ' ' then .skip 5
      else .stop) := rfl

theorem ts_lex_transition_17 (eof : Bool) (lookahead : Char) :
    ts_lex_transition 17 eof lookahead =
      (if lookahead = '{' then .advance 51
      else .stop) := rfl

theorem ts_lex_transition_18 (eof : Bool) (lookahead : Char) :
    ts_lex_transition 18 eof lookahead =
      (if lookahead = '\t' ∨ lookahead = ' ' then .advance 57
      else if lookahead ≠ '\x00' ∧ lookahead ≠ '\n' ∧ lookahead ≠ '}' then .advance 58
      else .stop) := rfl

theorem ts_lex_transition_19 (eof : Bool) (lookahead : Char) :
    ts_lex_transition 19 eof lookahead =
      (if lookahead = '\t' ∨ lookahead = ' ' then .advance 33
      else if lookahead ≠ '\x00' ∧ lookahead ≠ '\n' ∧ lookahead ≠ '[' ∧ lookahead ≠ ']' then .advance 34
      else .stop) := rfl

theorem ts_lex_transition_20 (eof : Bool) (lookahead : Char) :
    ts_lex_transition 20 eof lookahead =
      (if lookahead = '\t' ∨ lookahead = ' ' then .advance 31
      else if lookahead ≠ '\x00' ∧ lookahead ≠ '\n' ∧ lookahead ≠ ':' ∧ lookahead ≠ '[' ∧ lookahead ≠ ']' then .advance 32
      else .stop) := rfl

theorem ts_lex_transition_21 (eof : Bool) (lookahead : Char) :
    ts_lex_transition 21 eof lookahead =
      (if eof = true then .advance 25
      else if lookahead = '\n' then .skip 21
      else if lookahead = '$' then .advance 17
      else if lookahead = ':' then .advance 53
      else if lookahead = '=' then .advance 35
      else if lookahead = '[' then .advance 28
      else if lookahead = ']' then .advance 30
      else if lookahead = '}' then .advance 54
      else if lookahead = '\t' ∨ lookahead = ' ' then .skip 21
      else if lookahead = '#' ∨ lookahead = ';' then .advance 1
      else .stop) := rfl

theorem ts_lex_transition_22 (eof : Bool) (lookahead : Char) :
    ts_lex_transition 22 eof lookahead =
      (if eof = true then .advance 25
      else if lookahead = '\n' then .skip 22
      else if lookahead = '[' then .advance 28
      else if lookahead = '\t' ∨ lookahead = ' ' then .skip 22
      else if lookahead = '#' ∨ lookahead = ';' then .advance 1
      else if lookahead ≠ '\x00' ∧ lookahead ≠ '\r' ∧ lookahead ≠ '=' then .advance 39
      else .stop) := rfl

theorem ts_lex_transition_23 (eof : Bool) (lookahead : Char) :
    ts_lex_transition 23 eof lookahead =
      (if eof = true then .advance 25
      else if lookahead = '[' then .advance 28
      else if lookahead = '\t' ∨ lookahead = ' ' then .advance 44
      else if lookahead = '\n' ∨ lookahead = '\r' then .advance 45
      else if lookahead = '#' ∨ lookahead = ';' then .advance 1
      else if lookahead ≠ '\x00' ∧ lookahead ≠ '=' then .advance 39
      else .stop) := rfl

theorem ts_lex_transition_24 (eof : Bool) (lookahead : Char) :
    ts_lex_transition 24 eof lookahead =
      (if eof = true then .advance 25
      else if lookahead = '[' then .advance 28
      else if lookahead = '\t' ∨ lookahead = ' ' then .skip 22
      else if lookahead = '#' ∨ lookahead = ';' then .advance 1
      else if lookahead ≠ '\x00' ∧ lookahead ≠ '\n' ∧ lookahead ≠ '\r' ∧ lookahead ≠ '=' then .advance 39
      else .stop) := rfl

theorem ts_lex_transition_25 (eof : Bool) (lookahead : Char) :
    ts_lex_transition 25 eof lookahead = .stop := rfl

theorem ts_lex_transition_26 (eof : Bool) (lookahead : Char) :
    ts_lex_transition 26 eof lookahead =
      (if lookahead = '\n' then .advance 26
      else .stop) := rfl

theorem ts_lex_transition_27 (eof : Bool) (lookahead : Char) :
    ts_lex_transition 27 eof lookahead =
      (if lookahead = '\n' then .advance 27
      else .stop) := rfl

theorem ts_lex_transition_28 (eof : Bool) (lookahead : Char) :
    ts_lex_transition 28 eof lookahead = .stop := rfl

theorem ts_lex_transition_29 (eof : Bool) (lookahead : Char) :
    ts_lex_transition 29 eof lookahead = .stop := rfl

theorem ts_lex_transition_30 (eof : Bool) (lookahead : Char) :
    ts_lex_transition 30 eof lookahead = .stop := rfl

theorem ts_lex_transition_31 (eof : Bool) (lookahead : Char) :
    ts_lex_transition 31 eof lookahead =
      (if lookahead = '\t' ∨ lookahead = ' ' then .advance 31
      else if lookahead ≠ '\x00' ∧ lookahead ≠ '\n' ∧ lookahead ≠ ':' ∧ lookahead ≠ '[' ∧ lookahead ≠ ']' then .advance 32
      else .stop) := rfl

theorem ts_lex_transition_32 (eof : Bool) (lookahead : Char) :
    ts_lex_transition 32 eof lookahead =
      (if lookahead ≠ '\x00' ∧ lookahead ≠ '\n' ∧ lookahead ≠ ':' ∧ lookahead ≠ '[' ∧ lookahead ≠ ']' then .advance 32
      else .stop) := rfl

theorem ts_lex_transition_33 (eof : Bool) (lookahead : Char) :
    ts_lex_transition 33 eof lookahead =
      (if lookahead = '\t' ∨ lookahead = ' ' then .advance 33
      else if lookahead ≠ '\x00' ∧ lookahead ≠ '\n' ∧ lookahead ≠ '[' ∧ lookahead ≠ ']' then .advance 34
      else .stop) := rfl

theorem ts_lex_transition_34 (eof : Bool) (lookahead : Char) :
    ts_lex_transition 34 eof lookahead =
      (if lookahead ≠ '\x00' ∧ lookahead ≠ '\n' ∧ lookahead ≠ '[' ∧ lookahead ≠ ']' then .advance 34
      else .stop) := rfl

theorem ts_lex_transition_35 (eof : Bool) (lookahead : Char) :
    ts_lex_transition 35 eof lookahead = .stop := rfl

theorem ts_lex_transition_36 (eof : Bool) (lookahead : Char) :
    ts_lex_transition 36 eof lookahead =
      (if lookahead = '\n' then .advance 36
      else if lookahead = '\r' then .advance 38
      else if lookahead = '\t' ∨ lookahead = ' ' then .advance 36
      else .stop) := rfl

theorem ts_lex_transition_37 (eof : Bool) (lookahead : Char) :
    ts_lex_transition 37 eof lookahead =
      (if lookahead = '\t' ∨ lookahead = ' ' then .advance 36
      else if lookahead = '\n' ∨ lookahead = '\r' then .advance 38
      else .stop) := rfl

theorem ts_lex_transition_38 (eof : Bool) (lookahead : Char) :
    ts_lex_transition 38 eof lookahead =
      (if lookahead = '\t' ∨ lookahead = '\n' ∨ lookahead = '\r' ∨ lookahead = ' ' then .advance 38
      else .stop) := rfl

theorem ts_lex_transition_39 (eof : Bool) (lookahead : Char) :
    ts_lex_transition 39 eof lookahead =
      (if lookahead ≠ '\x00' ∧ lookahead ≠ '\t' ∧ lookahead ≠ '\n' ∧ lookahead ≠ '\r' ∧ lookahead ≠ ' ' ∧ lookahead ≠ '#' ∧ lookahead ≠ ';' ∧ lookahead ≠ '=' ∧ lookahead ≠ '[' then .advance 39
      else .stop) := rfl

theorem ts_lex_transition_40 (eof : Bool) (lookahead : Char) :
    ts_lex_transition 40 eof lookahead = .stop := rfl

theorem ts_lex_transition_41 (eof : Bool) (lookahead : Char) :
    ts_lex_transition 41 eof lookahead =
      (if lookahead = '\n' then .advance 41
      else if lookahead = '\t' ∨ lookahead = ' ' then .advance 46
      else .stop) := rfl

theorem ts_lex_transition_42 (eof : Bool) (lookahead : Char) :
    ts_lex_transition 42 eof lookahead =
      (if lookahead = '\n' then .advance 42
      else .stop) := rfl

theorem ts_lex_transition_43 (eof : Bool) (lookahead : Char) :
    ts_lex_transition 43 eof lookahead =
      (if lookahead = '\n' then .advance 43
      else if lookahead = '\t' ∨ lookahead = ' ' then .advance 47
      else .stop) := rfl

theorem ts_lex_transition_44 (eof : Bool) (lookahead : Char) :
    ts_lex_transition 44 eof lookahead =
      (if lookahead = '\n' then .advance 44
      else if lookahead = '\r' then .advance 45
      else if lookahead = '\t' ∨ lookahead = ' ' then .advance 44
      else .stop) := rfl

theorem ts_lex_transition_45 (eof : Bool) (lookahead : Char) :
    ts_lex_transition 45 eof lookahead =
      (if lookahead = '\t' ∨ lookahead = '\n' ∨ lookahead = '\r' ∨ lookahead = ' ' then .advance 45
      else .stop) := rfl

theorem ts_lex_transition_46 (eof : Bool) (lookahead : Char) :
    ts_lex_transition 46 eof lookahead =
      (if lookahead = '\n' then .advance 41
      else if lookahead = '$' then .advance 10
      else if lookahead = '\t' ∨ lookahead = ' ' then .advance 46
      else if lookahead ≠ '\x00' then .advance 50
      else .stop) := rfl

theorem ts_lex_transition_47 (eof : Bool) (lookahead : Char) :
    ts_lex_transition 47 eof lookahead =
      (if lookahead = '\n' then .advance 43
      else if lookahead = '$' then .advance 10
      else if lookahead = '\t' ∨ lookahead = ' ' then .advance 47
      else if lookahead ≠ '\x00' then .advance 50
      else .stop) := rfl

theorem ts_lex_transition_48 (eof : Bool) (lookahead : Char) :
    ts_lex_transition 48 eof lookahead =
      (if lookahead = '$' then .advance 10
      else if lookahead = '\t' ∨ lookahead = ' ' then .advance 48
      else if lookahead ≠ '\x00' ∧ lookahead ≠ '\n' then .advance 50
      else .stop) := rfl

theorem ts_lex_transition_49 (eof : Bool) (lookahead : Char) :
    ts_lex_transition 49 eof lookahead =
      (if lookahead = '$' then .advance 49
      else if lookahead ≠ '\x00' ∧ lookahead ≠ '\n' then .advance 49
      else .stop) := rfl

theorem ts_lex_transition_50 (eof : Bool) (lookahead : Char) :
    ts_lex_transition 50 eof lookahead =
      (if lookahead = '$' then .advance 12
      else if lookahead ≠ '\x00' ∧ lookahead ≠ '\n' then .advance 50
      else .stop) := rfl

theorem ts_lex_transition_51 (eof : Bool) (lookahead : Char) :
    ts_lex_transition 51 eof lookahead = .stop := rfl

theorem ts_lex_transition_52 (eof : Bool) (lookahead : Char) :
    ts_lex_transition 52 eof lookahead =
      (if lookahead = '$' then .advance 12
      else if lookahead ≠ '\x00' ∧ lookahead ≠ '\n' then .advance 13
      else .stop) := rfl

theorem ts_lex_transition_53 (eof : Bool) (lookahead : Char) :
    ts_lex_transition 53 eof lookahead = .stop := rfl

theorem ts_lex_transition_54 (eof : Bool) (lookahead : Char) :
    ts_lex_transition 54 eof lookahead = .stop := rfl

theorem ts_lex_transition_55 (eof : Bool) (lookahead : Char) :
    ts_lex_transition 55 eof lookahead =
      (if lookahead = '\t' ∨ lookahead = ' ' then .advance 55
      else if lookahead ≠ '\x00' ∧ lookahead ≠ '\n' ∧ lookahead ≠ ':' ∧ lookahead ≠ '}' then .advance 56
      else .stop) := rfl

theorem ts_lex_transition_56 (eof : Bool) (lookahead : Char) :
    ts_lex_transition 56 eof lookahead =
      (if lookahead ≠ '\x00' ∧ lookahead ≠ '\n' ∧ lookahead ≠ ':' ∧ lookahead ≠ '}' then .advance 56
      else .stop) := rfl

theorem ts_lex_transition_57 (eof : Bool) (lookahead : Char) :
    ts_lex_transition 57 eof lookahead =
      (if lookahead = '\t' ∨ lookahead = ' ' then .advance 57
      else if lookahead ≠ '\x00' ∧ lookahead ≠ '\n' ∧ lookahead ≠ '}' then .advance 58
      else .stop) := rfl

theorem ts_lex_transition_58 (eof : Bool) (lookahead : Char) :
    ts_lex_transition 58 eof lookahead =
      (if lookahead ≠ '\x00' ∧ lookahead ≠ '\n' ∧ lookahead ≠ '}' then .advance 58
      else .stop) := rfl

theorem ts_lex_transition_59 (eof : Bool) (lookahead : Char) :
    ts_lex_transition 59 eof lookahead =
      (if lookahead = '\n' then .advance 59
      else .stop) := rfl

theorem ts_lex_accept_0 : ts_lex_accept 0 = none := rfl
theorem ts_lex_accept_1 : ts_lex_accept 1 = none := rfl
theorem ts_lex_accept_2 : ts_lex_accept 2 = none := rfl
theorem ts_lex_accept_3 : ts_lex_accept 3 = none := rfl
theorem ts_lex_accept_4 : ts_lex_accept 4 = none := rfl
theorem ts_lex_accept_5 : ts_lex_accept 5 = none := rfl
theorem ts_lex_accept_6 : ts_lex_accept 6 = none := rfl
theorem ts_lex_accept_7 : ts_lex_accept 7 = none := rfl
theorem ts_lex_accept_8 : ts_lex_accept 8 = none := rfl
theorem ts_lex_accept_9 : ts_lex_accept 9 = none := rfl
theorem ts_lex_accept_10 : ts_lex_accept 10 = none := rfl
theorem ts_lex_accept_11 : ts_lex_accept 11 = none := rfl
theorem ts_lex_accept_12 : ts_lex_accept 12 = none := rfl
theorem ts_lex_accept_13 : ts_lex_accept 13 = none := rfl
theorem ts_lex_accept_14 : ts_lex_accept 14 = none := rfl
theorem ts_lex_accept_15 : ts_lex_accept 15 = none := rfl
theorem ts_lex_accept_16 : ts_lex_accept 16 = none := rfl
theorem ts_lex_accept_17 : ts_lex_accept 17 = none := rfl
theorem ts_lex_accept_18 : ts_lex_accept 18 = none := rfl
theorem ts_lex_accept_19 : ts_lex_accept 19 = none := rfl
theorem ts_lex_accept_20 : ts_lex_accept 20 = none := rfl
theorem ts_lex_accept_21 : ts_lex_accept 21 = none := rfl
theorem ts_lex_accept_22 : ts_lex_accept 22 = none := rfl
theorem ts_lex_accept_23 : ts_lex_accept 23 = none := rfl
theorem ts_lex_accept_24 : ts_lex_accept 24 = none := rfl
theorem ts_lex_accept_25 : ts_lex_accept 25 = some ts_builtin_sym_end := rfl
theorem ts_lex_accept_26 : ts_lex_accept 26 = some aux_sym_profile_token1 := rfl
theorem ts_lex_accept_27 : ts_lex_accept 27 = some aux_sym_section_token1 := rfl
theorem ts_lex_accept_28 : ts_lex_accept 28 = some anon_sym_LBRACK := rfl
theorem ts_lex_accept_29 : ts_lex_accept 29 = some aux_sym__section_header_token1 := rfl
theorem ts_lex_accept_30 : ts_lex_accept 30 = some anon_sym_RBRACK := rfl
theorem ts_lex_accept_31 : ts_lex_accept 31 = some sym_section_name := rfl
theorem ts_lex_accept_32 : ts_lex_accept 32 = some sym_section_name := rfl
theorem ts_lex_accept_33 : ts_lex_accept 33 = some sym_section_condition := rfl
theorem ts_lex_accept_34 : ts_lex_accept 34 = some sym_section_condition := rfl
theorem ts_lex_accept_35 : ts_lex_accept 35 = some anon_sym_EQ := rfl
theorem ts_lex_accept_36 : ts_lex_accept 36 = some aux_sym_option_token1 := rfl
theorem ts_lex_accept_37 : ts_lex_accept 37 = some aux_sym_option_token1 := rfl
theorem ts_lex_accept_38 : ts_lex_accept 38 = some aux_sym_option_token1 := rfl
theorem ts_lex_accept_39 : ts_lex_accept 39 = some sym_option_name := rfl
theorem ts_lex_accept_40 : ts_lex_accept 40 = some aux_sym_option_value_token1 := rfl
theorem ts_lex_accept_41 : ts_lex_accept 41 = some aux_sym_option_value_token1 := rfl
theorem ts_lex_accept_42 : ts_lex_accept 42 = some aux_sym__option_value_mono_line_token1 := rfl
theorem ts_lex_accept_43 : ts_lex_accept 43 = some aux_sym__option_value_mono_line_token1 := rfl
theorem ts_lex_accept_44 : ts_lex_accept 44 = some aux_sym__option_value_multi_line_token1 := rfl
theorem ts_lex_accept_45 : ts_lex_accept 45 = some aux_sym__option_value_multi_line_token1 := rfl
theorem ts_lex_accept_46 : ts_lex_accept 46 = some sym_option_text := rfl
theorem ts_lex_accept_47 : ts_lex_accept 47 = some sym_option_text := rfl
theorem ts_lex_accept_48 : ts_lex_accept 48 = some sym_option_text := rfl
theorem ts_lex_accept_49 : ts_lex_accept 49 = some sym_option_text := rfl
theorem ts_lex_accept_50 : ts_lex_accept 50 = some sym_option_text := rfl
theorem ts_lex_accept_51 : ts_lex_accept 51 = some anon_sym_DOLLAR_LBRACE := rfl
theorem ts_lex_accept_52 : ts_lex_accept 52 = some anon_sym_DOLLAR_LBRACE := rfl
theorem ts_lex_accept_53 : ts_lex_accept 53 = some anon_sym_COLON := rfl
theorem ts_lex_accept_54 : ts_lex_accept 54 = some anon_sym_RBRACE := rfl
theorem ts_lex_accept_55 : ts_lex_accept 55 = some sym_referenced_section := rfl
theorem ts_lex_accept_56 : ts_lex_accept 56 = some sym_referenced_section := rfl
theorem ts_lex_accept_57 : ts_lex_accept 57 = some sym_referenced_option := rfl
theorem ts_lex_accept_58 : ts_lex_accept 58 = some sym_referenced_option := rfl
theorem ts_lex_accept_59 : ts_lex_accept 59 = some sym_comment := rfl

/-! ## Lexer lemmas -/

theorem lexLoop_stop (s : Nat) (rest skipped consumed : List Char) (result : Option Lexed)
    (hstop : stopsAt s rest) :
    lexLoop rest s skipped consumed result = markEnd s skipped consumed rest result := by
  cases rest with
  | nil =>
    simp only [stopsAt] at hstop
    simp [lexLoop, lexAtEof, hstop]
  | cons d r =>
    simp only [stopsAt] at hstop
    simp [lexLoop, hstop]

/-- A run of characters that keeps the lexer inside a set of states accepting
one symbol, followed by input on which every state of the set stops, is lexed
as one token of that symbol. -/
theorem lexLoop_run (S : Nat → Prop) (sym : Nat) (rest : List Char)
    (hacc : ∀ s, S s → ts_lex_accept s = some sym)
    (hstop : ∀ s, S s → stopsAt s rest) :
    ∀ (run : List Char),
      (∀ s, S s → ∀ ch ∈ run, ∃ s', S s' ∧ ts_lex_transition s false ch = .advance s') →
      ∀ s, S s → ∀ skipped consumed result,
        lexLoop (run ++ rest) s skipped consumed result
          = some ⟨sym, skipped, consumed ++ run, rest⟩ := by
  intro run
  induction run with
  | nil =>
    intro _ s hs skipped consumed result
    simp [lexLoop_stop s rest skipped consumed result (hstop s hs), markEnd, hacc s hs]
  | cons c run ih =>
    intro hstep s hs skipped consumed result
    obtain ⟨s', hs', htr⟩ := hstep s hs c (by simp)
    have ih' := ih (fun t ht ch hch => hstep t ht ch (by simp [hch])) s' hs' skipped
      (consumed ++ [c]) (markEnd s skipped consumed (c :: (run ++ rest)) result)
    simp [lexLoop, htr, ih']

/-- A token of one character: the start state advances on it into an
accepting state that stops on what follows. -/
theorem ts_lex_single (s s' sym : Nat) (d : Char) (rest : List Char)
    (hstart : ts_lex_accept s = none)
    (hadv : ts_lex_transition s false d = .advance s')
    (hacc : ts_lex_accept s' = some sym)
    (hstop : stopsAt s' rest) :
    ts_lex (d :: rest) s = some ⟨sym, [], [d], rest⟩ := by
  simp [ts_lex, lexLoop, hadv, lexLoop_stop s' rest [] [d] _ hstop, markEnd, hacc, hstart]

/-- An accepting start state that stops at once yields an empty token. -/
theorem ts_lex_empty (s sym : Nat) (rest : List Char)
    (hacc : ts_lex_accept s = some sym) (hstop : stopsAt s rest) :
    ts_lex rest s = some ⟨sym, [], [], rest⟩ := by
  simp [ts_lex, lexLoop_stop s rest [] [] none hstop, markEnd, hacc]

theorem stopsAt_of_no_transition (s : Nat) (rest : List Char)
    (h : ∀ eof c, ts_lex_transition s eof c = .stop) : stopsAt s rest := by
  cases rest <;> simp [stopsAt, h]

/-! ## Parser lemmas -/

/-- A token lexed in the mode of the parse state is the parser's lookahead. -/
theorem parser_lex_of_lex (state : Nat) (input : List Char) (tok : Lexed)
    (h : ts_lex input (ts_lex_modes.getD state 0) = some tok) :
    ts_parser_lex state input = some tok := by
  unfold ts_parser_lex
  rw [h]

theorem parseStep_shift {stack : Stack} {tok next : Lexed} (state : Nat) (rep : Bool)
    (hact : effectiveAction (ts_language_actions (stackState stack) tok.symbol)
      = some (.shift state rep))
    (hlex : ts_parser_lex state tok.rest = some next) :
    parseStep stack tok
      = .next ((state, .leaf tok.symbol tok.padding tok.text) :: stack) next := by
  simp [parseStep, hact, hlex]

theorem parseStep_reduce {stack : Stack} {tok : Lexed} (symbol childCount productionId : Nat)
    (hact : effectiveAction (ts_language_actions (stackState stack) tok.symbol)
      = some (.reduce symbol childCount productionId))
    (hlen : childCount ≤ stack.length) :
    parseStep stack tok
      = .next
        ((ts_language_lookup (stackState (stack.drop childCount)) symbol,
          .node symbol productionId ((stack.take childCount).map Prod.snd).reverse)
          :: stack.drop childCount) tok := by
  simp [parseStep, hact, hlen]

theorem parseLoop_next {fuel : Nat} {stack stack' : Stack} {tok tok' : Lexed}
    {outcome : ParseOutcome}
    (hstep : parseStep stack tok = .next stack' tok')
    (hrest : parseLoop fuel stack' tok' = outcome) :
    parseLoop (fuel + 1) stack tok = outcome := by
  simp [parseLoop, hstep, hrest]

theorem parseLoop_done {fuel : Nat} {stack : Stack} {tok : Lexed} {outcome : ParseOutcome}
    (hstep : parseStep stack tok = .done outcome) :
    parseLoop (fuel + 1) stack tok = outcome := by
  simp [parseLoop, hstep]

/-- More fuel does not change a parse that came to an end. -/
theorem parseLoop_mono {outcome : ParseOutcome} (hout : outcome ≠ .outOfFuel) :
    ∀ (fuel : Nat) (stack : Stack) (tok : Lexed),
      parseLoop fuel stack tok = outcome →
      ∀ more, fuel ≤ more → parseLoop more stack tok = outcome := by
  intro fuel
  induction fuel with
  | zero =>
    intro stack tok h
    exact absurd h.symm hout
  | succ fuel ih =>
    intro stack tok h more hle
    obtain ⟨m, rfl⟩ : ∃ m, more = m + 1 := ⟨more - 1, by omega⟩
    simp only [parseLoop] at h ⊢
    cases hs : parseStep stack tok with
    | next stack' tok' =>
      rw [hs] at h
      simp only at h ⊢
      exact ih stack' tok' h m (by omega)
    | done outcome' =>
      rw [hs] at h
      simpa using h

/-! ## Tokens -/

/-- A run that keeps the lexer inside a set of states leaves it in one of
them, with the run consumed. -/
theorem lexLoop_transit (S : Nat → Prop) (rest : List Char) :
    ∀ (run : List Char),
      (∀ s, S s → ∀ ch ∈ run, ∃ s', S s' ∧ ts_lex_transition s false ch = .advance s') →
      ∀ s, S s → ∀ skipped consumed result,
        ∃ s' result', S s' ∧
          lexLoop (run ++ rest) s skipped consumed result
            = lexLoop rest s' skipped (consumed ++ run) result' := by
  intro run
  induction run with
  | nil =>
    intro _ s hs skipped consumed result
    exact ⟨s, result, hs, by simp⟩
  | cons c run ih =>
    intro hstep s hs skipped consumed result
    obtain ⟨s', hs', htr⟩ := hstep s hs c (by simp)
    obtain ⟨s'', result', hs'', h⟩ := ih (fun t ht ch hch => hstep t ht ch (by simp [hch]))
      s' hs' skipped (consumed ++ [c]) (markEnd s skipped consumed (c :: (run ++ rest)) result)
    exact ⟨s'', result', hs'', by simp [lexLoop, htr, h]⟩

theorem lex_section_name (n rest : List Char) (d : Char) (hn : n ≠ [])
    (hchars : ∀ ch ∈ n, sectionNameChar ch) (hd : d = ':' ∨ d = ']') :
    ts_lex (n ++ d :: rest) 20 = some ⟨sym_section_name, [], n, d :: rest⟩ := by
  obtain ⟨c, n', rfl⟩ := List.exists_cons_of_ne_nil hn
  have hrun := lexLoop_run (fun s => s = 31 ∨ s = 32) sym_section_name (d :: rest)
    (by rintro s (rfl | rfl) <;> rfl)
    (by rintro s (rfl | rfl) <;> rcases hd with rfl | rfl <;>
          simp [stopsAt, ts_lex_transition_31, ts_lex_transition_32])
    n'
    (by
      rintro s (rfl | rfl) ch hch
      · obtain ⟨h0, h1, h2, h3, h4⟩ := hchars ch (by simp [hch])
        by_cases hw : ch = '\t' ∨ ch = ' '
        · exact ⟨31, by simp, by simp [ts_lex_transition_31, hw]⟩
        · exact ⟨32, by simp, by simp [ts_lex_transition_31, hw, h0, h1, h2, h3, h4]⟩
      · obtain ⟨h0, h1, h2, h3, h4⟩ := hchars ch (by simp [hch])
        exact ⟨32, by simp, by simp [ts_lex_transition_32, h0, h1, h2, h3, h4]⟩)
  obtain ⟨h0, h1, h2, h3, h4⟩ := hchars c (by simp)
  by_cases hw : c = '\t' ∨ c = ' '
  · have := hrun 31 (by simp) [] [c] none
    simp [ts_lex, lexLoop, ts_lex_transition_20, hw, markEnd, ts_lex_accept_20]
    simpa using this
  · have := hrun 32 (by simp) [] [c] none
    simp [ts_lex, lexLoop, ts_lex_transition_20, hw, markEnd, ts_lex_accept_20, h0, h1, h2, h3, h4]
    simpa using this

theorem lex_section_condition (c rest : List Char) (hc : c ≠ [])
    (hchars : ∀ ch ∈ c, sectionConditionChar ch) :
    ts_lex (c ++ ']' :: rest) 19 = some ⟨sym_section_condition, [], c, ']' :: rest⟩ := by
  obtain ⟨c0, c', rfl⟩ := List.exists_cons_of_ne_nil hc
  have hrun := lexLoop_run (fun s => s = 33 ∨ s = 34) sym_section_condition (']' :: rest)
    (by rintro s (rfl | rfl) <;> rfl)
    (by rintro s (rfl | rfl) <;> simp [stopsAt, ts_lex_transition_33, ts_lex_transition_34])
    c'
    (by
      rintro s (rfl | rfl) ch hch
      · obtain ⟨h0, h1, h3, h4⟩ := hchars ch (by simp [hch])
        by_cases hw : ch = '\t' ∨ ch = ' '
        · exact ⟨33, by simp, by simp [ts_lex_transition_33, hw]⟩
        · exact ⟨34, by simp, by simp [ts_lex_transition_33, hw, h0, h1, h3, h4]⟩
      · obtain ⟨h0, h1, h3, h4⟩ := hchars ch (by simp [hch])
        exact ⟨34, by simp, by simp [ts_lex_transition_34, h0, h1, h3, h4]⟩)
  obtain ⟨h0, h1, h3, h4⟩ := hchars c0 (by simp)
  by_cases hw : c0 = '\t' ∨ c0 = ' '
  · have := hrun 33 (by simp) [] [c0] none
    simp [ts_lex, lexLoop, ts_lex_transition_19, hw, markEnd, ts_lex_accept_19]
    simpa using this
  · have := hrun 34 (by simp) [] [c0] none
    simp [ts_lex, lexLoop, ts_lex_transition_19, hw, markEnd, ts_lex_accept_19, h0, h1, h3, h4]
    simpa using this

/-- An option name at the start of a line, lexed from state 23 or 24: it runs
up to the blank before `=`. -/
theorem lex_option_name (start : Nat) (hstart : start = 23 ∨ start = 24)
    (k rest : List Char) (hk : k ≠ [])
    (hchars : ∀ ch ∈ k, optionNameChar ch) :
    ts_lex (k ++ ' ' :: rest) start = some ⟨sym_option_name, [], k, ' ' :: rest⟩ := by
  obtain ⟨c, k', rfl⟩ := List.exists_cons_of_ne_nil hk
  have hrun := lexLoop_run (fun s => s = 39) sym_option_name (' ' :: rest)
    (by rintro s rfl; rfl)
    (by rintro s rfl; simp [stopsAt, ts_lex_transition_39])
    k'
    (by
      rintro s rfl ch hch
      obtain ⟨h0, h1, h2, h3, h4, h5, h6, h7, h8⟩ := hchars ch (by simp [hch])
      exact ⟨39, rfl, by simp [ts_lex_transition_39, h0, h1, h2, h3, h4, h5, h6, h7, h8]⟩)
  obtain ⟨h0, h1, h2, h3, h4, h5, h6, h7, h8⟩ := hchars c (by simp)
  have := hrun 39 rfl [] [c] none
  rcases hstart with rfl | rfl
  · simp [ts_lex, lexLoop, ts_lex_transition_23, markEnd, ts_lex_accept_23,
      h0, h1, h2, h3, h4, h5, h6, h7, h8]
    simpa using this
  · simp [ts_lex, lexLoop, ts_lex_transition_24, markEnd, ts_lex_accept_24,
      h0, h1, h2, h3, h4, h5, h6, h7, h8]
    simpa using this

/-- Blanks before an option name are skipped in lex state 22. -/
theorem lexLoop_skip_blanks (rest : List Char) :
    ∀ (blanks : List Char), (∀ ch ∈ blanks, blankChar ch) →
      ∀ skipped,
        lexLoop (blanks ++ rest) 22 skipped [] none
          = lexLoop rest 22 (skipped ++ blanks) [] none := by
  intro blanks
  induction blanks with
  | nil => intro _ skipped; simp
  | cons b blanks ih =>
    intro hb skipped
    have ih' := ih (fun ch hch => hb ch (by simp [hch])) (skipped ++ [b])
    rcases hb b (by simp) with rfl | rfl <;>
      simpa [lexLoop, ts_lex_transition_22, markEnd, ts_lex_accept_22] using ih'

/-- An indented option name on the first line of a section body, lexed from
state 24: the indentation is skipped. -/
theorem lex_option_name_indented (indent k rest : List Char)
    (hindent : ∀ ch ∈ indent, blankChar ch) (hk : k ≠ [])
    (hchars : ∀ ch ∈ k, optionNameChar ch) :
    ts_lex (indent ++ (k ++ ' ' :: rest)) 24
      = some ⟨sym_option_name, indent, k, ' ' :: rest⟩ := by
  cases indent with
  | nil => simpa using lex_option_name 24 (Or.inr rfl) k rest hk hchars
  | cons b indent =>
    obtain ⟨c, k', rfl⟩ := List.exists_cons_of_ne_nil hk
    obtain ⟨h0, h1, h2, h3, h4, h5, h6, h7, h8⟩ := hchars c (by simp)
    have hrun := lexLoop_run (fun s => s = 39) sym_option_name (' ' :: rest)
      (by rintro s rfl; rfl)
      (by rintro s rfl; simp [stopsAt, ts_lex_transition_39])
      k'
      (by
        rintro s rfl ch hch
        obtain ⟨g0, g1, g2, g3, g4, g5, g6, g7, g8⟩ := hchars ch (by simp [hch])
        exact ⟨39, rfl, by simp [ts_lex_transition_39, g0, g1, g2, g3, g4, g5, g6, g7, g8]⟩)
      39 rfl (b :: indent) [c] none
    have hskip := lexLoop_skip_blanks (c :: k' ++ ' ' :: rest) indent
      (fun ch hch => hindent ch (by simp [hch])) [b]
    have hfirst : lexLoop (b :: indent ++ (c :: k' ++ ' ' :: rest)) 24 [] [] none
        = lexLoop (indent ++ (c :: k' ++ ' ' :: rest)) 22 [b] [] none := by
      rcases hindent b (by simp) with rfl | rfl <;>
        simp [lexLoop, ts_lex_transition_24, markEnd, ts_lex_accept_24]
    rw [ts_lex, hfirst, hskip]
    simp only [List.cons_append, lexLoop, ts_lex_transition_22, markEnd, ts_lex_accept_22]
    simpa [h0, h1, h2, h3, h4, h5, h6, h7, h8] using hrun

/-- The `=` after an option name and one blank, lexed from state 0: the blank
is skipped. -/
theorem lex_blank_equals (rest : List Char) :
    ts_lex (' ' :: '=' :: rest) 0 = some ⟨anon_sym_EQ, [' '], ['='], rest⟩ := by
  have hstop := lexLoop_stop 35 rest [' '] ['='] none
    (stopsAt_of_no_transition 35 rest (fun _ _ => rfl))
  simp [ts_lex, lexLoop, ts_lex_transition_0, ts_lex_transition_21, markEnd, ts_lex_accept_0,
    ts_lex_accept_21, hstop, ts_lex_accept_35]

/-- The white space after `=`, line breaks included, is one `option_token1`. -/
theorem lex_option_token1 (ws rest : List Char)
    (hws : ∀ ch ∈ ws, spaceChar ch)
    (hrest : ∀ d, rest.head? = some d → ¬ spaceChar d) :
    ts_lex (ws ++ rest) 37 = some ⟨aux_sym_option_token1, [], ws, rest⟩ := by
  have hstop : ∀ s, (s = 36 ∨ s = 37 ∨ s = 38) → stopsAt s rest := by
    rintro s (rfl | rfl | rfl) <;> cases rest with
    | nil => simp [stopsAt, ts_lex_transition_36, ts_lex_transition_37, ts_lex_transition_38]
    | cons d r =>
      have hd := hrest d (by simp)
      simp only [spaceChar, not_or] at hd
      obtain ⟨h1, h2, h3, h4⟩ := hd
      simp [stopsAt, ts_lex_transition_36, ts_lex_transition_37, ts_lex_transition_38,
        h1, h2, h3, h4]
  have := lexLoop_run (fun s => s = 36 ∨ s = 37 ∨ s = 38) aux_sym_option_token1 rest
    (by rintro s (rfl | rfl | rfl) <;> rfl) hstop ws
    (by
      rintro s hs ch hch
      have hsp := hws ch hch
      rcases hs with rfl | rfl | rfl
      · rcases hsp with rfl | rfl | rfl | rfl
        · exact ⟨36, by simp, by simp [ts_lex_transition_36]⟩
        · exact ⟨36, by simp, by simp [ts_lex_transition_36]⟩
        · exact ⟨38, by simp, by simp [ts_lex_transition_36]⟩
        · exact ⟨36, by simp, by simp [ts_lex_transition_36]⟩
      · rcases hsp with rfl | rfl | rfl | rfl
        · exact ⟨36, by simp, by simp [ts_lex_transition_37]⟩
        · exact ⟨38, by simp, by simp [ts_lex_transition_37]⟩
        · exact ⟨38, by simp, by simp [ts_lex_transition_37]⟩
        · exact ⟨36, by simp, by simp [ts_lex_transition_37]⟩
      · rcases hsp with rfl | rfl | rfl | rfl <;>
          exact ⟨38, by simp, by simp [ts_lex_transition_38]⟩)
    37 (by simp) [] [] none
  simpa [ts_lex] using this

theorem stopsAt_50_of_lineEnds (rest : List Char) (h : lineEnds rest) : stopsAt 50 rest := by
  cases rest with
  | nil => simp [stopsAt, ts_lex_transition_50]
  | cons d r =>
    rcases h with rfl | rfl <;> simp [stopsAt, ts_lex_transition_50]

/-- Value text without `$`: blanks, then a character that is not a blank, then
any plain characters up to the end of the line.  From lex states 3, 4 and 8
it is one `option_text` token. -/
theorem lex_option_text (start : Nat) (hstart : start = 3 ∨ start = 4 ∨ start = 8)
    (blanks body rest : List Char)
    (hblanks : ∀ ch ∈ blanks, blankChar ch)
    (hbody : body ≠ [])
    (hhead : ∀ d, body.head? = some d → ¬ blankChar d)
    (hchars : ∀ ch ∈ body, plainTextChar ch)
    (hrest : lineEnds rest) :
    ts_lex (blanks ++ body ++ rest) start
      = some ⟨sym_option_text, [], blanks ++ body, rest⟩ := by
  obtain ⟨b, body', rfl⟩ := List.exists_cons_of_ne_nil hbody
  have hb := hhead b (by simp)
  simp only [blankChar, not_or] at hb
  obtain ⟨hb1, hb2⟩ := hb
  obtain ⟨hb3, hb4, hb5⟩ := hchars b (by simp)
  have htail := lexLoop_run (fun s => s = 50) sym_option_text rest
    (by rintro s rfl; rfl)
    (by rintro s rfl; exact stopsAt_50_of_lineEnds rest hrest)
    body'
    (by
      rintro s rfl ch hch
      obtain ⟨h0, h1, h2⟩ := hchars ch (by simp [hch])
      exact ⟨50, rfl, by simp [ts_lex_transition_50, h0, h1, h2]⟩)
    50 rfl
  -- the blanks keep the lexer in the start state or its blank state
  have hpre : ∀ w, (w = 46 ∨ w = 47 ∨ w = 48) →
      (ts_lex_transition start false ' ' = .advance w) →
      (ts_lex_transition start false '\t' = .advance w) →
      (∀ ch, blankChar ch → ts_lex_transition w false ch = .advance w) →
      (ts_lex_transition start false b = .advance 50) →
      (ts_lex_transition w false b = .advance 50) →
      ts_lex_accept start = none →
      ts_lex (blanks ++ b :: body' ++ rest) start
        = some ⟨sym_option_text, [], blanks ++ b :: body', rest⟩ := by
    intro w hw hsp htab hww hsb hwb hacc
    obtain ⟨s', result', hs', heq⟩ := lexLoop_transit (fun s => s = start ∨ s = w)
      (b :: body' ++ rest) blanks
      (by
        rintro s (rfl | rfl) ch hch
        · rcases hblanks ch hch with rfl | rfl
          · exact ⟨w, Or.inr rfl, htab⟩
          · exact ⟨w, Or.inr rfl, hsp⟩
        · exact ⟨s, Or.inr rfl, hww ch (hblanks ch hch)⟩)
      start (Or.inl rfl) [] [] none
    have hadv : ts_lex_transition s' false b = .advance 50 := by
      rcases hs' with rfl | rfl
      · exact hsb
      · exact hwb
    have h2 := htail [] (blanks ++ [b]) (markEnd s' [] ([] ++ blanks) (b :: (body' ++ rest)) result')
    simp only [ts_lex, List.append_assoc]
    simp only [List.cons_append] at heq ⊢
    rw [heq]
    simp only [lexLoop, hadv]
    simpa using h2
  rcases hstart with rfl | rfl | rfl
  · exact hpre 46 (by simp) (by simp [ts_lex_transition_3]) (by simp [ts_lex_transition_3])
      (by rintro ch (rfl | rfl) <;> simp [ts_lex_transition_46])
      (by simp [ts_lex_transition_3, hb1, hb2, hb3, hb4, hb5])
      (by simp [ts_lex_transition_46, hb1, hb2, hb3, hb4, hb5]) rfl
  · exact hpre 47 (by simp) (by simp [ts_lex_transition_4]) (by simp [ts_lex_transition_4])
      (by rintro ch (rfl | rfl) <;> simp [ts_lex_transition_47])
      (by simp [ts_lex_transition_4, hb1, hb2, hb3, hb4, hb5])
      (by simp [ts_lex_transition_47, hb1, hb2, hb3, hb4, hb5]) rfl
  · exact hpre 48 (by simp) (by simp [ts_lex_transition_8]) (by simp [ts_lex_transition_8])
      (by rintro ch (rfl | rfl) <;> simp [ts_lex_transition_48])
      (by simp [ts_lex_transition_8, hb1, hb2, hb3, hb4, hb5])
      (by simp [ts_lex_transition_48, hb1, hb2, hb3, hb4, hb5]) rfl

/-- After `${` the lexer reads on through the line in states 13 and 12,
looking for `$$`.  When the line has none, it stops at the end of the line
without a new accepted token. -/
theorem lexLoop_scan_line (rest : List Char) (hrest : lineEnds rest) :
    ∀ (run : List Char), noDoubleDollar run = true →
      (∀ ch ∈ run, ch ≠ '\x00' ∧ ch ≠ '\n') →
      ∀ skipped consumed result,
        lexLoop (run ++ rest) 13 skipped consumed result = result ∧
        (run.head? ≠ some '$' →
          lexLoop (run ++ rest) 12 skipped consumed result = result) := by
  have hstop13 : stopsAt 13 rest := by
    cases rest with
    | nil => simp [stopsAt, ts_lex_transition_13]
    | cons d r => rcases hrest with rfl | rfl <;> simp [stopsAt, ts_lex_transition_13]
  have hstop12 : stopsAt 12 rest := by
    cases rest with
    | nil => simp [stopsAt, ts_lex_transition_12]
    | cons d r => rcases hrest with rfl | rfl <;> simp [stopsAt, ts_lex_transition_12]
  intro run
  induction run with
  | nil =>
    intro _ _ skipped consumed result
    simp [lexLoop_stop 13 rest skipped consumed result hstop13,
      lexLoop_stop 12 rest skipped consumed result hstop12, markEnd, ts_lex_accept_13,
      ts_lex_accept_12]
  | cons c run ih =>
    intro hnd hchars skipped consumed result
    obtain ⟨h0, h1⟩ := hchars c (by simp)
    have hnd' : noDoubleDollar run = true := by
      simp [noDoubleDollar] at hnd
      exact hnd.2
    have ih' := ih hnd' (fun ch hch => hchars ch (by simp [hch])) skipped (consumed ++ [c])
      result
    by_cases hc : c = '$'
    · subst hc
      have hhead : run.head? ≠ some '$' := by
        cases run with
        | nil => simp
        | cons d r =>
          simp [noDoubleDollar] at hnd
          simpa using hnd.1
      constructor
      · simp [lexLoop, ts_lex_transition_13, markEnd, ts_lex_accept_13, ih'.2 hhead]
      · intro hne
        simp at hne
    · constructor
      · simp [lexLoop, ts_lex_transition_13, markEnd, ts_lex_accept_13, hc, h0, h1, ih'.1]
      · intro _
        simp [lexLoop, ts_lex_transition_12, markEnd, ts_lex_accept_12, hc, h0, h1, ih'.1]

/-- Input that begins with `${`, on a line with no `$$` after it: from lex
states 3, 4 and 8 the token is the two characters `${`. -/
theorem lex_dollar_lbrace (start : Nat) (hstart : start = 3 ∨ start = 4 ∨ start = 8)
    (run rest : List Char) (hnd : noDoubleDollar run = true)
    (hchars : ∀ ch ∈ run, ch ≠ '\x00' ∧ ch ≠ '\n') (hrest : lineEnds rest) :
    ts_lex ('$' :: '{' :: (run ++ rest)) start
      = some ⟨anon_sym_DOLLAR_LBRACE, [], ['$', '{'], run ++ rest⟩ := by
  have hscan := lexLoop_scan_line rest hrest
  have h52 : lexLoop (run ++ rest) 52 [] ['$', '{'] none
      = some ⟨anon_sym_DOLLAR_LBRACE, [], ['$', '{'], run ++ rest⟩ := by
    cases run with
    | nil =>
      have hstop : stopsAt 52 rest := by
        cases rest with
        | nil => simp [stopsAt, ts_lex_transition_52]
        | cons d r => rcases hrest with rfl | rfl <;> simp [stopsAt, ts_lex_transition_52]
      simp [lexLoop_stop 52 rest _ _ _ hstop, markEnd, ts_lex_accept_52]
    | cons c run =>
      obtain ⟨h0, h1⟩ := hchars c (by simp)
      have hnd' : noDoubleDollar run = true := by
        simp [noDoubleDollar] at hnd
        exact hnd.2
      have hs := hscan run hnd' (fun ch hch => hchars ch (by simp [hch])) []
        (['$', '{'] ++ [c])
        (some ⟨anon_sym_DOLLAR_LBRACE, [], ['$', '{'], c :: (run ++ rest)⟩)
      by_cases hc : c = '$'
      · subst hc
        have hhead : run.head? ≠ some '$' := by
          cases run with
          | nil => simp
          | cons d r =>
            simp [noDoubleDollar] at hnd
            simpa using hnd.1
        simpa [lexLoop, ts_lex_transition_52, markEnd, ts_lex_accept_52] using hs.2 hhead
      · simpa [lexLoop, ts_lex_transition_52, markEnd, ts_lex_accept_52, hc, h0, h1] using hs.1
  rcases hstart with rfl | rfl | rfl
  · simpa [ts_lex, lexLoop, ts_lex_transition_3, ts_lex_transition_9, markEnd, ts_lex_accept_3,
      ts_lex_accept_9] using h52
  · simpa [ts_lex, lexLoop, ts_lex_transition_4, ts_lex_transition_9, markEnd, ts_lex_accept_4,
      ts_lex_accept_9] using h52
  · simpa [ts_lex, lexLoop, ts_lex_transition_8, ts_lex_transition_9, markEnd, ts_lex_accept_8,
      ts_lex_accept_9] using h52

/-- A list without `$` has no `$$`. -/
theorem noDoubleDollar_of_no_dollar :
    ∀ (run : List Char), (∀ ch ∈ run, ch ≠ '$') → noDoubleDollar run = true := by
  intro run
  induction run with
  | nil => intro _; rfl
  | cons c run ih =>
    intro h
    have hc := h c (by simp)
    have htail := ih (fun ch hch => h ch (by simp [hch]))
    cases run with
    | nil => simp [noDoubleDollar]
    | cons d r =>
      have hunfold : noDoubleDollar (c :: d :: r)
          = (!(decide (c = '$') && decide (d = '$')) && noDoubleDollar (d :: r)) := rfl
      rw [hunfold, htail]
      simp [hc]

theorem lex_referenced_section (s rest : List Char) (hs : s ≠ [])
    (hchars : ∀ ch ∈ s, referencedSectionChar ch) :
    ts_lex (s ++ ':' :: rest) 14 = some ⟨sym_referenced_section, [], s, ':' :: rest⟩ := by
  obtain ⟨c, s', rfl⟩ := List.exists_cons_of_ne_nil hs
  have hrun := lexLoop_run (fun t => t = 55 ∨ t = 56) sym_referenced_section (':' :: rest)
    (by rintro t (rfl | rfl) <;> rfl)
    (by rintro t (rfl | rfl) <;> simp [stopsAt, ts_lex_transition_55, ts_lex_transition_56])
    s'
    (by
      rintro t (rfl | rfl) ch hch
      · obtain ⟨h0, h1, h2, h3, _⟩ := hchars ch (by simp [hch])
        by_cases hw : ch = '\t' ∨ ch = ' '
        · exact ⟨55, by simp, by simp [ts_lex_transition_55, hw]⟩
        · exact ⟨56, by simp, by simp [ts_lex_transition_55, hw, h0, h1, h2, h3]⟩
      · obtain ⟨h0, h1, h2, h3, _⟩ := hchars ch (by simp [hch])
        exact ⟨56, by simp, by simp [ts_lex_transition_56, h0, h1, h2, h3]⟩)
  obtain ⟨h0, h1, h2, h3, _⟩ := hchars c (by simp)
  by_cases hw : c = '\t' ∨ c = ' '
  · have := hrun 55 (by simp) [] [c] none
    simp [ts_lex, lexLoop, ts_lex_transition_14, hw, markEnd, ts_lex_accept_14, h2]
    simpa using this
  · have := hrun 56 (by simp) [] [c] none
    simp [ts_lex, lexLoop, ts_lex_transition_14, hw, markEnd, ts_lex_accept_14, h0, h1, h2, h3]
    simpa using this

theorem lex_referenced_option (o rest : List Char) (ho : o ≠ [])
    (hchars : ∀ ch ∈ o, referencedOptionChar ch) :
    ts_lex (o ++ '}' :: rest) 18 = some ⟨sym_referenced_option, [], o, '}' :: rest⟩ := by
  obtain ⟨c, o', rfl⟩ := List.exists_cons_of_ne_nil ho
  have hrun := lexLoop_run (fun t => t = 57 ∨ t = 58) sym_referenced_option ('}' :: rest)
    (by rintro t (rfl | rfl) <;> rfl)
    (by rintro t (rfl | rfl) <;> simp [stopsAt, ts_lex_transition_57, ts_lex_transition_58])
    o'
    (by
      rintro t (rfl | rfl) ch hch
      · obtain ⟨h0, h1, h3, _⟩ := hchars ch (by simp [hch])
        by_cases hw : ch = '\t' ∨ ch = ' '
        · exact ⟨57, by simp, by simp [ts_lex_transition_57, hw]⟩
        · exact ⟨58, by simp, by simp [ts_lex_transition_57, hw, h0, h1, h3]⟩
      · obtain ⟨h0, h1, h3, _⟩ := hchars ch (by simp [hch])
        exact ⟨58, by simp, by simp [ts_lex_transition_58, h0, h1, h3]⟩)
  obtain ⟨h0, h1, h3, _⟩ := hchars c (by simp)
  by_cases hw : c = '\t' ∨ c = ' '
  · have := hrun 57 (by simp) [] [c] none
    simp [ts_lex, lexLoop, ts_lex_transition_18, hw, markEnd, ts_lex_accept_18]
    simpa using this
  · have := hrun 58 (by simp) [] [c] none
    simp [ts_lex, lexLoop, ts_lex_transition_18, hw, markEnd, ts_lex_accept_18, h0, h1, h3]
    simpa using this

/-- One line break followed by something else, lexed from state 6 (after a
header) or state 4 (after a value): the token is the line break. -/
theorem lex_line_break (start loop sym : Nat)
    (h : (start = 6 ∧ loop = 27 ∧ sym = aux_sym_section_token1) ∨
      (start = 4 ∧ loop = 42 ∧ sym = aux_sym__option_value_mono_line_token1))
    (rest : List Char) (hrest : ∀ d, rest.head? = some d → d ≠ '\n') :
    ts_lex ('\n' :: rest) start = some ⟨sym, [], ['\n'], rest⟩ := by
  rcases h with ⟨rfl, rfl, rfl⟩ | ⟨rfl, rfl, rfl⟩
  · refine ts_lex_single 6 27 _ '\n' rest rfl (by simp [ts_lex_transition_6]) rfl ?_
    cases rest with
    | nil => simp [stopsAt, ts_lex_transition_27]
    | cons d r => simpa [stopsAt, ts_lex_transition_27] using hrest d (by simp)
  · refine ts_lex_single 4 42 _ '\n' rest rfl (by simp [ts_lex_transition_4]) rfl ?_
    cases rest with
    | nil => simp [stopsAt, ts_lex_transition_42]
    | cons d r => simpa [stopsAt, ts_lex_transition_42] using hrest d (by simp)

/-! ## Parses of the documents of the specification -/

theorem parse_header_with_condition (n c : List Char) (hn : n ≠ []) (hc : c ≠ [])
    (hnchars : ∀ ch ∈ n, sectionNameChar ch)
    (hcchars : ∀ ch ∈ c, sectionConditionChar ch) :
    ts_parser_parse ('[' :: (n ++ ':' :: (c ++ [']', '\n'])))
      = .accepted (.node sym_profile 0
          [ .leaf aux_sym_profile_token1 [] [],
            .node sym_section 1
              [ .node sym__section_header 3
                  [ .leaf anon_sym_LBRACK [] ['['],
                    .leaf sym_section_name [] n,
                    .leaf aux_sym__section_header_token1 [] [':'],
                    .leaf sym_section_condition [] c,
                    .leaf anon_sym_RBRACK [] [']'] ],
                .leaf aux_sym_section_token1 [] ['\n'] ],
            .leaf ts_builtin_sym_end [] [] ]) := by
  have l0 : ts_parser_lex 1 ('[' :: (n ++ ':' :: (c ++ [']', '\n'])))
      = some ⟨aux_sym_profile_token1, [], [], '[' :: (n ++ ':' :: (c ++ [']', '\n']))⟩ :=
    parser_lex_of_lex 1 _ _ (ts_lex_empty 26 aux_sym_profile_token1 _ rfl
      (by simp [stopsAt, ts_lex_transition_26]))
  have l1 : ts_parser_lex 7 ('[' :: (n ++ ':' :: (c ++ [']', '\n'])))
      = some ⟨anon_sym_LBRACK, [], ['['], n ++ ':' :: (c ++ [']', '\n'])⟩ :=
    parser_lex_of_lex 7 _ _ (ts_lex_single 0 28 anon_sym_LBRACK '[' _ rfl rfl rfl
      (stopsAt_of_no_transition 28 _ (fun _ _ => rfl)))
  have l2 : ts_parser_lex 42 (n ++ ':' :: (c ++ [']', '\n']))
      = some ⟨sym_section_name, [], n, ':' :: (c ++ [']', '\n'])⟩ :=
    parser_lex_of_lex 42 _ _ (lex_section_name n _ ':' hn hnchars (Or.inl rfl))
  have l3 : ts_parser_lex 27 (':' :: (c ++ [']', '\n']))
      = some ⟨aux_sym__section_header_token1, [], [':'], c ++ [']', '\n']⟩ :=
    parser_lex_of_lex 27 _ _ (ts_lex_single 16 29 aux_sym__section_header_token1 ':' _
      rfl rfl rfl (stopsAt_of_no_transition 29 _ (fun _ _ => rfl)))
  have l4 : ts_parser_lex 39 (c ++ [']', '\n'])
      = some ⟨sym_section_condition, [], c, [']', '\n']⟩ :=
    parser_lex_of_lex 39 _ _ (lex_section_condition c _ hc hcchars)
  have l5 : ts_parser_lex 34 [']', '\n'] = some ⟨anon_sym_RBRACK, [], [']'], ['\n']⟩ := by
    decide
  have l6 : ts_parser_lex 29 ['\n'] = some ⟨aux_sym_section_token1, [], ['\n'], []⟩ := by
    decide
  have l7 : ts_parser_lex 11 [] = some ⟨ts_builtin_sym_end, [], [], []⟩ := by
    decide
  unfold ts_parser_parse
  rw [l0]
  refine parseLoop_mono (by simp) 11 _ _ ?_ _ (by omega)
  refine parseLoop_next (parseStep_shift _ _ rfl l1) ?_
  refine parseLoop_next (parseStep_shift _ _ rfl l2) ?_
  refine parseLoop_next (parseStep_shift 27 false rfl l3) ?_
  refine parseLoop_next (parseStep_shift 39 false rfl l4) ?_
  refine parseLoop_next (parseStep_shift 34 false rfl l5) ?_
  refine parseLoop_next (parseStep_shift 29 false rfl l6) ?_
  refine parseLoop_next (parseStep_reduce _ _ _ rfl (by simp)) ?_
  refine parseLoop_next (parseStep_shift 11 false rfl l7) ?_
  refine parseLoop_next (parseStep_reduce sym_section 2 1 rfl (by simp)) ?_
  refine parseLoop_next (parseStep_reduce sym_profile 2 0 rfl (by simp)) ?_
  exact parseLoop_done rfl

theorem parse_bare_header (n : List Char) (hn : n ≠ [])
    (hnchars : ∀ ch ∈ n, sectionNameChar ch) :
    ts_parser_parse ('[' :: (n ++ [']', '\n']))
      = .accepted (.node sym_profile 0
          [ .leaf aux_sym_profile_token1 [] [],
            .node sym_section 1
              [ .node sym__section_header 2
                  [ .leaf anon_sym_LBRACK [] ['['],
                    .leaf sym_section_name [] n,
                    .leaf anon_sym_RBRACK [] [']'] ],
                .leaf aux_sym_section_token1 [] ['\n'] ],
            .leaf ts_builtin_sym_end [] [] ]) := by
  have l0 : ts_parser_lex 1 ('[' :: (n ++ [']', '\n']))
      = some ⟨aux_sym_profile_token1, [], [], '[' :: (n ++ [']', '\n'])⟩ :=
    parser_lex_of_lex 1 _ _ (ts_lex_empty 26 aux_sym_profile_token1 _ rfl
      (by simp [stopsAt, ts_lex_transition_26]))
  have l1 : ts_parser_lex 7 ('[' :: (n ++ [']', '\n']))
      = some ⟨anon_sym_LBRACK, [], ['['], n ++ [']', '\n']⟩ :=
    parser_lex_of_lex 7 _ _ (ts_lex_single 0 28 anon_sym_LBRACK '[' _ rfl rfl rfl
      (stopsAt_of_no_transition 28 _ (fun _ _ => rfl)))
  have l2 : ts_parser_lex 42 (n ++ [']', '\n'])
      = some ⟨sym_section_name, [], n, [']', '\n']⟩ :=
    parser_lex_of_lex 42 _ _ (lex_section_name n _ ']' hn hnchars (Or.inr rfl))
  have l3 : ts_parser_lex 27 [']', '\n'] = some ⟨anon_sym_RBRACK, [], [']'], ['\n']⟩ := by
    decide
  have l4 : ts_parser_lex 36 ['\n'] = some ⟨aux_sym_section_token1, [], ['\n'], []⟩ := by
    decide
  have l5 : ts_parser_lex 11 [] = some ⟨ts_builtin_sym_end, [], [], []⟩ := by
    decide
  unfold ts_parser_parse
  rw [l0]
  refine parseLoop_mono (by simp) 9 _ _ ?_ _ (by omega)
  refine parseLoop_next (parseStep_shift _ _ rfl l1) ?_
  refine parseLoop_next (parseStep_shift _ _ rfl l2) ?_
  refine parseLoop_next (parseStep_shift _ _ rfl l3) ?_
  refine parseLoop_next (parseStep_shift _ _ rfl l4) ?_
  refine parseLoop_next (parseStep_reduce _ _ _ rfl (by simp)) ?_
  refine parseLoop_next (parseStep_shift _ _ rfl l5) ?_
  refine parseLoop_next (parseStep_reduce _ _ _ rfl (by simp)) ?_
  refine parseLoop_next (parseStep_reduce _ _ _ rfl (by simp)) ?_
  exact parseLoop_done rfl

/-- The tokens of the header line `[a]` and its line break, and the parser
after them: in state 11 at the start of the first option line. -/
theorem parse_after_header_a (fuel : Nat) (rest : List Char) (next : Lexed)
    (outcome : ParseOutcome)
    (hfuel : fuel ≤ 90)
    (hrest : ∀ d, rest.head? = some d → d ≠ '\n')
    (hnext : ts_parser_lex 11 rest = some next)
    (hgo : parseLoop fuel
      [ (11, .leaf aux_sym_section_token1 [] ['\n']),
        (40, .node sym__section_header 2
          [ .leaf anon_sym_LBRACK [] ['['],
            .leaf sym_section_name [] ['a'],
            .leaf anon_sym_RBRACK [] [']'] ]),
        (7, .leaf aux_sym_profile_token1 [] []) ] next = outcome)
    (hout : outcome ≠ .outOfFuel) :
    ts_parser_parse ('[' :: 'a' :: ']' :: '\n' :: rest) = outcome := by
  have l0 : ts_parser_lex 1 ('[' :: 'a' :: ']' :: '\n' :: rest)
      = some ⟨aux_sym_profile_token1, [], [], '[' :: 'a' :: ']' :: '\n' :: rest⟩ :=
    parser_lex_of_lex 1 _ _ (ts_lex_empty 26 aux_sym_profile_token1 _ rfl
      (by simp [stopsAt, ts_lex_transition_26]))
  have l1 : ts_parser_lex 7 ('[' :: 'a' :: ']' :: '\n' :: rest)
      = some ⟨anon_sym_LBRACK, [], ['['], 'a' :: ']' :: '\n' :: rest⟩ :=
    parser_lex_of_lex 7 _ _ (ts_lex_single 0 28 anon_sym_LBRACK '[' _ rfl rfl rfl
      (stopsAt_of_no_transition 28 _ (fun _ _ => rfl)))
  have l2 : ts_parser_lex 42 ('a' :: ']' :: '\n' :: rest)
      = some ⟨sym_section_name, [], ['a'], ']' :: '\n' :: rest⟩ :=
    parser_lex_of_lex 42 _ _ (lex_section_name ['a'] _ ']' (by simp) (by decide) (Or.inr rfl))
  have l3 : ts_parser_lex 27 (']' :: '\n' :: rest)
      = some ⟨anon_sym_RBRACK, [], [']'], '\n' :: rest⟩ :=
    parser_lex_of_lex 27 _ _ (ts_lex_single 16 30 anon_sym_RBRACK ']' _ rfl rfl rfl
      (stopsAt_of_no_transition 30 _ (fun _ _ => rfl)))
  have l4 : ts_parser_lex 36 ('\n' :: rest)
      = some ⟨aux_sym_section_token1, [], ['\n'], rest⟩ :=
    parser_lex_of_lex 36 _ _ (lex_line_break 6 27 _ (Or.inl ⟨rfl, rfl, rfl⟩) rest hrest)
  unfold ts_parser_parse
  rw [l0]
  refine parseLoop_mono hout (fuel + 6) _ _ ?_ _ ?_
  · refine parseLoop_next (parseStep_shift _ _ rfl l1) ?_
    refine parseLoop_next (parseStep_shift _ _ rfl l2) ?_
    refine parseLoop_next (parseStep_shift _ _ rfl l3) ?_
    refine parseLoop_next (parseStep_shift _ _ rfl l4) ?_
    refine parseLoop_next (parseStep_reduce _ _ _ rfl (by simp)) ?_
    refine parseLoop_next (parseStep_shift _ _ rfl hnext) ?_
    exact hgo
  · simp only [List.length_cons]
    omega

theorem parse_one_option (k ws v : List Char) (hk : k ≠ [])
    (hkchars : ∀ ch ∈ k, optionNameChar ch)
    (hws : ∀ ch ∈ ws, spaceChar ch)
    (hv : v ≠ [])
    (hvhead : ∀ d, v.head? = some d → ¬ spaceChar d)
    (hvchars : ∀ ch ∈ v, plainTextChar ch) :
    ts_parser_parse ('[' :: 'a' :: ']' :: '\n' :: (k ++ ' ' :: '=' :: (ws ++ (v ++ ['\n']))))
      = .accepted (.node sym_profile 0
          [ .leaf aux_sym_profile_token1 [] [],
            .node sym_section 1
              [ .node sym__section_header 2
                  [ .leaf anon_sym_LBRACK [] ['['],
                    .leaf sym_section_name [] ['a'],
                    .leaf anon_sym_RBRACK [] [']'] ],
                .leaf aux_sym_section_token1 [] ['\n'],
                .node sym_option 0
                  [ .leaf sym_option_name [] k,
                    .leaf anon_sym_EQ [' '] ['='],
                    .leaf aux_sym_option_token1 [] ws,
                    .node sym_option_value 0
                      [ .node sym__option_value_mono_line 0
                          [ .leaf sym_option_text [] v,
                            .leaf aux_sym__option_value_mono_line_token1 [] ['\n'] ] ] ] ],
            .leaf ts_builtin_sym_end [] [] ]) := by
  obtain ⟨k0, k', rfl⟩ := List.exists_cons_of_ne_nil hk
  obtain ⟨v0, v', rfl⟩ := List.exists_cons_of_ne_nil hv
  have hk0 := hkchars k0 (by simp)
  have hv0 := hvhead v0 (by simp)
  have l5 : ts_parser_lex 11 (k0 :: k' ++ ' ' :: '=' :: (ws ++ (v0 :: v' ++ ['\n'])))
      = some ⟨sym_option_name, [], k0 :: k', ' ' :: '=' :: (ws ++ (v0 :: v' ++ ['\n']))⟩ :=
    parser_lex_of_lex 11 _ _ (lex_option_name 24 (Or.inr rfl) _ _ (by simp) hkchars)
  have l6 : ts_parser_lex 35 (' ' :: '=' :: (ws ++ (v0 :: v' ++ ['\n'])))
      = some ⟨anon_sym_EQ, [' '], ['='], ws ++ (v0 :: v' ++ ['\n'])⟩ :=
    parser_lex_of_lex 35 _ _ (lex_blank_equals _)
  have l7 : ts_parser_lex 33 (ws ++ (v0 :: v' ++ ['\n']))
      = some ⟨aux_sym_option_token1, [], ws, v0 :: v' ++ ['\n']⟩ :=
    parser_lex_of_lex 33 _ _ (lex_option_token1 ws _ hws (by simpa using hv0))
  have l8 : ts_parser_lex 6 (v0 :: v' ++ ['\n'])
      = some ⟨sym_option_text, [], v0 :: v', ['\n']⟩ :=
    parser_lex_of_lex 6 _ _ (lex_option_text 3 (Or.inl rfl) [] (v0 :: v') ['\n'] (by simp)
      (by simp) (by
        intro d hd
        have := hvhead d hd
        simp only [spaceChar, blankChar, not_or] at this ⊢
        exact ⟨this.1, this.2.2.2⟩) hvchars (by simp [lineEnds]))
  have l9 : ts_parser_lex 20 ['\n']
      = some ⟨aux_sym__option_value_mono_line_token1, [], ['\n'], []⟩ := by
    decide
  have l10 : ts_parser_lex 18 [] = some ⟨ts_builtin_sym_end, [], [], []⟩ := by
    decide
  refine parse_after_header_a 11 _ _ _ (by omega) (by simpa using hk0.2.2.1) l5 ?_ (by simp)
  refine parseLoop_next (parseStep_shift _ _ rfl l6) ?_
  refine parseLoop_next (parseStep_shift _ _ rfl l7) ?_
  refine parseLoop_next (parseStep_shift _ _ rfl l8) ?_
  refine parseLoop_next (parseStep_shift _ _ rfl l9) ?_
  refine parseLoop_next (parseStep_shift _ _ rfl l10) ?_
  refine parseLoop_next (parseStep_reduce _ _ _ rfl (by simp)) ?_
  refine parseLoop_next (parseStep_reduce _ _ _ rfl (by simp)) ?_
  refine parseLoop_next (parseStep_reduce _ _ _ rfl (by simp)) ?_
  refine parseLoop_next (parseStep_reduce _ _ _ rfl (by simp)) ?_
  refine parseLoop_next (parseStep_reduce _ _ _ rfl (by simp)) ?_
  exact parseLoop_done rfl

theorem parse_reference (s o : List Char) (hs : s ≠ []) (ho : o ≠ [])
    (hschars : ∀ ch ∈ s, referencedSectionChar ch)
    (hochars : ∀ ch ∈ o, referencedOptionChar ch) :
    ts_parser_parse ('[' :: 'a' :: ']' :: '\n' :: 'k' :: 'e' :: 'y' :: ' ' :: '=' :: ' ' ::
        '$' :: '{' :: (s ++ ':' :: (o ++ ['}', '\n'])))
      = .accepted (.node sym_profile 0
          [ .leaf aux_sym_profile_token1 [] [],
            .node sym_section 1
              [ .node sym__section_header 2
                  [ .leaf anon_sym_LBRACK [] ['['],
                    .leaf sym_section_name [] ['a'],
                    .leaf anon_sym_RBRACK [] [']'] ],
                .leaf aux_sym_section_token1 [] ['\n'],
                .node sym_option 0
                  [ .leaf sym_option_name [] ['k', 'e', 'y'],
                    .leaf anon_sym_EQ [' '] ['='],
                    .leaf aux_sym_option_token1 [] [' '],
                    .node sym_option_value 0
                      [ .node sym__option_value_mono_line 0
                          [ .node sym_option_with_reference 5
                              [ .leaf anon_sym_DOLLAR_LBRACE [] ['$', '{'],
                                .leaf sym_referenced_section [] s,
                                .leaf anon_sym_COLON [] [':'],
                                .leaf sym_referenced_option [] o,
                                .leaf anon_sym_RBRACE [] ['}'] ],
                            .leaf aux_sym__option_value_mono_line_token1 [] ['\n'] ] ] ] ],
            .leaf ts_builtin_sym_end [] [] ]) := by
  have l5 : ts_parser_lex 11 ('k' :: 'e' :: 'y' :: ' ' :: '=' :: ' ' ::
        '$' :: '{' :: (s ++ ':' :: (o ++ ['}', '\n'])))
      = some ⟨sym_option_name, [], ['k', 'e', 'y'], ' ' :: '=' :: ' ' ::
        '$' :: '{' :: (s ++ ':' :: (o ++ ['}', '\n']))⟩ :=
    parser_lex_of_lex 11 _ _ (lex_option_name 24 (Or.inr rfl) ['k', 'e', 'y'] _ (by simp)
      (by decide))
  have l6 : ts_parser_lex 35 (' ' :: '=' :: ' ' :: '$' :: '{' :: (s ++ ':' :: (o ++ ['}', '\n'])))
      = some ⟨anon_sym_EQ, [' '], ['='], ' ' :: '$' :: '{' :: (s ++ ':' :: (o ++ ['}', '\n']))⟩ :=
    parser_lex_of_lex 35 _ _ (lex_blank_equals _)
  have l7 : ts_parser_lex 33 (' ' :: '$' :: '{' :: (s ++ ':' :: (o ++ ['}', '\n'])))
      = some ⟨aux_sym_option_token1, [], [' '], '$' :: '{' :: (s ++ ':' :: (o ++ ['}', '\n']))⟩ :=
    parser_lex_of_lex 33 _ _ (lex_option_token1 [' '] _ (by decide) (by simp))
  have hline : ∀ ch ∈ s ++ ':' :: (o ++ ['}']), ch ≠ '\x00' ∧ ch ≠ '\n' ∧ ch ≠ '$' := by
    intro ch hch
    simp only [List.mem_append, List.mem_cons, List.mem_singleton, List.not_mem_nil,
      or_false] at hch
    rcases hch with h | rfl | h | rfl
    · exact ⟨(hschars ch h).1, (hschars ch h).2.1, (hschars ch h).2.2.2.2⟩
    · decide
    · exact ⟨(hochars ch h).1, (hochars ch h).2.1, (hochars ch h).2.2.2⟩
    · decide
  have l8 : ts_parser_lex 6 ('$' :: '{' :: (s ++ ':' :: (o ++ ['}', '\n'])))
      = some ⟨anon_sym_DOLLAR_LBRACE, [], ['$', '{'], s ++ ':' :: (o ++ ['}', '\n'])⟩ := by
    have := lex_dollar_lbrace 3 (Or.inl rfl) (s ++ ':' :: (o ++ ['}'])) ['\n']
      (noDoubleDollar_of_no_dollar _ (fun ch hch => (hline ch hch).2.2))
      (fun ch hch => ⟨(hline ch hch).1, (hline ch hch).2.1⟩) (by simp [lineEnds])
    exact parser_lex_of_lex 6 _ _ (by simpa using this)
  have l9 : ts_parser_lex 28 (s ++ ':' :: (o ++ ['}', '\n']))
      = some ⟨sym_referenced_section, [], s, ':' :: (o ++ ['}', '\n'])⟩ :=
    parser_lex_of_lex 28 _ _ (lex_referenced_section s _ hs hschars)
  have l10 : ts_parser_lex 30 (':' :: (o ++ ['}', '\n']))
      = some ⟨anon_sym_COLON, [], [':'], o ++ ['}', '\n']⟩ :=
    parser_lex_of_lex 30 _ _ (ts_lex_single 15 53 anon_sym_COLON ':' _ rfl rfl rfl
      (stopsAt_of_no_transition 53 _ (fun _ _ => rfl)))
  have l11 : ts_parser_lex 38 (o ++ ['}', '\n'])
      = some ⟨sym_referenced_option, [], o, ['}', '\n']⟩ :=
    parser_lex_of_lex 38 _ _ (lex_referenced_option o _ ho hochars)
  have l12 : ts_parser_lex 41 ['}', '\n'] = some ⟨anon_sym_RBRACE, [], ['}'], ['\n']⟩ := by
    decide
  have l13 : ts_parser_lex 26 ['\n']
      = some ⟨aux_sym__option_value_mono_line_token1, [], ['\n'], []⟩ := by
    decide
  have l14 : ts_parser_lex 18 [] = some ⟨ts_builtin_sym_end, [], [], []⟩ := by
    decide
  refine parse_after_header_a 17 _ _ _ (by omega) (by simp) l5 ?_ (by simp)
  refine parseLoop_next (parseStep_shift _ _ rfl l6) ?_
  refine parseLoop_next (parseStep_shift _ _ rfl l7) ?_
  refine parseLoop_next (parseStep_shift _ _ rfl l8) ?_
  refine parseLoop_next (parseStep_shift _ _ rfl l9) ?_
  refine parseLoop_next (parseStep_shift _ _ rfl l10) ?_
  refine parseLoop_next (parseStep_shift _ _ rfl l11) ?_
  refine parseLoop_next (parseStep_shift _ _ rfl l12) ?_
  refine parseLoop_next (parseStep_shift _ _ rfl l13) ?_
  refine parseLoop_next (parseStep_reduce _ _ _ rfl (by simp)) ?_
  refine parseLoop_next (parseStep_shift _ _ rfl l14) ?_
  refine parseLoop_next (parseStep_reduce _ _ _ rfl (by simp)) ?_
  refine parseLoop_next (parseStep_reduce _ _ _ rfl (by simp)) ?_
  refine parseLoop_next (parseStep_reduce _ _ _ rfl (by simp)) ?_
  refine parseLoop_next (parseStep_reduce _ _ _ rfl (by simp)) ?_
  refine parseLoop_next (parseStep_reduce _ _ _ rfl (by simp)) ?_
  exact parseLoop_done rfl

theorem parse_reference_same_section (o : List Char) (ho : o ≠ [])
    (hochars : ∀ ch ∈ o, referencedOptionChar ch) :
    ts_parser_parse ('[' :: 'a' :: ']' :: '\n' :: 'k' :: 'e' :: 'y' :: ' ' :: '=' :: ' ' ::
        '$' :: '{' :: ':' :: (o ++ ['}', '\n']))
      = .accepted (.node sym_profile 0
          [ .leaf aux_sym_profile_token1 [] [],
            .node sym_section 1
              [ .node sym__section_header 2
                  [ .leaf anon_sym_LBRACK [] ['['],
                    .leaf sym_section_name [] ['a'],
                    .leaf anon_sym_RBRACK [] [']'] ],
                .leaf aux_sym_section_token1 [] ['\n'],
                .node sym_option 0
                  [ .leaf sym_option_name [] ['k', 'e', 'y'],
                    .leaf anon_sym_EQ [' '] ['='],
                    .leaf aux_sym_option_token1 [] [' '],
                    .node sym_option_value 0
                      [ .node sym__option_value_mono_line 0
                          [ .node sym_option_with_reference 4
                              [ .leaf anon_sym_DOLLAR_LBRACE [] ['$', '{'],
                                .leaf anon_sym_COLON [] [':'],
                                .leaf sym_referenced_option [] o,
                                .leaf anon_sym_RBRACE [] ['}'] ],
                            .leaf aux_sym__option_value_mono_line_token1 [] ['\n'] ] ] ] ],
            .leaf ts_builtin_sym_end [] [] ]) := by
  have l5 : ts_parser_lex 11 ('k' :: 'e' :: 'y' :: ' ' :: '=' :: ' ' ::
        '$' :: '{' :: ':' :: (o ++ ['}', '\n']))
      = some ⟨sym_option_name, [], ['k', 'e', 'y'], ' ' :: '=' :: ' ' ::
        '$' :: '{' :: ':' :: (o ++ ['}', '\n'])⟩ :=
    parser_lex_of_lex 11 _ _ (lex_option_name 24 (Or.inr rfl) ['k', 'e', 'y'] _ (by simp)
      (by decide))
  have l6 : ts_parser_lex 35 (' ' :: '=' :: ' ' :: '$' :: '{' :: ':' :: (o ++ ['}', '\n']))
      = some ⟨anon_sym_EQ, [' '], ['='], ' ' :: '$' :: '{' :: ':' :: (o ++ ['}', '\n'])⟩ :=
    parser_lex_of_lex 35 _ _ (lex_blank_equals _)
  have l7 : ts_parser_lex 33 (' ' :: '$' :: '{' :: ':' :: (o ++ ['}', '\n']))
      = some ⟨aux_sym_option_token1, [], [' '], '$' :: '{' :: ':' :: (o ++ ['}', '\n'])⟩ :=
    parser_lex_of_lex 33 _ _ (lex_option_token1 [' '] _ (by decide) (by simp))
  have hline : ∀ ch ∈ ':' :: (o ++ ['}']), ch ≠ '\x00' ∧ ch ≠ '\n' ∧ ch ≠ '$' := by
    intro ch hch
    simp only [List.mem_append, List.mem_cons, List.mem_singleton, List.not_mem_nil,
      or_false] at hch
    rcases hch with rfl | h | rfl
    · decide
    · exact ⟨(hochars ch h).1, (hochars ch h).2.1, (hochars ch h).2.2.2⟩
    · decide
  have l8 : ts_parser_lex 6 ('$' :: '{' :: ':' :: (o ++ ['}', '\n']))
      = some ⟨anon_sym_DOLLAR_LBRACE, [], ['$', '{'], ':' :: (o ++ ['}', '\n'])⟩ := by
    have := lex_dollar_lbrace 3 (Or.inl rfl) (':' :: (o ++ ['}'])) ['\n']
      (noDoubleDollar_of_no_dollar _ (fun ch hch => (hline ch hch).2.2))
      (fun ch hch => ⟨(hline ch hch).1, (hline ch hch).2.1⟩) (by simp [lineEnds])
    exact parser_lex_of_lex 6 _ _ (by simpa using this)
  have l9 : ts_parser_lex 28 (':' :: (o ++ ['}', '\n']))
      = some ⟨anon_sym_COLON, [], [':'], o ++ ['}', '\n']⟩ :=
    parser_lex_of_lex 28 _ _ (ts_lex_single 14 53 anon_sym_COLON ':' _ rfl rfl rfl
      (stopsAt_of_no_transition 53 _ (fun _ _ => rfl)))
  have l11 : ts_parser_lex 31 (o ++ ['}', '\n'])
      = some ⟨sym_referenced_option, [], o, ['}', '\n']⟩ :=
    parser_lex_of_lex 31 _ _ (lex_referenced_option o _ ho hochars)
  have l12 : ts_parser_lex 37 ['}', '\n'] = some ⟨anon_sym_RBRACE, [], ['}'], ['\n']⟩ := by
    decide
  have l13 : ts_parser_lex 25 ['\n']
      = some ⟨aux_sym__option_value_mono_line_token1, [], ['\n'], []⟩ := by
    decide
  have l14 : ts_parser_lex 18 [] = some ⟨ts_builtin_sym_end, [], [], []⟩ := by
    decide
  refine parse_after_header_a 16 _ _ _ (by omega) (by simp) l5 ?_ (by simp)
  refine parseLoop_next (parseStep_shift _ _ rfl l6) ?_
  refine parseLoop_next (parseStep_shift _ _ rfl l7) ?_
  refine parseLoop_next (parseStep_shift _ _ rfl l8) ?_
  refine parseLoop_next (parseStep_shift _ _ rfl l9) ?_
  refine parseLoop_next (parseStep_shift _ _ rfl l11) ?_
  refine parseLoop_next (parseStep_shift _ _ rfl l12) ?_
  refine parseLoop_next (parseStep_shift _ _ rfl l13) ?_
  refine parseLoop_next (parseStep_reduce _ _ _ rfl (by simp)) ?_
  refine parseLoop_next (parseStep_shift _ _ rfl l14) ?_
  refine parseLoop_next (parseStep_reduce _ _ _ rfl (by simp)) ?_
  refine parseLoop_next (parseStep_reduce _ _ _ rfl (by simp)) ?_
  refine parseLoop_next (parseStep_reduce _ _ _ rfl (by simp)) ?_
  refine parseLoop_next (parseStep_reduce _ _ _ rfl (by simp)) ?_
  refine parseLoop_next (parseStep_reduce _ _ _ rfl (by simp)) ?_
  exact parseLoop_done rfl

theorem parse_two_options (indent k1 v1 k2 v2 : List Char)
    (hindent : ∀ ch ∈ indent, blankChar ch)
    (hk1 : k1 ≠ []) (hk1chars : ∀ ch ∈ k1, optionNameChar ch)
    (hv1 : v1 ≠ []) (hv1head : ∀ d, v1.head? = some d → ¬ spaceChar d)
    (hv1chars : ∀ ch ∈ v1, plainTextChar ch)
    (hk2 : k2 ≠ []) (hk2chars : ∀ ch ∈ k2, optionNameChar ch)
    (hv2 : v2 ≠ []) (hv2head : ∀ d, v2.head? = some d → ¬ spaceChar d)
    (hv2chars : ∀ ch ∈ v2, plainTextChar ch) :
    ts_parser_parse ('[' :: 'a' :: ']' :: '\n' :: (indent ++
        (k1 ++ ' ' :: '=' :: ' ' :: (v1 ++ '\n' :: (k2 ++ ' ' :: '=' :: ' ' :: (v2 ++ ['\n']))))))
      = .accepted (.node sym_profile 0
          [ .leaf aux_sym_profile_token1 [] [],
            .node sym_section 1
              [ .node sym__section_header 2
                  [ .leaf anon_sym_LBRACK [] ['['],
                    .leaf sym_section_name [] ['a'],
                    .leaf anon_sym_RBRACK [] [']'] ],
                .leaf aux_sym_section_token1 [] ['\n'],
                .node aux_sym_section_repeat1 0
                  [ .node sym_option 0
                      [ .leaf sym_option_name indent k1,
                        .leaf anon_sym_EQ [' '] ['='],
                        .leaf aux_sym_option_token1 [] [' '],
                        .node sym_option_value 0
                          [ .node sym__option_value_mono_line 0
                              [ .leaf sym_option_text [] v1,
                                .leaf aux_sym__option_value_mono_line_token1 [] ['\n'] ] ] ],
                    .node sym_option 0
                      [ .leaf sym_option_name [] k2,
                        .leaf anon_sym_EQ [' '] ['='],
                        .leaf aux_sym_option_token1 [] [' '],
                        .node sym_option_value 0
                          [ .node sym__option_value_mono_line 0
                              [ .leaf sym_option_text [] v2,
                                .leaf aux_sym__option_value_mono_line_token1 [] ['\n'] ] ] ] ] ],
            .leaf ts_builtin_sym_end [] [] ]) := by
  obtain ⟨a1, k1', rfl⟩ := List.exists_cons_of_ne_nil hk1
  obtain ⟨b1, v1', rfl⟩ := List.exists_cons_of_ne_nil hv1
  obtain ⟨a2, k2', rfl⟩ := List.exists_cons_of_ne_nil hk2
  obtain ⟨b2, v2', rfl⟩ := List.exists_cons_of_ne_nil hv2
  have ha1 := hk1chars a1 (by simp)
  have ha2 := hk2chars a2 (by simp)
  have hb1 := hv1head b1 (by simp)
  have hb2 := hv2head b2 (by simp)
  have hblank : ∀ ch ∈ [' '], spaceChar ch := by decide
  have l5 : ts_parser_lex 11 (indent ++ (a1 :: k1' ++ ' ' :: '=' :: ' ' ::
        (b1 :: v1' ++ '\n' :: (a2 :: k2' ++ ' ' :: '=' :: ' ' :: (b2 :: v2' ++ ['\n'])))))
      = some ⟨sym_option_name, indent, a1 :: k1', ' ' :: '=' :: ' ' ::
        (b1 :: v1' ++ '\n' :: (a2 :: k2' ++ ' ' :: '=' :: ' ' :: (b2 :: v2' ++ ['\n'])))⟩ :=
    parser_lex_of_lex 11 _ _ (lex_option_name_indented indent _ _ hindent (by simp) hk1chars)
  have hfirst : ∀ d, (indent ++ (a1 :: k1' ++ ' ' :: '=' :: ' ' ::
        (b1 :: v1' ++ '\n' :: (a2 :: k2' ++ ' ' :: '=' :: ' ' :: (b2 :: v2' ++ ['\n']))))).head?
      = some d → d ≠ '\n' := by
    intro d hd
    cases indent with
    | nil =>
      simp at hd
      exact hd ▸ ha1.2.2.1
    | cons b indent =>
      simp at hd
      rcases hindent b (by simp) with rfl | rfl <;> (subst hd; decide)
  have l6 : ts_parser_lex 35 (' ' :: '=' :: ' ' ::
        (b1 :: v1' ++ '\n' :: (a2 :: k2' ++ ' ' :: '=' :: ' ' :: (b2 :: v2' ++ ['\n']))))
      = some ⟨anon_sym_EQ, [' '], ['='], ' ' ::
        (b1 :: v1' ++ '\n' :: (a2 :: k2' ++ ' ' :: '=' :: ' ' :: (b2 :: v2' ++ ['\n'])))⟩ :=
    parser_lex_of_lex 35 _ _ (lex_blank_equals _)
  have l7 : ts_parser_lex 33 (' ' ::
        (b1 :: v1' ++ '\n' :: (a2 :: k2' ++ ' ' :: '=' :: ' ' :: (b2 :: v2' ++ ['\n']))))
      = some ⟨aux_sym_option_token1, [], [' '],
        b1 :: v1' ++ '\n' :: (a2 :: k2' ++ ' ' :: '=' :: ' ' :: (b2 :: v2' ++ ['\n']))⟩ :=
    parser_lex_of_lex 33 _ _ (lex_option_token1 [' '] _ hblank (by simpa using hb1))
  have l8 : ts_parser_lex 6
        (b1 :: v1' ++ '\n' :: (a2 :: k2' ++ ' ' :: '=' :: ' ' :: (b2 :: v2' ++ ['\n'])))
      = some ⟨sym_option_text, [], b1 :: v1',
        '\n' :: (a2 :: k2' ++ ' ' :: '=' :: ' ' :: (b2 :: v2' ++ ['\n']))⟩ :=
    parser_lex_of_lex 6 _ _ (lex_option_text 3 (Or.inl rfl) [] (b1 :: v1') _ (by simp)
      (by simp) (by
        intro d hd
        have := hv1head d hd
        simp only [spaceChar, blankChar, not_or] at this ⊢
        exact ⟨this.1, this.2.2.2⟩) hv1chars (by simp [lineEnds]))
  have l9 : ts_parser_lex 20
        ('\n' :: (a2 :: k2' ++ ' ' :: '=' :: ' ' :: (b2 :: v2' ++ ['\n'])))
      = some ⟨aux_sym__option_value_mono_line_token1, [], ['\n'],
        a2 :: k2' ++ ' ' :: '=' :: ' ' :: (b2 :: v2' ++ ['\n'])⟩ :=
    parser_lex_of_lex 20 _ _ (lex_line_break 4 42 _ (Or.inr ⟨rfl, rfl, rfl⟩) _
      (by simpa using ha2.2.2.1))
  have l10 : ts_parser_lex 18 (a2 :: k2' ++ ' ' :: '=' :: ' ' :: (b2 :: v2' ++ ['\n']))
      = some ⟨sym_option_name, [], a2 :: k2', ' ' :: '=' :: ' ' :: (b2 :: v2' ++ ['\n'])⟩ :=
    parser_lex_of_lex 18 _ _ (lex_option_name 23 (Or.inl rfl) _ _ (by simp) hk2chars)
  have l11 : ts_parser_lex 35 (' ' :: '=' :: ' ' :: (b2 :: v2' ++ ['\n']))
      = some ⟨anon_sym_EQ, [' '], ['='], ' ' :: (b2 :: v2' ++ ['\n'])⟩ :=
    parser_lex_of_lex 35 _ _ (lex_blank_equals _)
  have l12 : ts_parser_lex 33 (' ' :: (b2 :: v2' ++ ['\n']))
      = some ⟨aux_sym_option_token1, [], [' '], b2 :: v2' ++ ['\n']⟩ :=
    parser_lex_of_lex 33 _ _ (lex_option_token1 [' '] _ hblank (by simpa using hb2))
  have l13 : ts_parser_lex 6 (b2 :: v2' ++ ['\n'])
      = some ⟨sym_option_text, [], b2 :: v2', ['\n']⟩ :=
    parser_lex_of_lex 6 _ _ (lex_option_text 3 (Or.inl rfl) [] (b2 :: v2') ['\n'] (by simp)
      (by simp) (by
        intro d hd
        have := hv2head d hd
        simp only [spaceChar, blankChar, not_or] at this ⊢
        exact ⟨this.1, this.2.2.2⟩) hv2chars (by simp [lineEnds]))
  have l14 : ts_parser_lex 20 ['\n']
      = some ⟨aux_sym__option_value_mono_line_token1, [], ['\n'], []⟩ := by
    decide
  have l15 : ts_parser_lex 18 [] = some ⟨ts_builtin_sym_end, [], [], []⟩ := by
    decide
  refine parse_after_header_a 20 _ _ _ (by omega) hfirst l5 ?_ (by simp)
  refine parseLoop_next (parseStep_shift _ _ rfl l6) ?_
  refine parseLoop_next (parseStep_shift _ _ rfl l7) ?_
  refine parseLoop_next (parseStep_shift _ _ rfl l8) ?_
  refine parseLoop_next (parseStep_shift _ _ rfl l9) ?_
  refine parseLoop_next (parseStep_shift _ _ rfl l10) ?_
  refine parseLoop_next (parseStep_reduce _ _ _ rfl (by simp)) ?_
  refine parseLoop_next (parseStep_reduce _ _ _ rfl (by simp)) ?_
  refine parseLoop_next (parseStep_reduce _ _ _ rfl (by simp)) ?_
  refine parseLoop_next (parseStep_shift _ _ rfl l11) ?_
  refine parseLoop_next (parseStep_shift _ _ rfl l12) ?_
  refine parseLoop_next (parseStep_shift _ _ rfl l13) ?_
  refine parseLoop_next (parseStep_shift _ _ rfl l14) ?_
  refine parseLoop_next (parseStep_shift _ _ rfl l15) ?_
  refine parseLoop_next (parseStep_reduce _ _ _ rfl (by simp)) ?_
  refine parseLoop_next (parseStep_reduce _ _ _ rfl (by simp)) ?_
  refine parseLoop_next (parseStep_reduce _ _ _ rfl (by simp)) ?_
  refine parseLoop_next (parseStep_reduce _ _ _ rfl (by simp)) ?_
  refine parseLoop_next (parseStep_reduce _ _ _ rfl (by simp)) ?_
  refine parseLoop_next (parseStep_reduce _ _ _ rfl (by simp)) ?_
  exact parseLoop_done rfl

theorem parse_bare_option_at_end (k : List Char) (hk : k ≠ [])
    (hkchars : ∀ ch ∈ k, optionNameChar ch) :
    ts_parser_parse ('[' :: 'a' :: ']' :: '\n' :: (k ++ [' ', '=', '\n']))
      = .syntaxError 6 [] := by
  obtain ⟨k0, k', rfl⟩ := List.exists_cons_of_ne_nil hk
  have hk0 := hkchars k0 (by simp)
  have l5 : ts_parser_lex 11 (k0 :: k' ++ [' ', '=', '\n'])
      = some ⟨sym_option_name, [], k0 :: k', [' ', '=', '\n']⟩ :=
    parser_lex_of_lex 11 _ _ (lex_option_name 24 (Or.inr rfl) _ _ (by simp) hkchars)
  have l6 : ts_parser_lex 35 [' ', '=', '\n'] = some ⟨anon_sym_EQ, [' '], ['='], ['\n']⟩ := by
    decide
  have l7 : ts_parser_lex 33 ['\n'] = some ⟨aux_sym_option_token1, [], ['\n'], []⟩ := by
    decide
  have l8 : ts_parser_lex 6 [] = some ⟨ts_builtin_sym_end, [], [], []⟩ := by
    decide
  refine parse_after_header_a 4 _ _ _ (by omega) (by simpa using hk0.2.2.1) l5 ?_ (by simp)
  refine parseLoop_next (parseStep_shift _ _ rfl l6) ?_
  refine parseLoop_next (parseStep_shift _ _ rfl l7) ?_
  refine parseLoop_next (parseStep_shift _ _ rfl l8) ?_
  exact parseLoop_done rfl

/-! ## Section headers -/

/-- C2: for every non-empty section name `n` (no NUL, newline, `:`, `[`,
`]`), parsing `"[n]\n"` is accepted and yields exactly one section, whose
`section_name` field is `n` and which has no `section_condition` field; the
header is the production of three children, which carries only
`section_name`. -/
theorem C2_bare_section_header (n : List Char) (hn : n ≠ [])
    (hnchars : ∀ ch ∈ n, sectionNameChar ch) :
    ∃ tree sec header,
      ts_parser_parse ('[' :: (n ++ [']', '\n'])) = .accepted tree ∧
      tree.sections = [sec] ∧
      sec.fieldText field_section_name = some n ∧
      sec.childByField field_section_condition = none ∧
      sec = .node sym_section 1 [header, .leaf aux_sym_section_token1 [] ['\n']] ∧
      header = .node sym__section_header 2
        [ .leaf anon_sym_LBRACK [] ['['],
          .leaf sym_section_name [] n,
          .leaf anon_sym_RBRACK [] [']'] ] ∧
      fieldEntries 2 = [⟨field_section_name, 1, false⟩] :=
  ⟨_, _, _, parse_bare_header n hn hnchars, rfl, rfl, rfl, rfl, rfl, rfl⟩

/-- C2 at `"[foo]\n"`: one section named `foo` without a condition. -/
theorem C2_bare_section_header_witness :
    ("foo".toList ≠ [] ∧ (∀ ch ∈ "foo".toList, sectionNameChar ch)) ∧
    ∃ tree sec header,
      ts_parser_parse "[foo]\n".toList = .accepted tree ∧
      tree.sections = [sec] ∧
      sec.fieldText field_section_name = some "foo".toList ∧
      sec.childByField field_section_condition = none ∧
      sec = .node sym_section 1 [header, .leaf aux_sym_section_token1 [] ['\n']] ∧
      header = .node sym__section_header 2
        [ .leaf anon_sym_LBRACK [] ['['],
          .leaf sym_section_name [] "foo".toList,
          .leaf anon_sym_RBRACK [] [']'] ] ∧
      fieldEntries 2 = [⟨field_section_name, 1, false⟩] :=
  ⟨⟨by decide, by decide⟩, C2_bare_section_header "foo".toList (by decide) (by decide)⟩

/-! ## Options -/

/-- C4: parsing `"[a]\nkey =\n  line1\n  line2\n"` is accepted and yields
exactly one option, named `key`, whose value holds continuation lines and has
exactly two text segments, `line1` and `line2`, in that order; the
indentation of the lines is in the hidden tokens `option_token1` and
`_option_value_multi_line_token1`, not in the segments. -/
theorem C4_multi_line_option :
    ∃ tree sec opt value,
      ts_parser_parse "[a]\nkey =\n  line1\n  line2\n".toList = .accepted tree ∧
      tree.sections = [sec] ∧
      sec.options = [opt] ∧
      opt.optionNames = ["key".toList] ∧
      opt.optionValues = [value] ∧
      value.isMultiLine = true ∧
      value.segments = [.text "line1".toList, .text "line2".toList] ∧
      opt.tokens.map (fun t => (t.symbol, t.text))
        = [ (sym_option_name, "key".toList),
            (anon_sym_EQ, "=".toList),
            (aux_sym_option_token1, "\n  ".toList),
            (sym_option_text, "line1".toList),
            (aux_sym__option_value_mono_line_token1, "\n".toList),
            (aux_sym__option_value_multi_line_token1, "  ".toList),
            (sym_option_text, "line2".toList),
            (aux_sym__option_value_mono_line_token1, "\n".toList) ] :=
  ⟨_, _, _, _, rfl, rfl, rfl, rfl, rfl, rfl, rfl, rfl⟩

/-! ## References -/

/-- C5: for all non-empty reference names `s` (no NUL, newline, `:`, `}`,
`$`) and `o` (no NUL, newline, `}`, `$`): parsing `[a]\nkey = ${s:o}\n`
yields a reference segment whose `referenced_section` field is `s` and whose
`referenced_option` field is `o`, and parsing `[a]\nkey = ${:o}\n` yields a
reference segment with `referenced_option` `o` and no `referenced_section`
field. -/
theorem C5_reference_forms (s o : List Char) (hs : s ≠ []) (ho : o ≠ [])
    (hschars : ∀ ch ∈ s, referencedSectionChar ch)
    (hochars : ∀ ch ∈ o, referencedOptionChar ch) :
    (∃ tree sec opt value,
      ts_parser_parse ("[a]\nkey = ".toList ++ '$' :: '{' :: (s ++ ':' :: (o ++ ['}', '\n'])))
        = .accepted tree ∧
      tree.sections = [sec] ∧ sec.options = [opt] ∧ opt.optionValues = [value] ∧
      value.segments = [.reference (some s) (some o)]) ∧
    (∃ tree sec opt value reference,
      ts_parser_parse ("[a]\nkey = ".toList ++ '$' :: '{' :: ':' :: (o ++ ['}', '\n']))
        = .accepted tree ∧
      tree.sections = [sec] ∧ sec.options = [opt] ∧ opt.optionValues = [value] ∧
      value.segments = [.reference none (some o)] ∧
      value.childrenOf sym_option_with_reference = [reference] ∧
      reference.childByField field_referenced_section = none) :=
  ⟨⟨_, _, _, _, parse_reference s o hs ho hschars hochars, rfl, rfl, rfl, rfl⟩,
    ⟨_, _, _, _, _, parse_reference_same_section o ho hochars, rfl, rfl, rfl, rfl, rfl, rfl⟩⟩

/-- C5 at `${b:c}` and `${:c}`. -/
theorem C5_reference_forms_witness :
    ("b".toList ≠ [] ∧ "c".toList ≠ [] ∧
      (∀ ch ∈ "b".toList, referencedSectionChar ch) ∧
      (∀ ch ∈ "c".toList, referencedOptionChar ch)) ∧
    (∃ tree sec opt value,
      ts_parser_parse "[a]\nkey = ${b:c}\n".toList = .accepted tree ∧
      tree.sections = [sec] ∧ sec.options = [opt] ∧ opt.optionValues = [value] ∧
      value.segments = [.reference (some "b".toList) (some "c".toList)]) ∧
    (∃ tree sec opt value reference,
      ts_parser_parse "[a]\nkey = ${:c}\n".toList = .accepted tree ∧
      tree.sections = [sec] ∧ sec.options = [opt] ∧ opt.optionValues = [value] ∧
      value.segments = [.reference none (some "c".toList)] ∧
      value.childrenOf sym_option_with_reference = [reference] ∧
      reference.childByField field_referenced_section = none) :=
  ⟨⟨by decide, by decide, by decide, by decide⟩,
    C5_reference_forms "b".toList "c".toList (by decide) (by decide) (by decide) (by decide)⟩

/-! ## Comments -/

/-- C6, the claim fails: in the parse of `"# intro\n[a]\n; note\nkey = v\n"`
the comment `; note` is a child of the section node. -/
theorem C6_comment_in_section :
    ∃ tree sec,
      ts_parser_parse "# intro\n[a]\n; note\nkey = v\n".toList = .accepted tree ∧
      tree.sections = [sec] ∧
      sec.visibleChildren.map Tree.symbol
        = [anon_sym_LBRACK, sym_section_name, anon_sym_RBRACK, sym_comment, sym_option] ∧
      (sec.visibleChildren.filter (fun c => c.symbol = sym_comment)).map Tree.text
        = ["; note\n".toList] :=
  ⟨_, _, rfl, rfl, rfl, rfl⟩

/-- C6 as amended: parsing `"# intro\n[a]\n; note\nkey = v\n"` is accepted and
yields the same sections and options (names, values, order) as parsing
`"[a]\nkey = v\n"`; the comment before the header is a child of the root, the
comment in the section body is a child of the section node, and no comment is
a child of an option node. -/
theorem C6_comment_tolerance :
    ∃ tree plain sec,
      ts_parser_parse "# intro\n[a]\n; note\nkey = v\n".toList = .accepted tree ∧
      ts_parser_parse "[a]\nkey = v\n".toList = .accepted plain ∧
      tree.document = plain.document ∧
      plain.document = [⟨some ['a'], none, [⟨["key".toList], [[.text ['v']]]⟩]⟩] ∧
      tree.comments.map Tree.text = ["# intro\n".toList] ∧
      tree.sections = [sec] ∧
      sec.comments.map Tree.text = ["; note\n".toList] ∧
      sec.options.map Tree.comments = [[]] :=
  ⟨_, _, _, rfl, rfl, rfl, rfl, rfl, rfl, rfl, rfl⟩

/-! ## Where an option value ends -/

/-- C7, the claim fails at its own witness: parsing `"[a]\nk1 =\nk2 = v\n"`
gives one option `k1`, whose value is the text `k2 = v`.  It also fails for
two option lines at an equal indentation of two blanks: in
`"[a]\n  k1 = v\n  k2 = w\n"` the second line is a continuation line of the
value of `k1`. -/
theorem C7_bare_option_takes_next_line :
    (∃ tree sec opt value,
      ts_parser_parse "[a]\nk1 =\nk2 = v\n".toList = .accepted tree ∧
      tree.sections = [sec] ∧
      sec.options = [opt] ∧
      opt.optionNames = ["k1".toList] ∧
      opt.optionValues = [value] ∧
      value.segments = [.text "k2 = v".toList]) ∧
    (∃ tree sec opt value,
      ts_parser_parse "[a]\n  k1 = v\n  k2 = w\n".toList = .accepted tree ∧
      tree.sections = [sec] ∧
      sec.options = [opt] ∧
      opt.optionNames = ["k1".toList] ∧
      opt.optionValues = [value] ∧
      value.segments = [.text "v".toList, .text "k2 = w".toList]) :=
  ⟨⟨_, _, _, _, rfl, rfl, rfl, rfl, rfl, rfl⟩, ⟨_, _, _, _, rfl, rfl, rfl, rfl, rfl, rfl⟩⟩

/-- C7 as amended: for all option names `k1`, `k2` and all non-empty values
`v1`, `v2` (plain text that does not start with white space), in
`"[a]\n<indent>k1 = v1\nk2 = v2\n"`, where the first option line may be
indented by blanks and has its value on the line, and the second option line
starts at column 0, the second line is a separate option and not part of the
value of the first: the section has exactly the two options `k1` with the one
text segment `v1` and `k2` with the one text segment `v2`. -/
theorem C7_tie_break (indent k1 v1 k2 v2 : List Char)
    (hindent : ∀ ch ∈ indent, blankChar ch)
    (hk1 : k1 ≠ []) (hk1chars : ∀ ch ∈ k1, optionNameChar ch)
    (hv1 : v1 ≠ []) (hv1head : ∀ d, v1.head? = some d → ¬ spaceChar d)
    (hv1chars : ∀ ch ∈ v1, plainTextChar ch)
    (hk2 : k2 ≠ []) (hk2chars : ∀ ch ∈ k2, optionNameChar ch)
    (hv2 : v2 ≠ []) (hv2head : ∀ d, v2.head? = some d → ¬ spaceChar d)
    (hv2chars : ∀ ch ∈ v2, plainTextChar ch) :
    ∃ tree sec,
      ts_parser_parse ("[a]\n".toList ++ (indent ++
          (k1 ++ (" = ".toList ++ (v1 ++ ("\n".toList ++
            (k2 ++ (" = ".toList ++ (v2 ++ "\n".toList)))))))))
        = .accepted tree ∧
      tree.sections = [sec] ∧
      sec.options.map Tree.optionView = [⟨[k1], [[.text v1]]⟩, ⟨[k2], [[.text v2]]⟩] :=
  ⟨_, _, parse_two_options indent k1 v1 k2 v2 hindent hk1 hk1chars hv1 hv1head hv1chars hk2
    hk2chars hv2 hv2head hv2chars, rfl, rfl⟩

/-- C7 as amended, at `"[a]\n  k1 = v1\nk2 = v2\n"`. -/
theorem C7_tie_break_witness :
    ((∀ ch ∈ "  ".toList, blankChar ch) ∧
      "k1".toList ≠ [] ∧ (∀ ch ∈ "k1".toList, optionNameChar ch) ∧
      "v1".toList ≠ [] ∧ (∀ d, "v1".toList.head? = some d → ¬ spaceChar d) ∧
      (∀ ch ∈ "v1".toList, plainTextChar ch) ∧
      "k2".toList ≠ [] ∧ (∀ ch ∈ "k2".toList, optionNameChar ch) ∧
      "v2".toList ≠ [] ∧ (∀ d, "v2".toList.head? = some d → ¬ spaceChar d) ∧
      (∀ ch ∈ "v2".toList, plainTextChar ch)) ∧
    ∃ tree sec,
      ts_parser_parse "[a]\n  k1 = v1\nk2 = v2\n".toList = .accepted tree ∧
      tree.sections = [sec] ∧
      sec.options.map Tree.optionView
        = [⟨["k1".toList], [[.text "v1".toList]]⟩, ⟨["k2".toList], [[.text "v2".toList]]⟩] :=
  ⟨⟨by decide, by decide, by decide, by decide, by simp [spaceChar], by decide,
      by decide, by decide, by decide, by simp [spaceChar], by decide⟩,
    C7_tie_break "  ".toList "k1".toList "v1".toList "k2".toList "v2".toList
      (by decide) (by decide) (by decide) (by decide) (by simp [spaceChar]) (by decide)
      (by decide) (by decide) (by decide) (by simp [spaceChar]) (by decide)⟩

/-- C8, the claim fails at both of its examples: `"[a]\nkey =\n"` is a syntax
error in parse state 6, where a value is required, and in
`"[a]\nkey =\n[b]\n"` the line `[b]` becomes the value text of `key`. -/
theorem C8_no_zero_length_value :
    ts_parser_parse "[a]\nkey =\n".toList = .syntaxError 6 [] ∧
    ∃ tree sec opt value,
      ts_parser_parse "[a]\nkey =\n[b]\n".toList = .accepted tree ∧
      tree.sections = [sec] ∧
      sec.fieldText field_section_name = some ['a'] ∧
      sec.options = [opt] ∧
      opt.optionNames = ["key".toList] ∧
      opt.optionValues = [value] ∧
      value.segments = [.text "[b]".toList] :=
  ⟨rfl, _, _, _, _, rfl, rfl, rfl, rfl, rfl, rfl, rfl⟩

/-- C8 as amended: a bare `name =` has no empty value.  The line break after
`=` is consumed as `option_token1` and a value must follow: for every option
name `k`, `"[a]\nk =\n"` is a syntax error at the end of input, and for every
non-empty plain text `t` that does not start with white space,
`"[a]\nk =\nt\n"` parses to one section with the single option `k`, whose
value is the one text segment `t`. -/
theorem C8_bare_option (k t : List Char) (hk : k ≠ [])
    (hkchars : ∀ ch ∈ k, optionNameChar ch)
    (ht : t ≠ [])
    (hthead : ∀ d, t.head? = some d → ¬ spaceChar d)
    (htchars : ∀ ch ∈ t, plainTextChar ch) :
    ts_parser_parse ("[a]\n".toList ++ (k ++ " =\n".toList)) = .syntaxError 6 [] ∧
    ∃ tree sec opt value,
      ts_parser_parse ("[a]\n".toList ++ (k ++ (" =\n".toList ++ (t ++ "\n".toList))))
        = .accepted tree ∧
      tree.sections = [sec] ∧
      sec.options = [opt] ∧
      opt.optionNames = [k] ∧
      opt.optionValues = [value] ∧
      value.segments = [.text t] :=
  ⟨parse_bare_option_at_end k hk hkchars,
    _, _, _, _, parse_one_option k ['\n'] t hk hkchars (by decide) ht hthead htchars,
    rfl, rfl, rfl, rfl, rfl⟩

/-- C8 as amended, at `k = key` and `t = [b]`. -/
theorem C8_bare_option_witness :
    ("key".toList ≠ [] ∧ (∀ ch ∈ "key".toList, optionNameChar ch) ∧
      "[b]".toList ≠ [] ∧ (∀ d, "[b]".toList.head? = some d → ¬ spaceChar d) ∧
      (∀ ch ∈ "[b]".toList, plainTextChar ch)) ∧
    ts_parser_parse "[a]\nkey =\n".toList = .syntaxError 6 [] ∧
    ∃ tree sec opt value,
      ts_parser_parse "[a]\nkey =\n[b]\n".toList = .accepted tree ∧
      tree.sections = [sec] ∧
      sec.options = [opt] ∧
      opt.optionNames = ["key".toList] ∧
      opt.optionValues = [value] ∧
      value.segments = [.text "[b]".toList] :=
  ⟨⟨by decide, by decide, by decide, by simp [spaceChar], by decide⟩,
    C8_bare_option "key".toList "[b]".toList (by decide) (by decide) (by decide)
      (by simp [spaceChar]) (by decide)⟩

/-! ## Scanning option values -/

/-- C10, the claim fails at its own example: on `${a:b} $$`, from each of the
start states 3, 4 and 8, the lexer returns one `option_text` token that covers
the whole line, not the token `${`. -/
theorem C10_double_dollar_later_in_line :
    ts_lex "${a:b} $$\n".toList 3
      = some ⟨sym_option_text, [], "${a:b} $$".toList, "\n".toList⟩ ∧
    ts_lex "${a:b} $$\n".toList 4
      = some ⟨sym_option_text, [], "${a:b} $$".toList, "\n".toList⟩ ∧
    ts_lex "${a:b} $$\n".toList 8
      = some ⟨sym_option_text, [], "${a:b} $$".toList, "\n".toList⟩ := by
  decide

/-- C10 as amended: in option-value scanning (start states 3, 4 and 8), for
every remaining input that begins with `${` and whose line has no `$$` after
it, the token returned is the two-character token `${`. -/
theorem C10_reference_opening (start : Nat) (hstart : start = 3 ∨ start = 4 ∨ start = 8)
    (line rest : List Char) (hline : noDoubleDollar line = true)
    (hchars : ∀ ch ∈ line, ch ≠ '\x00' ∧ ch ≠ '\n') (hrest : lineEnds rest) :
    ts_lex ('$' :: '{' :: (line ++ rest)) start
      = some ⟨anon_sym_DOLLAR_LBRACE, [], ['$', '{'], line ++ rest⟩ :=
  lex_dollar_lbrace start hstart line rest hline hchars hrest

/-- C10 as amended, at `${a:b} $x` in start state 3. -/
theorem C10_reference_opening_witness :
    ((3 = 3 ∨ 3 = 4 ∨ 3 = 8) ∧
      noDoubleDollar ['a', ':', 'b', '}', ' ', '$', 'x'] = true ∧
      (∀ ch ∈ ['a', ':', 'b', '}', ' ', '$', 'x'], ch ≠ '\x00' ∧ ch ≠ '\n') ∧
      lineEnds ['\n']) ∧
    ts_lex "${a:b} $x\n".toList 3
      = some ⟨anon_sym_DOLLAR_LBRACE, [], ['$', '{'],
          ['a', ':', 'b', '}', ' ', '$', 'x', '\n']⟩ :=
  ⟨⟨by decide, by decide, by decide, by simp [lineEnds]⟩,
    C10_reference_opening 3 (by decide) ['a', ':', 'b', '}', ' ', '$', 'x'] ['\n']
      (by decide) (by decide) (by simp [lineEnds])⟩

/-! ## The shape of the tokens of the lexer -/

/-- From a set of states that all accept one symbol, where every character is
either consumed into the set or stops every state of it, and the end of input
stops, the lexer returns the longest run of consumed characters. -/
theorem lexLoop_accepting (S : Nat → Prop) (sym : Nat) (good stopper : Char → Prop)
    (hacc : ∀ s, S s → ts_lex_accept s = some sym)
    (hstep : ∀ s, S s → ∀ c,
      (stopper c ∧ ts_lex_transition s false c = .stop) ∨
      (good c ∧ ∃ s', S s' ∧ ts_lex_transition s false c = .advance s'))
    (heof : ∀ s, S s → ts_lex_transition s true '\x00' = .stop) :
    ∀ (input : List Char) s, S s → ∀ skipped consumed result,
      ∃ run rest, input = run ++ rest ∧ (∀ ch ∈ run, good ch) ∧
        (∀ d, rest.head? = some d → stopper d) ∧
        lexLoop input s skipped consumed result = some ⟨sym, skipped, consumed ++ run, rest⟩ := by
  intro input
  induction input with
  | nil =>
    intro s hs skipped consumed result
    refine ⟨[], [], rfl, by simp, by simp, ?_⟩
    simp [lexLoop, lexAtEof, heof s hs, markEnd, hacc s hs]
  | cons c cs ih =>
    intro s hs skipped consumed result
    rcases hstep s hs c with ⟨hst, htr⟩ | ⟨hg, s', hs', htr⟩
    · refine ⟨[], c :: cs, rfl, by simp, by simpa using hst, ?_⟩
      simp [lexLoop, htr, markEnd, hacc s hs]
    · obtain ⟨run, rest, hsplit, hgood, hstop, hres⟩ := ih s' hs' skipped (consumed ++ [c])
        (markEnd s skipped consumed (c :: cs) result)
      refine ⟨c :: run, rest, by simp [hsplit], ?_, hstop, ?_⟩
      · intro ch hch
        rcases List.mem_cons.mp hch with rfl | h
        · exact hg
        · exact hgood ch h
      · simp [lexLoop, htr, hres]

/-- From a set of states closed under every transition, none of which accepts
`sym`, the lexer never returns a token of symbol `sym`. -/
theorem lexAtEof_symbol_ne (S : Nat → Prop) (sym : Nat)
    (hacc : ∀ s, S s → ts_lex_accept s ≠ some sym)
    (hclosed : ∀ s, S s → ∀ eof c s',
      (ts_lex_transition s eof c = .advance s' ∨ ts_lex_transition s eof c = .skip s') → S s') :
    ∀ (fuel : Nat) s, S s → ∀ skipped consumed (result : Option Lexed),
      (∀ r, result = some r → r.symbol ≠ sym) →
      ∀ r, lexAtEof fuel s skipped consumed result = some r → r.symbol ≠ sym := by
  intro fuel
  induction fuel with
  | zero => intro s _ skipped consumed result _ r h; simp [lexAtEof] at h
  | succ fuel ih =>
    intro s hs skipped consumed result hres r h
    have hmark : ∀ r, markEnd s skipped consumed [] result = some r → r.symbol ≠ sym := by
      intro r hr
      unfold markEnd at hr
      cases hs' : ts_lex_accept s with
      | none => rw [hs'] at hr; exact hres r hr
      | some sy =>
        rw [hs'] at hr
        simp at hr
        subst hr
        intro heq
        exact hacc s hs (by rw [hs']; simp at heq; simp [heq])
    simp only [lexAtEof] at h
    cases htr : ts_lex_transition s true '\x00' with
    | advance s' =>
      rw [htr] at h
      exact ih s' (hclosed s hs _ _ s' (Or.inl htr)) _ _ _ hmark r h
    | skip s' =>
      rw [htr] at h
      refine ih s' (hclosed s hs _ _ s' (Or.inr htr)) _ _ _ ?_ r h
      intro r' hr'
      simp only [Option.map_eq_some'] at hr'
      obtain ⟨r0, hr0, rfl⟩ := hr'
      simpa [Lexed.moveStart] using hmark r0 hr0
    | stop =>
      rw [htr] at h
      exact hmark r h

theorem lexLoop_symbol_ne (S : Nat → Prop) (sym : Nat)
    (hacc : ∀ s, S s → ts_lex_accept s ≠ some sym)
    (hclosed : ∀ s, S s → ∀ eof c s',
      (ts_lex_transition s eof c = .advance s' ∨ ts_lex_transition s eof c = .skip s') → S s') :
    ∀ (input : List Char) s, S s → ∀ skipped consumed (result : Option Lexed),
      (∀ r, result = some r → r.symbol ≠ sym) →
      ∀ r, lexLoop input s skipped consumed result = some r → r.symbol ≠ sym := by
  intro input
  induction input with
  | nil =>
    intro s hs skipped consumed result hres r h
    exact lexAtEof_symbol_ne S sym hacc hclosed 60 s hs skipped consumed result hres r
      (by simpa [lexLoop] using h)
  | cons c cs ih =>
    intro s hs skipped consumed result hres r h
    have hmark : ∀ r, markEnd s skipped consumed (c :: cs) result = some r → r.symbol ≠ sym := by
      intro r hr
      unfold markEnd at hr
      cases hs' : ts_lex_accept s with
      | none => rw [hs'] at hr; exact hres r hr
      | some sy =>
        rw [hs'] at hr
        simp at hr
        subst hr
        intro heq
        exact hacc s hs (by rw [hs']; simp at heq; simp [heq])
    simp only [lexLoop] at h
    cases htr : ts_lex_transition s false c with
    | advance s' =>
      rw [htr] at h
      exact ih s' (hclosed s hs _ _ s' (Or.inl htr)) _ _ _ hmark r h
    | skip s' =>
      rw [htr] at h
      refine ih s' (hclosed s hs _ _ s' (Or.inr htr)) _ _ _ ?_ r h
      intro r' hr'
      simp only [Option.map_eq_some'] at hr'
      obtain ⟨r0, hr0, rfl⟩ := hr'
      simpa [Lexed.moveStart] using hmark r0 hr0
    | stop =>
      rw [htr] at h
      exact hmark r h

/-- C14: for every input, a token that `ts_lex` returns from start state 20
is `sym_section_name`, has no padding, is non-empty, holds none of `[`, `]`,
`:` and newline, and is maximal: the input is the token followed by the rest,
and the rest is empty or starts with `[`, `]`, `:`, newline or NUL. -/
theorem C14_section_name_token (input : List Char) (tok : Lexed)
    (h : ts_lex input 20 = some tok) :
    tok.symbol = sym_section_name ∧ tok.padding = [] ∧ tok.text ≠ [] ∧
      input = tok.text ++ tok.rest ∧
      (∀ ch ∈ tok.text, ch ≠ '[' ∧ ch ≠ ']' ∧ ch ≠ ':' ∧ ch ≠ '\n') ∧
      (∀ d, tok.rest.head? = some d →
        d = '[' ∨ d = ']' ∨ d = ':' ∨ d = '\n' ∨ d = '\x00') := by
  have key := lexLoop_accepting (fun s => s = 31 ∨ s = 32) sym_section_name
    sectionNameChar (fun d => ¬ sectionNameChar d)
    (by rintro s (rfl | rfl) <;> rfl)
    (by
      rintro s (rfl | rfl) c
      · by_cases hb : c = '\t' ∨ c = ' '
        · right
          refine ⟨?_, 31, Or.inl rfl, by rw [ts_lex_transition_31, if_pos hb]⟩
          rcases hb with rfl | rfl <;> decide
        · by_cases hn : sectionNameChar c
          · exact Or.inr ⟨hn, 32, Or.inr rfl, by rw [ts_lex_transition_31, if_neg hb, if_pos hn]⟩
          · exact Or.inl ⟨hn, by rw [ts_lex_transition_31, if_neg hb, if_neg hn]⟩
      · by_cases hn : sectionNameChar c
        · exact Or.inr ⟨hn, 32, Or.inr rfl, by rw [ts_lex_transition_32, if_pos hn]⟩
        · exact Or.inl ⟨hn, by rw [ts_lex_transition_32, if_neg hn]⟩)
    (by rintro s (rfl | rfl) <;> rfl)
  cases input with
  | nil => simp [ts_lex, lexLoop, lexAtEof, ts_lex_transition_20, markEnd, ts_lex_accept_20] at h
  | cons c cs =>
    have hfirst : ∀ s', (s' = 31 ∨ s' = 32) → sectionNameChar c →
        ts_lex_transition 20 false c = .advance s' →
        tok.symbol = sym_section_name ∧ tok.padding = [] ∧ tok.text ≠ [] ∧
          c :: cs = tok.text ++ tok.rest ∧
          (∀ ch ∈ tok.text, ch ≠ '[' ∧ ch ≠ ']' ∧ ch ≠ ':' ∧ ch ≠ '\n') ∧
          (∀ d, tok.rest.head? = some d →
            d = '[' ∨ d = ']' ∨ d = ':' ∨ d = '\n' ∨ d = '\x00') := by
      intro s' hs' hc htr
      obtain ⟨run, rest, hsplit, hgood, hstop, hres⟩ := key cs s' hs' [] [c] none
      have h' : lexLoop cs s' [] [c] none = some tok := by
        simpa [ts_lex, lexLoop, htr, markEnd, ts_lex_accept_20] using h
      rw [hres] at h'
      simp only [Option.some.injEq] at h'
      subst h'
      refine ⟨rfl, rfl, by simp, by simp [hsplit], ?_, ?_⟩
      · intro ch hch
        have hch' : sectionNameChar ch := by
          rcases List.mem_append.mp hch with h1 | h1
          · simp at h1; subst h1; exact hc
          · exact hgood ch h1
        exact ⟨hch'.2.2.2.1, hch'.2.2.2.2, hch'.2.2.1, hch'.2.1⟩
      · intro d hd
        have hnot := hstop d hd
        by_contra hcon
        push_neg at hcon
        exact hnot ⟨hcon.2.2.2.2, hcon.2.2.2.1, hcon.2.2.1, hcon.1, hcon.2.1⟩
    by_cases hb : c = '\t' ∨ c = ' '
    · exact hfirst 31 (Or.inl rfl) (by rcases hb with rfl | rfl <;> decide)
        (by rw [ts_lex_transition_20, if_pos hb])
    · by_cases hn : sectionNameChar c
      · exact hfirst 32 (Or.inr rfl) hn (by rw [ts_lex_transition_20, if_neg hb, if_pos hn])
      · have htr : ts_lex_transition 20 false c = .stop := by
          rw [ts_lex_transition_20, if_neg hb, if_neg hn]
        simp [ts_lex, lexLoop, htr, markEnd, ts_lex_accept_20] at h

/-- C14 at `a b]\n`: the token is `a b` and `]` follows it. -/
theorem C14_section_name_token_witness :
    ts_lex "a b]\n".toList 20 = some ⟨sym_section_name, [], "a b".toList, "]\n".toList⟩ ∧
    (sym_section_name = sym_section_name ∧ ([] : List Char) = [] ∧ "a b".toList ≠ [] ∧
      "a b]\n".toList = "a b".toList ++ "]\n".toList ∧
      (∀ ch ∈ "a b".toList, ch ≠ '[' ∧ ch ≠ ']' ∧ ch ≠ ':' ∧ ch ≠ '\n') ∧
      (∀ d, "]\n".toList.head? = some d →
        d = '[' ∨ d = ']' ∨ d = ':' ∨ d = '\n' ∨ d = '\x00')) :=
  ⟨by decide, C14_section_name_token "a b]\n".toList
    ⟨sym_section_name, [], "a b".toList, "]\n".toList⟩ (by decide)⟩

/-- From the states of a comment, a bracket, white space or the end of input
the lexer never returns an option name. -/
theorem lexLoop_not_option_name (input : List Char) (s : Nat) (hs : notOptionNameState s)
    (skipped consumed : List Char) (r : Lexed)
    (h : lexLoop input s skipped consumed none = some r) : r.symbol ≠ sym_option_name := by
  refine lexLoop_symbol_ne notOptionNameState sym_option_name ?_ ?_ input s hs skipped consumed
    none (by simp) r h
  · rintro s (rfl | rfl | rfl | rfl | rfl | rfl | rfl) <;> decide
  · rintro s (rfl | rfl | rfl | rfl | rfl | rfl | rfl) eof c s' htr
    · rw [ts_lex_transition_1] at htr
      split_ifs at htr <;> simp at htr <;> subst htr <;> simp [notOptionNameState]
    · rw [ts_lex_transition_2] at htr
      split_ifs at htr <;> simp at htr <;> subst htr <;> simp [notOptionNameState]
    · rw [ts_lex_transition_59] at htr
      split_ifs at htr <;> simp at htr <;> subst htr <;> simp [notOptionNameState]
    · rw [ts_lex_transition_28] at htr; simp at htr
    · rw [ts_lex_transition_44] at htr
      split_ifs at htr <;> simp at htr <;> subst htr <;> simp [notOptionNameState]
    · rw [ts_lex_transition_45] at htr
      split_ifs at htr <;> simp at htr <;> subst htr <;> simp [notOptionNameState]
    · rw [ts_lex_transition_25] at htr; simp at htr

/-- Once the first character of an option name is consumed, state 39 returns
the longest run of option-name characters. -/
theorem lexLoop_option_name_run (s : Nat) (hacc : ts_lex_accept s = none) (c : Char)
    (cs skipped : List Char) (htr : ts_lex_transition s false c = .advance 39)
    (hc : optionNameChar c) (tok : Lexed)
    (h : lexLoop (c :: cs) s skipped [] none = some tok) :
    optionNameToken (skipped ++ c :: cs) tok := by
  obtain ⟨run, rest, hsplit, hgood, hstop, hres⟩ :=
    lexLoop_accepting (fun s => s = 39) sym_option_name optionNameChar
      (fun d => ¬ optionNameChar d)
      (by rintro s rfl; rfl)
      (by
        rintro s rfl d
        by_cases hd : optionNameChar d
        · exact Or.inr ⟨hd, 39, rfl, by rw [ts_lex_transition_39, if_pos hd]⟩
        · exact Or.inl ⟨hd, by rw [ts_lex_transition_39, if_neg hd]⟩)
      (by rintro s rfl; rfl) cs 39 rfl skipped [c] none
  have h' : lexLoop cs 39 skipped [c] none = some tok := by
    simpa [lexLoop, htr, markEnd, hacc] using h
  rw [hres] at h'
  simp only [Option.some.injEq] at h'
  subst h'
  refine ⟨by simp, by simp [hsplit], ?_, hstop⟩
  intro ch hch
  rcases List.mem_append.mp hch with h1 | h1
  · simp at h1; subst h1; exact hc
  · exact hgood ch h1

/-- State 22 skips blanks and newlines; an option name it returns is the
longest run of option-name characters after them. -/
theorem lexLoop_option_name_22 : ∀ (input skipped : List Char) (tok : Lexed),
    lexLoop input 22 skipped [] none = some tok → tok.symbol = sym_option_name →
    optionNameToken (skipped ++ input) tok := by
  intro input
  induction input with
  | nil =>
    intro skipped tok h hsym
    simp [lexLoop, lexAtEof, ts_lex_transition_22, ts_lex_transition_25, markEnd,
      ts_lex_accept_22, ts_lex_accept_25] at h
    subst h
    simp [sym_option_name, ts_builtin_sym_end] at hsym
  | cons c cs ih =>
    intro skipped tok h hsym
    have hother : ∀ s', notOptionNameState s' →
        ts_lex_transition 22 false c = .advance s' → False := by
      intro s' hs' htr
      have h' : lexLoop cs s' skipped [c] none = some tok := by
        simpa [lexLoop, htr, markEnd, ts_lex_accept_22] using h
      exact lexLoop_not_option_name cs s' hs' skipped [c] tok h' hsym
    have hskip : ts_lex_transition 22 false c = .skip 22 →
        optionNameToken (skipped ++ c :: cs) tok := by
      intro htr
      have h' : lexLoop cs 22 (skipped ++ [c]) [] none = some tok := by
        simpa [lexLoop, htr, markEnd, ts_lex_accept_22] using h
      have := ih (skipped ++ [c]) tok h' hsym
      simpa using this
    by_cases h1 : c = '\n'
    · exact hskip (by rw [ts_lex_transition_22, if_neg (by simp), if_pos h1])
    by_cases h2 : c = '['
    · exact (hother 28 (by decide) (by
        rw [ts_lex_transition_22, if_neg (by simp), if_neg h1, if_pos h2])).elim
    by_cases h3 : c = '\t' ∨ c = ' '
    · exact hskip (by rw [ts_lex_transition_22, if_neg (by simp), if_neg h1, if_neg h2, if_pos h3])
    by_cases h4 : c = '#' ∨ c = ';'
    · exact (hother 1 (by decide) (by
        rw [ts_lex_transition_22, if_neg (by simp), if_neg h1, if_neg h2, if_neg h3,
          if_pos h4])).elim
    by_cases h5 : c ≠ '\x00' ∧ c ≠ '\r' ∧ c ≠ '='
    · push_neg at h3 h4
      exact lexLoop_option_name_run 22 rfl c cs skipped (by
        rw [ts_lex_transition_22, if_neg (by simp), if_neg h1, if_neg h2,
          if_neg (by push_neg; exact h3), if_neg (by push_neg; exact h4), if_pos h5])
        ⟨h5.1, h3.1, h1, h5.2.1, h3.2, h4.1, h4.2, h5.2.2, h2⟩ tok h
    · have htr : ts_lex_transition 22 false c = .stop := by
        rw [ts_lex_transition_22, if_neg (by simp), if_neg h1, if_neg h2, if_neg h3, if_neg h4,
          if_neg h5]
      simp [lexLoop, htr, markEnd, ts_lex_accept_22] at h

/-- C15: for every input, whenever `ts_lex` started in state 22, 23 or 24
returns `sym_option_name`, the token is non-empty, holds no space, tab,
newline, carriage return, `=`, `#`, `;` or `[`, and the rest of the input is
empty or starts with one of those or with NUL; the input is the skipped
padding, the token and the rest. -/
theorem C15_option_name_token (start : Nat) (hstart : start = 22 ∨ start = 23 ∨ start = 24)
    (input : List Char) (tok : Lexed) (h : ts_lex input start = some tok)
    (hsym : tok.symbol = sym_option_name) :
    tok.text ≠ [] ∧ input = tok.padding ++ tok.text ++ tok.rest ∧
      (∀ ch ∈ tok.text, ch ≠ ' ' ∧ ch ≠ '\t' ∧ ch ≠ '\n' ∧ ch ≠ '\r' ∧ ch ≠ '=' ∧ ch ≠ '#' ∧
        ch ≠ ';' ∧ ch ≠ '[') ∧
      (∀ d, tok.rest.head? = some d → d = ' ' ∨ d = '\t' ∨ d = '\n' ∨ d = '\r' ∨ d = '=' ∨
        d = '#' ∨ d = ';' ∨ d = '[' ∨ d = '\x00') := by
  have hfinal : optionNameToken input tok → _ := fun hres =>
    (⟨hres.1, hres.2.1,
      fun ch hch =>
        have hc := hres.2.2.1 ch hch
        ⟨hc.2.2.2.2.1, hc.2.1, hc.2.2.1, hc.2.2.2.1, hc.2.2.2.2.2.2.2.1, hc.2.2.2.2.2.1,
          hc.2.2.2.2.2.2.1, hc.2.2.2.2.2.2.2.2⟩,
      fun d hd => by
        have hnot := hres.2.2.2 d hd
        by_contra hcon
        push_neg at hcon
        exact hnot ⟨hcon.2.2.2.2.2.2.2.2, hcon.2.1, hcon.2.2.1, hcon.2.2.2.1, hcon.1,
          hcon.2.2.2.2.2.1, hcon.2.2.2.2.2.2.1, hcon.2.2.2.2.1, hcon.2.2.2.2.2.2.2.1⟩⟩ :
      tok.text ≠ [] ∧ input = tok.padding ++ tok.text ++ tok.rest ∧
      (∀ ch ∈ tok.text, ch ≠ ' ' ∧ ch ≠ '\t' ∧ ch ≠ '\n' ∧ ch ≠ '\r' ∧ ch ≠ '=' ∧ ch ≠ '#' ∧
        ch ≠ ';' ∧ ch ≠ '[') ∧
      (∀ d, tok.rest.head? = some d → d = ' ' ∨ d = '\t' ∨ d = '\n' ∨ d = '\r' ∨ d = '=' ∨
        d = '#' ∨ d = ';' ∨ d = '[' ∨ d = '\x00'))
  apply hfinal
  rcases hstart with rfl | rfl | rfl
  · simpa using lexLoop_option_name_22 input [] tok h hsym
  · cases input with
    | nil =>
      simp [ts_lex, lexLoop, lexAtEof, ts_lex_transition_23, ts_lex_transition_25, markEnd,
        ts_lex_accept_23, ts_lex_accept_25] at h
      subst h
      simp [sym_option_name, ts_builtin_sym_end] at hsym
    | cons c cs =>
      have hother : ∀ s', notOptionNameState s' →
          ts_lex_transition 23 false c = .advance s' → False := by
        intro s' hs' htr
        have h' : lexLoop cs s' [] [c] none = some tok := by
          simpa [ts_lex, lexLoop, htr, markEnd, ts_lex_accept_23] using h
        exact lexLoop_not_option_name cs s' hs' [] [c] tok h' hsym
      by_cases h2 : c = '['
      · exact (hother 28 (by decide) (by
          rw [ts_lex_transition_23, if_neg (by simp), if_pos h2])).elim
      by_cases h3 : c = '\t' ∨ c = ' '
      · exact (hother 44 (by decide) (by
          rw [ts_lex_transition_23, if_neg (by simp), if_neg h2, if_pos h3])).elim
      by_cases h1 : c = '\n' ∨ c = '\r'
      · exact (hother 45 (by decide) (by
          rw [ts_lex_transition_23, if_neg (by simp), if_neg h2, if_neg h3, if_pos h1])).elim
      by_cases h4 : c = '#' ∨ c = ';'
      · exact (hother 1 (by decide) (by
          rw [ts_lex_transition_23, if_neg (by simp), if_neg h2, if_neg h3, if_neg h1,
            if_pos h4])).elim
      by_cases h5 : c ≠ '\x00' ∧ c ≠ '='
      · have hres := lexLoop_option_name_run 23 rfl c cs [] (by
          rw [ts_lex_transition_23, if_neg (by simp), if_neg h2, if_neg h3, if_neg h1,
            if_neg h4, if_pos h5])
          (by push_neg at h1 h3 h4; exact ⟨h5.1, h3.1, h1.1, h1.2, h3.2, h4.1, h4.2, h5.2, h2⟩)
          tok h
        simpa using hres
      · have htr : ts_lex_transition 23 false c = .stop := by
          rw [ts_lex_transition_23, if_neg (by simp), if_neg h2, if_neg h3, if_neg h1, if_neg h4,
            if_neg h5]
        simp [ts_lex, lexLoop, htr, markEnd, ts_lex_accept_23] at h
  · cases input with
    | nil =>
      simp [ts_lex, lexLoop, lexAtEof, ts_lex_transition_24, ts_lex_transition_25, markEnd,
        ts_lex_accept_24, ts_lex_accept_25] at h
      subst h
      simp [sym_option_name, ts_builtin_sym_end] at hsym
    | cons c cs =>
      have hother : ∀ s', notOptionNameState s' →
          ts_lex_transition 24 false c = .advance s' → False := by
        intro s' hs' htr
        have h' : lexLoop cs s' [] [c] none = some tok := by
          simpa [ts_lex, lexLoop, htr, markEnd, ts_lex_accept_24] using h
        exact lexLoop_not_option_name cs s' hs' [] [c] tok h' hsym
      by_cases h2 : c = '['
      · exact (hother 28 (by decide) (by
          rw [ts_lex_transition_24, if_neg (by simp), if_pos h2])).elim
      by_cases h3 : c = '\t' ∨ c = ' '
      · have htr : ts_lex_transition 24 false c = .skip 22 := by
          rw [ts_lex_transition_24, if_neg (by simp), if_neg h2, if_pos h3]
        have h' : lexLoop cs 22 [c] [] none = some tok := by
          simpa [ts_lex, lexLoop, htr, markEnd, ts_lex_accept_24] using h
        simpa using lexLoop_option_name_22 cs [c] tok h' hsym
      by_cases h4 : c = '#' ∨ c = ';'
      · exact (hother 1 (by decide) (by
          rw [ts_lex_transition_24, if_neg (by simp), if_neg h2, if_neg h3, if_pos h4])).elim
      by_cases h5 : c ≠ '\x00' ∧ c ≠ '\n' ∧ c ≠ '\r' ∧ c ≠ '='
      · have hres := lexLoop_option_name_run 24 rfl c cs [] (by
          rw [ts_lex_transition_24, if_neg (by simp), if_neg h2, if_neg h3, if_neg h4,
            if_pos h5])
          (by push_neg at h3 h4
              exact ⟨h5.1, h3.1, h5.2.1, h5.2.2.1, h3.2, h4.1, h4.2, h5.2.2.2, h2⟩)
          tok h
        simpa using hres
      · have htr : ts_lex_transition 24 false c = .stop := by
          rw [ts_lex_transition_24, if_neg (by simp), if_neg h2, if_neg h3, if_neg h4, if_neg h5]
        simp [ts_lex, lexLoop, htr, markEnd, ts_lex_accept_24] at h

/-- C15 at `  key = v\n` from state 24: the token is `key`, after two skipped
blanks and before a space. -/
theorem C15_option_name_token_witness :
    ((24 : Nat) = 22 ∨ (24 : Nat) = 23 ∨ (24 : Nat) = 24) ∧
    ts_lex "  key = v\n".toList 24 =
      some ⟨sym_option_name, "  ".toList, "key".toList, " = v\n".toList⟩ ∧
    sym_option_name = sym_option_name ∧
    ("key".toList ≠ [] ∧ "  key = v\n".toList = "  ".toList ++ "key".toList ++ " = v\n".toList ∧
      (∀ ch ∈ "key".toList, ch ≠ ' ' ∧ ch ≠ '\t' ∧ ch ≠ '\n' ∧ ch ≠ '\r' ∧ ch ≠ '=' ∧ ch ≠ '#' ∧
        ch ≠ ';' ∧ ch ≠ '[') ∧
      (∀ d, " = v\n".toList.head? = some d → d = ' ' ∨ d = '\t' ∨ d = '\n' ∨ d = '\r' ∨ d = '=' ∨
        d = '#' ∨ d = ';' ∨ d = '[' ∨ d = '\x00')) :=
  ⟨by decide, by decide, rfl, C15_option_name_token 24 (by decide) "  key = v\n".toList
    ⟨sym_option_name, "  ".toList, "key".toList, " = v\n".toList⟩ (by decide) rfl⟩

/-! ## Comment tokens -/

/-- C19, the claim fails at its own example: on `# a\n# b\n[s]\n` the first
token from start states 0 and 21 is the comment `# a\n`; `# b\n[s]\n` is
left. -/
theorem C19_first_comment_line_only :
    ts_lex "# a\n# b\n[s]\n".toList 0
      = some ⟨sym_comment, [], "# a\n".toList, "# b\n[s]\n".toList⟩ ∧
    ts_lex "# a\n# b\n[s]\n".toList 21
      = some ⟨sym_comment, [], "# a\n".toList, "# b\n[s]\n".toList⟩ := by
  decide

/-- C19 as amended: comment lines are not collapsed.  From start states 0 and
21, for every input that begins with a comment line (`#` or `;`, then
characters other than newline and NUL, then a newline), the lexer returns a
`comment` token that spans this line, its newline and the newlines directly
after it, and leaves the rest, also when the rest is another comment line. -/
theorem C19_comment_token (start : Nat) (hstart : start = 0 ∨ start = 21) (c0 : Char)
    (hc0 : c0 = '#' ∨ c0 = ';') (body nl rest : List Char)
    (hbody : ∀ ch ∈ body, ch ≠ '\n' ∧ ch ≠ '\x00') (hnl : ∀ ch ∈ nl, ch = '\n')
    (hrest : ∀ d, rest.head? = some d → d ≠ '\n') :
    ts_lex (c0 :: (body ++ '\n' :: (nl ++ rest))) start
      = some ⟨sym_comment, [], c0 :: (body ++ '\n' :: nl), rest⟩ := by
  have hfirst : ts_lex_transition start false c0 = .advance 1 ∧ ts_lex_accept start = none := by
    rcases hstart with rfl | rfl <;> rcases hc0 with rfl | rfl <;> exact ⟨rfl, rfl⟩
  obtain ⟨s', result', hs', hbodyrun⟩ :=
    lexLoop_transit (fun s => s = 1 ∨ s = 2) ('\n' :: (nl ++ rest)) body
      (by
        rintro s (rfl | rfl) ch hch
        · by_cases h1 : ch = '#' ∨ ch = ';'
          · exact ⟨1, Or.inl rfl, by
              rw [ts_lex_transition_1, if_neg (hbody ch hch).1, if_pos h1]⟩
          · exact ⟨2, Or.inr rfl, by
              rw [ts_lex_transition_1, if_neg (hbody ch hch).1, if_neg h1,
                if_pos (hbody ch hch).2]⟩
        · exact ⟨2, Or.inr rfl, by
            rw [ts_lex_transition_2, if_neg (hbody ch hch).1, if_pos (hbody ch hch).2]⟩)
      1 (Or.inl rfl) [] [c0] (markEnd start [] [] (c0 :: (body ++ '\n' :: (nl ++ rest))) none)
  have hnewline : ts_lex_transition s' false '\n' = .advance 59 ∧ ts_lex_accept s' = none := by
    rcases hs' with rfl | rfl <;> exact ⟨rfl, rfl⟩
  have hstop : stopsAt 59 rest := by
    cases rest with
    | nil => simp [stopsAt, ts_lex_transition_59]
    | cons d r => simpa [stopsAt, ts_lex_transition_59] using hrest d (by simp)
  have hrun := lexLoop_run (fun s => s = 59) sym_comment rest (by rintro s rfl; rfl)
    (by rintro s rfl; exact hstop) nl
    (by
      rintro s rfl ch hch
      exact ⟨59, rfl, by rw [ts_lex_transition_59, if_pos (hnl ch hch)]⟩)
    59 rfl [] ([c0] ++ body ++ ['\n']) (markEnd s' [] ([c0] ++ body) ('\n' :: (nl ++ rest)) result')
  have hstep1 : ts_lex (c0 :: (body ++ '\n' :: (nl ++ rest))) start
      = lexLoop (body ++ '\n' :: (nl ++ rest)) 1 [] [c0]
          (markEnd start [] [] (c0 :: (body ++ '\n' :: (nl ++ rest))) none) := by
    simp [ts_lex, lexLoop, hfirst.1]
  have hstep2 : lexLoop ('\n' :: (nl ++ rest)) s' [] ([c0] ++ body) result'
      = lexLoop (nl ++ rest) 59 [] ([c0] ++ body ++ ['\n'])
          (markEnd s' [] ([c0] ++ body) ('\n' :: (nl ++ rest)) result') := by
    simp [lexLoop, hnewline.1]
  rw [hstep1, hbodyrun, hstep2, hrun]
  simp

/-- C19 as amended at `# a\n\n# b\n`: the token is `# a\n\n`. -/
theorem C19_comment_token_witness :
    ((0 : Nat) = 0 ∨ (0 : Nat) = 21) ∧ ('#' = '#' ∨ '#' = ';') ∧
    (∀ ch ∈ " a".toList, ch ≠ '\n' ∧ ch ≠ '\x00') ∧ (∀ ch ∈ ['\n'], ch = '\n') ∧
    (∀ d, "# b\n".toList.head? = some d → d ≠ '\n') ∧
    ts_lex ('#' :: (" a".toList ++ '\n' :: (['\n'] ++ "# b\n".toList))) 0
      = some ⟨sym_comment, [], '#' :: (" a".toList ++ '\n' :: ['\n']), "# b\n".toList⟩ :=
  ⟨by decide, by decide, by decide, by decide, by decide,
    C19_comment_token 0 (by decide) '#' (by decide) " a".toList ['\n'] "# b\n".toList
      (by decide) (by decide) (by decide)⟩

/-! ## References without an option -/

theorem lex_referenced_section_before_brace (s rest : List Char) (hs : s ≠ [])
    (hchars : ∀ ch ∈ s, referencedSectionChar ch) :
    ts_lex (s ++ '}' :: rest) 14 = some ⟨sym_referenced_section, [], s, '}' :: rest⟩ := by
  obtain ⟨c, s', rfl⟩ := List.exists_cons_of_ne_nil hs
  have hrun := lexLoop_run (fun t => t = 55 ∨ t = 56) sym_referenced_section ('}' :: rest)
    (by rintro t (rfl | rfl) <;> rfl)
    (by rintro t (rfl | rfl) <;> simp [stopsAt, ts_lex_transition_55, ts_lex_transition_56])
    s'
    (by
      rintro t (rfl | rfl) ch hch
      · obtain ⟨h0, h1, h2, h3, _⟩ := hchars ch (by simp [hch])
        by_cases hw : ch = '\t' ∨ ch = ' '
        · exact ⟨55, by simp, by simp [ts_lex_transition_55, hw]⟩
        · exact ⟨56, by simp, by simp [ts_lex_transition_55, hw, h0, h1, h2, h3]⟩
      · obtain ⟨h0, h1, h2, h3, _⟩ := hchars ch (by simp [hch])
        exact ⟨56, by simp, by simp [ts_lex_transition_56, h0, h1, h2, h3]⟩)
  obtain ⟨h0, h1, h2, h3, _⟩ := hchars c (by simp)
  by_cases hw : c = '\t' ∨ c = ' '
  · have := hrun 55 (by simp) [] [c] none
    simp [ts_lex, lexLoop, ts_lex_transition_14, hw, markEnd, ts_lex_accept_14, h2]
    simpa using this
  · have := hrun 56 (by simp) [] [c] none
    simp [ts_lex, lexLoop, ts_lex_transition_14, hw, markEnd, ts_lex_accept_14, h0, h1, h2, h3]
    simpa using this

theorem parse_short_reference (o : List Char) (ho : o ≠ [])
    (hochars : ∀ ch ∈ o, referencedSectionChar ch) :
    ts_parser_parse ('[' :: 'a' :: ']' :: '\n' :: 'k' :: 'e' :: 'y' :: ' ' :: '=' :: ' ' ::
        '$' :: '{' :: (o ++ ['}', '\n']))
      = .syntaxError 30 ['}', '\n'] := by
  have l5 : ts_parser_lex 11 ('k' :: 'e' :: 'y' :: ' ' :: '=' :: ' ' ::
        '$' :: '{' :: (o ++ ['}', '\n']))
      = some ⟨sym_option_name, [], ['k', 'e', 'y'], ' ' :: '=' :: ' ' ::
        '$' :: '{' :: (o ++ ['}', '\n'])⟩ :=
    parser_lex_of_lex 11 _ _ (lex_option_name 24 (Or.inr rfl) ['k', 'e', 'y'] _ (by simp)
      (by decide))
  have l6 : ts_parser_lex 35 (' ' :: '=' :: ' ' :: '$' :: '{' :: (o ++ ['}', '\n']))
      = some ⟨anon_sym_EQ, [' '], ['='], ' ' :: '$' :: '{' :: (o ++ ['}', '\n'])⟩ :=
    parser_lex_of_lex 35 _ _ (lex_blank_equals _)
  have l7 : ts_parser_lex 33 (' ' :: '$' :: '{' :: (o ++ ['}', '\n']))
      = some ⟨aux_sym_option_token1, [], [' '], '$' :: '{' :: (o ++ ['}', '\n'])⟩ :=
    parser_lex_of_lex 33 _ _ (lex_option_token1 [' '] _ (by decide) (by simp))
  have hline : ∀ ch ∈ o ++ ['}'], ch ≠ '\x00' ∧ ch ≠ '\n' ∧ ch ≠ '$' := by
    intro ch hch
    simp only [List.mem_append, List.mem_singleton] at hch
    rcases hch with h | rfl
    · exact ⟨(hochars ch h).1, (hochars ch h).2.1, (hochars ch h).2.2.2.2⟩
    · decide
  have l8 : ts_parser_lex 6 ('$' :: '{' :: (o ++ ['}', '\n']))
      = some ⟨anon_sym_DOLLAR_LBRACE, [], ['$', '{'], o ++ ['}', '\n']⟩ := by
    have := lex_dollar_lbrace 3 (Or.inl rfl) (o ++ ['}']) ['\n']
      (noDoubleDollar_of_no_dollar _ (fun ch hch => (hline ch hch).2.2))
      (fun ch hch => ⟨(hline ch hch).1, (hline ch hch).2.1⟩) (by simp [lineEnds])
    exact parser_lex_of_lex 6 _ _ (by simpa using this)
  have l9 : ts_parser_lex 28 (o ++ ['}', '\n'])
      = some ⟨sym_referenced_section, [], o, ['}', '\n']⟩ :=
    parser_lex_of_lex 28 _ _ (lex_referenced_section_before_brace o _ ho hochars)
  have l10 : ts_parser_lex 30 ['}', '\n'] = some ⟨anon_sym_RBRACE, [], ['}'], ['\n']⟩ := by
    decide
  refine parse_after_header_a 6 _ _ _ (by omega) (by simp) l5 ?_ (by simp)
  refine parseLoop_next (parseStep_shift _ _ rfl l6) ?_
  refine parseLoop_next (parseStep_shift _ _ rfl l7) ?_
  refine parseLoop_next (parseStep_shift _ _ rfl l8) ?_
  refine parseLoop_next (parseStep_shift _ _ rfl l9) ?_
  refine parseLoop_next (parseStep_shift _ _ rfl l10) ?_
  exact parseLoop_done rfl

/-- C11, the claim fails at its own example: parsing `[a]\nkey = ${c}\n` is
a syntax error in parse state 30, with `}` and the newline left. -/
theorem C11_short_reference_is_an_error :
    ts_parser_parse "[a]\nkey = ${c}\n".toList = .syntaxError 30 ['}', '\n'] :=
  rfl

/-- C11 as amended: a reference written `${o}`, with no `:` before `}`, is not
accepted.  For every non-empty name `o` of ordinary characters (no NUL,
newline, `:`, `}`, `$`) the run after `${` is lexed in parse state 28 as
`referenced_section`, parse state 30 has an action on `:` only, and parsing
`[a]\nkey = ${o}\n` is a syntax error in state 30 at the `}`. -/
theorem C11_short_reference (o : List Char) (ho : o ≠ [])
    (hochars : ∀ ch ∈ o, referencedSectionChar ch) :
    ts_parser_lex 28 (o ++ ['}', '\n'])
      = some ⟨sym_referenced_section, [], o, ['}', '\n']⟩ ∧
    (∀ sym, sym < SYMBOL_COUNT → (ts_language_actions 30 sym ≠ [] ↔ sym = anon_sym_COLON)) ∧
    ts_parser_parse ("[a]\nkey = ".toList ++ ('$' :: '{' :: (o ++ ['}', '\n'])))
      = .syntaxError 30 ['}', '\n'] :=
  ⟨parser_lex_of_lex 28 _ _ (lex_referenced_section_before_brace o _ ho hochars),
    by decide, parse_short_reference o ho hochars⟩

/-- C11 as amended at `o = c`: `[a]\nkey = ${c}\n` is a syntax error. -/
theorem C11_short_reference_witness :
    (['c'] ≠ [] ∧ (∀ ch ∈ ['c'], referencedSectionChar ch)) ∧
    (ts_parser_lex 28 (['c'] ++ ['}', '\n'])
      = some ⟨sym_referenced_section, [], ['c'], ['}', '\n']⟩ ∧
    (∀ sym, sym < SYMBOL_COUNT → (ts_language_actions 30 sym ≠ [] ↔ sym = anon_sym_COLON)) ∧
    ts_parser_parse ("[a]\nkey = ".toList ++ ('$' :: '{' :: (['c'] ++ ['}', '\n'])))
      = .syntaxError 30 ['}', '\n']) :=
  ⟨⟨by decide, by decide⟩, C11_short_reference ['c'] (by decide) (by decide)⟩

/-! ## Blanks in section headers -/

/-- C16, the claim fails at its own example: parsing `[ foo : bar ]\n` yields
the name ` foo ` and the condition ` bar `, blanks included. -/
theorem C16_blanks_are_kept :
    ∃ tree sec,
      ts_parser_parse "[ foo : bar ]\n".toList = .accepted tree ∧
      tree.sections = [sec] ∧
      sec.fieldText field_section_name = some " foo ".toList ∧
      sec.fieldText field_section_condition = some " bar ".toList :=
  ⟨_, _, rfl, rfl, rfl, rfl⟩

/-- C16 as amended: nothing is trimmed.  For every name `n` and condition
`c` and all runs of spaces and tabs `l1`, `r1`, `l2`, `r2` around them,
parsing `[l1 n r1:l2 c r2]\n` yields one section whose `section_name` is
`l1 n r1` and whose `section_condition` is `l2 c r2`: the tokens are the text
between the brackets as written. -/
theorem C16_names_are_verbatim (l1 n r1 l2 c r2 : List Char)
    (hl1 : ∀ ch ∈ l1, blankChar ch) (hr1 : ∀ ch ∈ r1, blankChar ch)
    (hl2 : ∀ ch ∈ l2, blankChar ch) (hr2 : ∀ ch ∈ r2, blankChar ch)
    (hn : n ≠ []) (hc : c ≠ [])
    (hnchars : ∀ ch ∈ n, sectionNameChar ch)
    (hcchars : ∀ ch ∈ c, sectionConditionChar ch) :
    ∃ tree sec,
      ts_parser_parse ('[' :: ((l1 ++ n ++ r1) ++ ':' :: ((l2 ++ c ++ r2) ++ [']', '\n'])))
        = .accepted tree ∧
      tree.sections = [sec] ∧
      sec.fieldText field_section_name = some (l1 ++ n ++ r1) ∧
      sec.fieldText field_section_condition = some (l2 ++ c ++ r2) :=
  have hblankName : ∀ ch, blankChar ch → sectionNameChar ch := by
    rintro ch (rfl | rfl) <;> decide
  have hblankCond : ∀ ch, blankChar ch → sectionConditionChar ch := by
    rintro ch (rfl | rfl) <;> decide
  ⟨_, .node sym_section 1
      [ .node sym__section_header 3
          [ .leaf anon_sym_LBRACK [] ['['],
            .leaf sym_section_name [] (l1 ++ n ++ r1),
            .leaf aux_sym__section_header_token1 [] [':'],
            .leaf sym_section_condition [] (l2 ++ c ++ r2),
            .leaf anon_sym_RBRACK [] [']'] ],
        .leaf aux_sym_section_token1 [] ['\n'] ],
    parse_header_with_condition (l1 ++ n ++ r1) (l2 ++ c ++ r2) (by simp [hn]) (by simp [hc])
      (by
        intro ch hch
        simp only [List.mem_append] at hch
        rcases hch with (h | h) | h
        · exact hblankName ch (hl1 ch h)
        · exact hnchars ch h
        · exact hblankName ch (hr1 ch h))
      (by
        intro ch hch
        simp only [List.mem_append] at hch
        rcases hch with (h | h) | h
        · exact hblankCond ch (hl2 ch h)
        · exact hcchars ch h
        · exact hblankCond ch (hr2 ch h)),
    rfl, rfl, rfl⟩

/-- C16 as amended at `[ foo : bar ]\n`. -/
theorem C16_names_are_verbatim_witness :
    ((∀ ch ∈ [' '], blankChar ch) ∧ (∀ ch ∈ [' '], blankChar ch) ∧
      (∀ ch ∈ [' '], blankChar ch) ∧ (∀ ch ∈ [' '], blankChar ch) ∧
      "foo".toList ≠ [] ∧ "bar".toList ≠ [] ∧
      (∀ ch ∈ "foo".toList, sectionNameChar ch) ∧
      (∀ ch ∈ "bar".toList, sectionConditionChar ch)) ∧
    ∃ tree sec,
      ts_parser_parse ('[' :: (([' '] ++ "foo".toList ++ [' ']) ++
          ':' :: (([' '] ++ "bar".toList ++ [' ']) ++ [']', '\n'])))
        = .accepted tree ∧
      tree.sections = [sec] ∧
      sec.fieldText field_section_name = some ([' '] ++ "foo".toList ++ [' ']) ∧
      sec.fieldText field_section_condition = some ([' '] ++ "bar".toList ++ [' ']) :=
  ⟨⟨by decide, by decide, by decide, by decide, by decide, by decide, by decide, by decide⟩,
    C16_names_are_verbatim [' '] "foo".toList [' '] [' '] "bar".toList [' ']
      (by decide) (by decide) (by decide) (by decide) (by decide) (by decide) (by decide)
      (by decide)⟩

/-- C17, the claim fails: `[ ]\n` is accepted and yields a section whose
name is one space. -/
theorem C17_blank_name_is_accepted :
    ∃ tree sec,
      ts_parser_parse "[ ]\n".toList = .accepted tree ∧
      tree.sections = [sec] ∧
      sec.fieldText field_section_name = some [' '] ∧
      tree.document = [⟨some [' '], none, []⟩] :=
  ⟨_, _, rfl, rfl, rfl, rfl⟩

/-- C17 as amended: an empty section name is an error, a blank one is not.
`[]\n` is a syntax error in parse state 42, where the lexer returns no
`section_name` at `]`; for every non-empty run of spaces and tabs `blanks`,
`[blanks]\n` is accepted and yields one section whose name is `blanks`. -/
theorem C17_empty_name (blanks : List Char) (hne : blanks ≠ [])
    (hblanks : ∀ ch ∈ blanks, blankChar ch) :
    ts_parser_parse "[]\n".toList = .syntaxError 42 [']', '\n'] ∧
    ts_lex [']', '\n'] 20 = none ∧
    ∃ tree sec,
      ts_parser_parse ('[' :: (blanks ++ [']', '\n'])) = .accepted tree ∧
      tree.sections = [sec] ∧
      sec.fieldText field_section_name = some blanks ∧
      tree.document = [⟨some blanks, none, []⟩] :=
  ⟨rfl, by decide, _, .node sym_section 1
      [ .node sym__section_header 2
          [ .leaf anon_sym_LBRACK [] ['['],
            .leaf sym_section_name [] blanks,
            .leaf anon_sym_RBRACK [] [']'] ],
        .leaf aux_sym_section_token1 [] ['\n'] ],
    parse_bare_header blanks hne (by
      intro ch hch
      rcases hblanks ch hch with rfl | rfl <;> decide),
    rfl, rfl, rfl⟩

/-- C17 as amended at a space and a tab. -/
theorem C17_empty_name_witness :
    ([' ', '\t'] ≠ [] ∧ (∀ ch ∈ [' ', '\t'], blankChar ch)) ∧
    (ts_parser_parse "[]\n".toList = .syntaxError 42 [']', '\n'] ∧
    ts_lex [']', '\n'] 20 = none ∧
    ∃ tree sec,
      ts_parser_parse ('[' :: ([' ', '\t'] ++ [']', '\n'])) = .accepted tree ∧
      tree.sections = [sec] ∧
      sec.fieldText field_section_name = some [' ', '\t'] ∧
      tree.document = [⟨some [' ', '\t'], none, []⟩]) :=
  ⟨⟨by decide, by decide⟩, C17_empty_name [' ', '\t'] (by decide) (by decide)⟩

/-! ## A list of option lines -/

theorem renderOptions_length (lines : List (List Char × List Char)) :
    4 * lines.length ≤ (renderOptions lines).length := by
  induction lines with
  | nil => simp [renderOptions]
  | cons kv rest ih =>
    simp only [renderOptions, List.length_cons, List.length_append]
    omega

theorem renderOptions_head (lines : List (List Char × List Char))
    (hlines : ∀ kv ∈ lines, ordinaryLine kv) :
    ∀ d, (renderOptions lines).head? = some d → d ≠ '\n' := by
  intro d hd
  cases lines with
  | nil => simp [renderOptions] at hd
  | cons kv rest =>
    obtain ⟨hk, hkchars, _⟩ := hlines kv (by simp)
    obtain ⟨a, k', hk'⟩ := List.exists_cons_of_ne_nil hk
    simp only [renderOptions, hk', List.cons_append, List.head?_cons, Option.some.injEq] at hd
    subst hd
    exact (hkchars a (by simp [hk'])).2.2.1

theorem lex_next_option (state : Nat) (hstate : state = 11 ∨ state = 18)
    (lines : List (List Char × List Char)) (hlines : ∀ kv ∈ lines, ordinaryLine kv)
    (hne : state = 11 → lines ≠ []) :
    ts_parser_lex state (renderOptions lines) = some (nextOptionToken lines) := by
  cases lines with
  | nil =>
    rcases hstate with rfl | rfl
    · exact absurd rfl (hne rfl)
    · decide
  | cons kv rest =>
    obtain ⟨hk, hkchars, _⟩ := hlines kv (by simp)
    rcases hstate with rfl | rfl
    · exact parser_lex_of_lex 11 _ _ (lex_option_name 24 (Or.inr rfl) kv.1 _ hk hkchars)
    · exact parser_lex_of_lex 18 _ _ (lex_option_name 23 (Or.inl rfl) kv.1 _ hk hkchars)

/-- One option line takes the parser from state 11 or 12 through eight steps
to the `option` node, with the next line's first token as lookahead. -/
theorem parse_option_line (b : Nat) (hb : b = 11 ∨ b = 12) (x : Tree) (tail : Stack)
    (kv : List Char × List Char) (rest : List (List Char × List Char))
    (hlines : ∀ l ∈ kv :: rest, ordinaryLine l) (fuel : Nat) (outcome : ParseOutcome)
    (hgo : parseLoop fuel
      ((ts_language_lookup b sym_option, optionNode kv) :: (b, x) :: tail)
      (nextOptionToken rest) = outcome) :
    parseLoop (fuel + 8) ((b, x) :: tail) (nextOptionToken (kv :: rest)) = outcome := by
  obtain ⟨hk, hkchars, hv, hvhead, hvchars⟩ := hlines kv (by simp)
  have hrest : ∀ l ∈ rest, ordinaryLine l := fun l hl => hlines l (by simp [hl])
  have l6 : ts_parser_lex 35 (' ' :: '=' :: ' ' :: (kv.2 ++ '\n' :: renderOptions rest))
      = some ⟨anon_sym_EQ, [' '], ['='], ' ' :: (kv.2 ++ '\n' :: renderOptions rest)⟩ :=
    parser_lex_of_lex 35 _ _ (lex_blank_equals _)
  have l7 : ts_parser_lex 33 (' ' :: (kv.2 ++ '\n' :: renderOptions rest))
      = some ⟨aux_sym_option_token1, [], [' '], kv.2 ++ '\n' :: renderOptions rest⟩ :=
    parser_lex_of_lex 33 _ _ (lex_option_token1 [' '] _ (by decide) (by
      intro d hd
      obtain ⟨c, v', hv'⟩ := List.exists_cons_of_ne_nil hv
      rw [hv'] at hd
      exact hvhead d (by rw [hv']; simpa using hd)))
  have l8 : ts_parser_lex 6 (kv.2 ++ '\n' :: renderOptions rest)
      = some ⟨sym_option_text, [], kv.2, '\n' :: renderOptions rest⟩ :=
    parser_lex_of_lex 6 _ _ (lex_option_text 3 (Or.inl rfl) [] kv.2 _ (by simp)
      hv (by
        intro d hd
        have := hvhead d hd
        simp only [spaceChar, blankChar, not_or] at this ⊢
        exact ⟨this.1, this.2.2.2⟩) hvchars (by simp [lineEnds]))
  have l9 : ts_parser_lex 20 ('\n' :: renderOptions rest)
      = some ⟨aux_sym__option_value_mono_line_token1, [], ['\n'], renderOptions rest⟩ :=
    parser_lex_of_lex 20 _ _ (lex_line_break 4 42 _ (Or.inr ⟨rfl, rfl, rfl⟩) _
      (renderOptions_head rest hrest))
  have l10 : ts_parser_lex 18 (renderOptions rest) = some (nextOptionToken rest) :=
    lex_next_option 18 (Or.inr rfl) rest hrest (by simp)
  have hsym : (nextOptionToken rest).symbol = sym_option_name ∨
      (nextOptionToken rest).symbol = ts_builtin_sym_end := by
    cases rest with
    | nil => exact Or.inr rfl
    | cons _ _ => exact Or.inl rfl
  rcases hb with rfl | rfl
  · refine parseLoop_next (parseStep_shift _ _ rfl l6) ?_
    refine parseLoop_next (parseStep_shift _ _ rfl l7) ?_
    refine parseLoop_next (parseStep_shift _ _ rfl l8) ?_
    refine parseLoop_next (parseStep_shift _ _ rfl l9) ?_
    refine parseLoop_next (parseStep_shift _ _ rfl l10) ?_
    rcases hsym with hs | hs
    · refine parseLoop_next (parseStep_reduce _ _ _ (by rw [hs]; rfl) (by simp)) ?_
      refine parseLoop_next (parseStep_reduce _ _ _ (by rw [hs]; rfl) (by simp)) ?_
      refine parseLoop_next (parseStep_reduce _ _ _ (by rw [hs]; rfl) (by simp)) ?_
      exact hgo
    · refine parseLoop_next (parseStep_reduce _ _ _ (by rw [hs]; rfl) (by simp)) ?_
      refine parseLoop_next (parseStep_reduce _ _ _ (by rw [hs]; rfl) (by simp)) ?_
      refine parseLoop_next (parseStep_reduce _ _ _ (by rw [hs]; rfl) (by simp)) ?_
      exact hgo
  · refine parseLoop_next (parseStep_shift _ _ rfl l6) ?_
    refine parseLoop_next (parseStep_shift _ _ rfl l7) ?_
    refine parseLoop_next (parseStep_shift _ _ rfl l8) ?_
    refine parseLoop_next (parseStep_shift _ _ rfl l9) ?_
    refine parseLoop_next (parseStep_shift _ _ rfl l10) ?_
    rcases hsym with hs | hs
    · refine parseLoop_next (parseStep_reduce _ _ _ (by rw [hs]; rfl) (by simp)) ?_
      refine parseLoop_next (parseStep_reduce _ _ _ (by rw [hs]; rfl) (by simp)) ?_
      refine parseLoop_next (parseStep_reduce _ _ _ (by rw [hs]; rfl) (by simp)) ?_
      exact hgo
    · refine parseLoop_next (parseStep_reduce _ _ _ (by rw [hs]; rfl) (by simp)) ?_
      refine parseLoop_next (parseStep_reduce _ _ _ (by rw [hs]; rfl) (by simp)) ?_
      refine parseLoop_next (parseStep_reduce _ _ _ (by rw [hs]; rfl) (by simp)) ?_
      exact hgo

theorem parse_after_header_a_long (fuel : Nat) (rest : List Char) (next : Lexed)
    (outcome : ParseOutcome)
    (hfuel : fuel ≤ 8 * rest.length + 90)
    (hrest : ∀ d, rest.head? = some d → d ≠ '\n')
    (hnext : ts_parser_lex 11 rest = some next)
    (hgo : parseLoop fuel
      [ (11, .leaf aux_sym_section_token1 [] ['\n']),
        (40, .node sym__section_header 2
          [ .leaf anon_sym_LBRACK [] ['['],
            .leaf sym_section_name [] ['a'],
            .leaf anon_sym_RBRACK [] [']'] ]),
        (7, .leaf aux_sym_profile_token1 [] []) ] next = outcome)
    (hout : outcome ≠ .outOfFuel) :
    ts_parser_parse ('[' :: 'a' :: ']' :: '\n' :: rest) = outcome := by
  have l0 : ts_parser_lex 1 ('[' :: 'a' :: ']' :: '\n' :: rest)
      = some ⟨aux_sym_profile_token1, [], [], '[' :: 'a' :: ']' :: '\n' :: rest⟩ :=
    parser_lex_of_lex 1 _ _ (ts_lex_empty 26 aux_sym_profile_token1 _ rfl
      (by simp [stopsAt, ts_lex_transition_26]))
  have l1 : ts_parser_lex 7 ('[' :: 'a' :: ']' :: '\n' :: rest)
      = some ⟨anon_sym_LBRACK, [], ['['], 'a' :: ']' :: '\n' :: rest⟩ :=
    parser_lex_of_lex 7 _ _ (ts_lex_single 0 28 anon_sym_LBRACK '[' _ rfl rfl rfl
      (stopsAt_of_no_transition 28 _ (fun _ _ => rfl)))
  have l2 : ts_parser_lex 42 ('a' :: ']' :: '\n' :: rest)
      = some ⟨sym_section_name, [], ['a'], ']' :: '\n' :: rest⟩ :=
    parser_lex_of_lex 42 _ _ (lex_section_name ['a'] _ ']' (by simp) (by decide) (Or.inr rfl))
  have l3 : ts_parser_lex 27 (']' :: '\n' :: rest)
      = some ⟨anon_sym_RBRACK, [], [']'], '\n' :: rest⟩ :=
    parser_lex_of_lex 27 _ _ (ts_lex_single 16 30 anon_sym_RBRACK ']' _ rfl rfl rfl
      (stopsAt_of_no_transition 30 _ (fun _ _ => rfl)))
  have l4 : ts_parser_lex 36 ('\n' :: rest)
      = some ⟨aux_sym_section_token1, [], ['\n'], rest⟩ :=
    parser_lex_of_lex 36 _ _ (lex_line_break 6 27 _ (Or.inl ⟨rfl, rfl, rfl⟩) rest hrest)
  unfold ts_parser_parse
  rw [l0]
  refine parseLoop_mono hout (fuel + 6) _ _ ?_ _ ?_
  · refine parseLoop_next (parseStep_shift _ _ rfl l1) ?_
    refine parseLoop_next (parseStep_shift _ _ rfl l2) ?_
    refine parseLoop_next (parseStep_shift _ _ rfl l3) ?_
    refine parseLoop_next (parseStep_shift _ _ rfl l4) ?_
    refine parseLoop_next (parseStep_reduce _ _ _ rfl (by simp)) ?_
    refine parseLoop_next (parseStep_shift _ _ rfl hnext) ?_
    exact hgo
  · simp only [List.length_cons]
    omega

/-- With the options read so far on top of the stack in state 12, the
remaining option lines are parsed one by one and joined to them, and the end
of input closes the section and the profile. -/
theorem parse_more_options : ∀ (more : List (List Char × List Char)),
    (∀ l ∈ more, ordinaryLine l) → ∀ (acc : Tree),
    parseLoop (9 * more.length + 3)
      [ (12, acc),
        (11, .leaf aux_sym_section_token1 [] ['\n']),
        (40, .node sym__section_header 2
          [ .leaf anon_sym_LBRACK [] ['['],
            .leaf sym_section_name [] ['a'],
            .leaf anon_sym_RBRACK [] [']'] ]),
        (7, .leaf aux_sym_profile_token1 [] []) ] (nextOptionToken more)
      = .accepted (.node sym_profile 0
          [ .leaf aux_sym_profile_token1 [] [],
            .node sym_section 1
              [ .node sym__section_header 2
                  [ .leaf anon_sym_LBRACK [] ['['],
                    .leaf sym_section_name [] ['a'],
                    .leaf anon_sym_RBRACK [] [']'] ],
                .leaf aux_sym_section_token1 [] ['\n'],
                joinOptions acc more ],
            .leaf ts_builtin_sym_end [] [] ]) := by
  intro more
  induction more with
  | nil =>
    intro _ acc
    refine parseLoop_next (parseStep_reduce _ _ _ rfl (by simp)) ?_
    refine parseLoop_next (parseStep_reduce _ _ _ rfl (by simp)) ?_
    exact parseLoop_done rfl
  | cons kv rest ih =>
    intro hlines acc
    have hrest : ∀ l ∈ rest, ordinaryLine l := fun l hl => hlines l (by simp [hl])
    have hfuel : 9 * (kv :: rest).length + 3 = (9 * rest.length + 3 + 1) + 8 := by
      simp only [List.length_cons]
      omega
    rw [hfuel]
    refine parse_option_line 12 (Or.inr rfl) _ _ kv rest hlines _ _ ?_
    have hsym : (nextOptionToken rest).symbol = sym_option_name ∨
        (nextOptionToken rest).symbol = ts_builtin_sym_end := by
      cases rest with
      | nil => exact Or.inr rfl
      | cons _ _ => exact Or.inl rfl
    rcases hsym with hs | hs
    · refine parseLoop_next (parseStep_reduce _ _ _ (by rw [hs]; rfl) (by simp)) ?_
      exact ih hrest _
    · refine parseLoop_next (parseStep_reduce _ _ _ (by rw [hs]; rfl) (by simp)) ?_
      exact ih hrest _

theorem parse_option_lines (first : List Char × List Char)
    (more : List (List Char × List Char)) (hlines : ∀ l ∈ first :: more, ordinaryLine l) :
    ts_parser_parse ('[' :: 'a' :: ']' :: '\n' :: renderOptions (first :: more))
      = .accepted (.node sym_profile 0
          [ .leaf aux_sym_profile_token1 [] [],
            .node sym_section 1
              [ .node sym__section_header 2
                  [ .leaf anon_sym_LBRACK [] ['['],
                    .leaf sym_section_name [] ['a'],
                    .leaf anon_sym_RBRACK [] [']'] ],
                .leaf aux_sym_section_token1 [] ['\n'],
                joinOptions (optionNode first) more ],
            .leaf ts_builtin_sym_end [] [] ]) := by
  have hmore : ∀ l ∈ more, ordinaryLine l := fun l hl => hlines l (by simp [hl])
  refine parse_after_header_a_long ((9 * more.length + 3) + 8) _ _ _ ?_
    (renderOptions_head _ hlines)
    (lex_next_option 11 (Or.inl rfl) _ hlines (by simp)) ?_ (by simp)
  · have := renderOptions_length (first :: more)
    simp only [List.length_cons] at this
    omega
  · exact parse_option_line 11 (Or.inl rfl) _ _ first more hlines _ _
      (parse_more_options more hmore _)

theorem joinOptions_visibleNodes : ∀ (more : List (List Char × List Char)) (acc : Tree),
    (joinOptions acc more).visibleNodes = acc.visibleNodes ++ more.map optionNode := by
  intro more
  induction more with
  | nil => intro acc; simp [joinOptions]
  | cons kv rest ih =>
    intro acc
    have hstep : joinOptions acc (kv :: rest)
        = joinOptions (.node aux_sym_section_repeat1 0 [acc, optionNode kv]) rest := rfl
    have hnode : (Tree.node aux_sym_section_repeat1 0 [acc, optionNode kv]).visibleNodes
        = acc.visibleNodes ++ [optionNode kv] := by
      simp [Tree.visibleNodes, visibleNodesOfList, ts_symbol_visible, optionNode]
    rw [hstep, ih, hnode]
    simp

theorem options_of_joined (first : List Char × List Char)
    (more : List (List Char × List Char)) (header : List Tree) (pid : Nat)
    (hheader : visibleNodesOfList header = [ .leaf anon_sym_LBRACK [] ['['],
      .leaf sym_section_name [] ['a'], .leaf anon_sym_RBRACK [] [']'] ]) :
    (Tree.node sym_section pid (header ++ [joinOptions (optionNode first) more])).options
      = (first :: more).map optionNode := by
  have hvis : ∀ (ts ts' : List Tree),
      visibleNodesOfList (ts ++ ts') = visibleNodesOfList ts ++ visibleNodesOfList ts' := by
    intro ts ts'
    induction ts with
    | nil => simp [visibleNodesOfList]
    | cons t ts ih => simp [visibleNodesOfList, ih]
  have hopt : (optionNode first).visibleNodes = [optionNode first] := by
    simp [optionNode, Tree.visibleNodes, ts_symbol_visible]
  have hfilter : ∀ (ls : List (List Char × List Char)),
      (ls.map optionNode).filter (fun c => c.symbol = sym_option) = ls.map optionNode := by
    intro ls
    induction ls with
    | nil => simp
    | cons l ls ih =>
      simp only [List.map_cons]
      rw [List.filter_cons_of_pos (by simp [optionNode, Tree.symbol]), ih]
  unfold Tree.options Tree.childrenOf Tree.visibleChildren
  simp only [hvis, hheader]
  simp only [visibleNodesOfList, joinOptions_visibleNodes, hopt, List.append_nil]
  have : ([Tree.leaf anon_sym_LBRACK [] ['['], Tree.leaf sym_section_name [] ['a'],
      Tree.leaf anon_sym_RBRACK [] [']']] ++ ([optionNode first] ++ more.map optionNode))
      = [Tree.leaf anon_sym_LBRACK [] ['['], Tree.leaf sym_section_name [] ['a'],
      Tree.leaf anon_sym_RBRACK [] [']']] ++ (first :: more).map optionNode := by simp
  rw [this, List.filter_append, hfilter]
  simp [Tree.symbol]

/-- C20: for every list of option lines `k = v` (non-empty names of
option-name characters, non-empty values without NUL, newline and `$` that do
not start with white space; names may repeat), parsing the lines under the
header `[a]` is accepted and yields one section with exactly as many options
as lines, in the same order, each with the name and the value of its line. -/
theorem C20_option_order (lines : List (List Char × List Char))
    (hlines : ∀ kv ∈ lines, ordinaryLine kv) :
    ∃ tree sec,
      ts_parser_parse ("[a]\n".toList ++ renderOptions lines) = .accepted tree ∧
      tree.sections = [sec] ∧
      sec.fieldText field_section_name = some ['a'] ∧
      sec.options.length = lines.length ∧
      sec.options.map Tree.optionView
        = lines.map (fun kv => ⟨[kv.1], [[.text kv.2]]⟩) := by
  cases lines with
  | nil =>
    exact ⟨_, _, parse_bare_header ['a'] (by simp) (by decide), rfl, rfl, rfl, rfl⟩
  | cons first more =>
    have hopts : (Tree.node sym_section 1
        [ .node sym__section_header 2
            [ .leaf anon_sym_LBRACK [] ['['],
              .leaf sym_section_name [] ['a'],
              .leaf anon_sym_RBRACK [] [']'] ],
          .leaf aux_sym_section_token1 [] ['\n'],
          joinOptions (optionNode first) more ]).options = (first :: more).map optionNode :=
      options_of_joined first more
        [ .node sym__section_header 2
            [ .leaf anon_sym_LBRACK [] ['['],
              .leaf sym_section_name [] ['a'],
              .leaf anon_sym_RBRACK [] [']'] ],
          .leaf aux_sym_section_token1 [] ['\n'] ] 1 rfl
    refine ⟨_, _, parse_option_lines first more hlines, rfl, rfl, ?_, ?_⟩
    · rw [hopts]
      simp
    · rw [hopts, List.map_map]
      rfl

/-- C20 at `[a]\nk = 1\nk = 2\n`: two options named `k` with the values `1`
and `2`, in this order. -/
theorem C20_option_order_witness :
    (∀ kv ∈ [(['k'], ['1']), (['k'], ['2'])], ordinaryLine kv) ∧
    ∃ tree sec,
      ts_parser_parse "[a]\nk = 1\nk = 2\n".toList = .accepted tree ∧
      tree.sections = [sec] ∧
      sec.fieldText field_section_name = some ['a'] ∧
      sec.options.length = 2 ∧
      sec.options.map Tree.optionView
        = [⟨[['k']], [[.text ['1']]]⟩, ⟨[['k']], [[.text ['2']]]⟩] :=
  have h : ∀ kv ∈ [(['k'], ['1']), (['k'], ['2'])], ordinaryLine kv := by
    intro kv hkv
    simp only [List.mem_cons, List.mem_singleton, List.not_mem_nil, or_false] at hkv
    rcases hkv with rfl | rfl <;>
      exact ⟨by decide, by decide, by decide, by simp [spaceChar], by decide⟩
  ⟨h, C20_option_order [(['k'], ['1']), (['k'], ['2'])] h⟩

/-! ## Empty tokens -/

theorem apply_ite_true {α : Type} (f : α → Bool) (c : Prop) [Decidable c] (a b : α)
    (ha : f a = true) (hb : f b = true) : f (if c then a else b) = true := by
  split <;> assumption

/-- The targets of the transitions of `ts_lex`: every `ADVANCE` leads to one
of the sixty states and never to a state that skips; a `SKIP` occurs only in
the states of `skipState` and leads to one of them. -/
theorem ts_lex_transition_targets (s : Nat) (hs : s < 60) (eof : Bool) (c : Char) :
    LexAction.targetsOk (fun t => decide (t < 60) && !skipState t)
      (fun t => skipState s && skipState t)
      (ts_lex_transition s eof c) = true := by
  obtain hs | rfl : s < 59 ∨ s = 59 := by omega
  swap
  · rw [ts_lex_transition_59]; repeat (first | rfl | apply apply_ite_true)
  obtain hs | rfl : s < 58 ∨ s = 58 := by omega
  swap
  · rw [ts_lex_transition_58]; repeat (first | rfl | apply apply_ite_true)
  obtain hs | rfl : s < 57 ∨ s = 57 := by omega
  swap
  · rw [ts_lex_transition_57]; repeat (first | rfl | apply apply_ite_true)
  obtain hs | rfl : s < 56 ∨ s = 56 := by omega
  swap
  · rw [ts_lex_transition_56]; repeat (first | rfl | apply apply_ite_true)
  obtain hs | rfl : s < 55 ∨ s = 55 := by omega
  swap
  · rw [ts_lex_transition_55]; repeat (first | rfl | apply apply_ite_true)
  obtain hs | rfl : s < 54 ∨ s = 54 := by omega
  swap
  · rw [ts_lex_transition_54]; repeat (first | rfl | apply apply_ite_true)
  obtain hs | rfl : s < 53 ∨ s = 53 := by omega
  swap
  · rw [ts_lex_transition_53]; repeat (first | rfl | apply apply_ite_true)
  obtain hs | rfl : s < 52 ∨ s = 52 := by omega
  swap
  · rw [ts_lex_transition_52]; repeat (first | rfl | apply apply_ite_true)
  obtain hs | rfl : s < 51 ∨ s = 51 := by omega
  swap
  · rw [ts_lex_transition_51]; repeat (first | rfl | apply apply_ite_true)
  obtain hs | rfl : s < 50 ∨ s = 50 := by omega
  swap
  · rw [ts_lex_transition_50]; repeat (first | rfl | apply apply_ite_true)
  obtain hs | rfl : s < 49 ∨ s = 49 := by omega
  swap
  · rw [ts_lex_transition_49]; repeat (first | rfl | apply apply_ite_true)
  obtain hs | rfl : s < 48 ∨ s = 48 := by omega
  swap
  · rw [ts_lex_transition_48]; repeat (first | rfl | apply apply_ite_true)
  obtain hs | rfl : s < 47 ∨ s = 47 := by omega
  swap
  · rw [ts_lex_transition_47]; repeat (first | rfl | apply apply_ite_true)
  obtain hs | rfl : s < 46 ∨ s = 46 := by omega
  swap
  · rw [ts_lex_transition_46]; repeat (first | rfl | apply apply_ite_true)
  obtain hs | rfl : s < 45 ∨ s = 45 := by omega
  swap
  · rw [ts_lex_transition_45]; repeat (first | rfl | apply apply_ite_true)
  obtain hs | rfl : s < 44 ∨ s = 44 := by omega
  swap
  · rw [ts_lex_transition_44]; repeat (first | rfl | apply apply_ite_true)
  obtain hs | rfl : s < 43 ∨ s = 43 := by omega
  swap
  · rw [ts_lex_transition_43]; repeat (first | rfl | apply apply_ite_true)
  obtain hs | rfl : s < 42 ∨ s = 42 := by omega
  swap
  · rw [ts_lex_transition_42]; repeat (first | rfl | apply apply_ite_true)
  obtain hs | rfl : s < 41 ∨ s = 41 := by omega
  swap
  · rw [ts_lex_transition_41]; repeat (first | rfl | apply apply_ite_true)
  obtain hs | rfl : s < 40 ∨ s = 40 := by omega
  swap
  · rw [ts_lex_transition_40]; repeat (first | rfl | apply apply_ite_true)
  obtain hs | rfl : s < 39 ∨ s = 39 := by omega
  swap
  · rw [ts_lex_transition_39]; repeat (first | rfl | apply apply_ite_true)
  obtain hs | rfl : s < 38 ∨ s = 38 := by omega
  swap
  · rw [ts_lex_transition_38]; repeat (first | rfl | apply apply_ite_true)
  obtain hs | rfl : s < 37 ∨ s = 37 := by omega
  swap
  · rw [ts_lex_transition_37]; repeat (first | rfl | apply apply_ite_true)
  obtain hs | rfl : s < 36 ∨ s = 36 := by omega
  swap
  · rw [ts_lex_transition_36]; repeat (first | rfl | apply apply_ite_true)
  obtain hs | rfl : s < 35 ∨ s = 35 := by omega
  swap
  · rw [ts_lex_transition_35]; repeat (first | rfl | apply apply_ite_true)
  obtain hs | rfl : s < 34 ∨ s = 34 := by omega
  swap
  · rw [ts_lex_transition_34]; repeat (first | rfl | apply apply_ite_true)
  obtain hs | rfl : s < 33 ∨ s = 33 := by omega
  swap
  · rw [ts_lex_transition_33]; repeat (first | rfl | apply apply_ite_true)
  obtain hs | rfl : s < 32 ∨ s = 32 := by omega
  swap
  · rw [ts_lex_transition_32]; repeat (first | rfl | apply apply_ite_true)
  obtain hs | rfl : s < 31 ∨ s = 31 := by omega
  swap
  · rw [ts_lex_transition_31]; repeat (first | rfl | apply apply_ite_true)
  obtain hs | rfl : s < 30 ∨ s = 30 := by omega
  swap
  · rw [ts_lex_transition_30]; repeat (first | rfl | apply apply_ite_true)
  obtain hs | rfl : s < 29 ∨ s = 29 := by omega
  swap
  · rw [ts_lex_transition_29]; repeat (first | rfl | apply apply_ite_true)
  obtain hs | rfl : s < 28 ∨ s = 28 := by omega
  swap
  · rw [ts_lex_transition_28]; repeat (first | rfl | apply apply_ite_true)
  obtain hs | rfl : s < 27 ∨ s = 27 := by omega
  swap
  · rw [ts_lex_transition_27]; repeat (first | rfl | apply apply_ite_true)
  obtain hs | rfl : s < 26 ∨ s = 26 := by omega
  swap
  · rw [ts_lex_transition_26]; repeat (first | rfl | apply apply_ite_true)
  obtain hs | rfl : s < 25 ∨ s = 25 := by omega
  swap
  · rw [ts_lex_transition_25]; repeat (first | rfl | apply apply_ite_true)
  obtain hs | rfl : s < 24 ∨ s = 24 := by omega
  swap
  · rw [ts_lex_transition_24]; repeat (first | rfl | apply apply_ite_true)
  obtain hs | rfl : s < 23 ∨ s = 23 := by omega
  swap
  · rw [ts_lex_transition_23]; repeat (first | rfl | apply apply_ite_true)
  obtain hs | rfl : s < 22 ∨ s = 22 := by omega
  swap
  · rw [ts_lex_transition_22]; repeat (first | rfl | apply apply_ite_true)
  obtain hs | rfl : s < 21 ∨ s = 21 := by omega
  swap
  · rw [ts_lex_transition_21]; repeat (first | rfl | apply apply_ite_true)
  obtain hs | rfl : s < 20 ∨ s = 20 := by omega
  swap
  · rw [ts_lex_transition_20]; repeat (first | rfl | apply apply_ite_true)
  obtain hs | rfl : s < 19 ∨ s = 19 := by omega
  swap
  · rw [ts_lex_transition_19]; repeat (first | rfl | apply apply_ite_true)
  obtain hs | rfl : s < 18 ∨ s = 18 := by omega
  swap
  · rw [ts_lex_transition_18]; repeat (first | rfl | apply apply_ite_true)
  obtain hs | rfl : s < 17 ∨ s = 17 := by omega
  swap
  · rw [ts_lex_transition_17]; repeat (first | rfl | apply apply_ite_true)
  obtain hs | rfl : s < 16 ∨ s = 16 := by omega
  swap
  · rw [ts_lex_transition_16]; repeat (first | rfl | apply apply_ite_true)
  obtain hs | rfl : s < 15 ∨ s = 15 := by omega
  swap
  · rw [ts_lex_transition_15]; repeat (first | rfl | apply apply_ite_true)
  obtain hs | rfl : s < 14 ∨ s = 14 := by omega
  swap
  · rw [ts_lex_transition_14]; repeat (first | rfl | apply apply_ite_true)
  obtain hs | rfl : s < 13 ∨ s = 13 := by omega
  swap
  · rw [ts_lex_transition_13]; repeat (first | rfl | apply apply_ite_true)
  obtain hs | rfl : s < 12 ∨ s = 12 := by omega
  swap
  · rw [ts_lex_transition_12]; repeat (first | rfl | apply apply_ite_true)
  obtain hs | rfl : s < 11 ∨ s = 11 := by omega
  swap
  · rw [ts_lex_transition_11]; repeat (first | rfl | apply apply_ite_true)
  obtain hs | rfl : s < 10 ∨ s = 10 := by omega
  swap
  · rw [ts_lex_transition_10]; repeat (first | rfl | apply apply_ite_true)
  obtain hs | rfl : s < 9 ∨ s = 9 := by omega
  swap
  · rw [ts_lex_transition_9]; repeat (first | rfl | apply apply_ite_true)
  obtain hs | rfl : s < 8 ∨ s = 8 := by omega
  swap
  · rw [ts_lex_transition_8]; repeat (first | rfl | apply apply_ite_true)
  obtain hs | rfl : s < 7 ∨ s = 7 := by omega
  swap
  · rw [ts_lex_transition_7]; repeat (first | rfl | apply apply_ite_true)
  obtain hs | rfl : s < 6 ∨ s = 6 := by omega
  swap
  · rw [ts_lex_transition_6]; repeat (first | rfl | apply apply_ite_true)
  obtain hs | rfl : s < 5 ∨ s = 5 := by omega
  swap
  · rw [ts_lex_transition_5]; repeat (first | rfl | apply apply_ite_true)
  obtain hs | rfl : s < 4 ∨ s = 4 := by omega
  swap
  · rw [ts_lex_transition_4]; repeat (first | rfl | apply apply_ite_true)
  obtain hs | rfl : s < 3 ∨ s = 3 := by omega
  swap
  · rw [ts_lex_transition_3]; repeat (first | rfl | apply apply_ite_true)
  obtain hs | rfl : s < 2 ∨ s = 2 := by omega
  swap
  · rw [ts_lex_transition_2]; repeat (first | rfl | apply apply_ite_true)
  obtain hs | rfl : s < 1 ∨ s = 1 := by omega
  swap
  · rw [ts_lex_transition_1]; repeat (first | rfl | apply apply_ite_true)
  obtain hs | rfl : s < 0 ∨ s = 0 := by omega
  swap
  · rw [ts_lex_transition_0]; repeat (first | rfl | apply apply_ite_true)
  omega

theorem ts_lex_accept_skipState : ∀ s, s < 60 → skipState s = true → ts_lex_accept s = none := by
  decide

theorem ts_lex_transition_eof : ∀ s, s < 60 →
    ts_lex_transition s true '\x00' = .advance 25 ∨ ts_lex_transition s true '\x00' = .stop := by
  decide

theorem markEnd_emptyAllowed (start s : Nat) (hs : s < 60)
    (skipped consumed rest : List Char) (result : Option Lexed)
    (h1 : consumed = [] → s = start ∨ skipState s = true ∨ s = 25)
    (h2 : ∀ r, result = some r → emptyAllowed start r) :
    ∀ r, markEnd s skipped consumed rest result = some r → emptyAllowed start r := by
  intro r hr
  unfold markEnd at hr
  cases hacc : ts_lex_accept s with
  | none => rw [hacc] at hr; exact h2 r hr
  | some sym =>
    rw [hacc] at hr
    simp only [Option.some.injEq] at hr
    subst hr
    by_cases hc : consumed = []
    · rcases h1 hc with rfl | hskip | rfl
      · exact Or.inr (Or.inr hacc)
      · rw [ts_lex_accept_skipState s hs hskip] at hacc
        cases hacc
      · refine Or.inr (Or.inl ?_)
        have : ts_lex_accept 25 = some ts_builtin_sym_end := rfl
        rw [this] at hacc
        exact (Option.some.inj hacc).symm
    · exact Or.inl hc

theorem lexAtEof_emptyAllowed (start : Nat) : ∀ (fuel s : Nat), s < 60 →
    ∀ (skipped consumed : List Char) (result : Option Lexed),
    (consumed = [] → s = start ∨ skipState s = true ∨ s = 25) →
    (∀ r, result = some r → emptyAllowed start r) →
    ∀ r, lexAtEof fuel s skipped consumed result = some r → emptyAllowed start r := by
  intro fuel
  induction fuel with
  | zero => intro s _ skipped consumed result _ _ r h; simp [lexAtEof] at h
  | succ fuel ih =>
    intro s hs skipped consumed result h1 h2 r h
    have hmark := markEnd_emptyAllowed start s hs skipped consumed [] result h1 h2
    simp only [lexAtEof] at h
    rcases ts_lex_transition_eof s hs with htr | htr
    · rw [htr] at h
      exact ih 25 (by decide) skipped consumed _ (fun _ => Or.inr (Or.inr rfl)) hmark r h
    · rw [htr] at h
      exact hmark r h

theorem lexLoop_emptyAllowed (start : Nat) : ∀ (input : List Char) (s : Nat), s < 60 →
    ∀ (skipped consumed : List Char) (result : Option Lexed),
    (consumed = [] → s = start ∨ skipState s = true ∨ s = 25) →
    (∀ r, result = some r → emptyAllowed start r) →
    (skipState s = true → result = none) →
    ∀ r, lexLoop input s skipped consumed result = some r → emptyAllowed start r := by
  intro input
  induction input with
  | nil =>
    intro s hs skipped consumed result h1 h2 _ r h
    exact lexAtEof_emptyAllowed start 60 s hs skipped consumed result h1 h2 r
      (by simpa [lexLoop] using h)
  | cons c cs ih =>
    intro s hs skipped consumed result h1 h2 h3 r h
    have hmark := markEnd_emptyAllowed start s hs skipped consumed (c :: cs) result h1 h2
    have htargets := ts_lex_transition_targets s hs false c
    simp only [lexLoop] at h
    cases htr : ts_lex_transition s false c with
    | advance s' =>
      rw [htr] at h htargets
      simp only [LexAction.targetsOk, Bool.and_eq_true, decide_eq_true_eq,
        Bool.not_eq_true'] at htargets
      refine ih s' htargets.1 skipped (consumed ++ [c]) _ (by simp) hmark ?_ r h
      intro hskip
      rw [htargets.2] at hskip
      cases hskip
    | skip s' =>
      rw [htr] at h htargets
      simp only [LexAction.targetsOk, Bool.and_eq_true] at htargets
      have hnone : markEnd s skipped consumed (c :: cs) result = none := by
        unfold markEnd
        rw [ts_lex_accept_skipState s hs htargets.1, h3 htargets.1]
      have hs' : s' < 60 := by
        have := htargets.2
        simp only [skipState, Bool.or_eq_true, beq_iff_eq] at this
        omega
      rw [hnone] at h
      exact ih s' hs' _ [] _ (fun _ => Or.inr (Or.inl htargets.2)) (by simp) (by simp) r h
    | stop =>
      rw [htr] at h
      exact hmark r h

/-- A token of `ts_lex` is empty only when it is the end of input or when
the start state itself accepts it. -/
theorem ts_lex_emptyAllowed (start : Nat) (hstart : start < 60) (input : List Char)
    (tok : Lexed) (h : ts_lex input start = some tok) : emptyAllowed start tok :=
  lexLoop_emptyAllowed start input start hstart [] [] none (fun _ => Or.inl rfl) (by simp)
    (fun _ => rfl) tok h

theorem ts_lex_modes_accept : ∀ state, state < STATE_COUNT →
    ts_lex_modes.getD state 0 < 60 ∧
    (ts_lex_accept (ts_lex_modes.getD state 0) = none ∨
      ts_lex_accept (ts_lex_modes.getD state 0) = some aux_sym_profile_token1 ∨
      ts_lex_accept (ts_lex_modes.getD state 0) = some aux_sym_option_token1) := by
  decide

/-- The tokens the parser reads are never empty, but for the end of input,
the token `profile_token1` that opens the document and the white space
`option_token1` after `=`. -/
theorem parser_lex_nonempty (state : Nat) (input : List Char) (tok : Lexed)
    (h : ts_parser_lex state input = some tok) :
    tok.text ≠ [] ∨ tok.symbol = ts_builtin_sym_end ∨ tok.symbol = aux_sym_profile_token1 ∨
      tok.symbol = aux_sym_option_token1 := by
  have hmode : ∀ st, ts_lex_modes.getD st 0 < 60 ∧
      (ts_lex_accept (ts_lex_modes.getD st 0) = none ∨
        ts_lex_accept (ts_lex_modes.getD st 0) = some aux_sym_profile_token1 ∨
        ts_lex_accept (ts_lex_modes.getD st 0) = some aux_sym_option_token1) := by
    intro st
    by_cases hst : st < STATE_COUNT
    · exact ts_lex_modes_accept st hst
    · have : ts_lex_modes.getD st 0 = 0 := by
        unfold List.getD
        rw [List.get?_eq_none.mpr (by simpa [STATE_COUNT, ts_lex_modes] using hst)]
        rfl
      rw [this]
      exact ⟨by decide, Or.inl rfl⟩
  have hfrom : ∀ st, ts_lex input (ts_lex_modes.getD st 0) = some tok →
      tok.text ≠ [] ∨ tok.symbol = ts_builtin_sym_end ∨
        tok.symbol = aux_sym_profile_token1 ∨ tok.symbol = aux_sym_option_token1 := by
    intro st hlex
    rcases ts_lex_emptyAllowed _ (hmode st).1 input tok hlex with h1 | h1 | h1
    · exact Or.inl h1
    · exact Or.inr (Or.inl h1)
    · rcases (hmode st).2 with h2 | h2 | h2
      · rw [h2] at h1; cases h1
      · rw [h2] at h1
        exact Or.inr (Or.inr (Or.inl (Option.some.inj h1).symm))
      · rw [h2] at h1
        exact Or.inr (Or.inr (Or.inr (Option.some.inj h1).symm))
  unfold ts_parser_lex at h
  cases hlex : ts_lex input (ts_lex_modes.getD state 0) with
  | some t =>
    rw [hlex] at h
    simp only [Option.some.injEq] at h
    subst h
    exact hfrom state hlex
  | none =>
    rw [hlex] at h
    exact hfrom 0 h

theorem mem_tokensOfList (l : Tree) : ∀ (ts : List Tree),
    l ∈ tokensOfList ts ↔ ∃ t ∈ ts, l ∈ t.tokens := by
  intro ts
  induction ts with
  | nil => simp [tokensOfList]
  | cons t ts ih => simp [tokensOfList, ih]

/-- One step of the parser keeps the tokens of the stack and the lookahead
among those the lexer returned. -/
theorem parseStep_tokens (stack : Stack) (tok : Lexed)
    (hstack : ∀ e ∈ stack, ∀ l ∈ e.2.tokens, l.nonemptyToken)
    (htok : (Tree.leaf tok.symbol tok.padding tok.text).nonemptyToken) :
    (∀ stack' tok', parseStep stack tok = .next stack' tok' →
      (∀ e ∈ stack', ∀ l ∈ e.2.tokens, l.nonemptyToken) ∧
      (Tree.leaf tok'.symbol tok'.padding tok'.text).nonemptyToken) ∧
    (∀ tree, parseStep stack tok = .done (.accepted tree) →
      ∀ l ∈ tree.tokens, l.nonemptyToken) := by
  unfold parseStep
  cases hact : effectiveAction (ts_language_actions (stackState stack) tok.symbol) with
  | none => simp
  | some a =>
    cases a with
    | entry count reusable => simp
    | recover => simp
    | shift state rep =>
      simp only
      cases hlex : ts_parser_lex state tok.rest with
      | none => simp
      | some next =>
        refine ⟨?_, by simp⟩
        intro stack' tok' h
        simp only [StepResult.next.injEq] at h
        obtain ⟨rfl, rfl⟩ := h
        refine ⟨?_, parser_lex_nonempty state tok.rest _ hlex⟩
        intro e he l hl
        rcases List.mem_cons.mp he with rfl | he
        · simp only [Tree.tokens, List.mem_singleton] at hl
          subst hl
          exact htok
        · exact hstack e he l hl
    | reduce symbol childCount productionId =>
      simp only
      split
      · refine ⟨?_, by simp⟩
        intro stack' tok' h
        simp only [StepResult.next.injEq] at h
        obtain ⟨rfl, rfl⟩ := h
        refine ⟨?_, htok⟩
        intro e he l hl
        rcases List.mem_cons.mp he with rfl | he
        · simp only [Tree.tokens, mem_tokensOfList, List.mem_reverse, List.mem_map] at hl
          obtain ⟨t, ⟨e', he', rfl⟩, hl⟩ := hl
          exact hstack e' (List.mem_of_mem_take he') l hl
        · exact hstack e (List.mem_of_mem_drop he) l hl
      · simp
    | accept =>
      simp only
      split
      · refine ⟨by simp, ?_⟩
        intro tree h
        simp only [StepResult.done.injEq, ParseOutcome.accepted.injEq] at h
        subst h
        intro l hl
        rename_i st symbol productionId children rest
        simp only [Tree.tokens, mem_tokensOfList, List.mem_append, List.mem_singleton] at hl
        obtain ⟨t, ht | rfl, hl⟩ := hl
        · exact hstack (st, .node symbol productionId children) (by simp) l
            (by simp only [Tree.tokens, mem_tokensOfList]; exact ⟨t, ht, hl⟩)
        · simp only [Tree.tokens, List.mem_singleton] at hl
          subst hl
          exact htok
      · simp

theorem parseLoop_tokens : ∀ (fuel : Nat) (stack : Stack) (tok : Lexed),
    (∀ e ∈ stack, ∀ l ∈ e.2.tokens, l.nonemptyToken) →
    (Tree.leaf tok.symbol tok.padding tok.text).nonemptyToken →
    ∀ tree, parseLoop fuel stack tok = .accepted tree → ∀ l ∈ tree.tokens, l.nonemptyToken := by
  intro fuel
  induction fuel with
  | zero => intro stack tok _ _ tree h; simp [parseLoop] at h
  | succ fuel ih =>
    intro stack tok hstack htok tree h
    have hstep := parseStep_tokens stack tok hstack htok
    simp only [parseLoop] at h
    cases hs : parseStep stack tok with
    | next stack' tok' =>
      rw [hs] at h
      exact ih stack' tok' (hstep.1 stack' tok' hs).1 (hstep.1 stack' tok' hs).2 tree h
    | done outcome =>
      rw [hs] at h
      simp only at h
      subst h
      exact hstep.2 tree hs

/-- Every token of an accepted tree is non-empty, but for the end of input,
`profile_token1` and `option_token1`. -/
theorem parse_tokens_nonempty (input : List Char) (tree : Tree)
    (h : ts_parser_parse input = .accepted tree) : ∀ l ∈ tree.tokens, l.nonemptyToken := by
  unfold ts_parser_parse at h
  cases hlex : ts_parser_lex 1 input with
  | none => rw [hlex] at h; simp at h
  | some tok =>
    rw [hlex] at h
    exact parseLoop_tokens _ [] tok (by simp) (parser_lex_nonempty 1 input tok hlex) tree h

/-! ## Empty reference options -/

theorem parse_empty_option_after_section (s : List Char) (hs : s ≠ [])
    (hschars : ∀ ch ∈ s, referencedSectionChar ch) :
    ts_parser_parse ('[' :: 'a' :: ']' :: '\n' :: 'k' :: 'e' :: 'y' :: ' ' :: '=' :: ' ' ::
        '$' :: '{' :: (s ++ [':', '}', '\n']))
      = .syntaxError 38 ['}', '\n'] := by
  have l5 : ts_parser_lex 11 ('k' :: 'e' :: 'y' :: ' ' :: '=' :: ' ' ::
        '$' :: '{' :: (s ++ [':', '}', '\n']))
      = some ⟨sym_option_name, [], ['k', 'e', 'y'], ' ' :: '=' :: ' ' ::
        '$' :: '{' :: (s ++ [':', '}', '\n'])⟩ :=
    parser_lex_of_lex 11 _ _ (lex_option_name 24 (Or.inr rfl) ['k', 'e', 'y'] _ (by simp)
      (by decide))
  have l6 : ts_parser_lex 35 (' ' :: '=' :: ' ' :: '$' :: '{' :: (s ++ [':', '}', '\n']))
      = some ⟨anon_sym_EQ, [' '], ['='], ' ' :: '$' :: '{' :: (s ++ [':', '}', '\n'])⟩ :=
    parser_lex_of_lex 35 _ _ (lex_blank_equals _)
  have l7 : ts_parser_lex 33 (' ' :: '$' :: '{' :: (s ++ [':', '}', '\n']))
      = some ⟨aux_sym_option_token1, [], [' '], '$' :: '{' :: (s ++ [':', '}', '\n'])⟩ :=
    parser_lex_of_lex 33 _ _ (lex_option_token1 [' '] _ (by decide) (by simp))
  have hline : ∀ ch ∈ s ++ [':', '}'], ch ≠ '\x00' ∧ ch ≠ '\n' ∧ ch ≠ '$' := by
    intro ch hch
    simp only [List.mem_append, List.mem_cons, List.mem_singleton, List.not_mem_nil,
      or_false] at hch
    rcases hch with h | rfl | rfl
    · exact ⟨(hschars ch h).1, (hschars ch h).2.1, (hschars ch h).2.2.2.2⟩
    · decide
    · decide
  have l8 : ts_parser_lex 6 ('$' :: '{' :: (s ++ [':', '}', '\n']))
      = some ⟨anon_sym_DOLLAR_LBRACE, [], ['$', '{'], s ++ [':', '}', '\n']⟩ := by
    have := lex_dollar_lbrace 3 (Or.inl rfl) (s ++ [':', '}']) ['\n']
      (noDoubleDollar_of_no_dollar _ (fun ch hch => (hline ch hch).2.2))
      (fun ch hch => ⟨(hline ch hch).1, (hline ch hch).2.1⟩) (by simp [lineEnds])
    exact parser_lex_of_lex 6 _ _ (by simpa using this)
  have l9 : ts_parser_lex 28 (s ++ [':', '}', '\n'])
      = some ⟨sym_referenced_section, [], s, [':', '}', '\n']⟩ :=
    parser_lex_of_lex 28 _ _ (lex_referenced_section s _ hs hschars)
  have l10 : ts_parser_lex 30 [':', '}', '\n']
      = some ⟨anon_sym_COLON, [], [':'], ['}', '\n']⟩ := by
    decide
  have l11 : ts_parser_lex 38 ['}', '\n'] = some ⟨anon_sym_RBRACE, [], ['}'], ['\n']⟩ := by
    decide
  refine parse_after_header_a 7 _ _ _ (by omega) (by simp) l5 ?_ (by simp)
  refine parseLoop_next (parseStep_shift _ _ rfl l6) ?_
  refine parseLoop_next (parseStep_shift _ _ rfl l7) ?_
  refine parseLoop_next (parseStep_shift _ _ rfl l8) ?_
  refine parseLoop_next (parseStep_shift _ _ rfl l9) ?_
  refine parseLoop_next (parseStep_shift _ _ rfl l10) ?_
  refine parseLoop_next (parseStep_shift _ _ rfl l11) ?_
  exact parseLoop_done rfl

/-- C12, the claim fails: the values of `[a]\nkey = ${} $$\n` and of
`[a]\nkey = ${s:} $$\n` contain `${}` and `${s:}`, and both inputs are accepted;
the line holds `$$`, so all of it is one text segment. -/
theorem C12_empty_reference_accepted_as_text :
    ∃ tree sec opt value,
      ts_parser_parse ("[a]\nkey = ".toList ++ ['$', '{', '}', ' ', '$', '$', '\n'])
        = .accepted tree ∧
      tree.sections = [sec] ∧ sec.options = [opt] ∧ opt.optionValues = [value] ∧
      value.segments = [.text ['$', '{', '}', ' ', '$', '$']] ∧
    ∃ tree' sec' opt' value',
      ts_parser_parse ("[a]\nkey = ".toList ++ ['$', '{', 's', ':', '}', ' ', '$', '$', '\n'])
        = .accepted tree' ∧
      tree'.sections = [sec'] ∧ sec'.options = [opt'] ∧ opt'.optionValues = [value'] ∧
      value'.segments = [.text ['$', '{', 's', ':', '}', ' ', '$', '$']] :=
  ⟨_, _, _, _, rfl, rfl, rfl, rfl, rfl, _, _, _, _, rfl, rfl, rfl, rfl, rfl⟩

/-- C12 as amended: an empty reference option is rejected where a reference
is opened.  In the lexical modes of the parse states after `${` (28) and after
`:` (31 and 38) the lexer returns no token at `}`, and the `}` that the
fallback mode returns has no action in these states; so `[a]\nkey = ${}\n`,
`[a]\nkey = ${:}\n` and, for every non-empty section name `s`,
`[a]\nkey = ${s:}\n` are syntax errors in states 28, 31 and 38; and no
`referenced_option` token of an accepted tree is empty. -/
theorem C12_empty_reference_option (s : List Char) (hs : s ≠ [])
    (hschars : ∀ ch ∈ s, referencedSectionChar ch) :
    (∀ rest, ts_lex ('}' :: rest) (ts_lex_modes.getD 28 0) = none ∧
      ts_lex ('}' :: rest) (ts_lex_modes.getD 31 0) = none ∧
      ts_lex ('}' :: rest) (ts_lex_modes.getD 38 0) = none) ∧
    (ts_language_actions 28 anon_sym_RBRACE = [] ∧
      ts_language_actions 31 anon_sym_RBRACE = [] ∧
      ts_language_actions 38 anon_sym_RBRACE = []) ∧
    ts_parser_parse ("[a]\nkey = ".toList ++ ['$', '{', '}', '\n'])
      = .syntaxError 28 ['}', '\n'] ∧
    ts_parser_parse ("[a]\nkey = ".toList ++ ['$', '{', ':', '}', '\n'])
      = .syntaxError 31 ['}', '\n'] ∧
    ts_parser_parse ("[a]\nkey = ".toList ++ ('$' :: '{' :: (s ++ [':', '}', '\n'])))
      = .syntaxError 38 ['}', '\n'] ∧
    (∀ input tree, ts_parser_parse input = .accepted tree →
      ∀ l ∈ tree.tokens, l.symbol = sym_referenced_option → l.text ≠ []) := by
  refine ⟨?_, by decide, rfl, rfl, parse_empty_option_after_section s hs hschars, ?_⟩
  · intro rest
    have h14 : ts_lex ('}' :: rest) 14 = none := by
      simp [ts_lex, lexLoop, ts_lex_transition_14, markEnd, ts_lex_accept_14]
    have h18 : ts_lex ('}' :: rest) 18 = none := by
      simp [ts_lex, lexLoop, ts_lex_transition_18, markEnd, ts_lex_accept_18]
    exact ⟨h14, h18, h18⟩
  · intro input tree h l hl hsym
    rcases parse_tokens_nonempty input tree h l hl with h1 | h1 | h1 | h1
    · exact h1
    · rw [hsym] at h1; cases h1
    · rw [hsym] at h1; cases h1
    · rw [hsym] at h1; cases h1

/-- C12 as amended at `s = s`: `[a]\nkey = ${s:}\n` is a syntax error in
state 38. -/
theorem C12_empty_reference_option_witness :
    (['s'] ≠ [] ∧ (∀ ch ∈ ['s'], referencedSectionChar ch)) ∧
    ((∀ rest, ts_lex ('}' :: rest) (ts_lex_modes.getD 28 0) = none ∧
      ts_lex ('}' :: rest) (ts_lex_modes.getD 31 0) = none ∧
      ts_lex ('}' :: rest) (ts_lex_modes.getD 38 0) = none) ∧
    (ts_language_actions 28 anon_sym_RBRACE = [] ∧
      ts_language_actions 31 anon_sym_RBRACE = [] ∧
      ts_language_actions 38 anon_sym_RBRACE = []) ∧
    ts_parser_parse ("[a]\nkey = ".toList ++ ['$', '{', '}', '\n'])
      = .syntaxError 28 ['}', '\n'] ∧
    ts_parser_parse ("[a]\nkey = ".toList ++ ['$', '{', ':', '}', '\n'])
      = .syntaxError 31 ['}', '\n'] ∧
    ts_parser_parse ("[a]\nkey = ".toList ++ ('$' :: '{' :: (['s'] ++ [':', '}', '\n'])))
      = .syntaxError 38 ['}', '\n'] ∧
    (∀ input tree, ts_parser_parse input = .accepted tree →
      ∀ l ∈ tree.tokens, l.symbol = sym_referenced_option → l.text ≠ [])) :=
  ⟨⟨by decide, by decide⟩, C12_empty_reference_option ['s'] (by decide) (by decide)⟩

/-! ## A value with a continuation line -/

theorem lex_indent (indent rest : List Char) (hne : indent ≠ [])
    (hindent : ∀ ch ∈ indent, blankChar ch)
    (hrest : ∀ d, rest.head? = some d → ¬ spaceChar d) :
    ts_lex (indent ++ rest) 23
      = some ⟨aux_sym__option_value_multi_line_token1, [], indent, rest⟩ := by
  obtain ⟨b, indent', rfl⟩ := List.exists_cons_of_ne_nil hne
  have hstop : stopsAt 44 rest := by
    cases rest with
    | nil => simp [stopsAt, ts_lex_transition_44]
    | cons d r =>
      have hd := hrest d (by simp)
      simp only [spaceChar, not_or] at hd
      simp [stopsAt, ts_lex_transition_44, hd.1, hd.2.1, hd.2.2.1, hd.2.2.2]
  have hrun := lexLoop_run (fun t => t = 44) aux_sym__option_value_multi_line_token1 rest
    (by rintro t rfl; rfl) (by rintro t rfl; exact hstop) indent'
    (by
      rintro t rfl ch hch
      have hb := hindent ch (by simp [hch])
      refine ⟨44, rfl, ?_⟩
      rcases hb with rfl | rfl <;> rfl)
    44 rfl [] [b] none
  have hb := hindent b (by simp)
  have hfirst : ts_lex_transition 23 false b = .advance 44 := by
    rcases hb with rfl | rfl <;> rfl
  simp only [ts_lex, List.cons_append, lexLoop, hfirst, markEnd, ts_lex_accept_23,
    List.nil_append]
  simpa using hrun

theorem parse_option_with_continuation (k x indent y : List Char)
    (hk : k ≠ []) (hkchars : ∀ ch ∈ k, optionNameChar ch)
    (hx : x ≠ []) (hxhead : ∀ d, x.head? = some d → ¬ spaceChar d)
    (hxchars : ∀ ch ∈ x, plainTextChar ch)
    (hindent : indent ≠ []) (hblanks : ∀ ch ∈ indent, blankChar ch)
    (hy : y ≠ []) (hyhead : ∀ d, y.head? = some d → ¬ spaceChar d)
    (hychars : ∀ ch ∈ y, plainTextChar ch) :
    ts_parser_parse ('[' :: 'a' :: ']' :: '\n' ::
        (k ++ ' ' :: '=' :: ' ' :: (x ++ '\n' :: (indent ++ (y ++ ['\n'])))))
      = .accepted (.node sym_profile 0
          [ .leaf aux_sym_profile_token1 [] [],
            .node sym_section 1
              [ .node sym__section_header 2
                  [ .leaf anon_sym_LBRACK [] ['['],
                    .leaf sym_section_name [] ['a'],
                    .leaf anon_sym_RBRACK [] [']'] ],
                .leaf aux_sym_section_token1 [] ['\n'],
                .node sym_option 0
                  [ .leaf sym_option_name [] k,
                    .leaf anon_sym_EQ [' '] ['='],
                    .leaf aux_sym_option_token1 [] [' '],
                    .node sym_option_value 0
                      [ .node sym__option_value_mono_line 0
                          [ .leaf sym_option_text [] x,
                            .leaf aux_sym__option_value_mono_line_token1 [] ['\n'] ],
                        .node aux_sym__option_value_multi_line_repeat1 0
                          [ .leaf aux_sym__option_value_multi_line_token1 [] indent,
                            .leaf sym_option_text [] y,
                            .leaf aux_sym__option_value_mono_line_token1 [] ['\n'] ] ] ] ],
            .leaf ts_builtin_sym_end [] [] ]) := by
  obtain ⟨k0, k', rfl⟩ := List.exists_cons_of_ne_nil hk
  obtain ⟨b0, indent', rfl⟩ := List.exists_cons_of_ne_nil hindent
  have hk0 := hkchars k0 (by simp)
  have hb0 := hblanks b0 (by simp)
  have htext : ∀ (v : List Char), (∀ d, v.head? = some d → ¬ spaceChar d) →
      ∀ d, v.head? = some d → ¬ blankChar d := by
    intro v hv d hd
    have := hv d hd
    simp only [spaceChar, blankChar, not_or] at this ⊢
    exact ⟨this.1, this.2.2.2⟩
  have hhead : ∀ (v rest : List Char), v ≠ [] → (∀ d, v.head? = some d → ¬ spaceChar d) →
      ∀ d, (v ++ rest).head? = some d → ¬ spaceChar d := by
    intro v rest hv hvhead d hd
    obtain ⟨c, v', rfl⟩ := List.exists_cons_of_ne_nil hv
    exact hvhead d (by simpa using hd)
  have l5 : ts_parser_lex 11
        (k0 :: k' ++ ' ' :: '=' :: ' ' :: (x ++ '\n' :: (b0 :: indent' ++ (y ++ ['\n']))))
      = some ⟨sym_option_name, [], k0 :: k',
        ' ' :: '=' :: ' ' :: (x ++ '\n' :: (b0 :: indent' ++ (y ++ ['\n'])))⟩ :=
    parser_lex_of_lex 11 _ _ (lex_option_name 24 (Or.inr rfl) _ _ (by simp) hkchars)
  have l6 : ts_parser_lex 35
        (' ' :: '=' :: ' ' :: (x ++ '\n' :: (b0 :: indent' ++ (y ++ ['\n']))))
      = some ⟨anon_sym_EQ, [' '], ['='],
        ' ' :: (x ++ '\n' :: (b0 :: indent' ++ (y ++ ['\n'])))⟩ :=
    parser_lex_of_lex 35 _ _ (lex_blank_equals _)
  have l7 : ts_parser_lex 33 (' ' :: (x ++ '\n' :: (b0 :: indent' ++ (y ++ ['\n']))))
      = some ⟨aux_sym_option_token1, [], [' '],
        x ++ '\n' :: (b0 :: indent' ++ (y ++ ['\n']))⟩ :=
    parser_lex_of_lex 33 _ _ (lex_option_token1 [' '] _ (by decide) (hhead x _ hx hxhead))
  have l8 : ts_parser_lex 6 (x ++ '\n' :: (b0 :: indent' ++ (y ++ ['\n'])))
      = some ⟨sym_option_text, [], x, '\n' :: (b0 :: indent' ++ (y ++ ['\n']))⟩ :=
    parser_lex_of_lex 6 _ _ (lex_option_text 3 (Or.inl rfl) [] x _ (by simp) hx
      (htext x hxhead) hxchars (by simp [lineEnds]))
  have l9 : ts_parser_lex 20 ('\n' :: (b0 :: indent' ++ (y ++ ['\n'])))
      = some ⟨aux_sym__option_value_mono_line_token1, [], ['\n'],
        b0 :: indent' ++ (y ++ ['\n'])⟩ :=
    parser_lex_of_lex 20 _ _ (lex_line_break 4 42 _ (Or.inr ⟨rfl, rfl, rfl⟩) _ (by
      intro d hd
      simp only [List.cons_append, List.head?_cons, Option.some.injEq] at hd
      subst hd
      rcases hb0 with rfl | rfl <;> decide))
  have l10 : ts_parser_lex 18 (b0 :: indent' ++ (y ++ ['\n']))
      = some ⟨aux_sym__option_value_multi_line_token1, [], b0 :: indent', y ++ ['\n']⟩ :=
    parser_lex_of_lex 18 _ _ (lex_indent (b0 :: indent') _ (by simp) hblanks
      (hhead y _ hy hyhead))
  have l11 : ts_parser_lex 24 (y ++ ['\n']) = some ⟨sym_option_text, [], y, ['\n']⟩ :=
    parser_lex_of_lex 24 _ _ (lex_option_text 8 (Or.inr (Or.inr rfl)) [] y ['\n'] (by simp) hy
      (htext y hyhead) hychars (by simp [lineEnds]))
  have l12 : ts_parser_lex 15 ['\n']
      = some ⟨aux_sym__option_value_mono_line_token1, [], ['\n'], []⟩ := by
    decide
  have l13 : ts_parser_lex 19 [] = some ⟨ts_builtin_sym_end, [], [], []⟩ := by
    decide
  refine parse_after_header_a 15 _ _ _ (by omega) (by simpa using hk0.2.2.1) l5 ?_ (by simp)
  refine parseLoop_next (parseStep_shift _ _ rfl l6) ?_
  refine parseLoop_next (parseStep_shift _ _ rfl l7) ?_
  refine parseLoop_next (parseStep_shift _ _ rfl l8) ?_
  refine parseLoop_next (parseStep_shift _ _ rfl l9) ?_
  refine parseLoop_next (parseStep_shift _ _ rfl l10) ?_
  refine parseLoop_next (parseStep_reduce _ _ _ rfl (by simp)) ?_
  refine parseLoop_next (parseStep_shift _ _ rfl l11) ?_
  refine parseLoop_next (parseStep_shift _ _ rfl l12) ?_
  refine parseLoop_next (parseStep_shift _ _ rfl l13) ?_
  refine parseLoop_next (parseStep_reduce _ _ _ rfl (by simp)) ?_
  refine parseLoop_next (parseStep_reduce _ _ _ rfl (by simp)) ?_
  refine parseLoop_next (parseStep_reduce _ _ _ rfl (by simp)) ?_
  refine parseLoop_next (parseStep_reduce _ _ _ rfl (by simp)) ?_
  refine parseLoop_next (parseStep_reduce _ _ _ rfl (by simp)) ?_
  exact parseLoop_done rfl

/-- C18, the claim fails at its own example: parsing `[a]\nk = x\n  y\n`
yields one option with one value, whose children are the
`_option_value_mono_line` part with `x` and the continuation line with `y`. -/
theorem C18_value_holds_both_kinds :
    ∃ tree sec opt value,
      ts_parser_parse "[a]\nk = x\n  y\n".toList = .accepted tree ∧
      tree.sections = [sec] ∧
      sec.options = [opt] ∧
      opt.optionNames = [['k']] ∧
      opt.optionValues = [value] ∧
      value = .node sym_option_value 0
        [ .node sym__option_value_mono_line 0
            [ .leaf sym_option_text [] ['x'],
              .leaf aux_sym__option_value_mono_line_token1 [] ['\n'] ],
          .node aux_sym__option_value_multi_line_repeat1 0
            [ .leaf aux_sym__option_value_multi_line_token1 [] [' ', ' '],
              .leaf sym_option_text [] ['y'],
              .leaf aux_sym__option_value_mono_line_token1 [] ['\n'] ] ] ∧
      value.segments = [.text ['x'], .text ['y']] :=
  ⟨_, _, _, _, rfl, rfl, rfl, rfl, rfl, rfl, rfl⟩

/-- C18 as amended: a value can hold both kinds.  Every reduction of
`option_value` in the action table has one or two children; and for every
name `k`, texts `x` and `y` and indentation `indent`, parsing
`[a]\nk = x\n<indent>y\n` yields one option with one value, made of the
`_option_value_mono_line` part with `x` and of a continuation line with `y`:
its segments are `x` and `y`. -/
theorem C18_mono_line_with_continuation (k x indent y : List Char)
    (hk : k ≠ []) (hkchars : ∀ ch ∈ k, optionNameChar ch)
    (hx : x ≠ []) (hxhead : ∀ d, x.head? = some d → ¬ spaceChar d)
    (hxchars : ∀ ch ∈ x, plainTextChar ch)
    (hindent : indent ≠ []) (hblanks : ∀ ch ∈ indent, blankChar ch)
    (hy : y ≠ []) (hyhead : ∀ d, y.head? = some d → ¬ spaceChar d)
    (hychars : ∀ ch ∈ y, plainTextChar ch) :
    ts_parse_actions.filterMap (fun cell =>
        match cell with
        | .reduce symbol childCount _ =>
          if symbol = sym_option_value then some childCount else none
        | _ => none) = [2, 2, 1, 1] ∧
    ∃ tree sec opt value mono more,
      ts_parser_parse ("[a]\n".toList ++
          (k ++ (" = ".toList ++ (x ++ ('\n' :: (indent ++ (y ++ ['\n']))))))) = .accepted tree ∧
      tree.sections = [sec] ∧
      sec.options = [opt] ∧
      opt.optionNames = [k] ∧
      opt.optionValues = [value] ∧
      value = .node sym_option_value 0 [mono, more] ∧
      mono = .node sym__option_value_mono_line 0
        [ .leaf sym_option_text [] x,
          .leaf aux_sym__option_value_mono_line_token1 [] ['\n'] ] ∧
      more = .node aux_sym__option_value_multi_line_repeat1 0
        [ .leaf aux_sym__option_value_multi_line_token1 [] indent,
          .leaf sym_option_text [] y,
          .leaf aux_sym__option_value_mono_line_token1 [] ['\n'] ] ∧
      value.isMultiLine = true ∧
      value.segments = [.text x, .text y] :=
  ⟨rfl, _, _, _, _, _, _,
    parse_option_with_continuation k x indent y hk hkchars hx hxhead hxchars hindent hblanks
      hy hyhead hychars,
    rfl, rfl, rfl, rfl, rfl, rfl, rfl, rfl, rfl⟩

/-- C18 as amended at `[a]\nk = x\n  y\n`. -/
theorem C18_mono_line_with_continuation_witness :
    (['k'] ≠ [] ∧ (∀ ch ∈ ['k'], optionNameChar ch) ∧
      ['x'] ≠ [] ∧ (∀ d, ['x'].head? = some d → ¬ spaceChar d) ∧
      (∀ ch ∈ ['x'], plainTextChar ch) ∧
      [' ', ' '] ≠ [] ∧ (∀ ch ∈ [' ', ' '], blankChar ch) ∧
      ['y'] ≠ [] ∧ (∀ d, ['y'].head? = some d → ¬ spaceChar d) ∧
      (∀ ch ∈ ['y'], plainTextChar ch)) ∧
    (ts_parse_actions.filterMap (fun cell =>
        match cell with
        | .reduce symbol childCount _ =>
          if symbol = sym_option_value then some childCount else none
        | _ => none) = [2, 2, 1, 1] ∧
    ∃ tree sec opt value mono more,
      ts_parser_parse "[a]\nk = x\n  y\n".toList = .accepted tree ∧
      tree.sections = [sec] ∧
      sec.options = [opt] ∧
      opt.optionNames = [['k']] ∧
      opt.optionValues = [value] ∧
      value = .node sym_option_value 0 [mono, more] ∧
      mono = .node sym__option_value_mono_line 0
        [ .leaf sym_option_text [] ['x'],
          .leaf aux_sym__option_value_mono_line_token1 [] ['\n'] ] ∧
      more = .node aux_sym__option_value_multi_line_repeat1 0
        [ .leaf aux_sym__option_value_multi_line_token1 [] [' ', ' '],
          .leaf sym_option_text [] ['y'],
          .leaf aux_sym__option_value_mono_line_token1 [] ['\n'] ] ∧
      value.isMultiLine = true ∧
      value.segments = [.text ['x'], .text ['y']]) :=
  ⟨⟨by decide, by decide, by decide, by simp [spaceChar], by decide, by decide, by decide,
      by decide, by simp [spaceChar], by decide⟩,
    C18_mono_line_with_continuation ['k'] ['x'] [' ', ' '] ['y'] (by decide) (by decide)
      (by decide) (by simp [spaceChar]) (by decide) (by decide) (by decide) (by decide)
      (by simp [spaceChar]) (by decide)⟩

/-! ## Recovery after a syntax error -/

/-- C13: parsing `[a\nkey = v\n[b]\n` ends: the tables give a syntax error in
parse state 27 at the newline after `[a`; the recovery records it, discards
the input up to `[b]` and parses the rest, so that the result is the one
section named `b` with no options and one diagnostic; the section `[a` is
dropped. -/
theorem C13_recovery :
    ts_parser_parse "[a\nkey = v\n[b]\n".toList
      = .syntaxError 27 "\nkey = v\n[b]\n".toList ∧
    resynchronise "\nkey = v\n[b]\n".toList = "[b]\n".toList ∧
    parseDocument "[a\nkey = v\n[b]\n".toList
      = some ⟨[⟨some ['b'], none, []⟩], [⟨27, "\nkey = v\n[b]\n".toList⟩]⟩ :=
  ⟨rfl, rfl, rfl⟩

/-! ## The tables are well formed -/

set_option maxRecDepth 100000 in
/-- C30: every index stored in the tables is in range.  Every `SHIFT` and
`SHIFT_REPEAT` target is a parse state, every reduced symbol is a symbol and
every production id is below `PRODUCTION_ID_COUNT`; in every group of every
row of `ts_small_parse_table` and in every cell of `ts_parse_table` the value
stored with tokens is the start of an entry of `ts_parse_actions` and the
value stored with non-terminals is a parse state; the offsets of
`ts_small_parse_table_map` are exactly the starts of the rows, one per small
state; every field-map slice lies within `ts_field_map_entries`, one per
production id; and every lex state of `ts_lex_modes` is a case of `ts_lex`. -/
theorem C30_tables_well_formed :
    ts_parse_actions.all (fun cell =>
      match cell with
      | .shift state _ => decide (state < STATE_COUNT)
      | .reduce symbol _ productionId =>
        decide (symbol < SYMBOL_COUNT) && decide (productionId < PRODUCTION_ID_COUNT)
      | _ => true) = true ∧
    (readRows STATE_COUNT 0 ts_small_parse_table).all (fun row =>
      row.2.all (fun group => valueInRange group.1 group.2)) = true ∧
    (readRows STATE_COUNT 0 ts_small_parse_table).map Prod.fst = ts_small_parse_table_map ∧
    ts_small_parse_table_map.length = STATE_COUNT - LARGE_STATE_COUNT ∧
    ts_parse_table.length = LARGE_STATE_COUNT ∧
    ts_parse_table.all (fun row =>
      decide (row.length = SYMBOL_COUNT) &&
        (List.range SYMBOL_COUNT).all (fun symbol =>
          valueInRange (row.getD symbol 0) [symbol])) = true ∧
    ts_field_map_slices.length = PRODUCTION_ID_COUNT ∧
    ts_field_map_slices.all (fun slice =>
      decide (slice.1 + slice.2 ≤ ts_field_map_entries.length)) = true ∧
    ts_lex_modes.length = STATE_COUNT ∧
    ts_lex_modes.all (fun state => decide (state < 60)) = true := by
  refine ⟨?_, ?_, ?_, ?_, ?_, ?_, ?_, ?_, ?_, ?_⟩ <;> decide

/-! ## Documents without sections -/

theorem parse_newlines (nls : List Char) (hnls : ∀ ch ∈ nls, ch = '\n') :
    ts_parser_parse nls
      = .accepted (.node sym_profile 0
          [ .leaf aux_sym_profile_token1 [] nls,
            .leaf ts_builtin_sym_end [] [] ]) := by
  have hlex : ts_lex (nls ++ []) 26 = some ⟨aux_sym_profile_token1, [], [] ++ nls, []⟩ :=
    lexLoop_run (fun s => s = 26) aux_sym_profile_token1 [] (by rintro s rfl; rfl)
      (by rintro s rfl; simp [stopsAt, ts_lex_transition_26]) nls
      (by
        rintro s rfl ch hch
        exact ⟨26, rfl, by rw [ts_lex_transition_26, if_pos (hnls ch hch)]⟩)
      26 rfl [] [] none
  have l0 : ts_parser_lex 1 nls = some ⟨aux_sym_profile_token1, [], nls, []⟩ :=
    parser_lex_of_lex 1 _ _ (by simpa using hlex)
  have l1 : ts_parser_lex 7 [] = some ⟨ts_builtin_sym_end, [], [], []⟩ := by
    decide
  unfold ts_parser_parse
  rw [l0]
  refine parseLoop_mono (by simp) 3 _ _ ?_ _ (by omega)
  refine parseLoop_next (parseStep_shift _ _ rfl l1) ?_
  refine parseLoop_next (parseStep_reduce _ _ _ rfl (by simp)) ?_
  exact parseLoop_done rfl

/-- C29: the empty input and every input of newline characters only is
accepted; the tree is the profile made of the token `profile_token1`, which
holds the newlines and may be empty, and of the end of input: it has no
section and no comment. -/
theorem C29_empty_document (nls : List Char) (hnls : ∀ ch ∈ nls, ch = '\n') :
    ∃ tree,
      ts_parser_parse nls = .accepted tree ∧
      tree = .node sym_profile 0
        [.leaf aux_sym_profile_token1 [] nls, .leaf ts_builtin_sym_end [] []] ∧
      tree.sections = [] ∧ tree.comments = [] ∧ tree.document = [] :=
  ⟨_, parse_newlines nls hnls, rfl, rfl, rfl, rfl⟩

/-- C29 at the empty input and at two newlines. -/
theorem C29_empty_document_witness :
    ((∀ ch ∈ ([] : List Char), ch = '\n') ∧
      ∃ tree,
        ts_parser_parse [] = .accepted tree ∧
        tree = .node sym_profile 0
          [.leaf aux_sym_profile_token1 [] [], .leaf ts_builtin_sym_end [] []] ∧
        tree.sections = [] ∧ tree.comments = [] ∧ tree.document = []) ∧
    ((∀ ch ∈ ['\n', '\n'], ch = '\n') ∧
      ∃ tree,
        ts_parser_parse "\n\n".toList = .accepted tree ∧
        tree = .node sym_profile 0
          [.leaf aux_sym_profile_token1 [] ['\n', '\n'], .leaf ts_builtin_sym_end [] []] ∧
        tree.sections = [] ∧ tree.comments = [] ∧ tree.document = []) :=
  ⟨⟨by decide, C29_empty_document [] (by decide)⟩,
    ⟨by decide, C29_empty_document ['\n', '\n'] (by decide)⟩⟩

/-! ## Blanks around a value -/

/-- C22, the claim fails at its own example: in `[a]\nk =  v  \n` the two
blanks after `=` are the hidden token `option_token1`, and the value text is
`v  `, not `  v  `. -/
theorem C22_leading_blanks_are_not_value_text :
    ∃ tree sec opt value,
      ts_parser_parse "[a]\nk =  v  \n".toList = .accepted tree ∧
      tree.sections = [sec] ∧
      sec.options = [opt] ∧
      opt.optionValues = [value] ∧
      value.segments = [.text "v  ".toList] ∧
      opt.tokens.map (fun t => (t.symbol, t.text))
        = [ (sym_option_name, ['k']),
            (anon_sym_EQ, ['=']),
            (aux_sym_option_token1, "  ".toList),
            (sym_option_text, "v  ".toList),
            (aux_sym__option_value_mono_line_token1, ['\n']) ] :=
  ⟨_, _, _, _, rfl, rfl, rfl, rfl, rfl, rfl⟩

/-- C22 as amended: the blanks that follow `=` are not value text.  For every
option line `k =<ws><v>` with a run `ws` of spaces and tabs and a text `v`
that starts with another character, the run is the hidden token
`option_token1` and the one text segment of the value is `v`, from the first
character that is not white space to the end of the line, its trailing
blanks included. -/
theorem C22_value_text (k ws v : List Char) (hk : k ≠ [])
    (hkchars : ∀ ch ∈ k, optionNameChar ch)
    (hws : ∀ ch ∈ ws, blankChar ch)
    (hv : v ≠ [])
    (hvhead : ∀ d, v.head? = some d → ¬ spaceChar d)
    (hvchars : ∀ ch ∈ v, plainTextChar ch) :
    ∃ tree sec opt value,
      ts_parser_parse ("[a]\n".toList ++ (k ++ (" =".toList ++ (ws ++ (v ++ ['\n'])))))
        = .accepted tree ∧
      tree.sections = [sec] ∧
      sec.options = [opt] ∧
      opt.optionNames = [k] ∧
      opt.optionValues = [value] ∧
      value.segments = [.text v] ∧
      opt.tokens.map (fun t => (t.symbol, t.text))
        = [ (sym_option_name, k),
            (anon_sym_EQ, ['=']),
            (aux_sym_option_token1, ws),
            (sym_option_text, v),
            (aux_sym__option_value_mono_line_token1, ['\n']) ] :=
  ⟨_, _, _, _,
    parse_one_option k ws v hk hkchars
      (fun ch hch => by rcases hws ch hch with h | h <;> simp [spaceChar, h])
      hv hvhead hvchars,
    rfl, rfl, rfl, rfl, rfl, rfl⟩

/-- C22 as amended at `[a]\nk =  v  \n`: the value text is `v  `. -/
theorem C22_value_text_witness :
    (['k'] ≠ [] ∧ (∀ ch ∈ ['k'], optionNameChar ch) ∧
      (∀ ch ∈ [' ', ' '], blankChar ch) ∧ "v  ".toList ≠ [] ∧
      (∀ d, "v  ".toList.head? = some d → ¬ spaceChar d) ∧
      (∀ ch ∈ "v  ".toList, plainTextChar ch)) ∧
    ∃ tree sec opt value,
      ts_parser_parse "[a]\nk =  v  \n".toList = .accepted tree ∧
      tree.sections = [sec] ∧
      sec.options = [opt] ∧
      opt.optionNames = [['k']] ∧
      opt.optionValues = [value] ∧
      value.segments = [.text "v  ".toList] ∧
      opt.tokens.map (fun t => (t.symbol, t.text))
        = [ (sym_option_name, ['k']),
            (anon_sym_EQ, ['=']),
            (aux_sym_option_token1, [' ', ' ']),
            (sym_option_text, "v  ".toList),
            (aux_sym__option_value_mono_line_token1, ['\n']) ] :=
  ⟨⟨by decide, by decide, by decide, by decide, by simp [spaceChar], by decide⟩,
    C22_value_text ['k'] [' ', ' '] "v  ".toList (by decide) (by decide) (by decide)
      (by decide) (by simp [spaceChar]) (by decide)⟩

/-! ## Where a value with continuation lines ends -/

theorem lex_line_breaks (nls rest : List Char) (hnls : ∀ ch ∈ nls, ch = '\n')
    (hrest : ∀ d, rest.head? = some d → d ≠ '\n') :
    ts_lex ('\n' :: (nls ++ rest)) 4
      = some ⟨aux_sym__option_value_mono_line_token1, [], '\n' :: nls, rest⟩ := by
  have hstop : stopsAt 42 rest := by
    cases rest with
    | nil => simp [stopsAt, ts_lex_transition_42]
    | cons d r => simpa [stopsAt, ts_lex_transition_42] using hrest d (by simp)
  have hrun := lexLoop_run (fun t => t = 42) aux_sym__option_value_mono_line_token1 rest
    (by rintro t rfl; rfl) (by rintro t rfl; exact hstop) nls
    (by
      rintro t rfl ch hch
      exact ⟨42, rfl, by rw [ts_lex_transition_42, if_pos (hnls ch hch)]⟩)
    42 rfl [] ['\n'] none
  have hfirst : ts_lex_transition 4 false '\n' = .advance 42 := rfl
  simp only [ts_lex, lexLoop, hfirst, markEnd, ts_lex_accept_4]
  simpa using hrun

theorem lex_indent_lines (b0 : Char) (run rest : List Char) (hb0 : blankChar b0)
    (hrun : ∀ ch ∈ run, blankChar ch ∨ ch = '\n')
    (hrest : ∀ d, rest.head? = some d → ¬ spaceChar d) :
    ts_lex (b0 :: (run ++ rest)) 23
      = some ⟨aux_sym__option_value_multi_line_token1, [], b0 :: run, rest⟩ := by
  have hstop : stopsAt 44 rest := by
    cases rest with
    | nil => simp [stopsAt, ts_lex_transition_44]
    | cons d r =>
      have hd := hrest d (by simp)
      simp only [spaceChar, not_or] at hd
      simp [stopsAt, ts_lex_transition_44, hd.1, hd.2.1, hd.2.2.1, hd.2.2.2]
  have h := lexLoop_run (fun t => t = 44) aux_sym__option_value_multi_line_token1 rest
    (by rintro t rfl; rfl) (by rintro t rfl; exact hstop) run
    (by
      rintro t rfl ch hch
      refine ⟨44, rfl, ?_⟩
      rcases hrun ch hch with (rfl | rfl) | rfl <;> rfl)
    44 rfl [] [b0] none
  have hfirst : ts_lex_transition 23 false b0 = .advance 44 := by
    rcases hb0 with rfl | rfl <;> rfl
  simp only [ts_lex, lexLoop, hfirst, markEnd, ts_lex_accept_23]
  simpa using h

/-- The parse of an option `k = x` with one continuation line `y`, up to the
point where the line break after `y` is on the stack in state 19 and the
first token of what follows is the lookahead. -/
theorem parse_value_then (fuel : Nat) (k x indent y nls rest : List Char) (next : Lexed)
    (outcome : ParseOutcome)
    (hfuel : fuel ≤ 80)
    (hk : k ≠ []) (hkchars : ∀ ch ∈ k, optionNameChar ch)
    (hx : x ≠ []) (hxhead : ∀ d, x.head? = some d → ¬ spaceChar d)
    (hxchars : ∀ ch ∈ x, plainTextChar ch)
    (hindent : ∀ ch ∈ indent, blankChar ch ∨ ch = '\n')
    (hindent0 : ∃ b0 run, indent = b0 :: run ∧ blankChar b0)
    (hy : y ≠ []) (hyhead : ∀ d, y.head? = some d → ¬ spaceChar d)
    (hychars : ∀ ch ∈ y, plainTextChar ch)
    (hnls : ∀ ch ∈ nls, ch = '\n')
    (hrest : ∀ d, rest.head? = some d → d ≠ '\n')
    (hnext : ts_parser_lex 19 rest = some next)
    (hgo : parseLoop fuel
      [ (19, .leaf aux_sym__option_value_mono_line_token1 [] ('\n' :: nls)),
        (15, .leaf sym_option_text [] y),
        (24, .leaf aux_sym__option_value_multi_line_token1 [] indent),
        (4, .node sym__option_value_mono_line 0
          [ .leaf sym_option_text [] x,
            .leaf aux_sym__option_value_mono_line_token1 [] ['\n'] ]),
        (6, .leaf aux_sym_option_token1 [] [' ']),
        (33, .leaf anon_sym_EQ [' '] ['=']),
        (35, .leaf sym_option_name [] k),
        (11, .leaf aux_sym_section_token1 [] ['\n']),
        (40, .node sym__section_header 2
          [ .leaf anon_sym_LBRACK [] ['['],
            .leaf sym_section_name [] ['a'],
            .leaf anon_sym_RBRACK [] [']'] ]),
        (7, .leaf aux_sym_profile_token1 [] []) ] next = outcome)
    (hout : outcome ≠ .outOfFuel) :
    ts_parser_parse ('[' :: 'a' :: ']' :: '\n' ::
        (k ++ ' ' :: '=' :: ' ' :: (x ++ '\n' :: (indent ++ (y ++ '\n' :: (nls ++ rest))))))
      = outcome := by
  obtain ⟨k0, k', rfl⟩ := List.exists_cons_of_ne_nil hk
  obtain ⟨b0, run, rfl, hb0⟩ := hindent0
  have hk0 := hkchars k0 (by simp)
  have htext : ∀ (v : List Char), (∀ d, v.head? = some d → ¬ spaceChar d) →
      ∀ d, v.head? = some d → ¬ blankChar d := by
    intro v hv d hd
    have := hv d hd
    simp only [spaceChar, blankChar, not_or] at this ⊢
    exact ⟨this.1, this.2.2.2⟩
  have hhead : ∀ (v tail : List Char), v ≠ [] → (∀ d, v.head? = some d → ¬ spaceChar d) →
      ∀ d, (v ++ tail).head? = some d → ¬ spaceChar d := by
    intro v tail hv hvhead d hd
    obtain ⟨c, v', rfl⟩ := List.exists_cons_of_ne_nil hv
    exact hvhead d (by simpa using hd)
  have l5 : ts_parser_lex 11 (k0 :: k' ++ ' ' :: '=' :: ' ' ::
        (x ++ '\n' :: (b0 :: run ++ (y ++ '\n' :: (nls ++ rest)))))
      = some ⟨sym_option_name, [], k0 :: k', ' ' :: '=' :: ' ' ::
        (x ++ '\n' :: (b0 :: run ++ (y ++ '\n' :: (nls ++ rest))))⟩ :=
    parser_lex_of_lex 11 _ _ (lex_option_name 24 (Or.inr rfl) _ _ (by simp) hkchars)
  have l6 : ts_parser_lex 35 (' ' :: '=' :: ' ' ::
        (x ++ '\n' :: (b0 :: run ++ (y ++ '\n' :: (nls ++ rest)))))
      = some ⟨anon_sym_EQ, [' '], ['='], ' ' ::
        (x ++ '\n' :: (b0 :: run ++ (y ++ '\n' :: (nls ++ rest))))⟩ :=
    parser_lex_of_lex 35 _ _ (lex_blank_equals _)
  have l7 : ts_parser_lex 33 (' ' :: (x ++ '\n' :: (b0 :: run ++ (y ++ '\n' :: (nls ++ rest)))))
      = some ⟨aux_sym_option_token1, [], [' '],
        x ++ '\n' :: (b0 :: run ++ (y ++ '\n' :: (nls ++ rest)))⟩ :=
    parser_lex_of_lex 33 _ _ (lex_option_token1 [' '] _ (by decide) (hhead x _ hx hxhead))
  have l8 : ts_parser_lex 6 (x ++ '\n' :: (b0 :: run ++ (y ++ '\n' :: (nls ++ rest))))
      = some ⟨sym_option_text, [], x, '\n' :: (b0 :: run ++ (y ++ '\n' :: (nls ++ rest)))⟩ :=
    parser_lex_of_lex 6 _ _ (lex_option_text 3 (Or.inl rfl) [] x _ (by simp) hx
      (htext x hxhead) hxchars (by simp [lineEnds]))
  have l9 : ts_parser_lex 20 ('\n' :: (b0 :: run ++ (y ++ '\n' :: (nls ++ rest))))
      = some ⟨aux_sym__option_value_mono_line_token1, [], ['\n'],
        b0 :: run ++ (y ++ '\n' :: (nls ++ rest))⟩ :=
    parser_lex_of_lex 20 _ _ (lex_line_break 4 42 _ (Or.inr ⟨rfl, rfl, rfl⟩) _ (by
      intro d hd
      simp only [List.cons_append, List.head?_cons, Option.some.injEq] at hd
      subst hd
      rcases hb0 with rfl | rfl <;> decide))
  have l10 : ts_parser_lex 18 (b0 :: run ++ (y ++ '\n' :: (nls ++ rest)))
      = some ⟨aux_sym__option_value_multi_line_token1, [], b0 :: run,
        y ++ '\n' :: (nls ++ rest)⟩ :=
    parser_lex_of_lex 18 _ _ (lex_indent_lines b0 run _ hb0
      (fun ch hch => hindent ch (by simp [hch])) (hhead y _ hy hyhead))
  have l11 : ts_parser_lex 24 (y ++ '\n' :: (nls ++ rest))
      = some ⟨sym_option_text, [], y, '\n' :: (nls ++ rest)⟩ :=
    parser_lex_of_lex 24 _ _ (lex_option_text 8 (Or.inr (Or.inr rfl)) [] y _ (by simp) hy
      (htext y hyhead) hychars (by simp [lineEnds]))
  have l12 : ts_parser_lex 15 ('\n' :: (nls ++ rest))
      = some ⟨aux_sym__option_value_mono_line_token1, [], '\n' :: nls, rest⟩ :=
    parser_lex_of_lex 15 _ _ (lex_line_breaks nls rest hnls hrest)
  refine parse_after_header_a (fuel + 9) _ _ _ (by omega) (by simpa using hk0.2.2.1) l5 ?_ hout
  refine parseLoop_next (parseStep_shift _ _ rfl l6) ?_
  refine parseLoop_next (parseStep_shift _ _ rfl l7) ?_
  refine parseLoop_next (parseStep_shift _ _ rfl l8) ?_
  refine parseLoop_next (parseStep_shift _ _ rfl l9) ?_
  refine parseLoop_next (parseStep_shift _ _ rfl l10) ?_
  refine parseLoop_next (parseStep_reduce _ _ _ rfl (by simp)) ?_
  refine parseLoop_next (parseStep_shift _ _ rfl l11) ?_
  refine parseLoop_next (parseStep_shift _ _ rfl l12) ?_
  refine parseLoop_next (parseStep_shift _ _ rfl hnext) ?_
  exact hgo

theorem parse_value_then_header (k x indent y nls b : List Char)
    (hk : k ≠ []) (hkchars : ∀ ch ∈ k, optionNameChar ch)
    (hx : x ≠ []) (hxhead : ∀ d, x.head? = some d → ¬ spaceChar d)
    (hxchars : ∀ ch ∈ x, plainTextChar ch)
    (hindent : indent ≠ []) (hblanks : ∀ ch ∈ indent, blankChar ch)
    (hy : y ≠ []) (hyhead : ∀ d, y.head? = some d → ¬ spaceChar d)
    (hychars : ∀ ch ∈ y, plainTextChar ch)
    (hnls : ∀ ch ∈ nls, ch = '\n')
    (hb : b ≠ []) (hbchars : ∀ ch ∈ b, sectionNameChar ch) :
    ∃ tree,
      ts_parser_parse ('[' :: 'a' :: ']' :: '\n' :: (k ++ ' ' :: '=' :: ' ' ::
          (x ++ '\n' :: (indent ++ (y ++ '\n' :: (nls ++ '[' :: (b ++ [']', '\n'])))))))
        = .accepted tree ∧
      tree.document
        = [⟨some ['a'], none, [⟨[k], [[.text x, .text y]]⟩]⟩, ⟨some b, none, []⟩] := by
  obtain ⟨b0, run, rfl⟩ := List.exists_cons_of_ne_nil hindent
  have l13 : ts_parser_lex 19 ('[' :: (b ++ [']', '\n']))
      = some ⟨anon_sym_LBRACK, [], ['['], b ++ [']', '\n']⟩ :=
    parser_lex_of_lex 19 _ _ (ts_lex_single 23 28 anon_sym_LBRACK '[' _ rfl rfl rfl
      (stopsAt_of_no_transition 28 _ (fun _ _ => rfl)))
  have l14 : ts_parser_lex 42 (b ++ [']', '\n'])
      = some ⟨sym_section_name, [], b, [']', '\n']⟩ :=
    parser_lex_of_lex 42 _ _ (lex_section_name b _ ']' hb hbchars (Or.inr rfl))
  have l15 : ts_parser_lex 27 [']', '\n'] = some ⟨anon_sym_RBRACK, [], [']'], ['\n']⟩ := by
    decide
  have l16 : ts_parser_lex 36 ['\n'] = some ⟨aux_sym_section_token1, [], ['\n'], []⟩ := by
    decide
  have l17 : ts_parser_lex 11 [] = some ⟨ts_builtin_sym_end, [], [], []⟩ := by
    decide
  apply Exists.intro
  apply And.intro
  ·
    refine parse_value_then 13 k x (b0 :: run) y nls _ _ _ (by omega) hk hkchars hx hxhead
      hxchars (fun ch hch => Or.inl (hblanks ch hch)) ⟨b0, run, rfl, hblanks b0 (by simp)⟩
      hy hyhead hychars hnls (by simp) l13 ?_ (by simp)
    refine parseLoop_next (parseStep_reduce _ _ _ rfl (by simp)) ?_
    refine parseLoop_next (parseStep_reduce _ _ _ rfl (by simp)) ?_
    refine parseLoop_next (parseStep_reduce _ _ _ rfl (by simp)) ?_
    refine parseLoop_next (parseStep_reduce _ _ _ rfl (by simp)) ?_
    refine parseLoop_next (parseStep_shift _ _ rfl l14) ?_
    refine parseLoop_next (parseStep_shift _ _ rfl l15) ?_
    refine parseLoop_next (parseStep_shift _ _ rfl l16) ?_
    refine parseLoop_next (parseStep_reduce _ _ _ rfl (by simp)) ?_
    refine parseLoop_next (parseStep_shift _ _ rfl l17) ?_
    refine parseLoop_next (parseStep_reduce _ _ _ rfl (by simp)) ?_
    refine parseLoop_next (parseStep_reduce _ _ _ rfl (by simp)) ?_
    refine parseLoop_next (parseStep_reduce _ _ _ rfl (by simp)) ?_
    exact parseLoop_done rfl
  · rfl

theorem parse_value_then_option (k x indent y nls k2 z : List Char)
    (hk : k ≠ []) (hkchars : ∀ ch ∈ k, optionNameChar ch)
    (hx : x ≠ []) (hxhead : ∀ d, x.head? = some d → ¬ spaceChar d)
    (hxchars : ∀ ch ∈ x, plainTextChar ch)
    (hindent : indent ≠ []) (hblanks : ∀ ch ∈ indent, blankChar ch)
    (hy : y ≠ []) (hyhead : ∀ d, y.head? = some d → ¬ spaceChar d)
    (hychars : ∀ ch ∈ y, plainTextChar ch)
    (hnls : ∀ ch ∈ nls, ch = '\n')
    (hk2 : k2 ≠ []) (hk2chars : ∀ ch ∈ k2, optionNameChar ch)
    (hz : z ≠ []) (hzhead : ∀ d, z.head? = some d → ¬ spaceChar d)
    (hzchars : ∀ ch ∈ z, plainTextChar ch) :
    ts_parser_parse ('[' :: 'a' :: ']' :: '\n' :: (k ++ ' ' :: '=' :: ' ' ::
        (x ++ '\n' :: (indent ++ (y ++ '\n' :: (nls ++
          (k2 ++ ' ' :: '=' :: ' ' :: (z ++ ['\n']))))))))
      = .accepted (.node sym_profile 0
          [ .leaf aux_sym_profile_token1 [] [],
            .node sym_section 1
              [ .node sym__section_header 2
                  [ .leaf anon_sym_LBRACK [] ['['],
                    .leaf sym_section_name [] ['a'],
                    .leaf anon_sym_RBRACK [] [']'] ],
                .leaf aux_sym_section_token1 [] ['\n'],
                .node aux_sym_section_repeat1 0
                  [ .node sym_option 0
                      [ .leaf sym_option_name [] k,
                        .leaf anon_sym_EQ [' '] ['='],
                        .leaf aux_sym_option_token1 [] [' '],
                        .node sym_option_value 0
                          [ .node sym__option_value_mono_line 0
                              [ .leaf sym_option_text [] x,
                                .leaf aux_sym__option_value_mono_line_token1 [] ['\n'] ],
                            .node aux_sym__option_value_multi_line_repeat1 0
                              [ .leaf aux_sym__option_value_multi_line_token1 [] indent,
                                .leaf sym_option_text [] y,
                                .leaf aux_sym__option_value_mono_line_token1 []
                                  ('\n' :: nls) ] ] ],
                    .node sym_option 0
                      [ .leaf sym_option_name [] k2,
                        .leaf anon_sym_EQ [' '] ['='],
                        .leaf aux_sym_option_token1 [] [' '],
                        .node sym_option_value 0
                          [ .node sym__option_value_mono_line 0
                              [ .leaf sym_option_text [] z,
                                .leaf aux_sym__option_value_mono_line_token1 [] ['\n'] ] ] ] ] ],
            .leaf ts_builtin_sym_end [] [] ]) := by
  obtain ⟨b0, run, rfl⟩ := List.exists_cons_of_ne_nil hindent
  obtain ⟨a2, k2', rfl⟩ := List.exists_cons_of_ne_nil hk2
  obtain ⟨z0, z', rfl⟩ := List.exists_cons_of_ne_nil hz
  have ha2 := hk2chars a2 (by simp)
  have hz0 := hzhead z0 (by simp)
  have l13 : ts_parser_lex 19 (a2 :: k2' ++ ' ' :: '=' :: ' ' :: (z0 :: z' ++ ['\n']))
      = some ⟨sym_option_name, [], a2 :: k2', ' ' :: '=' :: ' ' :: (z0 :: z' ++ ['\n'])⟩ :=
    parser_lex_of_lex 19 _ _ (lex_option_name 23 (Or.inl rfl) _ _ (by simp) hk2chars)
  have l14 : ts_parser_lex 35 (' ' :: '=' :: ' ' :: (z0 :: z' ++ ['\n']))
      = some ⟨anon_sym_EQ, [' '], ['='], ' ' :: (z0 :: z' ++ ['\n'])⟩ :=
    parser_lex_of_lex 35 _ _ (lex_blank_equals _)
  have l15 : ts_parser_lex 33 (' ' :: (z0 :: z' ++ ['\n']))
      = some ⟨aux_sym_option_token1, [], [' '], z0 :: z' ++ ['\n']⟩ :=
    parser_lex_of_lex 33 _ _ (lex_option_token1 [' '] _ (by decide) (by simpa using hz0))
  have l16 : ts_parser_lex 6 (z0 :: z' ++ ['\n'])
      = some ⟨sym_option_text, [], z0 :: z', ['\n']⟩ :=
    parser_lex_of_lex 6 _ _ (lex_option_text 3 (Or.inl rfl) [] (z0 :: z') ['\n'] (by simp)
      (by simp) (by
        intro d hd
        have := hzhead d hd
        simp only [spaceChar, blankChar, not_or] at this ⊢
        exact ⟨this.1, this.2.2.2⟩) hzchars (by simp [lineEnds]))
  have l17 : ts_parser_lex 20 ['\n']
      = some ⟨aux_sym__option_value_mono_line_token1, [], ['\n'], []⟩ := by
    decide
  have l18 : ts_parser_lex 18 [] = some ⟨ts_builtin_sym_end, [], [], []⟩ := by
    decide
  refine parse_value_then 15 k x (b0 :: run) y nls _ _ _ (by omega) hk hkchars hx hxhead
    hxchars (fun ch hch => Or.inl (hblanks ch hch)) ⟨b0, run, rfl, hblanks b0 (by simp)⟩
    hy hyhead hychars hnls (by simpa using ha2.2.2.1) l13 ?_ (by simp)
  refine parseLoop_next (parseStep_reduce _ _ _ rfl (by simp)) ?_
  refine parseLoop_next (parseStep_reduce _ _ _ rfl (by simp)) ?_
  refine parseLoop_next (parseStep_reduce _ _ _ rfl (by simp)) ?_
  refine parseLoop_next (parseStep_shift _ _ rfl l14) ?_
  refine parseLoop_next (parseStep_shift _ _ rfl l15) ?_
  refine parseLoop_next (parseStep_shift _ _ rfl l16) ?_
  refine parseLoop_next (parseStep_shift _ _ rfl l17) ?_
  refine parseLoop_next (parseStep_shift _ _ rfl l18) ?_
  refine parseLoop_next (parseStep_reduce _ _ _ rfl (by simp)) ?_
  refine parseLoop_next (parseStep_reduce _ _ _ rfl (by simp)) ?_
  refine parseLoop_next (parseStep_reduce _ _ _ rfl (by simp)) ?_
  refine parseLoop_next (parseStep_reduce _ _ _ rfl (by simp)) ?_
  refine parseLoop_next (parseStep_reduce _ _ _ rfl (by simp)) ?_
  refine parseLoop_next (parseStep_reduce _ _ _ rfl (by simp)) ?_
  exact parseLoop_done rfl

theorem parse_value_then_blank_line (k x blanks t : List Char)
    (hk : k ≠ []) (hkchars : ∀ ch ∈ k, optionNameChar ch)
    (hx : x ≠ []) (hxhead : ∀ d, x.head? = some d → ¬ spaceChar d)
    (hxchars : ∀ ch ∈ x, plainTextChar ch)
    (hne : blanks ≠ []) (hblanks : ∀ ch ∈ blanks, blankChar ch)
    (ht : t ≠ []) (hthead : ∀ d, t.head? = some d → ¬ spaceChar d)
    (htchars : ∀ ch ∈ t, plainTextChar ch) :
    ∃ tree,
      ts_parser_parse ('[' :: 'a' :: ']' :: '\n' :: (k ++ ' ' :: '=' :: ' ' ::
          (x ++ '\n' :: ((blanks ++ ['\n']) ++ (t ++ '\n' :: ([] ++ []))))))
        = .accepted tree ∧
      tree.document = [⟨some ['a'], none, [⟨[k], [[.text x, .text t]]⟩]⟩] := by
  obtain ⟨b0, run, rfl⟩ := List.exists_cons_of_ne_nil hne
  have l13 : ts_parser_lex 19 [] = some ⟨ts_builtin_sym_end, [], [], []⟩ := by
    decide
  apply Exists.intro
  apply And.intro
  · refine parse_value_then 6 k x (b0 :: run ++ ['\n']) t [] [] _ _ (by omega) hk hkchars hx
      hxhead hxchars
      (by
        intro ch hch
        simp only [List.cons_append, List.mem_cons, List.mem_append, List.mem_singleton,
          List.not_mem_nil, or_false] at hch
        rcases hch with rfl | h | rfl
        · exact Or.inl (hblanks _ (by simp))
        · exact Or.inl (hblanks ch (by simp [h]))
        · exact Or.inr rfl)
      ⟨b0, run ++ ['\n'], rfl, hblanks b0 (by simp)⟩
      ht hthead htchars (by simp) (by simp) l13 ?_ (by simp)
    refine parseLoop_next (parseStep_reduce _ _ _ rfl (by simp)) ?_
    refine parseLoop_next (parseStep_reduce _ _ _ rfl (by simp)) ?_
    refine parseLoop_next (parseStep_reduce _ _ _ rfl (by simp)) ?_
    refine parseLoop_next (parseStep_reduce _ _ _ rfl (by simp)) ?_
    refine parseLoop_next (parseStep_reduce _ _ _ rfl (by simp)) ?_
    exact parseLoop_done rfl
  · rfl

/-- C21, the claim fails at its own example: parsing `[a]\nk = x\n \n[b]\n`
yields the one section `a`, and `[b]` is a text segment of the value of
`k`. -/
theorem C21_blank_line_joins_next_line :
    ∃ tree,
      ts_parser_parse "[a]\nk = x\n \n[b]\n".toList = .accepted tree ∧
      tree.document = [⟨some ['a'], none, [⟨[['k']], [[.text ['x'], .text "[b]".toList]]⟩]⟩] :=
  ⟨_, rfl, rfl⟩

/-- C21 as amended: after a continuation line `y` of the value of `k`, a line
that begins a section header `[b]` or an option `k2 = z` at column 0 ends the
value and is parsed as a header or an option, also when empty lines `nls`
precede it; but after a line of spaces and tabs only, the next line is a
continuation line of the value, whatever it begins with. -/
theorem C21_value_termination (k x indent y nls b k2 z : List Char)
    (hk : k ≠ []) (hkchars : ∀ ch ∈ k, optionNameChar ch)
    (hx : x ≠ []) (hxhead : ∀ d, x.head? = some d → ¬ spaceChar d)
    (hxchars : ∀ ch ∈ x, plainTextChar ch)
    (hindent : indent ≠ []) (hblanks : ∀ ch ∈ indent, blankChar ch)
    (hy : y ≠ []) (hyhead : ∀ d, y.head? = some d → ¬ spaceChar d)
    (hychars : ∀ ch ∈ y, plainTextChar ch)
    (hnls : ∀ ch ∈ nls, ch = '\n')
    (hb : b ≠ []) (hbchars : ∀ ch ∈ b, sectionNameChar ch)
    (hk2 : k2 ≠ []) (hk2chars : ∀ ch ∈ k2, optionNameChar ch)
    (hz : z ≠ []) (hzhead : ∀ d, z.head? = some d → ¬ spaceChar d)
    (hzchars : ∀ ch ∈ z, plainTextChar ch) :
    (∃ tree,
      ts_parser_parse ("[a]\n".toList ++ (k ++ (" = ".toList ++ (x ++ ('\n' :: (indent ++
          (y ++ ('\n' :: (nls ++ ('[' :: (b ++ [']', '\n'])))))))))))
        = .accepted tree ∧
      tree.document
        = [⟨some ['a'], none, [⟨[k], [[.text x, .text y]]⟩]⟩, ⟨some b, none, []⟩]) ∧
    (∃ tree,
      ts_parser_parse ("[a]\n".toList ++ (k ++ (" = ".toList ++ (x ++ ('\n' :: (indent ++
          (y ++ ('\n' :: (nls ++ (k2 ++ (" = ".toList ++ (z ++ ['\n']))))))))))))
        = .accepted tree ∧
      tree.document
        = [⟨some ['a'], none, [⟨[k], [[.text x, .text y]]⟩, ⟨[k2], [[.text z]]⟩]⟩]) ∧
    (∃ tree,
      ts_parser_parse ("[a]\n".toList ++ (k ++ (" = ".toList ++ (x ++ ('\n' :: (indent ++
          ('\n' :: (y ++ ['\n']))))))))
        = .accepted tree ∧
      tree.document = [⟨some ['a'], none, [⟨[k], [[.text x, .text y]]⟩]⟩]) := by
  refine ⟨parse_value_then_header k x indent y nls b hk hkchars hx hxhead hxchars hindent
      hblanks hy hyhead hychars hnls hb hbchars,
    ⟨_, parse_value_then_option k x indent y nls k2 z hk hkchars hx hxhead hxchars hindent
      hblanks hy hyhead hychars hnls hk2 hk2chars hz hzhead hzchars, rfl⟩, ?_⟩
  obtain ⟨tree, hparse, hdoc⟩ := parse_value_then_blank_line k x indent y hk hkchars hx hxhead
    hxchars hindent hblanks hy hyhead hychars
  refine ⟨tree, ?_, hdoc⟩
  have hassoc : (indent ++ ['\n']) ++ (y ++ '\n' :: ([] ++ []))
      = indent ++ ('\n' :: (y ++ ['\n'])) := by simp
  rw [hassoc] at hparse
  exact hparse

/-- C21 as amended at `[a]\nk = x\n  y\n\n[b]\n`,
`[a]\nk = x\n  y\n\nk2 = z\n` and `[a]\nk = x\n  \ny\n`. -/
theorem C21_value_termination_witness :
    (['k'] ≠ [] ∧ (∀ ch ∈ ['k'], optionNameChar ch) ∧
      ['x'] ≠ [] ∧ (∀ d, ['x'].head? = some d → ¬ spaceChar d) ∧
      (∀ ch ∈ ['x'], plainTextChar ch) ∧
      [' ', ' '] ≠ [] ∧ (∀ ch ∈ [' ', ' '], blankChar ch) ∧
      ['y'] ≠ [] ∧ (∀ d, ['y'].head? = some d → ¬ spaceChar d) ∧
      (∀ ch ∈ ['y'], plainTextChar ch) ∧
      (∀ ch ∈ ['\n'], ch = '\n') ∧
      ['b'] ≠ [] ∧ (∀ ch ∈ ['b'], sectionNameChar ch) ∧
      "k2".toList ≠ [] ∧ (∀ ch ∈ "k2".toList, optionNameChar ch) ∧
      ['z'] ≠ [] ∧ (∀ d, ['z'].head? = some d → ¬ spaceChar d) ∧
      (∀ ch ∈ ['z'], plainTextChar ch)) ∧
    ((∃ tree,
      ts_parser_parse "[a]\nk = x\n  y\n\n[b]\n".toList = .accepted tree ∧
      tree.document
        = [⟨some ['a'], none, [⟨[['k']], [[.text ['x'], .text ['y']]]⟩]⟩,
            ⟨some ['b'], none, []⟩]) ∧
    (∃ tree,
      ts_parser_parse "[a]\nk = x\n  y\n\nk2 = z\n".toList = .accepted tree ∧
      tree.document
        = [⟨some ['a'], none,
            [⟨[['k']], [[.text ['x'], .text ['y']]]⟩, ⟨["k2".toList], [[.text ['z']]]⟩]⟩]) ∧
    (∃ tree,
      ts_parser_parse "[a]\nk = x\n  \ny\n".toList = .accepted tree ∧
      tree.document = [⟨some ['a'], none, [⟨[['k']], [[.text ['x'], .text ['y']]]⟩]⟩])) :=
  ⟨⟨by decide, by decide, by decide, by simp [spaceChar], by decide, by decide, by decide,
      by decide, by simp [spaceChar], by decide, by decide, by decide, by decide, by decide,
      by decide, by decide, by simp [spaceChar], by decide⟩,
    C21_value_termination ['k'] ['x'] [' ', ' '] ['y'] ['\n'] ['b'] "k2".toList ['z']
      (by decide) (by decide) (by decide) (by simp [spaceChar]) (by decide) (by decide)
      (by decide) (by decide) (by simp [spaceChar]) (by decide) (by decide) (by decide)
      (by decide) (by decide) (by decide) (by decide) (by simp [spaceChar]) (by decide)⟩

/-! ## Every transition of `ts_lex` is one of its edges -/

theorem fires_ite (edges : List (CharGuard × LexAction)) (c : Char) (g : Prop) [Decidable g]
    (a b : LexAction) (ha : g → fires edges c a) (hb : fires edges c b) :
    fires edges c (if g then a else b) := by
  split
  · exact ha (by assumption)
  · exact hb

theorem fires_at (i : Nat) (edges : List (CharGuard × LexAction)) (c : Char) (g : CharGuard)
    (a : LexAction) (hi : edges.get? i = some (g, a)) (hg : g.holds c) : fires edges c a :=
  Or.inr ⟨(g, a), List.get?_mem hi, rfl, hg⟩

/-- Every transition of `ts_lex` on a lookahead character is the end of its
case or one of the edges of `lexEdges`, taken on a character its guard
allows. -/
theorem ts_lex_transition_edges (s : Nat) (hs : s < 60) (c : Char) :
    fires (lexEdges s) c (ts_lex_transition s false c) := by
  obtain hs | rfl : s < 59 ∨ s = 59 := by omega
  swap
  · rw [ts_lex_transition_59]
    refine fires_ite _ _ _ _ _ (fun hg => fires_at 0 _ _ _ _ rfl (by simpa [CharGuard.holds] using hg)) ?_
    exact Or.inl rfl
  obtain hs | rfl : s < 58 ∨ s = 58 := by omega
  swap
  · rw [ts_lex_transition_58]
    refine fires_ite _ _ _ _ _ (fun hg => fires_at 0 _ _ _ _ rfl (by simpa [CharGuard.holds] using hg)) ?_
    exact Or.inl rfl
  obtain hs | rfl : s < 57 ∨ s = 57 := by omega
  swap
  · rw [ts_lex_transition_57]
    refine fires_ite _ _ _ _ _ (fun hg => fires_at 0 _ _ _ _ rfl (by simpa [CharGuard.holds] using hg)) ?_
    refine fires_ite _ _ _ _ _ (fun hg => fires_at 1 _ _ _ _ rfl (by simpa [CharGuard.holds] using hg)) ?_
    exact Or.inl rfl
  obtain hs | rfl : s < 56 ∨ s = 56 := by omega
  swap
  · rw [ts_lex_transition_56]
    refine fires_ite _ _ _ _ _ (fun hg => fires_at 0 _ _ _ _ rfl (by simpa [CharGuard.holds] using hg)) ?_
    exact Or.inl rfl
  obtain hs | rfl : s < 55 ∨ s = 55 := by omega
  swap
  · rw [ts_lex_transition_55]
    refine fires_ite _ _ _ _ _ (fun hg => fires_at 0 _ _ _ _ rfl (by simpa [CharGuard.holds] using hg)) ?_
    refine fires_ite _ _ _ _ _ (fun hg => fires_at 1 _ _ _ _ rfl (by simpa [CharGuard.holds] using hg)) ?_
    exact Or.inl rfl
  obtain hs | rfl : s < 54 ∨ s = 54 := by omega
  swap
  · rw [ts_lex_transition_54]
    exact Or.inl rfl
  obtain hs | rfl : s < 53 ∨ s = 53 := by omega
  swap
  · rw [ts_lex_transition_53]
    exact Or.inl rfl
  obtain hs | rfl : s < 52 ∨ s = 52 := by omega
  swap
  · rw [ts_lex_transition_52]
    refine fires_ite _ _ _ _ _ (fun hg => fires_at 0 _ _ _ _ rfl (by simpa [CharGuard.holds] using hg)) ?_
    refine fires_ite _ _ _ _ _ (fun hg => fires_at 1 _ _ _ _ rfl (by simpa [CharGuard.holds] using hg)) ?_
    exact Or.inl rfl
  obtain hs | rfl : s < 51 ∨ s = 51 := by omega
  swap
  · rw [ts_lex_transition_51]
    exact Or.inl rfl
  obtain hs | rfl : s < 50 ∨ s = 50 := by omega
  swap
  · rw [ts_lex_transition_50]
    refine fires_ite _ _ _ _ _ (fun hg => fires_at 0 _ _ _ _ rfl (by simpa [CharGuard.holds] using hg)) ?_
    refine fires_ite _ _ _ _ _ (fun hg => fires_at 1 _ _ _ _ rfl (by simpa [CharGuard.holds] using hg)) ?_
    exact Or.inl rfl
  obtain hs | rfl : s < 49 ∨ s = 49 := by omega
  swap
  · rw [ts_lex_transition_49]
    refine fires_ite _ _ _ _ _ (fun hg => fires_at 0 _ _ _ _ rfl (by simpa [CharGuard.holds] using hg)) ?_
    refine fires_ite _ _ _ _ _ (fun hg => fires_at 1 _ _ _ _ rfl (by simpa [CharGuard.holds] using hg)) ?_
    exact Or.inl rfl
  obtain hs | rfl : s < 48 ∨ s = 48 := by omega
  swap
  · rw [ts_lex_transition_48]
    refine fires_ite _ _ _ _ _ (fun hg => fires_at 0 _ _ _ _ rfl (by simpa [CharGuard.holds] using hg)) ?_
    refine fires_ite _ _ _ _ _ (fun hg => fires_at 1 _ _ _ _ rfl (by simpa [CharGuard.holds] using hg)) ?_
    refine fires_ite _ _ _ _ _ (fun hg => fires_at 2 _ _ _ _ rfl (by simpa [CharGuard.holds] using hg)) ?_
    exact Or.inl rfl
  obtain hs | rfl : s < 47 ∨ s = 47 := by omega
  swap
  · rw [ts_lex_transition_47]
    refine fires_ite _ _ _ _ _ (fun hg => fires_at 0 _ _ _ _ rfl (by simpa [CharGuard.holds] using hg)) ?_
    refine fires_ite _ _ _ _ _ (fun hg => fires_at 1 _ _ _ _ rfl (by simpa [CharGuard.holds] using hg)) ?_
    refine fires_ite _ _ _ _ _ (fun hg => fires_at 2 _ _ _ _ rfl (by simpa [CharGuard.holds] using hg)) ?_
    refine fires_ite _ _ _ _ _ (fun hg => fires_at 3 _ _ _ _ rfl (by simpa [CharGuard.holds] using hg)) ?_
    exact Or.inl rfl
  obtain hs | rfl : s < 46 ∨ s = 46 := by omega
  swap
  · rw [ts_lex_transition_46]
    refine fires_ite _ _ _ _ _ (fun hg => fires_at 0 _ _ _ _ rfl (by simpa [CharGuard.holds] using hg)) ?_
    refine fires_ite _ _ _ _ _ (fun hg => fires_at 1 _ _ _ _ rfl (by simpa [CharGuard.holds] using hg)) ?_
    refine fires_ite _ _ _ _ _ (fun hg => fires_at 2 _ _ _ _ rfl (by simpa [CharGuard.holds] using hg)) ?_
    refine fires_ite _ _ _ _ _ (fun hg => fires_at 3 _ _ _ _ rfl (by simpa [CharGuard.holds] using hg)) ?_
    exact Or.inl rfl
  obtain hs | rfl : s < 45 ∨ s = 45 := by omega
  swap
  · rw [ts_lex_transition_45]
    refine fires_ite _ _ _ _ _ (fun hg => fires_at 0 _ _ _ _ rfl (by simpa [CharGuard.holds] using hg)) ?_
    exact Or.inl rfl
  obtain hs | rfl : s < 44 ∨ s = 44 := by omega
  swap
  · rw [ts_lex_transition_44]
    refine fires_ite _ _ _ _ _ (fun hg => fires_at 0 _ _ _ _ rfl (by simpa [CharGuard.holds] using hg)) ?_
    refine fires_ite _ _ _ _ _ (fun hg => fires_at 1 _ _ _ _ rfl (by simpa [CharGuard.holds] using hg)) ?_
    refine fires_ite _ _ _ _ _ (fun hg => fires_at 2 _ _ _ _ rfl (by simpa [CharGuard.holds] using hg)) ?_
    exact Or.inl rfl
  obtain hs | rfl : s < 43 ∨ s = 43 := by omega
  swap
  · rw [ts_lex_transition_43]
    refine fires_ite _ _ _ _ _ (fun hg => fires_at 0 _ _ _ _ rfl (by simpa [CharGuard.holds] using hg)) ?_
    refine fires_ite _ _ _ _ _ (fun hg => fires_at 1 _ _ _ _ rfl (by simpa [CharGuard.holds] using hg)) ?_
    exact Or.inl rfl
  obtain hs | rfl : s < 42 ∨ s = 42 := by omega
  swap
  · rw [ts_lex_transition_42]
    refine fires_ite _ _ _ _ _ (fun hg => fires_at 0 _ _ _ _ rfl (by simpa [CharGuard.holds] using hg)) ?_
    exact Or.inl rfl
  obtain hs | rfl : s < 41 ∨ s = 41 := by omega
  swap
  · rw [ts_lex_transition_41]
    refine fires_ite _ _ _ _ _ (fun hg => fires_at 0 _ _ _ _ rfl (by simpa [CharGuard.holds] using hg)) ?_
    refine fires_ite _ _ _ _ _ (fun hg => fires_at 1 _ _ _ _ rfl (by simpa [CharGuard.holds] using hg)) ?_
    exact Or.inl rfl
  obtain hs | rfl : s < 40 ∨ s = 40 := by omega
  swap
  · rw [ts_lex_transition_40]
    exact Or.inl rfl
  obtain hs | rfl : s < 39 ∨ s = 39 := by omega
  swap
  · rw [ts_lex_transition_39]
    refine fires_ite _ _ _ _ _ (fun hg => fires_at 0 _ _ _ _ rfl (by simpa [CharGuard.holds] using hg)) ?_
    exact Or.inl rfl
  obtain hs | rfl : s < 38 ∨ s = 38 := by omega
  swap
  · rw [ts_lex_transition_38]
    refine fires_ite _ _ _ _ _ (fun hg => fires_at 0 _ _ _ _ rfl (by simpa [CharGuard.holds] using hg)) ?_
    exact Or.inl rfl
  obtain hs | rfl : s < 37 ∨ s = 37 := by omega
  swap
  · rw [ts_lex_transition_37]
    refine fires_ite _ _ _ _ _ (fun hg => fires_at 0 _ _ _ _ rfl (by simpa [CharGuard.holds] using hg)) ?_
    refine fires_ite _ _ _ _ _ (fun hg => fires_at 1 _ _ _ _ rfl (by simpa [CharGuard.holds] using hg)) ?_
    exact Or.inl rfl
  obtain hs | rfl : s < 36 ∨ s = 36 := by omega
  swap
  · rw [ts_lex_transition_36]
    refine fires_ite _ _ _ _ _ (fun hg => fires_at 0 _ _ _ _ rfl (by simpa [CharGuard.holds] using hg)) ?_
    refine fires_ite _ _ _ _ _ (fun hg => fires_at 1 _ _ _ _ rfl (by simpa [CharGuard.holds] using hg)) ?_
    refine fires_ite _ _ _ _ _ (fun hg => fires_at 2 _ _ _ _ rfl (by simpa [CharGuard.holds] using hg)) ?_
    exact Or.inl rfl
  obtain hs | rfl : s < 35 ∨ s = 35 := by omega
  swap
  · rw [ts_lex_transition_35]
    exact Or.inl rfl
  obtain hs | rfl : s < 34 ∨ s = 34 := by omega
  swap
  · rw [ts_lex_transition_34]
    refine fires_ite _ _ _ _ _ (fun hg => fires_at 0 _ _ _ _ rfl (by simpa [CharGuard.holds] using hg)) ?_
    exact Or.inl rfl
  obtain hs | rfl : s < 33 ∨ s = 33 := by omega
  swap
  · rw [ts_lex_transition_33]
    refine fires_ite _ _ _ _ _ (fun hg => fires_at 0 _ _ _ _ rfl (by simpa [CharGuard.holds] using hg)) ?_
    refine fires_ite _ _ _ _ _ (fun hg => fires_at 1 _ _ _ _ rfl (by simpa [CharGuard.holds] using hg)) ?_
    exact Or.inl rfl
  obtain hs | rfl : s < 32 ∨ s = 32 := by omega
  swap
  · rw [ts_lex_transition_32]
    refine fires_ite _ _ _ _ _ (fun hg => fires_at 0 _ _ _ _ rfl (by simpa [CharGuard.holds] using hg)) ?_
    exact Or.inl rfl
  obtain hs | rfl : s < 31 ∨ s = 31 := by omega
  swap
  · rw [ts_lex_transition_31]
    refine fires_ite _ _ _ _ _ (fun hg => fires_at 0 _ _ _ _ rfl (by simpa [CharGuard.holds] using hg)) ?_
    refine fires_ite _ _ _ _ _ (fun hg => fires_at 1 _ _ _ _ rfl (by simpa [CharGuard.holds] using hg)) ?_
    exact Or.inl rfl
  obtain hs | rfl : s < 30 ∨ s = 30 := by omega
  swap
  · rw [ts_lex_transition_30]
    exact Or.inl rfl
  obtain hs | rfl : s < 29 ∨ s = 29 := by omega
  swap
  · rw [ts_lex_transition_29]
    exact Or.inl rfl
  obtain hs | rfl : s < 28 ∨ s = 28 := by omega
  swap
  · rw [ts_lex_transition_28]
    exact Or.inl rfl
  obtain hs | rfl : s < 27 ∨ s = 27 := by omega
  swap
  · rw [ts_lex_transition_27]
    refine fires_ite _ _ _ _ _ (fun hg => fires_at 0 _ _ _ _ rfl (by simpa [CharGuard.holds] using hg)) ?_
    exact Or.inl rfl
  obtain hs | rfl : s < 26 ∨ s = 26 := by omega
  swap
  · rw [ts_lex_transition_26]
    refine fires_ite _ _ _ _ _ (fun hg => fires_at 0 _ _ _ _ rfl (by simpa [CharGuard.holds] using hg)) ?_
    exact Or.inl rfl
  obtain hs | rfl : s < 25 ∨ s = 25 := by omega
  swap
  · rw [ts_lex_transition_25]
    exact Or.inl rfl
  obtain hs | rfl : s < 24 ∨ s = 24 := by omega
  swap
  · rw [ts_lex_transition_24, if_neg Bool.false_ne_true]
    refine fires_ite _ _ _ _ _ (fun hg => fires_at 0 _ _ _ _ rfl (by simpa [CharGuard.holds] using hg)) ?_
    refine fires_ite _ _ _ _ _ (fun hg => fires_at 1 _ _ _ _ rfl (by simpa [CharGuard.holds] using hg)) ?_
    refine fires_ite _ _ _ _ _ (fun hg => fires_at 2 _ _ _ _ rfl (by simpa [CharGuard.holds] using hg)) ?_
    refine fires_ite _ _ _ _ _ (fun hg => fires_at 3 _ _ _ _ rfl (by simpa [CharGuard.holds] using hg)) ?_
    exact Or.inl rfl
  obtain hs | rfl : s < 23 ∨ s = 23 := by omega
  swap
  · rw [ts_lex_transition_23, if_neg Bool.false_ne_true]
    refine fires_ite _ _ _ _ _ (fun hg => fires_at 0 _ _ _ _ rfl (by simpa [CharGuard.holds] using hg)) ?_
    refine fires_ite _ _ _ _ _ (fun hg => fires_at 1 _ _ _ _ rfl (by simpa [CharGuard.holds] using hg)) ?_
    refine fires_ite _ _ _ _ _ (fun hg => fires_at 2 _ _ _ _ rfl (by simpa [CharGuard.holds] using hg)) ?_
    refine fires_ite _ _ _ _ _ (fun hg => fires_at 3 _ _ _ _ rfl (by simpa [CharGuard.holds] using hg)) ?_
    refine fires_ite _ _ _ _ _ (fun hg => fires_at 4 _ _ _ _ rfl (by simpa [CharGuard.holds] using hg)) ?_
    exact Or.inl rfl
  obtain hs | rfl : s < 22 ∨ s = 22 := by omega
  swap
  · rw [ts_lex_transition_22, if_neg Bool.false_ne_true]
    refine fires_ite _ _ _ _ _ (fun hg => fires_at 0 _ _ _ _ rfl (by simpa [CharGuard.holds] using hg)) ?_
    refine fires_ite _ _ _ _ _ (fun hg => fires_at 1 _ _ _ _ rfl (by simpa [CharGuard.holds] using hg)) ?_
    refine fires_ite _ _ _ _ _ (fun hg => fires_at 2 _ _ _ _ rfl (by simpa [CharGuard.holds] using hg)) ?_
    refine fires_ite _ _ _ _ _ (fun hg => fires_at 3 _ _ _ _ rfl (by simpa [CharGuard.holds] using hg)) ?_
    refine fires_ite _ _ _ _ _ (fun hg => fires_at 4 _ _ _ _ rfl (by simpa [CharGuard.holds] using hg)) ?_
    exact Or.inl rfl
  obtain hs | rfl : s < 21 ∨ s = 21 := by omega
  swap
  · rw [ts_lex_transition_21, if_neg Bool.false_ne_true]
    refine fires_ite _ _ _ _ _ (fun hg => fires_at 0 _ _ _ _ rfl (by simpa [CharGuard.holds] using hg)) ?_
    refine fires_ite _ _ _ _ _ (fun hg => fires_at 1 _ _ _ _ rfl (by simpa [CharGuard.holds] using hg)) ?_
    refine fires_ite _ _ _ _ _ (fun hg => fires_at 2 _ _ _ _ rfl (by simpa [CharGuard.holds] using hg)) ?_
    refine fires_ite _ _ _ _ _ (fun hg => fires_at 3 _ _ _ _ rfl (by simpa [CharGuard.holds] using hg)) ?_
    refine fires_ite _ _ _ _ _ (fun hg => fires_at 4 _ _ _ _ rfl (by simpa [CharGuard.holds] using hg)) ?_
    refine fires_ite _ _ _ _ _ (fun hg => fires_at 5 _ _ _ _ rfl (by simpa [CharGuard.holds] using hg)) ?_
    refine fires_ite _ _ _ _ _ (fun hg => fires_at 6 _ _ _ _ rfl (by simpa [CharGuard.holds] using hg)) ?_
    refine fires_ite _ _ _ _ _ (fun hg => fires_at 7 _ _ _ _ rfl (by simpa [CharGuard.holds] using hg)) ?_
    refine fires_ite _ _ _ _ _ (fun hg => fires_at 8 _ _ _ _ rfl (by simpa [CharGuard.holds] using hg)) ?_
    exact Or.inl rfl
  obtain hs | rfl : s < 20 ∨ s = 20 := by omega
  swap
  · rw [ts_lex_transition_20]
    refine fires_ite _ _ _ _ _ (fun hg => fires_at 0 _ _ _ _ rfl (by simpa [CharGuard.holds] using hg)) ?_
    refine fires_ite _ _ _ _ _ (fun hg => fires_at 1 _ _ _ _ rfl (by simpa [CharGuard.holds] using hg)) ?_
    exact Or.inl rfl
  obtain hs | rfl : s < 19 ∨ s = 19 := by omega
  swap
  · rw [ts_lex_transition_19]
    refine fires_ite _ _ _ _ _ (fun hg => fires_at 0 _ _ _ _ rfl (by simpa [CharGuard.holds] using hg)) ?_
    refine fires_ite _ _ _ _ _ (fun hg => fires_at 1 _ _ _ _ rfl (by simpa [CharGuard.holds] using hg)) ?_
    exact Or.inl rfl
  obtain hs | rfl : s < 18 ∨ s = 18 := by omega
  swap
  · rw [ts_lex_transition_18]
    refine fires_ite _ _ _ _ _ (fun hg => fires_at 0 _ _ _ _ rfl (by simpa [CharGuard.holds] using hg)) ?_
    refine fires_ite _ _ _ _ _ (fun hg => fires_at 1 _ _ _ _ rfl (by simpa [CharGuard.holds] using hg)) ?_
    exact Or.inl rfl
  obtain hs | rfl : s < 17 ∨ s = 17 := by omega
  swap
  · rw [ts_lex_transition_17]
    refine fires_ite _ _ _ _ _ (fun hg => fires_at 0 _ _ _ _ rfl (by simpa [CharGuard.holds] using hg)) ?_
    exact Or.inl rfl
  obtain hs | rfl : s < 16 ∨ s = 16 := by omega
  swap
  · rw [ts_lex_transition_16]
    refine fires_ite _ _ _ _ _ (fun hg => fires_at 0 _ _ _ _ rfl (by simpa [CharGuard.holds] using hg)) ?_
    refine fires_ite _ _ _ _ _ (fun hg => fires_at 1 _ _ _ _ rfl (by simpa [CharGuard.holds] using hg)) ?_
    refine fires_ite _ _ _ _ _ (fun hg => fires_at 2 _ _ _ _ rfl (by simpa [CharGuard.holds] using hg)) ?_
    exact Or.inl rfl
  obtain hs | rfl : s < 15 ∨ s = 15 := by omega
  swap
  · rw [ts_lex_transition_15]
    refine fires_ite _ _ _ _ _ (fun hg => fires_at 0 _ _ _ _ rfl (by simpa [CharGuard.holds] using hg)) ?_
    refine fires_ite _ _ _ _ _ (fun hg => fires_at 1 _ _ _ _ rfl (by simpa [CharGuard.holds] using hg)) ?_
    exact Or.inl rfl
  obtain hs | rfl : s < 14 ∨ s = 14 := by omega
  swap
  · rw [ts_lex_transition_14]
    refine fires_ite _ _ _ _ _ (fun hg => fires_at 0 _ _ _ _ rfl (by simpa [CharGuard.holds] using hg)) ?_
    refine fires_ite _ _ _ _ _ (fun hg => fires_at 1 _ _ _ _ rfl (by simpa [CharGuard.holds] using hg)) ?_
    refine fires_ite _ _ _ _ _ (fun hg => fires_at 2 _ _ _ _ rfl (by simpa [CharGuard.holds] using hg)) ?_
    exact Or.inl rfl
  obtain hs | rfl : s < 13 ∨ s = 13 := by omega
  swap
  · rw [ts_lex_transition_13]
    refine fires_ite _ _ _ _ _ (fun hg => fires_at 0 _ _ _ _ rfl (by simpa [CharGuard.holds] using hg)) ?_
    refine fires_ite _ _ _ _ _ (fun hg => fires_at 1 _ _ _ _ rfl (by simpa [CharGuard.holds] using hg)) ?_
    exact Or.inl rfl
  obtain hs | rfl : s < 12 ∨ s = 12 := by omega
  swap
  · rw [ts_lex_transition_12]
    refine fires_ite _ _ _ _ _ (fun hg => fires_at 0 _ _ _ _ rfl (by simpa [CharGuard.holds] using hg)) ?_
    refine fires_ite _ _ _ _ _ (fun hg => fires_at 1 _ _ _ _ rfl (by simpa [CharGuard.holds] using hg)) ?_
    exact Or.inl rfl
  obtain hs | rfl : s < 11 ∨ s = 11 := by omega
  swap
  · rw [ts_lex_transition_11]
    refine fires_ite _ _ _ _ _ (fun hg => fires_at 0 _ _ _ _ rfl (by simpa [CharGuard.holds] using hg)) ?_
    refine fires_ite _ _ _ _ _ (fun hg => fires_at 1 _ _ _ _ rfl (by simpa [CharGuard.holds] using hg)) ?_
    exact Or.inl rfl
  obtain hs | rfl : s < 10 ∨ s = 10 := by omega
  swap
  · rw [ts_lex_transition_10]
    refine fires_ite _ _ _ _ _ (fun hg => fires_at 0 _ _ _ _ rfl (by simpa [CharGuard.holds] using hg)) ?_
    refine fires_ite _ _ _ _ _ (fun hg => fires_at 1 _ _ _ _ rfl (by simpa [CharGuard.holds] using hg)) ?_
    refine fires_ite _ _ _ _ _ (fun hg => fires_at 2 _ _ _ _ rfl (by simpa [CharGuard.holds] using hg)) ?_
    exact Or.inl rfl
  obtain hs | rfl : s < 9 ∨ s = 9 := by omega
  swap
  · rw [ts_lex_transition_9]
    refine fires_ite _ _ _ _ _ (fun hg => fires_at 0 _ _ _ _ rfl (by simpa [CharGuard.holds] using hg)) ?_
    refine fires_ite _ _ _ _ _ (fun hg => fires_at 1 _ _ _ _ rfl (by simpa [CharGuard.holds] using hg)) ?_
    refine fires_ite _ _ _ _ _ (fun hg => fires_at 2 _ _ _ _ rfl (by simpa [CharGuard.holds] using hg)) ?_
    exact Or.inl rfl
  obtain hs | rfl : s < 8 ∨ s = 8 := by omega
  swap
  · rw [ts_lex_transition_8]
    refine fires_ite _ _ _ _ _ (fun hg => fires_at 0 _ _ _ _ rfl (by simpa [CharGuard.holds] using hg)) ?_
    refine fires_ite _ _ _ _ _ (fun hg => fires_at 1 _ _ _ _ rfl (by simpa [CharGuard.holds] using hg)) ?_
    refine fires_ite _ _ _ _ _ (fun hg => fires_at 2 _ _ _ _ rfl (by simpa [CharGuard.holds] using hg)) ?_
    exact Or.inl rfl
  obtain hs | rfl : s < 7 ∨ s = 7 := by omega
  swap
  · rw [ts_lex_transition_7]
    refine fires_ite _ _ _ _ _ (fun hg => fires_at 0 _ _ _ _ rfl (by simpa [CharGuard.holds] using hg)) ?_
    refine fires_ite _ _ _ _ _ (fun hg => fires_at 1 _ _ _ _ rfl (by simpa [CharGuard.holds] using hg)) ?_
    refine fires_ite _ _ _ _ _ (fun hg => fires_at 2 _ _ _ _ rfl (by simpa [CharGuard.holds] using hg)) ?_
    exact Or.inl rfl
  obtain hs | rfl : s < 6 ∨ s = 6 := by omega
  swap
  · rw [ts_lex_transition_6]
    refine fires_ite _ _ _ _ _ (fun hg => fires_at 0 _ _ _ _ rfl (by simpa [CharGuard.holds] using hg)) ?_
    refine fires_ite _ _ _ _ _ (fun hg => fires_at 1 _ _ _ _ rfl (by simpa [CharGuard.holds] using hg)) ?_
    exact Or.inl rfl
  obtain hs | rfl : s < 5 ∨ s = 5 := by omega
  swap
  · rw [ts_lex_transition_5]
    refine fires_ite _ _ _ _ _ (fun hg => fires_at 0 _ _ _ _ rfl (by simpa [CharGuard.holds] using hg)) ?_
    refine fires_ite _ _ _ _ _ (fun hg => fires_at 1 _ _ _ _ rfl (by simpa [CharGuard.holds] using hg)) ?_
    refine fires_ite _ _ _ _ _ (fun hg => fires_at 2 _ _ _ _ rfl (by simpa [CharGuard.holds] using hg)) ?_
    refine fires_ite _ _ _ _ _ (fun hg => fires_at 3 _ _ _ _ rfl (by simpa [CharGuard.holds] using hg)) ?_
    exact Or.inl rfl
  obtain hs | rfl : s < 4 ∨ s = 4 := by omega
  swap
  · rw [ts_lex_transition_4]
    refine fires_ite _ _ _ _ _ (fun hg => fires_at 0 _ _ _ _ rfl (by simpa [CharGuard.holds] using hg)) ?_
    refine fires_ite _ _ _ _ _ (fun hg => fires_at 1 _ _ _ _ rfl (by simpa [CharGuard.holds] using hg)) ?_
    refine fires_ite _ _ _ _ _ (fun hg => fires_at 2 _ _ _ _ rfl (by simpa [CharGuard.holds] using hg)) ?_
    refine fires_ite _ _ _ _ _ (fun hg => fires_at 3 _ _ _ _ rfl (by simpa [CharGuard.holds] using hg)) ?_
    exact Or.inl rfl
  obtain hs | rfl : s < 3 ∨ s = 3 := by omega
  swap
  · rw [ts_lex_transition_3]
    refine fires_ite _ _ _ _ _ (fun hg => fires_at 0 _ _ _ _ rfl (by simpa [CharGuard.holds] using hg)) ?_
    refine fires_ite _ _ _ _ _ (fun hg => fires_at 1 _ _ _ _ rfl (by simpa [CharGuard.holds] using hg)) ?_
    refine fires_ite _ _ _ _ _ (fun hg => fires_at 2 _ _ _ _ rfl (by simpa [CharGuard.holds] using hg)) ?_
    refine fires_ite _ _ _ _ _ (fun hg => fires_at 3 _ _ _ _ rfl (by simpa [CharGuard.holds] using hg)) ?_
    exact Or.inl rfl
  obtain hs | rfl : s < 2 ∨ s = 2 := by omega
  swap
  · rw [ts_lex_transition_2]
    refine fires_ite _ _ _ _ _ (fun hg => fires_at 0 _ _ _ _ rfl (by simpa [CharGuard.holds] using hg)) ?_
    refine fires_ite _ _ _ _ _ (fun hg => fires_at 1 _ _ _ _ rfl (by simpa [CharGuard.holds] using hg)) ?_
    exact Or.inl rfl
  obtain hs | rfl : s < 1 ∨ s = 1 := by omega
  swap
  · rw [ts_lex_transition_1]
    refine fires_ite _ _ _ _ _ (fun hg => fires_at 0 _ _ _ _ rfl (by simpa [CharGuard.holds] using hg)) ?_
    refine fires_ite _ _ _ _ _ (fun hg => fires_at 1 _ _ _ _ rfl (by simpa [CharGuard.holds] using hg)) ?_
    refine fires_ite _ _ _ _ _ (fun hg => fires_at 2 _ _ _ _ rfl (by simpa [CharGuard.holds] using hg)) ?_
    exact Or.inl rfl
  obtain hs | rfl : s < 0 ∨ s = 0 := by omega
  swap
  · rw [ts_lex_transition_0, if_neg Bool.false_ne_true]
    refine fires_ite _ _ _ _ _ (fun hg => fires_at 0 _ _ _ _ rfl (by simpa [CharGuard.holds] using hg)) ?_
    refine fires_ite _ _ _ _ _ (fun hg => fires_at 1 _ _ _ _ rfl (by simpa [CharGuard.holds] using hg)) ?_
    refine fires_ite _ _ _ _ _ (fun hg => fires_at 2 _ _ _ _ rfl (by simpa [CharGuard.holds] using hg)) ?_
    refine fires_ite _ _ _ _ _ (fun hg => fires_at 3 _ _ _ _ rfl (by simpa [CharGuard.holds] using hg)) ?_
    refine fires_ite _ _ _ _ _ (fun hg => fires_at 4 _ _ _ _ rfl (by simpa [CharGuard.holds] using hg)) ?_
    refine fires_ite _ _ _ _ _ (fun hg => fires_at 5 _ _ _ _ rfl (by simpa [CharGuard.holds] using hg)) ?_
    refine fires_ite _ _ _ _ _ (fun hg => fires_at 6 _ _ _ _ rfl (by simpa [CharGuard.holds] using hg)) ?_
    refine fires_ite _ _ _ _ _ (fun hg => fires_at 7 _ _ _ _ rfl (by simpa [CharGuard.holds] using hg)) ?_
    exact Or.inl rfl
  omega

/-! ## Invariants of a run of `ts_lex` -/

/-- A property of the guard and the action of an edge holds for every
transition that is taken, when it holds for every edge of `lexEdges`. -/
theorem edge_fact (P : Nat → CharGuard → LexAction → Bool)
    (hP : ∀ s, s < 60 → (lexEdges s).all (fun e => P s e.1 e.2) = true)
    (s : Nat) (hs : s < 60) (c : Char) (a : LexAction)
    (h : ts_lex_transition s false c = a) (ha : a ≠ .stop) :
    ∃ g, P s g a = true ∧ g.holds c := by
  rcases ts_lex_transition_edges s hs c with hstop | ⟨e, he, hact, hg⟩
  · exact absurd (h ▸ hstop) ha
  · refine ⟨e.1, ?_, hg⟩
    have := List.all_eq_true.mp (hP s hs) e he
    rw [← h, ← hact]
    exact this

/-- Every character that `ts_lex` skips is a tab, a space or a newline. -/
theorem ts_lex_skip_char (s : Nat) (hs : s < 60) (c : Char) (t : Nat)
    (h : ts_lex_transition s false c = .skip t) : skippedChar c := by
  obtain ⟨g, hP, hg⟩ := edge_fact
    (fun _ g a => match a, g with
      | .skip _, .oneOf chars => chars.all (fun d => d == '\t' || d == ' ' || d == '\n')
      | .skip _, .noneOf _ => false
      | _, _ => true)
    (by decide) s hs c _ h (by simp)
  cases g with
  | oneOf chars =>
    simp only [List.all_eq_true, Bool.or_eq_true, beq_iff_eq] at hP
    have := hP c hg
    rcases this with (h1 | h1) | h1
    · exact Or.inl h1
    · exact Or.inr (Or.inl h1)
    · exact Or.inr (Or.inr h1)
  | noneOf chars => simp at hP

theorem markEnd_markedToken (Inv : Nat → List Char → List Char → Prop) (input : List Char)
    (s : Nat) (hs : s < 60) (skipped consumed rest : List Char) (result : Option Lexed)
    (hinv : Inv s consumed rest) (hsum : skipped ++ consumed ++ rest = input)
    (hskipped : ∀ c ∈ skipped, skippedChar c)
    (hres : ∀ r, result = some r → markedToken Inv input r) :
    ∀ r, markEnd s skipped consumed rest result = some r → markedToken Inv input r := by
  intro r hr
  unfold markEnd at hr
  cases hacc : ts_lex_accept s with
  | none => rw [hacc] at hr; exact hres r hr
  | some sym =>
    rw [hacc] at hr
    simp only [Option.some.injEq] at hr
    subst hr
    exact ⟨s, hs, hacc, hinv, hsum.symm, hskipped⟩

theorem lexAtEof_markedToken (Inv : Nat → List Char → List Char → Prop) (input : List Char)
    (heof : ∀ s consumed, s < 60 → Inv s consumed [] →
      ts_lex_transition s true '\x00' = .advance 25 → Inv 25 consumed []) :
    ∀ (fuel s : Nat), s < 60 → ∀ (skipped consumed : List Char) (result : Option Lexed),
    Inv s consumed [] → skipped ++ consumed ++ [] = input →
    (∀ c ∈ skipped, skippedChar c) →
    (∀ r, result = some r → markedToken Inv input r) →
    ∀ r, lexAtEof fuel s skipped consumed result = some r → markedToken Inv input r := by
  intro fuel
  induction fuel with
  | zero => intro s _ skipped consumed result _ _ _ _ r h; simp [lexAtEof] at h
  | succ fuel ih =>
    intro s hs skipped consumed result hinv hsum hskipped hres r h
    have hmark := markEnd_markedToken Inv input s hs skipped consumed [] result hinv hsum
      hskipped hres
    simp only [lexAtEof] at h
    rcases ts_lex_transition_eof s hs with htr | htr
    · rw [htr] at h
      exact ih 25 (by decide) skipped consumed _ (heof s consumed hs hinv htr) hsum hskipped
        hmark r h
    · rw [htr] at h
      exact hmark r h

theorem lexLoop_markedToken (Inv : Nat → List Char → List Char → Prop) (input : List Char)
    (hskip : ∀ s t c rest, s < 60 → ts_lex_transition s false c = .skip t → Inv t [] rest)
    (hadv : ∀ s t c consumed rest, s < 60 → Inv s consumed (c :: rest) →
      ts_lex_transition s false c = .advance t → Inv t (consumed ++ [c]) rest)
    (heof : ∀ s consumed, s < 60 → Inv s consumed [] →
      ts_lex_transition s true '\x00' = .advance 25 → Inv 25 consumed []) :
    ∀ (remaining : List Char) (s : Nat), s < 60 →
    ∀ (skipped consumed : List Char) (result : Option Lexed),
    Inv s consumed remaining → skipped ++ consumed ++ remaining = input →
    (∀ c ∈ skipped, skippedChar c) →
    (∀ r, result = some r → markedToken Inv input r) →
    (skipState s = true → result = none ∧ consumed = []) →
    ∀ r, lexLoop remaining s skipped consumed result = some r → markedToken Inv input r := by
  intro remaining
  induction remaining with
  | nil =>
    intro s hs skipped consumed result hinv hsum hskipped hres _ r h
    exact lexAtEof_markedToken Inv input heof 60 s hs skipped consumed result hinv hsum
      hskipped hres r (by simpa [lexLoop] using h)
  | cons c cs ih =>
    intro s hs skipped consumed result hinv hsum hskipped hres hstate r h
    have hmark := markEnd_markedToken Inv input s hs skipped consumed (c :: cs) result hinv
      hsum hskipped hres
    have htargets := ts_lex_transition_targets s hs false c
    simp only [lexLoop] at h
    cases htr : ts_lex_transition s false c with
    | advance t =>
      rw [htr] at h htargets
      simp only [LexAction.targetsOk, Bool.and_eq_true, decide_eq_true_eq,
        Bool.not_eq_true'] at htargets
      refine ih t htargets.1 skipped (consumed ++ [c]) _ (hadv s t c consumed cs hs hinv htr)
        (by rw [← hsum]; simp) hskipped hmark ?_ r h
      intro ht
      rw [htargets.2] at ht
      cases ht
    | skip t =>
      rw [htr] at h htargets
      simp only [LexAction.targetsOk, Bool.and_eq_true] at htargets
      obtain ⟨hnone, hempty⟩ := hstate htargets.1
      have hmarked : markEnd s skipped consumed (c :: cs) result = none := by
        unfold markEnd
        rw [ts_lex_accept_skipState s hs htargets.1, hnone]
      have ht : t < 60 := by
        have := htargets.2
        simp only [skipState, Bool.or_eq_true, beq_iff_eq] at this
        omega
      rw [hmarked] at h
      subst hempty
      refine ih t ht _ [] _ (hskip s t c cs hs htr) (by rw [← hsum]; simp) ?_ (by simp)
        (fun _ => ⟨rfl, rfl⟩) r h
      intro d hd
      simp only [List.append_nil, List.mem_append, List.mem_singleton] at hd
      rcases hd with hd | rfl
      · exact hskipped d hd
      · exact ts_lex_skip_char s hs d t htr
    | stop =>
      rw [htr] at h
      exact hmark r h

/-- The run of `ts_lex`: an invariant of the state, the characters consumed
into the token and the rest of the input that holds at the start and is kept
by every `ADVANCE`, every `SKIP` and the step to state 25 at the end of
input holds where the returned token was marked. -/
theorem ts_lex_run (Inv : Nat → List Char → List Char → Prop) (start : Nat)
    (hstart : start < 60) (input : List Char) (h0 : Inv start [] input)
    (hskip : ∀ s t c rest, s < 60 → ts_lex_transition s false c = .skip t → Inv t [] rest)
    (hadv : ∀ s t c consumed rest, s < 60 → Inv s consumed (c :: rest) →
      ts_lex_transition s false c = .advance t → Inv t (consumed ++ [c]) rest)
    (heof : ∀ s consumed, s < 60 → Inv s consumed [] →
      ts_lex_transition s true '\x00' = .advance 25 → Inv 25 consumed [])
    (tok : Lexed) (h : ts_lex input start = some tok) : markedToken Inv input tok :=
  lexLoop_markedToken Inv input hskip hadv heof input start hstart [] [] none h0 (by simp)
    (by simp) (by simp) (fun _ => ⟨rfl, rfl⟩) tok h

/-! ## The scanner is total and skips only before the token -/

theorem lexAtEof_two_steps : ∀ (s : Nat), s < 60 → ∀ (fuel : Nat), 2 ≤ fuel →
    ∀ (skipped consumed : List Char) (result : Option Lexed),
    lexAtEof fuel s skipped consumed result = lexAtEof 2 s skipped consumed result := by
  intro s hs fuel hfuel skipped consumed result
  obtain ⟨n, rfl⟩ : ∃ n, fuel = n + 2 := ⟨fuel - 2, by omega⟩
  rcases ts_lex_transition_eof s hs with htr | htr
  · simp [lexAtEof, htr, ts_lex_transition_25]
  · simp [lexAtEof, htr]

theorem ts_lex_modes_lt (start : Nat) (h : start ∈ ts_lex_modes) : start < 60 := by
  have hall : ts_lex_modes.all (fun state => decide (state < 60)) = true := by decide
  simpa using List.all_eq_true.mp hall start h

/-- C24: the scanner is total.  For every start state of `ts_lex_modes` and
every input: the start state and every target of an `ADVANCE` or a `SKIP` is
one of the 60 cases of `ts_lex`; at the end of input the only transition is
the one to state 25, which accepts `ts_builtin_sym_end` and has no
transition; on a lookahead character each `ADVANCE` and each `SKIP` goes on
with the input one character shorter; at the end of input two rounds give
the result of any larger number of rounds; and a token that is returned
splits the input into its padding, its text and the rest, so its end is at
most the length of the input. -/
theorem C24_scanner_totality (start : Nat) (hstart : start ∈ ts_lex_modes)
    (input : List Char) :
    start < 60 ∧
    (∀ s, s < 60 → ∀ eof c t,
      (ts_lex_transition s eof c = .advance t ∨ ts_lex_transition s eof c = .skip t) →
      t < 60) ∧
    (∀ s, s < 60 →
      ts_lex_transition s true '\x00' = .advance 25 ∨
        ts_lex_transition s true '\x00' = .stop) ∧
    ts_lex_accept 25 = some ts_builtin_sym_end ∧
    (∀ eof c, ts_lex_transition 25 eof c = .stop) ∧
    (∀ s c cs t skipped consumed result, ts_lex_transition s false c = .advance t →
      lexLoop (c :: cs) s skipped consumed result
        = lexLoop cs t skipped (consumed ++ [c])
            (markEnd s skipped consumed (c :: cs) result)) ∧
    (∀ s c cs t skipped consumed result, ts_lex_transition s false c = .skip t →
      lexLoop (c :: cs) s skipped consumed result
        = lexLoop cs t (skipped ++ consumed ++ [c]) []
            ((markEnd s skipped consumed (c :: cs) result).map Lexed.moveStart)) ∧
    (∀ s, s < 60 → ∀ fuel, 2 ≤ fuel → ∀ skipped consumed result,
      lexAtEof fuel s skipped consumed result = lexAtEof 2 s skipped consumed result) ∧
    (∀ tok, ts_lex input start = some tok →
      input = tok.padding ++ tok.text ++ tok.rest ∧
      tok.padding.length + tok.text.length ≤ input.length) := by
  have hlt := ts_lex_modes_lt start hstart
  refine ⟨hlt, ?_, ts_lex_transition_eof, rfl, fun _ _ => rfl,
    fun s c cs t skipped consumed result h => by simp [lexLoop, h],
    fun s c cs t skipped consumed result h => by simp [lexLoop, h],
    lexAtEof_two_steps, ?_⟩
  · intro s hs eof c t h
    have htargets := ts_lex_transition_targets s hs eof c
    rcases h with h | h
    · rw [h] at htargets
      simp only [LexAction.targetsOk, Bool.and_eq_true, decide_eq_true_eq] at htargets
      exact htargets.1
    · rw [h] at htargets
      simp only [LexAction.targetsOk, Bool.and_eq_true] at htargets
      have := htargets.2
      simp only [skipState, Bool.or_eq_true, beq_iff_eq] at this
      omega
  · intro tok h
    obtain ⟨s, _, _, _, hsum, _⟩ := ts_lex_run (fun _ _ _ => True) start hlt input trivial
      (fun _ _ _ _ _ _ => trivial) (fun _ _ _ _ _ _ _ _ => trivial)
      (fun _ _ _ _ _ => trivial) tok h
    refine ⟨hsum, ?_⟩
    have := congrArg List.length hsum
    simp only [List.length_append] at this
    omega

/-- C24 at lex state 23 and the input `key = v\n`. -/
theorem C24_scanner_totality_witness :
    (23 ∈ ts_lex_modes) ∧
    (23 < 60 ∧
    (∀ s, s < 60 → ∀ eof c t,
      (ts_lex_transition s eof c = .advance t ∨ ts_lex_transition s eof c = .skip t) →
      t < 60) ∧
    (∀ s, s < 60 →
      ts_lex_transition s true '\x00' = .advance 25 ∨
        ts_lex_transition s true '\x00' = .stop) ∧
    ts_lex_accept 25 = some ts_builtin_sym_end ∧
    (∀ eof c, ts_lex_transition 25 eof c = .stop) ∧
    (∀ s c cs t skipped consumed result, ts_lex_transition s false c = .advance t →
      lexLoop (c :: cs) s skipped consumed result
        = lexLoop cs t skipped (consumed ++ [c])
            (markEnd s skipped consumed (c :: cs) result)) ∧
    (∀ s c cs t skipped consumed result, ts_lex_transition s false c = .skip t →
      lexLoop (c :: cs) s skipped consumed result
        = lexLoop cs t (skipped ++ consumed ++ [c]) []
            ((markEnd s skipped consumed (c :: cs) result).map Lexed.moveStart)) ∧
    (∀ s, s < 60 → ∀ fuel, 2 ≤ fuel → ∀ skipped consumed result,
      lexAtEof fuel s skipped consumed result = lexAtEof 2 s skipped consumed result) ∧
    (∀ tok, ts_lex "key = v\n".toList 23 = some tok →
      "key = v\n".toList = tok.padding ++ tok.text ++ tok.rest ∧
      tok.padding.length + tok.text.length ≤ "key = v\n".toList.length)) :=
  ⟨by decide, C24_scanner_totality 23 (by decide) "key = v\n".toList⟩

/-- C27: characters are skipped only before the token.  No case of `ts_lex`
that an `ADVANCE` leads to has a `SKIP`, in the list of edges and in the
transition function alike; every skipped character is a tab, a space or a
newline; and for every start state and input a returned token splits the
input into its padding, its text and the rest, the padding being tabs, spaces
and newlines only. -/
theorem C27_skips_before_the_token (start : Nat) (hstart : start < 60) :
    (∀ s, s < 60 → (lexEdges s).all (fun e =>
      match e.2 with
      | .advance t =>
        (lexEdges t).all (fun e' => match e'.2 with | .skip _ => false | _ => true)
      | _ => true) = true) ∧
    (∀ s, s < 60 → ∀ eof c t, ts_lex_transition s eof c = .advance t →
      ∀ eof' c' t', ts_lex_transition t eof' c' ≠ .skip t') ∧
    (∀ s, s < 60 → ∀ c t, ts_lex_transition s false c = .skip t → skippedChar c) ∧
    (∀ input tok, ts_lex input start = some tok →
      input = tok.padding ++ tok.text ++ tok.rest ∧ ∀ c ∈ tok.padding, skippedChar c) := by
  refine ⟨by decide, ?_, ts_lex_skip_char, ?_⟩
  · intro s hs eof c t h eof' c' t' h'
    have htargets := ts_lex_transition_targets s hs eof c
    rw [h] at htargets
    simp only [LexAction.targetsOk, Bool.and_eq_true, decide_eq_true_eq,
      Bool.not_eq_true'] at htargets
    have htargets' := ts_lex_transition_targets t htargets.1 eof' c'
    rw [h'] at htargets'
    simp only [LexAction.targetsOk, Bool.and_eq_true] at htargets'
    rw [htargets.2] at htargets'
    exact absurd htargets'.1 (by simp)
  · intro input tok h
    obtain ⟨s, _, _, _, hsum, hpad⟩ := ts_lex_run (fun _ _ _ => True) start hstart input
      trivial (fun _ _ _ _ _ _ => trivial) (fun _ _ _ _ _ _ _ _ => trivial)
      (fun _ _ _ _ _ => trivial) tok h
    exact ⟨hsum, hpad⟩

/-- C27 at lex state 24. -/
theorem C27_skips_before_the_token_witness :
    (24 < 60) ∧
    ((∀ s, s < 60 → (lexEdges s).all (fun e =>
      match e.2 with
      | .advance t =>
        (lexEdges t).all (fun e' => match e'.2 with | .skip _ => false | _ => true)
      | _ => true) = true) ∧
    (∀ s, s < 60 → ∀ eof c t, ts_lex_transition s eof c = .advance t →
      ∀ eof' c' t', ts_lex_transition t eof' c' ≠ .skip t') ∧
    (∀ s, s < 60 → ∀ c t, ts_lex_transition s false c = .skip t → skippedChar c) ∧
    (∀ input tok, ts_lex input 24 = some tok →
      input = tok.padding ++ tok.text ++ tok.rest ∧ ∀ c ∈ tok.padding, skippedChar c)) :=
  ⟨by decide, C27_skips_before_the_token 24 (by decide)⟩

/-! ## The shape of a comment token -/

theorem CharGuard.within_holds (chars : List Char) (g : CharGuard) (c : Char)
    (hg : g.within chars = true) (hc : g.holds c) : c ∈ chars := by
  cases g with
  | oneOf allowed =>
    simp only [CharGuard.within, List.all_eq_true] at hg
    simpa using hg c hc
  | noneOf _ => simp [CharGuard.within] at hg

theorem comment_edges (s : Nat) (hs : s < 60) (c : Char) (t : Nat)
    (h : ts_lex_transition s false c = .advance t) :
    commentStart t = false ∧
    (t = 1 → (commentStart s = true ∨ s = 1) ∧ (c = '#' ∨ c = ';')) ∧
    (t = 2 → (s = 1 ∨ s = 2) ∧ c ≠ '\n') ∧
    (t = 59 → (s = 1 ∨ s = 2 ∨ s = 59) ∧ c = '\n') := by
  obtain ⟨g, hP, hg⟩ := edge_fact
    (fun s g a => match a with
      | .advance t =>
        !commentStart t &&
        (if t = 1 then (commentStart s || s == 1) && g.within ['#', ';'] else true) &&
        (if t = 2 then (s == 1 || s == 2) else true) &&
        (if t = 59 then (s == 1 || s == 2 || s == 59) && g.within ['\n'] else true)
      | _ => true)
    (by decide) s hs c _ h (by simp)
  have hnl : ∀ s, s < 60 → ts_lex_transition s false '\n' ≠ .advance 2 := by decide
  simp only [Bool.and_eq_true, Bool.not_eq_true'] at hP
  obtain ⟨⟨⟨h0, h1⟩, h2⟩, h59⟩ := hP
  refine ⟨h0, ?_, ?_, ?_⟩
  · rintro rfl
    simp only [if_true, Bool.and_eq_true, Bool.or_eq_true, beq_iff_eq] at h1
    have := CharGuard.within_holds _ g c h1.2 hg
    simp only [List.mem_cons, List.mem_singleton, List.not_mem_nil, or_false] at this
    exact ⟨h1.1, this⟩
  · rintro rfl
    simp only [if_true, Bool.or_eq_true, beq_iff_eq] at h2
    refine ⟨h2, ?_⟩
    rintro rfl
    exact hnl s hs h
  · rintro rfl
    simp only [if_true, Bool.and_eq_true, Bool.or_eq_true, beq_iff_eq] at h59
    have := CharGuard.within_holds _ g c h59.2 hg
    simp only [List.mem_singleton] at this
    refine ⟨?_, this⟩
    rcases h59.1 with (h' | h') | h'
    · exact Or.inl h'
    · exact Or.inr (Or.inl h')
    · exact Or.inr (Or.inr h')

theorem commentInv_advance (s t : Nat) (c : Char) (consumed : List Char) (hs : s < 60)
    (hinv : commentInv s consumed) (h : ts_lex_transition s false c = .advance t) :
    commentInv t (consumed ++ [c]) := by
  obtain ⟨h0, h1, h2, h59⟩ := comment_edges s hs c t h
  obtain ⟨i0, i1, i59⟩ := hinv
  refine ⟨(fun ht => by rw [h0] at ht; cases ht), ?_, ?_⟩
  · rintro (rfl | rfl)
    · obtain ⟨hsrc, hc⟩ := h1 rfl
      rcases hsrc with hsrc | rfl
      · rw [i0 hsrc]
        exact ⟨c, [], rfl, hc, by simp⟩
      · obtain ⟨c0, body, rfl, hc0, hbody⟩ := i1 (Or.inl rfl)
        refine ⟨c0, body ++ [c], by simp, hc0, ?_⟩
        intro ch hch
        rcases List.mem_append.mp hch with hch | hch
        · exact hbody ch hch
        · simp only [List.mem_singleton] at hch
          subst hch
          rcases hc with rfl | rfl <;> decide
    · obtain ⟨hsrc, hc⟩ := h2 rfl
      obtain ⟨c0, body, rfl, hc0, hbody⟩ := i1 hsrc
      refine ⟨c0, body ++ [c], by simp, hc0, ?_⟩
      intro ch hch
      rcases List.mem_append.mp hch with hch | hch
      · exact hbody ch hch
      · simp only [List.mem_singleton] at hch
        subst hch
        exact hc
  · rintro rfl
    obtain ⟨hsrc, rfl⟩ := h59 rfl
    rcases hsrc with hsrc | hsrc | rfl
    · obtain ⟨c0, body, rfl, hc0, hbody⟩ := i1 (Or.inl hsrc)
      exact ⟨c0, body, [], by simp, hc0, hbody, by simp⟩
    · obtain ⟨c0, body, rfl, hc0, hbody⟩ := i1 (Or.inr hsrc)
      exact ⟨c0, body, [], by simp, hc0, hbody, by simp⟩
    · obtain ⟨c0, body, nls, rfl, hc0, hbody, hnls⟩ := i59 rfl
      refine ⟨c0, body, nls ++ ['\n'], by simp, hc0, hbody, ?_⟩
      intro ch hch
      rcases List.mem_append.mp hch with hch | hch
      · exact hnls ch hch
      · simpa using hch

/-- C26, the last sentence of the claim fails: on the input `# a`, a comment
line without a newline, `ts_lex` returns no token from lex states 0, 23 and
24, and the document `# a` as well as `[a]\n# a` is a syntax error at the
comment. -/
theorem C26_unterminated_comment_is_no_token :
    ts_lex "# a".toList 0 = none ∧ ts_lex "# a".toList 23 = none ∧
    ts_lex "# a".toList 24 = none ∧
    ts_parser_parse "# a".toList = .syntaxError 7 "# a".toList ∧
    ts_parser_parse "[a]\n# a".toList = .syntaxError 11 "# a".toList := by
  refine ⟨by decide, by decide, by decide, rfl, rfl⟩

/-- C26 as amended: whenever `ts_lex`, started in a state of `ts_lex_modes`,
returns `sym_comment`, the token is `#` or `;`, then characters other than
newline, then the newline that ends the line, then newlines only; so the
input holds a newline, and a last line without one is no comment token. -/
theorem C26_comment_token_shape (start : Nat) (hstart : start ∈ ts_lex_modes)
    (input : List Char) (tok : Lexed) (h : ts_lex input start = some tok)
    (hsym : tok.symbol = sym_comment) :
    (∃ c0 body nls, tok.text = c0 :: (body ++ '\n' :: nls) ∧ (c0 = '#' ∨ c0 = ';') ∧
      (∀ ch ∈ body, ch ≠ '\n') ∧ ∀ ch ∈ nls, ch = '\n') ∧
    input = tok.padding ++ tok.text ++ tok.rest ∧
    '\n' ∈ input := by
  have hlt := ts_lex_modes_lt start hstart
  have hmode : ∀ m ∈ ts_lex_modes, m ≠ 1 ∧ m ≠ 2 ∧ m ≠ 59 := by decide
  have hacc : ∀ s, s < 60 → ts_lex_accept s = some sym_comment → s = 59 := by decide
  obtain ⟨s, hs, haccs, hinv, hsum, _⟩ := ts_lex_run (fun s consumed _ => commentInv s consumed)
    start hlt input
    ⟨fun _ => rfl, fun h1 => by
        rcases h1 with rfl | rfl
        · exact absurd rfl (hmode _ hstart).1
        · exact absurd rfl (hmode _ hstart).2.1,
      fun h59 => absurd h59 (hmode _ hstart).2.2⟩
    (by
      intro s t c rest hs htr
      have htargets := ts_lex_transition_targets s hs false c
      rw [htr] at htargets
      simp only [LexAction.targetsOk, Bool.and_eq_true] at htargets
      have ht := htargets.2
      refine ⟨fun _ => rfl, ?_, ?_⟩
      · rintro (rfl | rfl) <;> simp [skipState] at ht
      · rintro rfl
        simp [skipState] at ht)
    (fun s t c consumed rest hs hinv htr => commentInv_advance s t c consumed hs hinv htr)
    (by
      intro s consumed hs hinv htr
      exact ⟨fun h25 => by simp [commentStart] at h25, fun h12 => by omega,
        fun h59 => by omega⟩)
    tok h
  rw [hsym] at haccs
  have hs59 := hacc s hs haccs
  have hshape := hinv.2.2 hs59
  refine ⟨hshape, hsum, ?_⟩
  obtain ⟨c0, body, nls, htext, _⟩ := hshape
  rw [hsum, htext]
  simp

/-- C26 as amended at lex state 24 and the input `  # a\nb`. -/
theorem C26_comment_token_shape_witness :
    (24 ∈ ts_lex_modes ∧
      ts_lex "  # a\nb".toList 24 = some ⟨sym_comment, "  ".toList, "# a\n".toList, ['b']⟩ ∧
      sym_comment = sym_comment) ∧
    ((∃ c0 body nls, "# a\n".toList = c0 :: (body ++ '\n' :: nls) ∧ (c0 = '#' ∨ c0 = ';') ∧
      (∀ ch ∈ body, ch ≠ '\n') ∧ ∀ ch ∈ nls, ch = '\n') ∧
    "  # a\nb".toList = "  ".toList ++ "# a\n".toList ++ ['b'] ∧
    '\n' ∈ "  # a\nb".toList) :=
  ⟨⟨by decide, by decide, rfl⟩,
    C26_comment_token_shape 24 (by decide) "  # a\nb".toList
      ⟨sym_comment, "  ".toList, "# a\n".toList, ['b']⟩ (by decide) rfl⟩

/-! ## Newlines in text tokens -/

theorem ts_lex_transition_default (k : Nat) (eof : Bool) (c : Char) :
    ts_lex_transition (k + 60) eof c = .stop := rfl

theorem ts_lex_accept_default (k : Nat) : ts_lex_accept (k + 60) = none := rfl

theorem ts_lex_default (start : Nat) (hstart : 60 ≤ start) (input : List Char) :
    ts_lex input start = none := by
  obtain ⟨k, rfl⟩ : ∃ k, start = k + 60 := ⟨start - 60, by omega⟩
  cases input with
  | nil =>
    simp [ts_lex, lexLoop, lexAtEof, markEnd, ts_lex_transition_default, ts_lex_accept_default]
  | cons c cs =>
    simp [ts_lex, lexLoop, markEnd, ts_lex_transition_default, ts_lex_accept_default]

theorem text_edges (s : Nat) (hs : s < 60) (c : Char) (t : Nat)
    (h : ts_lex_transition s false c = .advance t) :
    (textState t = true → textState s = true) ∧
    (textBlankState t = true → textBlankState s = true ∧ skippedChar c) ∧
    (textState t = true → c = '\n' → textBlankState s = true) := by
  obtain ⟨g, hP, hg⟩ := edge_fact
    (fun s g a => match a with
      | .advance t =>
        (!textState t || textState s) &&
        (!textBlankState t || (textBlankState s && g.within ['\t', ' ', '\n']))
      | _ => true)
    (by decide) s hs c _ h (by simp)
  have hnl : ∀ s, s < 60 → (match ts_lex_transition s false '\n' with
      | .advance t => !textState t || textBlankState s
      | _ => true) = true := by decide
  simp only [Bool.and_eq_true, Bool.or_eq_true, Bool.not_eq_true'] at hP
  obtain ⟨h1, h2⟩ := hP
  refine ⟨?_, ?_, ?_⟩
  · intro ht
    rcases h1 with h1 | h1
    · rw [ht] at h1; cases h1
    · exact h1
  · intro ht
    rcases h2 with h2 | h2
    · rw [ht] at h2; cases h2
    · have := CharGuard.within_holds _ g c h2.2 hg
      simp only [List.mem_cons, List.mem_singleton, List.not_mem_nil, or_false] at this
      exact ⟨h2.1, this⟩
  · rintro ht rfl
    have := hnl s hs
    rw [h] at this
    simp only [Bool.or_eq_true, Bool.not_eq_true'] at this
    rcases this with h3 | h3
    · rw [ht] at h3; cases h3
    · exact h3

theorem textInv_advance (s t : Nat) (c : Char) (consumed : List Char) (hs : s < 60)
    (hinv : textInv s consumed) (h : ts_lex_transition s false c = .advance t) :
    textInv t (consumed ++ [c]) := by
  obtain ⟨h1, h2, h3⟩ := text_edges s hs c t h
  obtain ⟨i1, i2⟩ := hinv
  refine ⟨?_, ?_⟩
  · intro ht ch hch
    obtain ⟨hsrc, hc⟩ := h2 ht
    rcases List.mem_append.mp hch with hch | hch
    · exact i1 hsrc ch hch
    · simp only [List.mem_singleton] at hch
      subst hch
      exact hc
  · intro ht
    by_cases hc : c = '\n'
    · refine ⟨consumed ++ [c], [], by simp, ?_, by simp⟩
      intro ch hch
      rcases List.mem_append.mp hch with hch | hch
      · exact i1 (h3 ht hc) ch hch
      · simp only [List.mem_singleton] at hch
        subst hch
        exact Or.inr (Or.inr hc)
    · obtain ⟨blanks, body, rfl, hblanks, hbody⟩ := i2 (h1 ht)
      refine ⟨blanks, body ++ [c], by simp, hblanks, ?_⟩
      intro hmem
      rcases List.mem_append.mp hmem with hmem | hmem
      · exact hbody hmem
      · simp only [List.mem_singleton] at hmem
        exact hc hmem.symm

theorem option_text_shape (start : Nat) (hstart : start < 60) (input : List Char) (tok : Lexed)
    (h : ts_lex input start = some tok) (hsym : tok.symbol = sym_option_text) :
    textShape tok.text := by
  have hacc : ∀ s, s < 60 → ts_lex_accept s = some sym_option_text → textState s = true := by
    decide
  obtain ⟨s, hs, haccs, hinv, _, _⟩ := ts_lex_run (fun s consumed _ => textInv s consumed)
    start hstart input
    ⟨fun _ => by simp, fun _ => ⟨[], [], rfl, by simp, by simp⟩⟩
    (fun s t c rest hs htr => ⟨fun _ => by simp, fun _ => ⟨[], [], rfl, by simp, by simp⟩⟩)
    (fun s t c consumed rest hs hinv htr => textInv_advance s t c consumed hs hinv htr)
    (fun s consumed hs hinv htr => ⟨fun h25 => by simp [textBlankState] at h25,
      fun h25 => by simp [textState] at h25⟩)
    tok h
  rw [hsym] at haccs
  exact hinv.2 (hacc s hs haccs)

theorem referenced_edges (s : Nat) (hs : s < 60) (c : Char) (t : Nat)
    (h : ts_lex_transition s false c = .advance t) :
    (referencedSectionState t = true →
      referencedSectionState s = true ∧ c ≠ '\n' ∧ c ≠ '}' ∧ c ≠ ':') ∧
    (referencedOptionState t = true →
      referencedOptionState s = true ∧ c ≠ '\n' ∧ c ≠ '}') := by
  obtain ⟨g, hP, _⟩ := edge_fact
    (fun s _ a => match a with
      | .advance t =>
        (!referencedSectionState t || referencedSectionState s) &&
        (!referencedOptionState t || referencedOptionState s)
      | _ => true)
    (by decide) s hs c _ h (by simp)
  have hat : ∀ bad ∈ ['\n', '}', ':'], ∀ s, s < 60 →
      (match ts_lex_transition s false bad with
      | .advance t => !referencedSectionState t && (bad == ':' || !referencedOptionState t)
      | _ => true) = true := by decide
  have hbad : ∀ bad ∈ ['\n', '}', ':'], c = bad →
      referencedSectionState t = false ∧ (bad = ':' ∨ referencedOptionState t = false) := by
    rintro bad hmem rfl
    have := hat c hmem s hs
    rw [h] at this
    simpa using this
  simp only [Bool.and_eq_true, Bool.or_eq_true, Bool.not_eq_true'] at hP
  obtain ⟨h1, h2⟩ := hP
  refine ⟨?_, ?_⟩
  · intro ht
    rcases h1 with h1 | h1
    · rw [ht] at h1; cases h1
    · refine ⟨h1, ?_, ?_, ?_⟩
      · intro hc
        have := (hbad '\n' (by simp) hc).1
        rw [ht] at this; cases this
      · intro hc
        have := (hbad '}' (by simp) hc).1
        rw [ht] at this; cases this
      · intro hc
        have := (hbad ':' (by simp) hc).1
        rw [ht] at this; cases this
  · intro ht
    rcases h2 with h2 | h2
    · rw [ht] at h2; cases h2
    · refine ⟨h2, ?_, ?_⟩
      · intro hc
        rcases (hbad '\n' (by simp) hc).2 with h' | h'
        · exact absurd h' (by decide)
        · rw [ht] at h'; cases h'
      · intro hc
        rcases (hbad '}' (by simp) hc).2 with h' | h'
        · exact absurd h' (by decide)
        · rw [ht] at h'; cases h'

theorem referenced_token_chars (start : Nat) (hstart : start < 60) (input : List Char)
    (tok : Lexed) (h : ts_lex input start = some tok) :
    (tok.symbol = sym_referenced_section →
      ∀ ch ∈ tok.text, ch ≠ '\n' ∧ ch ≠ '}' ∧ ch ≠ ':') ∧
    (tok.symbol = sym_referenced_option → ∀ ch ∈ tok.text, ch ≠ '\n' ∧ ch ≠ '}') := by
  have hacc : ∀ s, s < 60 →
      (ts_lex_accept s = some sym_referenced_section → referencedSectionState s = true) ∧
      (ts_lex_accept s = some sym_referenced_option → referencedOptionState s = true) := by
    decide
  obtain ⟨s, hs, haccs, hinv, _, _⟩ := ts_lex_run
    (fun s consumed _ =>
      (referencedSectionState s = true → ∀ ch ∈ consumed, ch ≠ '\n' ∧ ch ≠ '}' ∧ ch ≠ ':') ∧
      (referencedOptionState s = true → ∀ ch ∈ consumed, ch ≠ '\n' ∧ ch ≠ '}'))
    start hstart input
    ⟨fun _ => by simp, fun _ => by simp⟩
    (fun s t c rest hs htr => ⟨fun _ => by simp, fun _ => by simp⟩)
    (by
      intro s t c consumed rest hs hinv htr
      obtain ⟨h1, h2⟩ := referenced_edges s hs c t htr
      refine ⟨?_, ?_⟩
      · intro ht ch hch
        obtain ⟨hsrc, hc⟩ := h1 ht
        rcases List.mem_append.mp hch with hch | hch
        · exact hinv.1 hsrc ch hch
        · simp only [List.mem_singleton] at hch
          subst hch
          exact hc
      · intro ht ch hch
        obtain ⟨hsrc, hc⟩ := h2 ht
        rcases List.mem_append.mp hch with hch | hch
        · exact hinv.2 hsrc ch hch
        · simp only [List.mem_singleton] at hch
          subst hch
          exact hc)
    (fun s consumed hs hinv htr => ⟨fun h25 => by simp [referencedSectionState] at h25,
      fun h25 => by simp [referencedOptionState] at h25⟩)
    tok h
  refine ⟨fun hsym => ?_, fun hsym => ?_⟩
  · rw [hsym] at haccs
    exact hinv.1 ((hacc s hs).1 haccs)
  · rw [hsym] at haccs
    exact hinv.2 ((hacc s hs).2 haccs)

/-- C28, the claim fails for `option_text`: from lex state 4, the mode of
parse state 13, the input ` \n x\n` gives the token ` \n x` of
`option_text`, which holds a newline; the same token is the text segment of
the value in the document `[a]\nk = ${b:c} \n x\n`. -/
theorem C28_option_text_spans_lines :
    ts_lex " \n x\n".toList 4
      = some ⟨sym_option_text, [], " \n x".toList, "\n".toList⟩ ∧
    4 ∈ ts_lex_modes ∧ '\n' ∈ " \n x".toList ∧
    ∃ tree, ts_parser_parse "[a]\nk = ${b:c} \n x\n".toList = .accepted tree ∧
      tree.tokens.map Tree.text = ["".toList, "[".toList, "a".toList, "]".toList, "\n".toList,
        "k".toList, "=".toList, " ".toList, ['$', '{'], "b".toList, ":".toList, "c".toList,
        ['}'], " \n x".toList, "\n".toList, "".toList] ∧
      tree.document = [⟨some "a".toList, none,
        [⟨["k".toList], [[.reference (some "b".toList) (some "c".toList),
          .text " \n x".toList]]⟩]⟩] :=
  ⟨by decide, by decide, by decide, _, rfl, rfl, rfl⟩

/-- C28 as amended: for every start state and input, a token of
`option_text` is a run of tabs, spaces and newlines followed by characters
that are no newline, so a newline occurs only before the first other
character; a token of `referenced_section` holds no newline, no `}` and no
`:`; a token of `referenced_option` holds no newline and no `}`. -/
theorem C28_text_tokens (start : Nat) (input : List Char) (tok : Lexed)
    (h : ts_lex input start = some tok) :
    (tok.symbol = sym_option_text →
      ∃ blanks body, tok.text = blanks ++ body ∧
        (∀ ch ∈ blanks, ch = '\t' ∨ ch = ' ' ∨ ch = '\n') ∧ '\n' ∉ body) ∧
    (tok.symbol = sym_referenced_section →
      ∀ ch ∈ tok.text, ch ≠ '\n' ∧ ch ≠ '}' ∧ ch ≠ ':') ∧
    (tok.symbol = sym_referenced_option → ∀ ch ∈ tok.text, ch ≠ '\n' ∧ ch ≠ '}') := by
  have hstart : start < 60 := by
    by_contra hge
    rw [ts_lex_default start (by omega) input] at h
    cases h
  exact ⟨fun hsym => option_text_shape start hstart input tok h hsym,
    referenced_token_chars start hstart input tok h⟩

/-- C28 as amended at lex state 3 and the input ` \n x\n`. -/
theorem C28_text_tokens_witness :
    ts_lex " \n x\n".toList 3
      = some ⟨sym_option_text, [], " \n x".toList, "\n".toList⟩ ∧
    ((sym_option_text = sym_option_text →
      ∃ blanks body, " \n x".toList = blanks ++ body ∧
        (∀ ch ∈ blanks, ch = '\t' ∨ ch = ' ' ∨ ch = '\n') ∧ '\n' ∉ body) ∧
    (sym_option_text = sym_referenced_section →
      ∀ ch ∈ " \n x".toList, ch ≠ '\n' ∧ ch ≠ '}' ∧ ch ≠ ':') ∧
    (sym_option_text = sym_referenced_option →
      ∀ ch ∈ " \n x".toList, ch ≠ '\n' ∧ ch ≠ '}')) :=
  ⟨by decide, C28_text_tokens 3 " \n x\n".toList
    ⟨sym_option_text, [], " \n x".toList, "\n".toList⟩ (by decide)⟩

/-! ## The transitions and productions the tables hold -/

/-- Every `SHIFT` the parser can take on a token is in `transitions`. -/
theorem shift_in_transitions : ∀ state, state < STATE_COUNT → ∀ symbol, symbol < TOKEN_COUNT →
    (match effectiveAction (ts_language_actions state symbol) with
      | some (.shift target _) => transitions.contains (state, symbol, target)
      | _ => true) = true := by
  decide

set_option maxRecDepth 1000000 in
/-- Every `REDUCE` the parser can take, over every way back through the
transitions, builds one of `productions`, and the goto of the state below on
the reduced symbol is in `transitions`. -/
theorem reduce_in_productions : ∀ state, state < STATE_COUNT →
    ∀ symbol, symbol < TOKEN_COUNT →
    (match effectiveAction (ts_language_actions state symbol) with
      | some (.reduce reduced count productionId) =>
        (backPaths count state).all fun r =>
          productions.contains (reduced, productionId, r.1) &&
            transitions.contains (r.2, reduced, ts_language_lookup r.2 reduced)
      | _ => true) = true := by
  decide

/-- The parser accepts only in state 32 on the end of input. -/
theorem accept_in_state_32 : ∀ state, state < STATE_COUNT → ∀ symbol, symbol < TOKEN_COUNT →
    effectiveAction (ts_language_actions state symbol) = some .accept →
      state = 32 ∧ symbol = ts_builtin_sym_end := by
  decide

/-- Every transition stays among the states and symbols, none enters the
start state 1 or the error state 0, and state 32 is entered only from the
start state, on `profile`. -/
theorem transitions_ok : transitions.all (fun e =>
    decide (e.1 < STATE_COUNT) && decide (e.2.1 < SYMBOL_COUNT) &&
    decide (e.2.2 < STATE_COUNT) && e.2.2 != 1 && e.2.2 != 0 &&
    (e.2.2 != 32 || (e.1 == 1 && e.2.1 == sym_profile))) = true := by
  decide

/-! ## Tokens the parser reads -/

theorem ts_lex_token (start : Nat) (hstart : start < 60) (hne : start ≠ 25)
    (input : List Char) (tok : Lexed) (h : ts_lex input start = some tok) :
    tok.symbol < TOKEN_COUNT ∧ input = tok.padding ++ tok.text ++ tok.rest ∧
    (tok.symbol = ts_builtin_sym_end → tok.rest = []) := by
  have hacc : ∀ s, s < 60 → (match ts_lex_accept s with
      | some sym => decide (sym < TOKEN_COUNT) && (sym != ts_builtin_sym_end || s == 25)
      | none => true) = true := by decide
  obtain ⟨s, hs, haccs, hinv, hsum, _⟩ := ts_lex_run (fun s _ rest => s = 25 → rest = [])
    start hstart input (fun h25 => absurd h25 hne)
    (by
      intro s t c rest hs htr h25
      have htargets := ts_lex_transition_targets s hs false c
      rw [htr] at htargets
      simp only [LexAction.targetsOk, Bool.and_eq_true] at htargets
      have ht := htargets.2
      subst h25
      simp [skipState] at ht)
    (by
      intro s t c consumed rest hs _ htr h25
      obtain ⟨g, hP, _⟩ := edge_fact
        (fun _ _ a => match a with
          | .advance t => t != 25
          | _ => true)
        (by decide) s hs c _ htr (by simp)
      subst h25
      simp at hP)
    (fun _ _ _ _ _ _ => rfl)
    tok h
  have := hacc s hs
  rw [haccs] at this
  simp only [Bool.and_eq_true, decide_eq_true_eq, Bool.or_eq_true, bne_iff_ne, ne_eq,
    beq_iff_eq] at this
  refine ⟨this.1, hsum, ?_⟩
  intro hsym
  rcases this.2 with h' | h'
  · exact absurd hsym h'
  · exact hinv h'

theorem ts_lex_modes_getD (state : Nat) :
    ts_lex_modes.getD state 0 < 60 ∧ ts_lex_modes.getD state 0 ≠ 25 := by
  by_cases hst : state < STATE_COUNT
  · have hall : ∀ st, st < STATE_COUNT →
        ts_lex_modes.getD st 0 < 60 ∧ ts_lex_modes.getD st 0 ≠ 25 := by decide
    exact hall state hst
  · have : ts_lex_modes.getD state 0 = 0 := by
      rw [List.getD_eq_getElem?_getD, List.getElem?_eq_none (by simpa [ts_lex_modes] using hst)]
      rfl
    rw [this]
    decide

theorem ts_parser_lex_token (state : Nat) (input : List Char) (tok : Lexed)
    (h : ts_parser_lex state input = some tok) :
    tok.symbol < TOKEN_COUNT ∧ input = tok.padding ++ tok.text ++ tok.rest ∧
    (tok.symbol = ts_builtin_sym_end → tok.rest = []) := by
  unfold ts_parser_lex at h
  cases hlex : ts_lex input (ts_lex_modes.getD state 0) with
  | some tok' =>
    rw [hlex] at h
    simp only [Option.some.injEq] at h
    subst h
    exact ts_lex_token _ (ts_lex_modes_getD state).1 (ts_lex_modes_getD state).2 input _ hlex
  | none =>
    rw [hlex] at h
    exact ts_lex_token _ (ts_lex_modes_getD 0).1 (ts_lex_modes_getD 0).2 input _ h

theorem first_token_padding (input : List Char) (tok : Lexed)
    (h : ts_parser_lex 1 input = some tok) : tok.padding = [] := by
  obtain ⟨run, rest, _, _, _, hlex⟩ := lexLoop_accepting (fun s => s = 26)
    aux_sym_profile_token1 (fun c => c = '\n') (fun c => c ≠ '\n')
    (by rintro s rfl; rfl)
    (by
      rintro s rfl c
      rw [ts_lex_transition_26]
      by_cases hc : c = '\n'
      · exact Or.inr ⟨hc, 26, rfl, by rw [if_pos hc]⟩
      · exact Or.inl ⟨hc, by rw [if_neg hc]⟩)
    (by rintro s rfl; rfl) input 26 rfl [] [] none
  have hlex' : ts_lex input (ts_lex_modes.getD 1 0) = some ⟨aux_sym_profile_token1, [], [] ++ run, rest⟩ :=
    hlex
  rw [parser_lex_of_lex 1 input _ hlex'] at h
  simp only [Option.some.injEq] at h
  subst h
  rfl

/-! ## The source, the padding and the text of a tree -/

theorem sourceOfList_append (xs ys : List Tree) :
    sourceOfList (xs ++ ys) = sourceOfList xs ++ sourceOfList ys := by
  induction xs with
  | nil => simp [sourceOfList]
  | cons t ts ih => simp [sourceOfList, ih]

theorem paddingOfList_append (xs ys : List Tree) (hxs : xs ≠ []) :
    paddingOfList (xs ++ ys) = paddingOfList xs := by
  cases xs with
  | nil => exact absurd rfl hxs
  | cons t ts => simp [paddingOfList]

mutual
/-- The source of a tree is its padding followed by its text. -/
theorem Tree.source_eq : ∀ t : Tree, t.source = t.padding ++ t.text
  | .leaf _ _ _ => rfl
  | .node _ _ children => by
    simp only [Tree.source, Tree.padding, Tree.text]
    exact sourceOfList_eq children
theorem sourceOfList_eq : ∀ ts : List Tree,
    sourceOfList ts = paddingOfList ts ++ (sourceOfList ts).drop (paddingOfList ts).length
  | [] => by simp [sourceOfList, paddingOfList]
  | t :: ts => by
    simp only [sourceOfList, paddingOfList]
    rw [Tree.source_eq t]
    simp
end

theorem sourceOfList_flatMap (ts : List Tree) :
    sourceOfList ts = ts.flatMap fun u => u.padding ++ u.text := by
  induction ts with
  | nil => simp [sourceOfList]
  | cons t ts ih => simp [sourceOfList, ih, Tree.source_eq t]

/-- The text of a node is the spans of its children with the trivia between
them. -/
theorem Tree.text_node (symbol productionId : Nat) (children : List Tree) :
    (Tree.node symbol productionId children).text = joinSpans children := by
  cases children with
  | nil => simp [Tree.text, joinSpans, sourceOfList, paddingOfList]
  | cons t ts =>
    have h1 : (Tree.node symbol productionId (t :: ts)).text
        = (t.source ++ sourceOfList ts).drop t.padding.length := rfl
    rw [h1, Tree.source_eq t, sourceOfList_flatMap ts]
    simp [joinSpans]

theorem mem_subtreesOfList (u : Tree) : ∀ (ts : List Tree),
    u ∈ subtreesOfList ts ↔ ∃ t ∈ ts, u ∈ t.subtrees := by
  intro ts
  induction ts with
  | nil => simp [subtreesOfList]
  | cons t ts ih => simp [subtreesOfList, ih]

theorem wellFormedList_iff : ∀ (ts : List Tree),
    wellFormedList ts ↔ ∀ t ∈ ts, t.wellFormed := by
  intro ts
  induction ts with
  | nil => simp [wellFormedList]
  | cons t ts ih => simp [wellFormedList, ih]

mutual
/-- Every subtree of a tree the tables can build is one. -/
theorem Tree.wellFormed_subtrees : ∀ t : Tree, t.wellFormed → ∀ u ∈ t.subtrees, u.wellFormed
  | .leaf _ _ _, h, u, hu => by
    simp only [Tree.subtrees, List.mem_singleton] at hu
    subst hu
    exact h
  | .node symbol productionId children, h, u, hu => by
    simp only [Tree.subtrees, List.mem_cons] at hu
    rcases hu with rfl | hu
    · exact h
    · exact wellFormedList_subtrees children h.2 u hu
theorem wellFormedList_subtrees : ∀ ts : List Tree, wellFormedList ts →
    ∀ u ∈ subtreesOfList ts, u.wellFormed
  | [], _, u, hu => by simp [subtreesOfList] at hu
  | t :: ts, h, u, hu => by
    simp only [subtreesOfList, List.mem_append] at hu
    rcases hu with hu | hu
    · exact Tree.wellFormed_subtrees t h.1 u hu
    · exact wellFormedList_subtrees ts h.2 u hu
end

mutual
/-- The source of a subtree is a piece of the source of the tree. -/
theorem Tree.subtree_infix : ∀ t : Tree, ∀ u ∈ t.subtrees,
    ∃ before after, t.source = before ++ u.source ++ after
  | .leaf _ _ _, u, hu => by
    simp only [Tree.subtrees, List.mem_singleton] at hu
    subst hu
    exact ⟨[], [], by simp⟩
  | .node symbol productionId children, u, hu => by
    simp only [Tree.subtrees, List.mem_cons] at hu
    rcases hu with rfl | hu
    · exact ⟨[], [], by simp⟩
    · exact subtreesOfList_infix children u hu
theorem subtreesOfList_infix : ∀ ts : List Tree, ∀ u ∈ subtreesOfList ts,
    ∃ before after, sourceOfList ts = before ++ u.source ++ after
  | [], u, hu => by simp [subtreesOfList] at hu
  | t :: ts, u, hu => by
    simp only [subtreesOfList, List.mem_append] at hu
    rcases hu with hu | hu
    · obtain ⟨before, after, h⟩ := Tree.subtree_infix t u hu
      exact ⟨before, after ++ sourceOfList ts, by simp [sourceOfList, h]⟩
    · obtain ⟨before, after, h⟩ := subtreesOfList_infix ts u hu
      exact ⟨t.source ++ before, after, by simp [sourceOfList, h]⟩
end

/-! ## The stack follows the transitions -/

theorem transitions_mem (p sym q : Nat) (h : (p, sym, q) ∈ transitions) :
    p < STATE_COUNT ∧ sym < SYMBOL_COUNT ∧ q < STATE_COUNT ∧ q ≠ 1 ∧ q ≠ 0 ∧
    (q = 32 → p = 1 ∧ sym = sym_profile) := by
  have := List.all_eq_true.mp transitions_ok (p, sym, q) h
  simp only [Bool.and_eq_true, decide_eq_true_eq, Bool.or_eq_true, bne_iff_ne, ne_eq,
    beq_iff_eq] at this
  obtain ⟨⟨⟨⟨⟨h1, h2⟩, h3⟩, h4⟩, h5⟩, h6⟩ := this
  refine ⟨h1, h2, h3, h4, h5, ?_⟩
  intro h32
  rcases h6 with h6 | h6
  · exact absurd h32 h6
  · exact h6

theorem stackState_lt (stack : Stack) (h : linked stack) : stackState stack < STATE_COUNT := by
  cases stack with
  | nil => decide
  | cons e below =>
    obtain ⟨state, tree⟩ := e
    exact (transitions_mem _ _ _ h.1).2.2.1

theorem stackState_ne_one (stack : Stack) (h : linked stack) (h1 : stackState stack = 1) :
    stack = [] := by
  cases stack with
  | nil => rfl
  | cons e below =>
    obtain ⟨state, tree⟩ := e
    exact absurd h1 (transitions_mem _ _ _ h.1).2.2.2.1

theorem linked_drop : ∀ (n : Nat) (stack : Stack), linked stack → linked (stack.drop n) := by
  intro n
  induction n with
  | zero => intro stack h; simpa using h
  | succ n ih =>
    intro stack h
    cases stack with
    | nil => simpa using h
    | cons e below =>
      obtain ⟨state, tree⟩ := e
      simpa using ih below h.2

theorem linked_backPaths : ∀ (n : Nat) (stack : Stack), linked stack → n ≤ stack.length →
    ((((stack.take n).map Prod.snd).reverse.map Tree.symbol), stackState (stack.drop n))
      ∈ backPaths n (stackState stack) := by
  intro n
  induction n with
  | zero => intro stack _ _; simp [backPaths]
  | succ n ih =>
    intro stack h hlen
    cases stack with
    | nil => simp at hlen
    | cons e below =>
      obtain ⟨state, tree⟩ := e
      have hbelow := ih below h.2 (by simpa using hlen)
      simp only [backPaths, List.mem_flatMap, List.mem_filter, List.mem_map]
      refine ⟨(stackState below, tree.symbol, state), ⟨h.1, by simp [stackState]⟩, _, hbelow, ?_⟩
      simp

/-! ## The invariant of the parse loop -/

theorem parseStep_next (stack : Stack) (tok : Lexed) (stack' : Stack) (tok' : Lexed)
    (h : parseStep stack tok = .next stack' tok') :
    (∃ state rep,
      effectiveAction (ts_language_actions (stackState stack) tok.symbol)
        = some (.shift state rep) ∧
      ts_parser_lex state tok.rest = some tok' ∧
      stack' = (state, .leaf tok.symbol tok.padding tok.text) :: stack) ∨
    (∃ symbol childCount productionId,
      effectiveAction (ts_language_actions (stackState stack) tok.symbol)
        = some (.reduce symbol childCount productionId) ∧
      childCount ≤ stack.length ∧ tok' = tok ∧
      stack' = (ts_language_lookup (stackState (stack.drop childCount)) symbol,
        .node symbol productionId ((stack.take childCount).map Prod.snd).reverse)
          :: stack.drop childCount) := by
  unfold parseStep at h
  cases hact : effectiveAction (ts_language_actions (stackState stack) tok.symbol) with
  | none => rw [hact] at h; simp at h
  | some a =>
    rw [hact] at h
    cases a with
    | entry count reusable => simp at h
    | recover => simp at h
    | shift state rep =>
      simp only at h
      cases hlex : ts_parser_lex state tok.rest with
      | none => rw [hlex] at h; simp at h
      | some next =>
        rw [hlex] at h
        simp only [StepResult.next.injEq] at h
        obtain ⟨rfl, rfl⟩ := h
        exact Or.inl ⟨state, rep, rfl, hlex, rfl⟩
    | reduce symbol childCount productionId =>
      simp only at h
      split at h
      · rename_i hle
        simp only [StepResult.next.injEq] at h
        obtain ⟨rfl, rfl⟩ := h
        exact Or.inr ⟨symbol, childCount, productionId, rfl, hle, rfl, rfl⟩
      · simp at h
    | accept =>
      simp only at h
      split at h <;> simp at h

theorem parseStep_accepted (stack : Stack) (tok : Lexed) (tree : Tree)
    (h : parseStep stack tok = .done (.accepted tree)) :
    effectiveAction (ts_language_actions (stackState stack) tok.symbol) = some .accept ∧
    ∃ state symbol productionId children below,
      stack = (state, .node symbol productionId children) :: below ∧
      tree = .node symbol productionId
        (children ++ [.leaf tok.symbol tok.padding tok.text]) := by
  unfold parseStep at h
  cases hact : effectiveAction (ts_language_actions (stackState stack) tok.symbol) with
  | none => rw [hact] at h; simp at h
  | some a =>
    rw [hact] at h
    cases a with
    | entry count reusable => simp at h
    | recover => simp at h
    | shift state rep =>
      simp only at h
      cases hlex : ts_parser_lex state tok.rest with
      | none => rw [hlex] at h; simp at h
      | some next => rw [hlex] at h; simp at h
    | reduce symbol childCount productionId =>
      simp only at h
      split at h <;> simp at h
    | accept =>
      simp only at h
      split at h
      · rename_i state symbol productionId children below
        simp only [StepResult.done.injEq, ParseOutcome.accepted.injEq] at h
        exact ⟨rfl, state, symbol, productionId, children, below, rfl, h.symm⟩
      · simp at h

theorem productions_mem (symbol productionId : Nat) (kids : List Nat)
    (h : (symbol, productionId, kids) ∈ productions) :
    TOKEN_COUNT ≤ symbol ∧ kids ≠ [] := by
  have hall : productions.all (fun e => decide (TOKEN_COUNT ≤ e.1) && !e.2.2.isEmpty) = true := by
    decide
  have := List.all_eq_true.mp hall _ h
  simp only [Bool.and_eq_true, decide_eq_true_eq, Bool.not_eq_true', List.isEmpty_eq_false] at this
  exact ⟨this.1, by simpa using this.2⟩

/-- One step of the parser keeps the invariant. -/
theorem parseStep_parseInv (input : List Char) (stack : Stack) (tok : Lexed)
    (hinv : parseInv input stack tok) (stack' : Stack) (tok' : Lexed)
    (h : parseStep stack tok = .next stack' tok') : parseInv input stack' tok' := by
  obtain ⟨hlinked, hwf, hsym, hend, hsrc, hpad⟩ := hinv
  have hlt := stackState_lt stack hlinked
  rcases parseStep_next stack tok stack' tok' h with
    ⟨state, rep, hact, hlex, rfl⟩ | ⟨symbol, childCount, productionId, hact, hle, rfl, rfl⟩
  · have hshift := shift_in_transitions (stackState stack) hlt tok.symbol hsym
    rw [hact] at hshift
    have hmem : (stackState stack, tok.symbol, state) ∈ transitions := by simpa using hshift
    obtain ⟨hsym', hsum', hend'⟩ := ts_parser_lex_token state tok.rest tok' hlex
    refine ⟨⟨hmem, hlinked⟩, ?_, hsym', hend', ?_, ?_⟩
    · intro e he
      rcases List.mem_cons.mp he with rfl | he
      · exact hsym
      · exact hwf e he
    · rw [← hsrc, hsum']
      simp [sourceOfList_append, sourceOfList, Tree.source]
    · have hne : stack.reverse.map Prod.snd ++ [Tree.leaf tok.symbol tok.padding tok.text] ≠ [] := by
        simp
      have := paddingOfList_append _ [Tree.leaf tok'.symbol tok'.padding tok'.text] hne
      simp only [List.reverse_cons, List.map_append, List.map_cons, List.map_nil]
      rw [this]
      exact hpad
  · have hred := reduce_in_productions (stackState stack) hlt tok'.symbol hsym
    rw [hact] at hred
    have hpath := linked_backPaths childCount stack hlinked hle
    have := List.all_eq_true.mp hred _ hpath
    simp only [Bool.and_eq_true] at this
    have hprod : (symbol, productionId,
        ((stack.take childCount).map Prod.snd).reverse.map Tree.symbol) ∈ productions := by
      simpa using this.1
    have hgoto : (stackState (stack.drop childCount), symbol,
        ts_language_lookup (stackState (stack.drop childCount)) symbol) ∈ transitions := by
      simpa using this.2
    have hkids := (productions_mem _ _ _ hprod).2
    have hsplit : stack.reverse.map Prod.snd
        = (stack.drop childCount).reverse.map Prod.snd
          ++ ((stack.take childCount).map Prod.snd).reverse := by
      conv_lhs => rw [← List.take_append_drop childCount stack]
      simp
    refine ⟨⟨hgoto, linked_drop childCount stack hlinked⟩, ?_, hsym, hend, ?_, ?_⟩
    · intro e he
      rcases List.mem_cons.mp he with rfl | he
      · refine ⟨hprod, (wellFormedList_iff _).mpr ?_⟩
        intro t ht
        simp only [List.mem_reverse, List.mem_map] at ht
        obtain ⟨e', he', rfl⟩ := ht
        exact hwf e' (List.mem_of_mem_take he')
      · exact hwf e (List.mem_of_mem_drop he)
    · rw [← hsrc, hsplit]
      simp [sourceOfList_append, sourceOfList, Tree.source]
    · rw [hsplit] at hpad
      simp only [List.reverse_cons, List.map_append, List.map_cons, List.map_nil]
      have hkids' : ((stack.take childCount).map Prod.snd).reverse ≠ [] := by
        intro hnil
        rw [hnil] at hkids
        exact hkids rfl
      cases hbelow : (stack.drop childCount).reverse.map Prod.snd with
      | nil =>
        rw [hbelow] at hpad
        simp only [List.nil_append] at hpad ⊢
        rw [paddingOfList_append _ _ hkids'] at hpad
        simpa [paddingOfList, Tree.padding] using hpad
      | cons b bs =>
        rw [hbelow] at hpad
        simpa [paddingOfList] using hpad

/-- When the parser accepts, the invariant gives the root. -/
theorem parseStep_acceptedRoot (input : List Char) (stack : Stack) (tok : Lexed)
    (hinv : parseInv input stack tok) (tree : Tree)
    (h : parseStep stack tok = .done (.accepted tree)) : acceptedRoot input tree := by
  obtain ⟨hlinked, hwf, hsym, hend, hsrc, hpad⟩ := hinv
  have hlt := stackState_lt stack hlinked
  obtain ⟨hact, state, symbol, productionId, children, below, rfl, rfl⟩ :=
    parseStep_accepted stack tok tree h
  obtain ⟨h32, hsym0⟩ := accept_in_state_32 _ hlt tok.symbol hsym hact
  have hstate : state = 32 := h32
  subst hstate
  obtain ⟨hfrom, hprofile⟩ := (transitions_mem _ _ _ hlinked.1).2.2.2.2.2 rfl
  have hsymbol : symbol = sym_profile := hprofile
  subst hsymbol
  have hbelow : below = [] := stackState_ne_one below hlinked.2 hfrom
  subst hbelow
  have hnode := hwf (32, .node sym_profile productionId children) (by simp)
  have hkids : children ≠ [] := by
    intro hnil
    have := (productions_mem _ _ _ hnode.1).2
    rw [hnil] at this
    exact this rfl
  have hrest := hend hsym0
  refine ⟨productionId, children, tok.padding, tok.text, by rw [hsym0], hnode.1,
    (wellFormedList_iff _).mp hnode.2, ?_, ?_⟩
  · rw [← hsrc, hrest]
    simp [sourceOfList_append, sourceOfList, Tree.source]
  · simp only [List.reverse_cons, List.reverse_nil, List.nil_append, List.map_cons,
      List.map_nil, List.singleton_append] at hpad
    simp only [Tree.padding]
    rw [paddingOfList_append _ _ hkids]
    simpa [paddingOfList, Tree.padding] using hpad

theorem parseLoop_acceptedRoot (input : List Char) : ∀ (fuel : Nat) (stack : Stack)
    (tok : Lexed), parseInv input stack tok →
    ∀ tree, parseLoop fuel stack tok = .accepted tree → acceptedRoot input tree := by
  intro fuel
  induction fuel with
  | zero => intro stack tok _ tree h; simp [parseLoop] at h
  | succ fuel ih =>
    intro stack tok hinv tree h
    simp only [parseLoop] at h
    cases hs : parseStep stack tok with
    | next stack' tok' =>
      rw [hs] at h
      exact ih stack' tok' (parseStep_parseInv input stack tok hinv stack' tok' hs) tree h
    | done outcome =>
      rw [hs] at h
      simp only at h
      subst h
      exact parseStep_acceptedRoot input stack tok hinv tree hs

/-- Every accepted tree is a `profile` the tables can build whose source is
the whole input. -/
theorem parse_acceptedRoot (input : List Char) (tree : Tree)
    (h : ts_parser_parse input = .accepted tree) : acceptedRoot input tree := by
  unfold ts_parser_parse at h
  cases hlex : ts_parser_lex 1 input with
  | none => rw [hlex] at h; simp at h
  | some tok =>
    rw [hlex] at h
    obtain ⟨hsym, hsum, hend⟩ := ts_parser_lex_token 1 input tok hlex
    refine parseLoop_acceptedRoot input _ [] tok ⟨trivial, by simp, hsym, hend, ?_, ?_⟩ tree h
    · simp [sourceOfList, hsum]
    · simpa [paddingOfList, Tree.padding] using first_token_padding input tok hlex

/-! ## Every node of an accepted tree -/

theorem accepted_subtrees (input : List Char) (tree : Tree) (h : acceptedRoot input tree) :
    ∀ u ∈ tree.subtrees, u = tree ∨ u.wellFormed := by
  obtain ⟨productionId, children, padding, text, rfl, _, hwf, _, _⟩ := h
  intro u hu
  simp only [Tree.subtrees, List.mem_cons] at hu
  rcases hu with rfl | hu
  · exact Or.inl rfl
  · right
    obtain ⟨t, ht, hu⟩ := (mem_subtreesOfList u _).mp hu
    rcases List.mem_append.mp ht with ht | ht
    · exact Tree.wellFormed_subtrees t (hwf t ht) u hu
    · simp only [List.mem_singleton] at ht
      subst ht
      simp only [Tree.subtrees, List.mem_singleton] at hu
      subst hu
      show ts_builtin_sym_end < TOKEN_COUNT
      decide

/-- C23: round trip.  For every input that is parsed without error: the
source of the root is the whole input, nothing is skipped before its first
token, so its span is the whole input; and for every node of the tree, its
padding and its span are a contiguous piece of the input, it has children,
and its span is the spans of its children in order with the padding skipped
before each later child between them. -/
theorem C23_round_trip (input : List Char) (tree : Tree)
    (h : ts_parser_parse input = .accepted tree) :
    tree.source = input ∧ tree.padding = [] ∧ tree.text = input ∧
    ∀ t ∈ tree.subtrees,
      (∃ before after, input = before ++ (t.padding ++ t.text) ++ after) ∧
      ∀ symbol productionId children, t = .node symbol productionId children →
        children ≠ [] ∧ t.text = joinSpans children := by
  have hroot := parse_acceptedRoot input tree h
  have hsub := accepted_subtrees input tree hroot
  obtain ⟨pid, kids, padding, text, htree, _, _, hsrc, hpad⟩ := hroot
  have htext : tree.text = input := by
    have := Tree.source_eq tree
    rw [hsrc, hpad] at this
    simpa using this.symm
  refine ⟨hsrc, hpad, htext, ?_⟩
  intro t ht
  refine ⟨?_, ?_⟩
  · obtain ⟨before, after, hinfix⟩ := Tree.subtree_infix tree t ht
    rw [hsrc, Tree.source_eq t] at hinfix
    exact ⟨before, after, hinfix⟩
  · intro symbol productionId children hnode
    refine ⟨?_, by rw [hnode]; exact Tree.text_node symbol productionId children⟩
    rcases hsub t ht with heq | hwf
    · rw [heq, htree] at hnode
      simp only [Tree.node.injEq] at hnode
      rw [← hnode.2.2]
      simp
    · rw [hnode] at hwf
      intro hnil
      have := (productions_mem _ _ _ hwf.1).2
      rw [hnil] at this
      exact this rfl

/-- C23 at the document `[a]\nk = v\n`, where a blank is skipped before
`=`. -/
theorem C23_round_trip_witness :
    ts_parser_parse "[a]\nk = v\n".toList = .accepted sampleTree ∧
    (sampleTree.source = "[a]\nk = v\n".toList ∧ sampleTree.padding = [] ∧
    sampleTree.text = "[a]\nk = v\n".toList ∧
    ∀ t ∈ sampleTree.subtrees,
      (∃ before after, "[a]\nk = v\n".toList = before ++ (t.padding ++ t.text) ++ after) ∧
      ∀ symbol productionId children, t = .node symbol productionId children →
        children ≠ [] ∧ t.text = joinSpans children) :=
  ⟨rfl, C23_round_trip "[a]\nk = v\n".toList sampleTree rfl⟩

/-! ## Mandatory fields -/

theorem symbols_get_one (kids : List Tree) (symbol : Nat)
    (h : (kids.map Tree.symbol).get? 1 = some symbol) :
    ∃ a b rest, kids = a :: b :: rest ∧ b.symbol = symbol := by
  match kids, h with
  | a :: b :: rest, h => exact ⟨a, b, rest, rfl, by simpa using h⟩

theorem symbols_get_two (kids : List Tree) (symbol : Nat)
    (h : (kids.map Tree.symbol).get? 2 = some symbol) :
    ∃ a b c rest, kids = a :: b :: c :: rest ∧ c.symbol = symbol := by
  match kids, h with
  | a :: b :: c :: rest, h => exact ⟨a, b, c, rest, rfl, by simpa using h⟩

theorem symbols_get_three (kids : List Tree) (symbol : Nat)
    (h : (kids.map Tree.symbol).get? 3 = some symbol) :
    ∃ a b c d rest, kids = a :: b :: c :: d :: rest ∧ d.symbol = symbol := by
  match kids, h with
  | a :: b :: c :: d :: rest, h => exact ⟨a, b, c, d, rest, rfl, by simpa using h⟩

/-- A `_section_header` node the tables can build names its section. -/
theorem header_has_name (t : Tree) (hwf : t.wellFormed) (hsym : t.symbol = sym__section_header) :
    ∃ name, t.childByField field_section_name = some name ∧
      name.symbol = sym_section_name := by
  have hall : productions.all (fun e => e.1 != sym__section_header ||
      ((e.2.1 == 2 || e.2.1 == 3) && e.2.2.get? 1 == some sym_section_name)) = true := by
    decide
  cases t with
  | leaf symbol padding text =>
    have h1 : symbol < TOKEN_COUNT := hwf
    have h2 : symbol = sym__section_header := hsym
    rw [h2] at h1
    exact absurd h1 (by decide)
  | node symbol productionId kids =>
    have h2 : symbol = sym__section_header := hsym
    subst h2
    have := List.all_eq_true.mp hall _ hwf.1
    simp only [bne_self_eq_false, Bool.false_or, Bool.and_eq_true, Bool.or_eq_true,
      beq_iff_eq] at this
    obtain ⟨hpid, hkid⟩ := this
    obtain ⟨a, b, rest, rfl, hb⟩ := symbols_get_one kids _ hkid
    refine ⟨b, ?_, hb⟩
    rcases hpid with rfl | rfl <;> rfl

/-- A `section` node the tables can build has the section name of its
header. -/
theorem section_has_name (t : Tree) (hwf : t.wellFormed) (hsym : t.symbol = sym_section) :
    ∃ name, t.childByField field_section_name = some name ∧
      name.symbol = sym_section_name := by
  have hall : productions.all (fun e => e.1 != sym_section ||
      (e.2.1 == 1 && e.2.2.head? == some sym__section_header)) = true := by
    decide
  cases t with
  | leaf symbol padding text =>
    have h1 : symbol < TOKEN_COUNT := hwf
    have h2 : symbol = sym_section := hsym
    rw [h2] at h1
    exact absurd h1 (by decide)
  | node symbol productionId kids =>
    have h2 : symbol = sym_section := hsym
    subst h2
    have := List.all_eq_true.mp hall _ hwf.1
    simp only [bne_self_eq_false, Bool.false_or, Bool.and_eq_true, beq_iff_eq] at this
    obtain ⟨hpid, hkid⟩ := this
    subst hpid
    cases kids with
    | nil => simp at hkid
    | cons header rest =>
      have hheader : header.symbol = sym__section_header := by simpa using hkid
      obtain ⟨name, hname, hnamesym⟩ := header_has_name header hwf.2.1 hheader
      refine ⟨name, ?_, hnamesym⟩
      have hstep : (Tree.node sym_section 1 (header :: rest)).childByField field_section_name
          = match header.childByField field_section_name with
            | some found => some found
            | none => fieldInChildren rest 1
                [⟨field_section_name, 0, true⟩] field_section_name := rfl
      rw [hstep, hname]

/-- An `option_with_reference` node the tables can build names its option. -/
theorem reference_has_option (t : Tree) (hwf : t.wellFormed)
    (hsym : t.symbol = sym_option_with_reference) :
    ∃ option, t.childByField field_referenced_option = some option ∧
      option.symbol = sym_referenced_option := by
  have hall : productions.all (fun e => e.1 != sym_option_with_reference ||
      ((e.2.1 == 4 && e.2.2.get? 2 == some sym_referenced_option) ||
        (e.2.1 == 5 && e.2.2.get? 3 == some sym_referenced_option))) = true := by
    decide
  cases t with
  | leaf symbol padding text =>
    have h1 : symbol < TOKEN_COUNT := hwf
    have h2 : symbol = sym_option_with_reference := hsym
    rw [h2] at h1
    exact absurd h1 (by decide)
  | node symbol productionId kids =>
    have h2 : symbol = sym_option_with_reference := hsym
    subst h2
    have := List.all_eq_true.mp hall _ hwf.1
    simp only [bne_self_eq_false, Bool.false_or, Bool.and_eq_true, Bool.or_eq_true,
      beq_iff_eq] at this
    rcases this with ⟨rfl, hkid⟩ | ⟨rfl, hkid⟩
    · obtain ⟨a, b, c, rest, rfl, hc⟩ := symbols_get_two kids _ hkid
      exact ⟨c, rfl, hc⟩
    · obtain ⟨a, b, c, d, rest, rfl, hd⟩ := symbols_get_three kids _ hkid
      exact ⟨d, rfl, hd⟩

/-- C25: mandatory fields.  Every `REDUCE` of `ts_parse_actions` to
`_section_header` has a production id whose field entries give the field
`section_name` to one of the children, not inherited, and every `REDUCE` to
`option_with_reference` gives the field `referenced_option` to one of the
children; and in every tree of an input parsed without error, every
`section` node has a child for the field `section_name`, a `section_name`
token, and every `option_with_reference` node has a child for the field
`referenced_option`, a `referenced_option` token. -/
theorem C25_mandatory_fields (input : List Char) (tree : Tree)
    (h : ts_parser_parse input = .accepted tree) :
    (∀ childCount productionId,
      ParseActionCell.reduce sym__section_header childCount productionId ∈ ts_parse_actions →
      ∃ e ∈ fieldEntries productionId, e.field_id = field_section_name ∧
        e.inherited = false ∧ e.child_index < childCount) ∧
    (∀ childCount productionId,
      ParseActionCell.reduce sym_option_with_reference childCount productionId
        ∈ ts_parse_actions →
      ∃ e ∈ fieldEntries productionId, e.field_id = field_referenced_option ∧
        e.inherited = false ∧ e.child_index < childCount) ∧
    ∀ t ∈ tree.subtrees,
      (t.symbol = sym_section →
        ∃ name, t.childByField field_section_name = some name ∧
          name.symbol = sym_section_name) ∧
      (t.symbol = sym_option_with_reference →
        ∃ option, t.childByField field_referenced_option = some option ∧
          option.symbol = sym_referenced_option) := by
  have hcells : ts_parse_actions.all (fun cell =>
      match cell with
      | .reduce symbol childCount productionId =>
        (symbol != sym__section_header || (fieldEntries productionId).any (fun e =>
          e.field_id == field_section_name && !e.inherited &&
            decide (e.child_index < childCount))) &&
        (symbol != sym_option_with_reference || (fieldEntries productionId).any (fun e =>
          e.field_id == field_referenced_option && !e.inherited &&
            decide (e.child_index < childCount)))
      | _ => true) = true := by decide
  have hroot := parse_acceptedRoot input tree h
  have hsub := accepted_subtrees input tree hroot
  obtain ⟨pid, kids, padding, text, htree, _, _, _, _⟩ := hroot
  refine ⟨?_, ?_, ?_⟩
  · intro childCount productionId hmem
    have := List.all_eq_true.mp hcells _ hmem
    simp only [bne_self_eq_false, Bool.false_or, Bool.and_eq_true, List.any_eq_true,
      beq_iff_eq, Bool.not_eq_true', decide_eq_true_eq] at this
    obtain ⟨e, he, ⟨h1, h2⟩, h3⟩ := this.1
    exact ⟨e, he, h1, h2, h3⟩
  · intro childCount productionId hmem
    have := List.all_eq_true.mp hcells _ hmem
    simp only [bne_self_eq_false, Bool.false_or, Bool.and_eq_true, List.any_eq_true,
      beq_iff_eq, Bool.not_eq_true', decide_eq_true_eq] at this
    obtain ⟨e, he, ⟨h1, h2⟩, h3⟩ := this.2
    exact ⟨e, he, h1, h2, h3⟩
  · intro t ht
    rcases hsub t ht with heq | hwf
    · subst heq
      rw [htree]
      exact ⟨fun hsym => by simp [Tree.symbol] at hsym,
        fun hsym => by simp [Tree.symbol] at hsym⟩
    · exact ⟨section_has_name t hwf, reference_has_option t hwf⟩

/-- C25 at the document `[a]\nk = ${b:c}\n`. -/
theorem C25_mandatory_fields_witness :
    ts_parser_parse "[a]\nk = ${b:c}\n".toList = .accepted referenceTree ∧
    ((∀ childCount productionId,
      ParseActionCell.reduce sym__section_header childCount productionId ∈ ts_parse_actions →
      ∃ e ∈ fieldEntries productionId, e.field_id = field_section_name ∧
        e.inherited = false ∧ e.child_index < childCount) ∧
    (∀ childCount productionId,
      ParseActionCell.reduce sym_option_with_reference childCount productionId
        ∈ ts_parse_actions →
      ∃ e ∈ fieldEntries productionId, e.field_id = field_referenced_option ∧
        e.inherited = false ∧ e.child_index < childCount) ∧
    ∀ t ∈ referenceTree.subtrees,
      (t.symbol = sym_section →
        ∃ name, t.childByField field_section_name = some name ∧
          name.symbol = sym_section_name) ∧
      (t.symbol = sym_option_with_reference →
        ∃ option, t.childByField field_referenced_option = some option ∧
          option.symbol = sym_referenced_option)) :=
  ⟨rfl, C25_mandatory_fields "[a]\nk = ${b:c}\n".toList referenceTree rfl⟩

end ZcBuildout
